import Mathlib

/-!
# ACF2PCX: the ACF video decoder, embedded in Lean

A shallow embedding of `ACF2PCX.cpp`: the stream readers, the image buffers, the tile
primitives, the frame decoder `DecompressFrame` and the chunk walker `ParseACF`.

Conventions of the embedding.

* A pointer is an offset.  Pointers into the input file (`m_CurrentChunk`, `m_AlignedStream`,
  `m_UnAlignedStream`, ...) are natural numbers counted from the first byte of the file.
  Pointers into an image buffer (`m_CurrentTile`, `m_PreviousTile`, `m_PreviousFrameBuffer`)
  are integers counted from the first byte of that buffer; they are integers because the
  motion primitives add signed displacements to them.
* The code never checks a bound.  The input memory is therefore a total function
  `mem : Nat → Nat` (the byte stored at an address is `mem a % 256`) whose values past the end
  of the file are not constrained, and the memory of an image buffer is a total function
  `Int → Nat` whose values outside `0 .. width*height-1` are not constrained either.  Every
  theorem holds whatever these unconstrained values are.
* A store through a pointer into the current buffer changes that function only, also at an
  offset outside `0 .. width*height-1`, where the source writes outside the allocation and what
  it overwrites depends on the heap.  The embedding is the source's behaviour as long as the
  stores stay inside the image; `frameLoop_inside` shows that they do in a frame of width 320,
  and the samples `splitSample` and `narrowSplitFrame` show stores that do not in a frame of
  width 16.
* The source can also leave `ParseACF` without returning: `ImageBuffer::ImageBuffer` throws when
  `resize` cannot provide `width*height` bytes, and `ImageBuffer::SaveToPcx` dereferences the
  palette pointer, keeps a line in `file_buf[320 * 2]` and counts lines in a `short int`.
  `CreateBuffers` and `SaveToPcx` are total here; `safeWalk` states the inputs on which the
  source stays within these limits, `pcxRows` is `none` where the loops of the writer do not
  run to their end, and the theorems about `ParseACF` are stated for `safeInput` inputs.
* Unsigned machine arithmetic is written on `Nat`: `v & (2^k - 1)` is `v % 2^k`, `v >> k` is
  `v / 2^k`, a store into a `uint8_t` reduces modulo 256.  Signed 32-bit values are integers;
  `x >> k` on them is the arithmetic shift `x / 2^k` (floor) and `x & 63` is `x % 64`.
* Index arithmetic of the form `x + y * m_Width` is done in unbounded integers, which is what
  the code computes as long as `8 * m_Width` fits in 32 bits.
-/

namespace ACF

/-! ## Loops and machine integers -/

/-- Counted loop: `forN n body s` runs `body 0`, `body 1`, ..., `body (n-1)` in this order,
as `for (i = 0; i < n; i++)` does. -/
def forN {σ : Type} : Nat → (Nat → σ → σ) → σ → σ
  | 0, _, s => s
  | n + 1, body, s => body n (forN n body s)

/-- Conversion to `uint32_t`. -/
def toU32 (v : Int) : Nat := (v % 4294967296).toNat

/-- Conversion to `int32_t` (two's complement). -/
def toS32 (v : Int) : Int :=
  if v % 4294967296 < 2147483648 then v % 4294967296 else v % 4294967296 - 4294967296

/-- Conversion to `int16_t` (two's complement). -/
def toS16 (v : Int) : Int :=
  if v % 65536 < 32768 then v % 65536 else v % 65536 - 65536

/-- Conversion to `int8_t` (two's complement). -/
def toS8 (v : Int) : Int :=
  if v % 256 < 128 then v % 256 else v % 256 - 256

/-- The expression `(v << 28) >> 28` on an `int32_t`: shift left inside 32 bits, then
arithmetic shift right. -/
def shl28sar28 (v : Int) : Int := toS32 (v * 268435456) / 268435456

/-- The expression `(v << 24) >> 28` on an `int32_t`. -/
def shl24sar28 (v : Int) : Int := toS32 (v * 16777216) / 268435456

/-! ## Input memory and the stream readers -/

/-- Byte at address `a` of the input memory. -/
def u8 (mem : Nat → Nat) (a : Nat) : Nat := mem a % 256

/-- Little-endian 16-bit load, `*(uint16_t*)ptr`. -/
def u16 (mem : Nat → Nat) (a : Nat) : Nat := u8 mem a + 256 * u8 mem (a + 1)

/-- Little-endian 32-bit load, `*(uint32_t*)ptr`. -/
def u32 (mem : Nat → Nat) (a : Nat) : Nat :=
  u8 mem a + 256 * u8 mem (a + 1) + 65536 * u8 mem (a + 2) + 16777216 * u8 mem (a + 3)

/-- Source `ReadU16`: the value and the advanced pointer. -/
def ReadU16 (mem : Nat → Nat) (ptr : Nat) : Nat × Nat := (u16 mem ptr, ptr + 2)

/-- Source `ReadS16`: the value and the advanced pointer. -/
def ReadS16 (mem : Nat → Nat) (ptr : Nat) : Int × Nat := (toS16 (u16 mem ptr), ptr + 2)

/-- Source `ReadU32`: loads four bytes and advances the pointer by `skip`. -/
def ReadU32 (mem : Nat → Nat) (ptr : Nat) (skip : Nat) : Nat × Nat := (u32 mem ptr, ptr + skip)

/-- Source `ReadXYOffset`: `dx + dy * stride / 2` on `int`, with C division, stored into an
`int16_t`. -/
def ReadXYOffset (mem : Nat → Nat) (ptr : Nat) (stride : Int) : Int × Nat :=
  (toS16 (toS8 (u8 mem ptr) + Int.tdiv (toS8 (u8 mem (ptr + 1)) * stride) 2), ptr + 2)

/-! ## Global tables -/

/-- Source table `g_DiagonalOffsets_1`. -/
def g_DiagonalOffsets_1 : List Nat :=
  [ 0, 1, 320, 640, 321, 2, 3, 322, 641, 960, 1280, 961, 642, 323, 4, 5, 324, 643, 962, 1281,
    1600, 1920, 1601, 1282, 963, 644, 325, 6, 7,
    326, 645, 964, 1283, 1602, 1921, 2240, 2241, 1922, 1603, 1284, 965, 646, 327, 647, 966,
    1285, 1604, 1923, 2242, 2243, 1924, 1605, 1286,
    967, 1287, 1606, 1925, 2244, 2245, 1926, 1607, 1927, 2246, 2247 ]

/-- Source table `g_DiagonalOffsets_2`. -/
def g_DiagonalOffsets_2 : List Nat :=
  [ 7, 6, 327, 647, 326, 5, 4, 325, 646, 967, 1287, 966, 645, 324, 3, 2, 323, 644, 965, 1286,
    1607, 1927, 1606, 1285, 964, 643, 322, 1, 0,
    321, 642, 963, 1284, 1605, 1926, 2247, 2246, 1925, 1604, 1283, 962, 641, 320, 640, 961,
    1282, 1603, 1924, 2245, 2244, 1923, 1602, 1281,
    960, 1280, 1601, 1922, 2243, 2242, 1921, 1600, 1920, 2241, 2240 ]

/-- Source table `g_SplitTileOffsets`. -/
def g_SplitTileOffsets : List Nat := [0, 4, 320 * 4, 320 * 4 + 4]

/-! ## Image buffers and the decoder state -/

/-- Source class `ImageBuffer`.  `m_Buffer i` is the byte at offset `i` from `m_Buffer.data()`;
the image is offsets `0 .. m_Width*m_Height-1`. -/
structure ImageBuffer where
  m_Width : Nat
  m_Height : Nat
  m_Buffer : Int → Nat

/-- The constructor `ImageBuffer(width, height)`: `resize` zero-fills the `width*height` bytes of
the image; `heap` is whatever memory surrounds the fresh allocation. -/
def ImageBuffer.create (heap : Int → Nat) (width height : Nat) : ImageBuffer :=
  { m_Width := width
    m_Height := height
    m_Buffer := fun i => if 0 ≤ i ∧ i < ((width * height : Nat) : Int) then 0 else heap i }

/-- One call of `ImageBuffer::SaveToPcx`: the number in the file name `PCX_<n>.pcx`, the image
that is saved and the palette pointer passed along. -/
structure PcxFile where
  frameNumber : Nat
  image : ImageBuffer
  palette : Option Nat

/-- Source class `ACFDecoder`: its data members, the input memory `mem` that its pointers
index, the unconstrained memory `heap` around fresh buffers, and the list `saved` of the
pictures handed to the image sink so far. -/
structure Decoder where
  mem : Nat → Nat
  heap : Int → Nat
  m_Width : Int
  m_Height : Int
  m_FrameNumber : Nat
  m_CurrentChunk : Nat
  m_Format : Option Nat
  m_Palette : Option Nat
  m_FrameLen : Option Nat
  m_Camera : Option Nat
  m_PreviousBuffer : ImageBuffer
  m_PreviousFrameBuffer : Int
  m_PreviousTile : Int
  m_CurrentBuffer : ImageBuffer
  m_CurrentTile : Int
  m_AlignedStream : Nat
  m_UnAlignedStream : Nat
  saved : List PcxFile

namespace Decoder

/-- A store `buffer[a] = v` through a pointer into the current buffer.  Neither the source nor
the embedding checks `a` against the size of the buffer; for `a` outside
`0 .. m_Width*m_Height-1` the source writes outside the allocation. -/
def poke (d : Decoder) (a : Int) (v : Nat) : Decoder :=
  { d with m_CurrentBuffer :=
      { d.m_CurrentBuffer with
        m_Buffer := fun i => if i = a then v else d.m_CurrentBuffer.m_Buffer i } }

/-- A store of `n` consecutive bytes `src 0 .. src (n-1)` at `dest` in the current buffer: the
effect of `memcpy` and `memset` on it.  As for `poke`, the range is not checked against the
size of the buffer. -/
def blit (d : Decoder) (dest : Int) (n : Nat) (src : Nat → Nat) : Decoder :=
  { d with m_CurrentBuffer :=
      { d.m_CurrentBuffer with
        m_Buffer := fun i =>
          if dest ≤ i ∧ i < dest + (n : Int) then src (i - dest).toNat
          else d.m_CurrentBuffer.m_Buffer i } }

/-- The call `memcpy(dest, source, n)` from the previous buffer into the current one. -/
def memcpyPrev (d : Decoder) (dest source : Int) (n : Nat) : Decoder :=
  d.blit dest n (fun j => d.m_PreviousBuffer.m_Buffer (source + (j : Int)))

/-- The call `memcpy(dest, source, n)` from the input memory into the current buffer. -/
def memcpyStream (d : Decoder) (dest : Int) (source : Nat) (n : Nat) : Decoder :=
  d.blit dest n (fun j => u8 d.mem (source + j))

/-- The call `memset(dest, color, n)` on the current buffer. -/
def memset (d : Decoder) (dest : Int) (color : Nat) (n : Nat) : Decoder :=
  d.blit dest n (fun _ => color)

/-- Advance `m_AlignedStream` by `n` bytes. -/
def skipAligned (d : Decoder) (n : Nat) : Decoder :=
  { d with m_AlignedStream := d.m_AlignedStream + n }

/-- Advance `m_UnAlignedStream` by `n` bytes. -/
def skipUnaligned (d : Decoder) (n : Nat) : Decoder :=
  { d with m_UnAlignedStream := d.m_UnAlignedStream + n }

/-- Store a new value of `m_AlignedStream`, as a reader that takes the pointer by reference
does. -/
def withAligned (d : Decoder) (ptr : Nat) : Decoder :=
  { d with m_AlignedStream := ptr }

/-- Store a new value of `m_UnAlignedStream`. -/
def withUnAligned (d : Decoder) (ptr : Nat) : Decoder :=
  { d with m_UnAlignedStream := ptr }

/-- Source `SetPixel`: `m_CurrentTile[x + y * m_Width] = color`. -/
def SetPixel (d : Decoder) (x y : Nat) (color : Nat) : Decoder :=
  d.poke (d.m_CurrentTile + ((x : Int) + (y : Int) * d.m_Width)) color

/-- The byte `m_AlignedStream[k]`. -/
def aligned (d : Decoder) (k : Nat) : Nat := u8 d.mem (d.m_AlignedStream + k)

/-- The byte `m_UnAlignedStream[k]`. -/
def unaligned (d : Decoder) (k : Nat) : Nat := u8 d.mem (d.m_UnAlignedStream + k)

end Decoder

/-! ## Update overlays -/

/-- Source `Update4`.  The loop carries the decoder and the local `value`. -/
def Update4 (d : Decoder) : Decoder :=
  let value := u32 d.mem d.m_UnAlignedStream
  let d := d.skipUnaligned 3
  (forN 4 (fun _ (p : Decoder × Nat) =>
      ((p.1.SetPixel (p.2 % 8) ((p.2 / 8) % 8) (p.1.aligned 0)).skipAligned 1, p.2 / 64))
    (d, value)).1

/-- Source `Update8`. -/
def Update8 (d : Decoder) : Decoder := Update4 (Update4 d)

/-- Source `Update16`.  The inner loop carries the decoder and the local `mask`. -/
def Update16 (d : Decoder) : Decoder :=
  forN 8 (fun y d =>
    let mask := d.aligned 0
    let d := d.skipAligned 1
    (forN 8 (fun x (p : Decoder × Nat) =>
        (if p.2 % 2 = 1 then (p.1.SetPixel x y (p.1.unaligned 0)).skipUnaligned 1 else p.1,
         p.2 / 2))
      (d, mask)).1) d

/-! ## Copies from the previous frame -/

/-- Source `BlockCopy8x8`: `dest` points into the current buffer, `source` into the previous
one. -/
def BlockCopy8x8 (d : Decoder) (dest source : Int) : Decoder :=
  forN 8 (fun y d =>
    d.memcpyPrev (dest + (y : Int) * d.m_Width) (source + (y : Int) * d.m_Width) 8) d

/-- Source `BlockCopy4x4`. -/
def BlockCopy4x4 (d : Decoder) (dest source : Int) : Decoder :=
  forN 4 (fun y d =>
    d.memcpyPrev (dest + (y : Int) * d.m_Width) (source + (y : Int) * d.m_Width) 4) d

/-- Source `ZeroMotionDecode`. -/
def ZeroMotionDecode (d : Decoder) : Decoder :=
  BlockCopy8x8 d d.m_CurrentTile d.m_PreviousTile

/-- Source `ShortMotion8Decode`. -/
def ShortMotion8Decode (d : Decoder) : Decoder :=
  let value : Int := (d.unaligned 0 : Nat)
  let d := d.skipUnaligned 1
  let dx := shl28sar28 (value % 16)
  let dy := shl24sar28 value
  BlockCopy8x8 d d.m_CurrentTile (d.m_PreviousTile + (4 + d.m_Width * 4) + dx + dy * d.m_Width)

/-- Source `ShortMotion4Decode`. -/
def ShortMotion4Decode (d : Decoder) : Decoder :=
  let value : Int := (d.aligned 0 : Nat)
  let d := d.skipAligned 1
  let dx := shl28sar28 (value % 16)
  let dy := shl24sar28 value
  let d := BlockCopy4x4 d d.m_CurrentTile
    (d.m_PreviousTile + 2 + d.m_Width * 2 + dx + dy * d.m_Width)
  let value : Int := (d.aligned 0 : Nat)
  let d := d.skipAligned 1
  let dx := shl28sar28 (value % 16)
  let dy := shl24sar28 value
  let d := BlockCopy4x4 d (d.m_CurrentTile + 4)
    (d.m_PreviousTile + 2 + d.m_Width * 2 + dx + dy * d.m_Width + 4)
  let value : Int := (d.aligned 0 : Nat)
  let d := d.skipAligned 1
  let dx := shl28sar28 (value % 16)
  let dy := shl24sar28 value
  let d := BlockCopy4x4 d (d.m_CurrentTile + d.m_Width * 4)
    (d.m_PreviousTile + 2 + d.m_Width * 2 + dx + dy * d.m_Width + d.m_Width * 4)
  let value : Int := (d.aligned 0 : Nat)
  let d := d.skipAligned 1
  let dx := shl28sar28 (value % 16)
  let dy := shl24sar28 value
  BlockCopy4x4 d (d.m_CurrentTile + d.m_Width * 4 + 4)
    (d.m_PreviousTile + 2 + d.m_Width * 2 + dx + dy * d.m_Width + d.m_Width * 4 + 4)

/-- Source `Motion8Decode`. -/
def Motion8Decode (d : Decoder) : Decoder :=
  let d := BlockCopy8x8 d d.m_CurrentTile
    (d.m_PreviousFrameBuffer + (u16 d.mem d.m_UnAlignedStream : Nat))
  d.skipUnaligned 2

/-- Source `Motion4Decode`. -/
def Motion4Decode (d : Decoder) : Decoder :=
  let r := ReadU16 d.mem d.m_AlignedStream
  let d := BlockCopy4x4 (d.withAligned r.2) d.m_CurrentTile
    (d.m_PreviousFrameBuffer + (r.1 : Nat))
  let r := ReadU16 d.mem d.m_AlignedStream
  let d := BlockCopy4x4 (d.withAligned r.2) (d.m_CurrentTile + 4)
    (d.m_PreviousFrameBuffer + (r.1 : Nat))
  let r := ReadU16 d.mem d.m_AlignedStream
  let d := BlockCopy4x4 (d.withAligned r.2) (d.m_CurrentTile + d.m_Width * 4)
    (d.m_PreviousFrameBuffer + (r.1 : Nat))
  let r := ReadU16 d.mem d.m_AlignedStream
  BlockCopy4x4 (d.withAligned r.2) (d.m_CurrentTile + d.m_Width * 4 + 4)
    (d.m_PreviousFrameBuffer + (r.1 : Nat))

/-- Source `ROMotion8Decode`. -/
def ROMotion8Decode (d : Decoder) : Decoder :=
  let r := ReadS16 d.mem d.m_UnAlignedStream
  BlockCopy8x8 (d.withUnAligned r.2) d.m_CurrentTile
    (d.m_PreviousTile + r.1 + 4 + d.m_Width * 4)

/-- Source `ROMotion4Decode`. -/
def ROMotion4Decode (d : Decoder) : Decoder :=
  let r := ReadS16 d.mem d.m_AlignedStream
  let d := BlockCopy4x4 (d.withAligned r.2) d.m_CurrentTile
    (d.m_PreviousTile + r.1 + 2 + d.m_Width * 2)
  let r := ReadS16 d.mem d.m_AlignedStream
  let d := BlockCopy4x4 (d.withAligned r.2) (d.m_CurrentTile + 4)
    (d.m_PreviousTile + 4 + r.1 + 2 + d.m_Width * 2)
  let r := ReadS16 d.mem d.m_AlignedStream
  let d := BlockCopy4x4 (d.withAligned r.2) (d.m_CurrentTile + d.m_Width * 4)
    (d.m_PreviousTile + d.m_Width * 4 + r.1 + 2 + d.m_Width * 2)
  let r := ReadS16 d.mem d.m_AlignedStream
  BlockCopy4x4 (d.withAligned r.2) (d.m_CurrentTile + d.m_Width * 4 + 4)
    (d.m_PreviousTile + d.m_Width * 4 + 4 + r.1 + 2 + d.m_Width * 2)

/-- Source `RCMotion8Decode`. -/
def RCMotion8Decode (d : Decoder) : Decoder :=
  let r := ReadXYOffset d.mem d.m_UnAlignedStream d.m_Width
  BlockCopy8x8 (d.withUnAligned r.2) d.m_CurrentTile
    (d.m_PreviousTile + r.1 + 4 + d.m_Width * 4)

/-- Source `RCMotion4Decode`. -/
def RCMotion4Decode (d : Decoder) : Decoder :=
  let r := ReadXYOffset d.mem d.m_AlignedStream d.m_Width
  let d := BlockCopy4x4 (d.withAligned r.2) d.m_CurrentTile
    (d.m_PreviousTile + r.1 + 2 + d.m_Width * 2)
  let r := ReadXYOffset d.mem d.m_AlignedStream d.m_Width
  let d := BlockCopy4x4 (d.withAligned r.2) (d.m_CurrentTile + 4)
    (d.m_PreviousTile + r.1 + 2 + d.m_Width * 2 + 4)
  let r := ReadXYOffset d.mem d.m_AlignedStream d.m_Width
  let d := BlockCopy4x4 (d.withAligned r.2) (d.m_CurrentTile + d.m_Width * 4)
    (d.m_PreviousTile + r.1 + 2 + d.m_Width * 2 + d.m_Width * 4)
  let r := ReadXYOffset d.mem d.m_AlignedStream d.m_Width
  BlockCopy4x4 (d.withAligned r.2) (d.m_CurrentTile + d.m_Width * 4 + 4)
    (d.m_PreviousTile + r.1 + 2 + d.m_Width * 2 + d.m_Width * 4 + 4)

/-! ## Flat fills -/

/-- Source `SingleColorFillDecode`. -/
def SingleColorFillDecode (d : Decoder) : Decoder :=
  let colorTile := d.unaligned 0
  let d := d.skipUnaligned 1
  forN 8 (fun y d => d.memset (d.m_CurrentTile + (y : Int) * d.m_Width) colorTile 8) d

/-- Source `FourColorFillDecode`. -/
def FourColorFillDecode (d : Decoder) : Decoder :=
  let colorTopLeft := d.aligned 0
  let colorTopRight := d.aligned 1
  let colorBottomLeft := d.aligned 2
  let colorBottomRight := d.aligned 3
  let d := d.skipAligned 4
  forN 4 (fun y d =>
    let d := d.memset (d.m_CurrentTile + (y : Int) * d.m_Width) colorTopLeft 4
    let d := d.memset (d.m_CurrentTile + (y : Int) * d.m_Width + 4) colorTopRight 4
    let d := d.memset (d.m_CurrentTile + ((y : Int) + 4) * d.m_Width) colorBottomLeft 4
    d.memset (d.m_CurrentTile + ((y : Int) + 4) * d.m_Width + 4) colorBottomRight 4) d

/-! ## Bit-packed palettized tiles -/

/-- Source `OneBitTileDecode`.  The inner loop carries the decoder and the local `a`. -/
def OneBitTileDecode (d : Decoder) : Decoder :=
  let d := forN 8 (fun y d =>
    let a := d.aligned 0
    let d := d.skipAligned 1
    (forN 8 (fun x (p : Decoder × Nat) =>
        (p.1.SetPixel x y (p.1.unaligned (p.2 % 2)), p.2 / 2))
      (d, a)).1) d
  d.skipUnaligned 2

/-- Source `TwoBitTileDecode`.  `colors` is the value of `m_AlignedStream` on entry. -/
def TwoBitTileDecode (d : Decoder) : Decoder :=
  let colors := d.m_AlignedStream
  let d := d.skipAligned 4
  forN 8 (fun y d =>
    let a := u16 d.mem d.m_AlignedStream
    let d := d.skipAligned 2
    (forN 8 (fun x (p : Decoder × Nat) =>
        (p.1.SetPixel x y (u8 p.1.mem (colors + p.2 % 4)), p.2 / 4))
      (d, a)).1) d

/-- Source `ThreeBitTileDecode`. -/
def ThreeBitTileDecode (d : Decoder) : Decoder :=
  let d := forN 8 (fun y d =>
    let r := ReadU32 d.mem d.m_AlignedStream 3
    let d := d.withAligned r.2
    (forN 8 (fun x (p : Decoder × Nat) =>
        (p.1.SetPixel x y (p.1.unaligned (p.2 % 8)), p.2 / 8))
      (d, r.1)).1) d
  d.skipUnaligned 8

/-- Source `FourBitTileDecode`. -/
def FourBitTileDecode (d : Decoder) : Decoder :=
  let d := forN 8 (fun y d =>
    let r := ReadU32 d.mem d.m_AlignedStream 4
    let d := d.withAligned r.2
    (forN 8 (fun x (p : Decoder × Nat) =>
        (p.1.SetPixel x y (p.1.unaligned (p.2 % 16)), p.2 / 16))
      (d, r.1)).1) d
  d.skipUnaligned 16

/-! ## Split 4x4 tiles -/

/-- Source `OneBitSplitTileDecode`. -/
def OneBitSplitTileDecode (d : Decoder) : Decoder :=
  g_SplitTileOffsets.foldl (fun d offset =>
    let r := ReadU16 d.mem d.m_AlignedStream
    let d := d.withAligned r.2
    let d := (forN 4 (fun y (p : Decoder × Nat) =>
        forN 4 (fun x (p : Decoder × Nat) =>
            (p.1.poke (p.1.m_CurrentTile + ((x : Int) + (y : Int) * p.1.m_Width + (offset : Int)))
               (p.1.aligned (p.2 % 2)), p.2 / 2)) p)
      (d, r.1)).1
    d.skipAligned 2) d

/-- Source `TwoBitSplitTileDecode`. -/
def TwoBitSplitTileDecode (d : Decoder) : Decoder :=
  g_SplitTileOffsets.foldl (fun d offset =>
    let r := ReadU32 d.mem d.m_AlignedStream 4
    let d := d.withAligned r.2
    let d := (forN 4 (fun y (p : Decoder × Nat) =>
        forN 4 (fun x (p : Decoder × Nat) =>
            (p.1.poke (p.1.m_CurrentTile + ((x : Int) + (y : Int) * p.1.m_Width + (offset : Int)))
               (p.1.aligned (p.2 % 4)), p.2 / 4)) p)
      (d, r.1)).1
    d.skipAligned 4) d

/-- Source `ThreeBitSplitTileDecode`.  The local `a` is declared without a value and loaded on
the even rows; the loops carry the decoder and `a`. -/
def ThreeBitSplitTileDecode (d : Decoder) : Decoder :=
  g_SplitTileOffsets.foldl (fun d offset =>
    let d := (forN 4 (fun y (p : Decoder × Nat) =>
        let p : Decoder × Nat :=
          if y % 2 = 0 then
            (p.1.withAligned (ReadU32 p.1.mem p.1.m_AlignedStream 3).2,
             (ReadU32 p.1.mem p.1.m_AlignedStream 3).1)
          else p
        forN 4 (fun x (p : Decoder × Nat) =>
            (p.1.poke (p.1.m_CurrentTile + ((x : Int) + (y : Int) * p.1.m_Width + (offset : Int)))
               (p.1.unaligned (p.2 % 8)), p.2 / 8)) p)
      (d, 0)).1
    d.skipUnaligned 8) d

/-! ## Cross, prime and raw tiles -/

/-- Source `CrossDecode`.  The loop over the quadrants carries the decoder and the local
`value`; `dest[k]` is `m_CurrentTile[offset + k]`. -/
def CrossDecode (d : Decoder) : Decoder :=
  let r := ReadU32 d.mem d.m_AlignedStream 4
  let d := d.withAligned r.2
  (g_SplitTileOffsets.foldl (fun (p : Decoder × Nat) offset =>
      let value := p.2
      let d := p.1
      let dest : Int := d.m_CurrentTile + (offset : Int)
      let d := if value % 2 = 1 then d.poke (dest + 0) (d.aligned 1)
               else d.poke (dest + 0) (d.aligned 0)
      let d := d.poke (dest + 0) (d.aligned (value % 2))
      let d := d.poke (dest + 1) (d.aligned 0)
      let d := d.poke (dest + 2) (d.aligned 0)
      let d := d.poke (dest + 3) (d.aligned (((value &&& 2) / 2) * 3))
      let d := d.poke (dest + 320) (d.aligned 1)
      let d := d.poke (dest + 321) (d.aligned ((value &&& 4) / 4))
      let d := d.poke (dest + 322) (d.aligned (((value &&& 8) / 8) * 3))
      let d := d.poke (dest + 323) (d.aligned 3)
      let d := d.poke (dest + 640) (d.aligned 1)
      let d := d.poke (dest + 641) (d.aligned (1 + (value &&& 16) / 16))
      let d := d.poke (dest + 642) (d.aligned (2 + (value &&& 32) / 32))
      let d := d.poke (dest + 643) (d.aligned 3)
      let d := d.poke (dest + 960) (d.aligned (1 + (value &&& 64) / 64))
      let d := d.poke (dest + 961) (d.aligned 2)
      let d := d.poke (dest + 962) (d.aligned 2)
      let d := d.poke (dest + 963) (d.aligned (2 + (value &&& 128) / 128))
      (d.skipAligned 4, value / 256))
    (d, r.1)).1

/-- Source `PrimeDecode`. -/
def PrimeDecode (d : Decoder) : Decoder :=
  let prime_color := d.unaligned 0
  let d := d.skipUnaligned 1
  forN 8 (fun y d =>
    let a := d.aligned 0
    let d := d.skipAligned 1
    (forN 8 (fun x (p : Decoder × Nat) =>
        (if p.2 % 2 = 1 then (p.1.SetPixel x y (p.1.unaligned 0)).skipUnaligned 1
         else p.1.SetPixel x y prime_color,
         p.2 / 2))
      (d, a)).1) d

/-- Source `RawTileDecode`. -/
def RawTileDecode (d : Decoder) : Decoder :=
  forN 8 (fun y d =>
    (d.memcpyStream (d.m_CurrentTile + (y : Int) * d.m_Width) d.m_AlignedStream 8).skipAligned 8) d

/-! ## Bank tiles -/

/-- Source `OneBankTileDecode`. -/
def OneBankTileDecode (d : Decoder) : Decoder :=
  let bank := d.unaligned 0
  let d := d.skipUnaligned 1
  forN 8 (fun y d =>
    forN 8 (fun x d =>
      if x % 2 = 1 then (d.SetPixel x y ((bank + d.aligned 0 / 16) % 256)).skipAligned 1
      else d.SetPixel x y ((bank + d.aligned 0 % 16) % 256)) d) d

/-- Source `TwoBanksTileDecode`.  The inner loop carries the decoder and the locals `part1` and
`part2`, both `uint32_t`. -/
def TwoBanksTileDecode (d : Decoder) : Decoder :=
  let bank0 := ((d.unaligned 0 % 16) * 16) % 256
  let bank1 := d.unaligned 0 &&& 0xf0
  let d := d.skipUnaligned 1
  forN 8 (fun y d =>
    let part1 := u32 d.mem d.m_AlignedStream
    let part2 := u32 d.mem (d.m_AlignedStream + 4)
    let d := d.skipAligned 5
    (forN 8 (fun x (p : Decoder × Nat × Nat) =>
        (p.1.SetPixel x y
            (((if (p.2.1 &&& 16) / 16 = 0 then bank0 else bank1) + p.2.1 % 16) % 256),
         (p.2.1 / 32) ||| ((p.2.2 * 134217728) % 4294967296),
         p.2.2 / 32))
      (d, part1, part2)).1) d

/-! ## Run-to-mask block decodes -/

/-- Source `BlockDecodeHorizontal`.  The outer loop carries the decoder and `last_color`, the inner loop the decoder, `a` and `last_color`. -/
def BlockDecodeHorizontal (d : Decoder) : Decoder :=
  (forN 8 (fun y (o : Decoder × Nat) =>
      let a := o.1.aligned 0
      let d := o.1.skipAligned 1
      let r := forN 8 (fun x (p : Decoder × Nat × Nat) =>
          let q : Decoder × Nat :=
            if p.2.1 % 2 = 1 then (p.1.skipUnaligned 1, p.1.unaligned 0) else (p.1, p.2.2)
          (q.1.SetPixel x y q.2, p.2.1 / 2, q.2))
        (d, a, o.2)
      (r.1, r.2.2))
    (d, 0)).1

/-- Source `BlockDecodeVertical`.  The outer loop carries the decoder and `last_color`, the inner loop the decoder, `a` and `last_color`. -/
def BlockDecodeVertical (d : Decoder) : Decoder :=
  (forN 8 (fun x (o : Decoder × Nat) =>
      let a := o.1.aligned 0
      let d := o.1.skipAligned 1
      let r := forN 8 (fun y (p : Decoder × Nat × Nat) =>
          let q : Decoder × Nat :=
            if p.2.1 % 2 = 1 then (p.1.skipUnaligned 1, p.1.unaligned 0) else (p.1, p.2.2)
          (q.1.SetPixel x y q.2, p.2.1 / 2, q.2))
        (d, a, o.2)
      (r.1, r.2.2))
    (d, 0)).1

/-- Source `BlockDecode2`.  The outer loop carries the decoder and `last_color`, the inner loop the decoder, `a` and `last_color`.  The pointer `offsets` starts at `g_DiagonalOffsets_1` and is incremented once per inner iteration, so it reads entry `8 * y + x`. -/
def BlockDecode2 (d : Decoder) : Decoder :=
  (forN 8 (fun y (o : Decoder × Nat) =>
      let a := o.1.aligned 0
      let d := o.1.skipAligned 1
      let r := forN 8 (fun x (p : Decoder × Nat × Nat) =>
          let q : Decoder × Nat :=
            if p.2.1 % 2 = 1 then (p.1.skipUnaligned 1, p.1.unaligned 0) else (p.1, p.2.2)
          (q.1.poke (q.1.m_CurrentTile + ((g_DiagonalOffsets_1.getD (8 * y + x) 0 : Nat) : Int)) q.2, p.2.1 / 2, q.2))
        (d, a, o.2)
      (r.1, r.2.2))
    (d, 0)).1

/-- Source `BlockDecode3`.  The outer loop carries the decoder and `last_color`, the inner loop the decoder, `a` and `last_color`.  The pointer `offsets` starts at `g_DiagonalOffsets_2` and is incremented once per inner iteration, so it reads entry `8 * y + x`. -/
def BlockDecode3 (d : Decoder) : Decoder :=
  (forN 8 (fun y (o : Decoder × Nat) =>
      let a := o.1.aligned 0
      let d := o.1.skipAligned 1
      let r := forN 8 (fun x (p : Decoder × Nat × Nat) =>
          let q : Decoder × Nat :=
            if p.2.1 % 2 = 1 then (p.1.skipUnaligned 1, p.1.unaligned 0) else (p.1, p.2.2)
          (q.1.poke (q.1.m_CurrentTile + ((g_DiagonalOffsets_2.getD (8 * y + x) 0 : Nat) : Int)) q.2, p.2.1 / 2, q.2))
        (d, a, o.2)
      (r.1, r.2.2))
    (d, 0)).1

/-! ## Bank-1 block decodes -/

/-- Source `BlockBank1DecodeHorizontal`.  The outer loop carries the decoder, `last_color` and `flag`, the inner loop the decoder, `a`, `last_color` and `flag`. -/
def BlockBank1DecodeHorizontal (d : Decoder) : Decoder :=
  let bank := (d.unaligned 0 * 16) % 256
  let o := forN 8 (fun y (o : Decoder × Nat × Nat) =>
      let a := o.1.aligned 0
      let d := o.1.skipAligned 1
      let r := forN 8 (fun x (p : Decoder × Nat × Nat × Nat) =>
          let q : Decoder × Nat × Nat :=
            if p.2.1 % 2 = 1 then
              (if p.2.2.2 ≠ 0 then (p.1.skipUnaligned 1, p.1.unaligned 0 / 16, 0)
               else (p.1, p.1.unaligned 0 % 16, p.2.2.2 + 1))
            else (p.1, p.2.2.1, p.2.2.2)
          (q.1.SetPixel x y ((bank + q.2.1) % 256), p.2.1 / 2, q.2.1, q.2.2))
        (d, a, o.2.1, o.2.2)
      (r.1, r.2.2.1, r.2.2.2))
    (d, 0, 1)
  if o.2.2 ≠ 0 then o.1.skipUnaligned 1 else o.1

/-- Source `BlockBank1DecodeVertical`.  The outer loop carries the decoder, `last_color` and `flag`, the inner loop the decoder, `a`, `last_color` and `flag`. -/
def BlockBank1DecodeVertical (d : Decoder) : Decoder :=
  let bank := (d.unaligned 0 * 16) % 256
  let o := forN 8 (fun x (o : Decoder × Nat × Nat) =>
      let a := o.1.aligned 0
      let d := o.1.skipAligned 1
      let r := forN 8 (fun y (p : Decoder × Nat × Nat × Nat) =>
          let q : Decoder × Nat × Nat :=
            if p.2.1 % 2 = 1 then
              (if p.2.2.2 ≠ 0 then (p.1.skipUnaligned 1, p.1.unaligned 0 / 16, 0)
               else (p.1, p.1.unaligned 0 % 16, p.2.2.2 + 1))
            else (p.1, p.2.2.1, p.2.2.2)
          (q.1.SetPixel x y ((bank + q.2.1) % 256), p.2.1 / 2, q.2.1, q.2.2))
        (d, a, o.2.1, o.2.2)
      (r.1, r.2.2.1, r.2.2.2))
    (d, 0, 1)
  if o.2.2 ≠ 0 then o.1.skipUnaligned 1 else o.1

/-- Source `BlockBank1Decode2`.  The outer loop carries the decoder, `last_color` and `flag`, the inner loop the decoder, `a`, `last_color` and `flag`.  The pointer `offsets` reads entry `8 * y + x` of the table. -/
def BlockBank1Decode2 (d : Decoder) : Decoder :=
  let bank := (d.unaligned 0 * 16) % 256
  let o := forN 8 (fun y (o : Decoder × Nat × Nat) =>
      let a := o.1.aligned 0
      let d := o.1.skipAligned 1
      let r := forN 8 (fun x (p : Decoder × Nat × Nat × Nat) =>
          let q : Decoder × Nat × Nat :=
            if p.2.1 % 2 = 1 then
              (if p.2.2.2 ≠ 0 then (p.1.skipUnaligned 1, p.1.unaligned 0 / 16, 0)
               else (p.1, p.1.unaligned 0 % 16, p.2.2.2 + 1))
            else (p.1, p.2.2.1, p.2.2.2)
          (q.1.poke (q.1.m_CurrentTile + ((g_DiagonalOffsets_1.getD (8 * y + x) 0 : Nat) : Int)) ((bank + q.2.1) % 256), p.2.1 / 2, q.2.1, q.2.2))
        (d, a, o.2.1, o.2.2)
      (r.1, r.2.2.1, r.2.2.2))
    (d, 0, 1)
  if o.2.2 ≠ 0 then o.1.skipUnaligned 1 else o.1

/-- Source `BlockBank1Decode3`.  The outer loop carries the decoder, `last_color` and `flag`, the inner loop the decoder, `a`, `last_color` and `flag`.  The pointer `offsets` reads entry `8 * y + x` of the table. -/
def BlockBank1Decode3 (d : Decoder) : Decoder :=
  let bank := (d.unaligned 0 * 16) % 256
  let o := forN 8 (fun y (o : Decoder × Nat × Nat) =>
      let a := o.1.aligned 0
      let d := o.1.skipAligned 1
      let r := forN 8 (fun x (p : Decoder × Nat × Nat × Nat) =>
          let q : Decoder × Nat × Nat :=
            if p.2.1 % 2 = 1 then
              (if p.2.2.2 ≠ 0 then (p.1.skipUnaligned 1, p.1.unaligned 0 / 16, 0)
               else (p.1, p.1.unaligned 0 % 16, p.2.2.2 + 1))
            else (p.1, p.2.2.1, p.2.2.2)
          (q.1.poke (q.1.m_CurrentTile + ((g_DiagonalOffsets_2.getD (8 * y + x) 0 : Nat) : Int)) ((bank + q.2.1) % 256), p.2.1 / 2, q.2.1, q.2.2))
        (d, a, o.2.1, o.2.2)
      (r.1, r.2.2.1, r.2.2.2))
    (d, 0, 1)
  if o.2.2 ≠ 0 then o.1.skipUnaligned 1 else o.1

/-! ## Frame decoder -/

/-- Source `FrameData::GetOpcodesArray`: the opcodes follow the 32-bit `color_offset`. -/
def GetOpcodesArray (frameData : Nat) : Nat := frameData + 4

/-- Source `FrameData::GetAlignedData`: `opcodes + (height / 8) * 30`, the product being
computed on `uint32_t`. -/
def GetAlignedData (frameData : Nat) (height : Nat) : Nat :=
  GetOpcodesArray frameData + ((height / 8) * 30) % 4294967296

/-- Source `FrameData::GetUnalignedData`: `this + color_offset`. -/
def GetUnalignedData (mem : Nat → Nat) (frameData : Nat) : Nat :=
  frameData + u32 mem frameData

/-- Source `Chunk::GetData`: the payload follows the 12-byte header. -/
def GetData (chunk : Nat) : Nat := chunk + 12

/-- Source `Chunk::GetChunkSize`: the field `m_Size` at offset 8 of the header. -/
def GetChunkSize (mem : Nat → Nat) (chunk : Nat) : Nat := u32 mem (chunk + 8)

/-- Source `Chunk::GetNextChunk`: `GetChunkAtOffset(sizeof(Chunk) + m_Size)`. -/
def GetNextChunk (mem : Nat → Nat) (chunk : Nat) : Nat := chunk + (12 + GetChunkSize mem chunk)

/-- The `switch (codes & 63)` of `DecompressFrame`: the base primitive, then its overlay. -/
def dispatch (op : Nat) (d : Decoder) : Decoder :=
  match op with
  | 0 => RawTileDecode d
  | 1 => ZeroMotionDecode d
  | 2 => Update4 (ZeroMotionDecode d)
  | 3 => Update8 (ZeroMotionDecode d)
  | 4 => Update16 (ZeroMotionDecode d)
  | 5 => ShortMotion8Decode d
  | 6 => Update4 (ShortMotion8Decode d)
  | 7 => Update8 (ShortMotion8Decode d)
  | 8 => Update16 (ShortMotion8Decode d)
  | 9 => Motion8Decode d
  | 10 => Update4 (Motion8Decode d)
  | 11 => Update8 (Motion8Decode d)
  | 12 => Update16 (Motion8Decode d)
  | 13 => ShortMotion4Decode d
  | 14 => Update4 (ShortMotion4Decode d)
  | 15 => Update8 (ShortMotion4Decode d)
  | 16 => Update16 (ShortMotion4Decode d)
  | 17 => Motion4Decode d
  | 18 => Update4 (Motion4Decode d)
  | 19 => Update8 (Motion4Decode d)
  | 20 => Update16 (Motion4Decode d)
  | 21 => SingleColorFillDecode d
  | 22 => Update4 (SingleColorFillDecode d)
  | 23 => Update8 (SingleColorFillDecode d)
  | 24 => Update16 (SingleColorFillDecode d)
  | 25 => FourColorFillDecode d
  | 26 => Update4 (FourColorFillDecode d)
  | 27 => Update8 (FourColorFillDecode d)
  | 28 => Update16 (FourColorFillDecode d)
  | 29 => OneBitTileDecode d
  | 30 => TwoBitTileDecode d
  | 31 => ThreeBitTileDecode d
  | 32 => FourBitTileDecode d
  | 33 => OneBitSplitTileDecode d
  | 34 => TwoBitSplitTileDecode d
  | 35 => ThreeBitSplitTileDecode d
  | 36 => CrossDecode d
  | 37 => PrimeDecode d
  | 38 => OneBankTileDecode d
  | 39 => TwoBanksTileDecode d
  | 40 => BlockDecodeHorizontal d
  | 41 => BlockDecodeVertical d
  | 42 => BlockDecode2 d
  | 43 => BlockDecode3 d
  | 44 => BlockBank1DecodeHorizontal d
  | 45 => BlockBank1DecodeVertical d
  | 46 => BlockBank1Decode2 d
  | 47 => BlockBank1Decode3 d
  | 48 => ROMotion8Decode d
  | 49 => Update4 (ROMotion8Decode d)
  | 50 => Update8 (ROMotion8Decode d)
  | 51 => Update16 (ROMotion8Decode d)
  | 52 => RCMotion8Decode d
  | 53 => Update4 (RCMotion8Decode d)
  | 54 => Update8 (RCMotion8Decode d)
  | 55 => Update16 (RCMotion8Decode d)
  | 56 => ROMotion4Decode d
  | 57 => Update4 (ROMotion4Decode d)
  | 58 => Update8 (ROMotion4Decode d)
  | 59 => Update16 (ROMotion4Decode d)
  | 60 => RCMotion4Decode d
  | 61 => Update4 (RCMotion4Decode d)
  | 62 => Update8 (RCMotion4Decode d)
  | 63 => Update16 (RCMotion4Decode d)
  | _ => d

/-- One entry of the dispatch history of a frame: the opcode taken by the `switch` and the two
tile cursors at that moment. -/
structure Dispatched where
  opcode : Nat
  currentTile : Int
  previousTile : Int
deriving DecidableEq

/-- The state of the loops of `DecompressFrame`: the decoder, the locals `ptr_opcode` and
`codes`, and the history `trace` of the tiles dispatched so far (a record of the run, not a
variable of the program). -/
structure FrameLoop where
  dec : Decoder
  ptr_opcode : Nat
  codes : Int
  trace : List Dispatched

/-- The reload of the opcode register: `codes = (*(int32_t*)ptr_opcode) | 0xff000000`. -/
def reload (mem : Nat → Nat) (ptr_opcode : Nat) : Int :=
  toS32 ((u32 mem ptr_opcode ||| 0xff000000 : Nat) : Int)

/-- The body of the inner loop of `DecompressFrame`: one tile. -/
def tileStep (s : FrameLoop) : FrameLoop :=
  let s : FrameLoop :=
    if s.codes = -1 then
      { s with codes := reload s.dec.mem s.ptr_opcode, ptr_opcode := s.ptr_opcode + 3 }
    else s
  let op := (s.codes % 64).toNat
  let s : FrameLoop :=
    { s with
      trace := s.trace ++ [⟨op, s.dec.m_CurrentTile, s.dec.m_PreviousTile⟩]
      dec := dispatch op s.dec }
  let s : FrameLoop := { s with codes := s.codes / 64 }
  { s with dec :=
      { s.dec with
        m_PreviousTile := s.dec.m_PreviousTile + 8
        m_CurrentTile := s.dec.m_CurrentTile + 8 } }

/-- The two statements that follow the inner loop of `DecompressFrame`: both tile cursors move
down by seven lines. -/
def rowEnd (s : FrameLoop) : FrameLoop :=
  { s with dec :=
      { s.dec with
        m_PreviousTile := s.dec.m_PreviousTile + s.dec.m_Width * 7
        m_CurrentTile := s.dec.m_CurrentTile + s.dec.m_Width * 7 } }

/-- The body of the outer loop of `DecompressFrame`: one row of `m_Width / 8` tiles, then the
move to the next row. -/
def rowStep (s : FrameLoop) : FrameLoop :=
  rowEnd (tileStep^[(Int.tdiv s.dec.m_Width 8).toNat] s)

/-- The part of `DecompressFrame` before the loops: the tile cursors, the two data streams and
the opcode register. -/
def frameStart (d : Decoder) : FrameLoop :=
  let d : Decoder := { d with m_PreviousTile := 0, m_PreviousFrameBuffer := 0, m_CurrentTile := 0 }
  let frameData := GetData d.m_CurrentChunk
  let d : Decoder :=
    { d with
      m_UnAlignedStream := GetUnalignedData d.mem frameData
      m_AlignedStream := GetAlignedData frameData (toU32 d.m_Height) }
  { dec := d, ptr_opcode := GetOpcodesArray frameData, codes := -1, trace := [] }

/-- The loops of `DecompressFrame`, run to completion. -/
def frameLoop (d : Decoder) : FrameLoop :=
  rowStep^[(Int.tdiv d.m_Height 8).toNat] (frameStart d)

/-- Source `ImageBuffer::SaveToPcx`, as seen by the decoder: the picture is handed to the sink
under the frame number, with the palette pointer that the call dereferences.  The lines that
the writer produces, and the pictures on which its loops run to their end, are those of
`pcxRows`. -/
def SaveToPcx (d : Decoder) (frameNumber : Nat) : Decoder :=
  { d with saved := d.saved ++ [⟨frameNumber, d.m_CurrentBuffer, d.m_Palette⟩] }

/-- Source `DecompressFrame`: decode every tile, save the picture, swap the buffers. -/
def DecompressFrame (d : Decoder) : Decoder :=
  let d := (frameLoop d).dec
  let d := SaveToPcx { d with m_FrameNumber := d.m_FrameNumber + 1 } d.m_FrameNumber
  { d with m_CurrentBuffer := d.m_PreviousBuffer, m_PreviousBuffer := d.m_CurrentBuffer }

/-! ## Chunk parser -/

/-- Source `enum class ChunkType`. -/
inductive ChunkType where
  | e_Unknown
  | e_End
  | e_FrameLen
  | e_Format
  | e_Palette
  | e_NulChunk
  | e_KeyFrame
  | e_DltFrame
  | e_Recouvre
  | e_Camera
  | e_SoundBuf
  | e_SoundFrm
  | e_SoundEnd
  | e_SAL_STRT
  | e_SAL_PART
  | e_SAL_END
  | e_SAL_COMP
deriving DecidableEq, Repr

/-- The eight bytes of a chunk tag written as text. -/
def tag (name : String) : List Nat := name.toList.map Char.toNat

/-- The field `m_Name` of a chunk header: its first eight bytes. -/
def chunkName (mem : Nat → Nat) (chunk : Nat) : List Nat :=
  (List.range 8).map (fun i => u8 mem (chunk + i))

/-- Source `Chunk::GetChunkType`: the chain of `memcmp` tests, in the order of the source. -/
def GetChunkType (mem : Nat → Nat) (chunk : Nat) : ChunkType :=
  if chunkName mem chunk = tag "NulChunk" then ChunkType.e_NulChunk
  else if chunkName mem chunk = tag "KeyFrame" then ChunkType.e_KeyFrame
  else if chunkName mem chunk = tag "DltFrame" then ChunkType.e_DltFrame
  else if chunkName mem chunk = tag "FrameLen" then ChunkType.e_FrameLen
  else if chunkName mem chunk = tag "Format  " then ChunkType.e_Format
  else if chunkName mem chunk = tag "Palette " then ChunkType.e_Palette
  else if chunkName mem chunk = tag "SoundBuf" then ChunkType.e_SoundBuf
  else if chunkName mem chunk = tag "SoundFrm" then ChunkType.e_SoundFrm
  else if chunkName mem chunk = tag "SoundEnd" then ChunkType.e_SoundEnd
  else if chunkName mem chunk = tag "SAL_STRT" then ChunkType.e_SAL_STRT
  else if chunkName mem chunk = tag "SAL_PART" then ChunkType.e_SAL_PART
  else if chunkName mem chunk = tag "SAL_END " then ChunkType.e_SAL_END
  else if chunkName mem chunk = tag "SAL_COMP" then ChunkType.e_SAL_COMP
  else if chunkName mem chunk = tag "Recouvre" then ChunkType.e_Recouvre
  else if chunkName mem chunk = tag "Camera  " then ChunkType.e_Camera
  else if chunkName mem chunk = tag "End     " then ChunkType.e_End
  else ChunkType.e_Unknown

/-- Source `CreateBuffers`: both buffers are replaced by fresh `m_Width` by `m_Height` images (the
`int32_t` members convert to the `uint32_t` parameters of the constructor).  The allocation is
taken to succeed; in the source `resize` throws when it cannot provide
`(size_t)m_Width * (size_t)m_Height` bytes. -/
def CreateBuffers (d : Decoder) : Decoder :=
  { d with
    m_CurrentBuffer := ImageBuffer.create d.heap (toU32 d.m_Width) (toU32 d.m_Height)
    m_PreviousBuffer := ImageBuffer.create d.heap (toU32 d.m_Width) (toU32 d.m_Height) }

/-- The three assignments of the `Format` case of `ParseACF`: `m_Format` points to the payload
(a `Format` record, whose fields `width` and `height` are at offsets 4 and 8) and the two
dimensions are copied from it. -/
def Decoder.withFormat (d : Decoder) (m_Format : Nat) (width height : Int) : Decoder :=
  { d with m_Format := some m_Format, m_Width := width, m_Height := height }

/-- The `switch` of `ParseACF` for a chunk that is not `End`.  The text built for a `Camera`
chunk goes to a separate file and is not part of the state. -/
def processChunk (ty : ChunkType) (d : Decoder) : Decoder :=
  match ty with
  | ChunkType.e_Format =>
      let m_Format := GetData d.m_CurrentChunk
      CreateBuffers
        (d.withFormat m_Format (toS32 (u32 d.mem (m_Format + 4) : Nat))
          (toS32 (u32 d.mem (m_Format + 8) : Nat)))
  | ChunkType.e_FrameLen => { d with m_FrameLen := some (GetData d.m_CurrentChunk) }
  | ChunkType.e_Palette => { d with m_Palette := some (GetData d.m_CurrentChunk) }
  | ChunkType.e_Camera => { d with m_Camera := some (GetData d.m_CurrentChunk) }
  | ChunkType.e_KeyFrame => DecompressFrame d
  | ChunkType.e_DltFrame => DecompressFrame d
  | _ => d

/-- The `while (m_CurrentChunk < lastChunk)` loop of `ParseACF` together with the `return`
that follows it.  Every turn consumes one unit of `fuel`; the result is `none` when the fuel
runs out before the loop ends, and otherwise the returned boolean and the final decoder. -/
def parseLoop (lastChunk : Nat) : Nat → Decoder → Option (Bool × Decoder)
  | fuel, d =>
    if d.m_CurrentChunk < lastChunk then
      match fuel with
      | 0 => none
      | fuel + 1 =>
        if GetChunkType d.mem d.m_CurrentChunk = ChunkType.e_End then some (true, d)
        else
          let d := processChunk (GetChunkType d.mem d.m_CurrentChunk) d
          parseLoop lastChunk fuel
            { d with m_CurrentChunk := GetNextChunk d.mem d.m_CurrentChunk }
    else some (true, d)

/-- Source `ParseACF` on a file of `size` bytes stored at address 0 of `d.mem`.  A turn of the
loop moves the chunk pointer forward by at least 12 bytes, so `size` units of fuel are enough
(theorem `ParseACF_returns`).  The result describes the source on the inputs of `safeInput`,
where neither the allocation nor the picture writer fails. -/
def ParseACF (d : Decoder) (size : Nat) : Option (Bool × Decoder) :=
  let d := CreateBuffers { d with m_CurrentChunk := 0 }
  parseLoop size size { d with m_FrameNumber := 0 }

/-- A decoder as constructed by `ACFDecoder acfDecoder;`: 320 by 240, no chunk seen.  The two
buffer pointers are null until `CreateBuffers` runs; they are shown as empty images. -/
def Decoder.init (mem : Nat → Nat) (heap : Int → Nat) : Decoder :=
  { mem := mem, heap := heap, m_Width := 320, m_Height := 240, m_FrameNumber := 0,
    m_CurrentChunk := 0, m_Format := none, m_Palette := none, m_FrameLen := none,
    m_Camera := none, m_PreviousBuffer := ImageBuffer.create heap 0 0, m_PreviousFrameBuffer := 0,
    m_PreviousTile := 0, m_CurrentBuffer := ImageBuffer.create heap 0 0, m_CurrentTile := 0,
    m_AlignedStream := 0, m_UnAlignedStream := 0, saved := [] }

/-! ## Vocabulary of the specification -/

/-- The 24-bit little-endian value of three bytes. -/
def u24 (mem : Nat → Nat) (a : Nat) : Nat :=
  u8 mem a + 256 * u8 mem (a + 1) + 65536 * u8 mem (a + 2)

/-- The `k`-th 6-bit field of an opcode stream that starts at `base`: bits `6*(k mod 4)` to
`6*(k mod 4)+5` of the 24-bit little-endian value of bytes `3*(k/4)` to `3*(k/4)+2`. -/
def opcodeField (mem : Nat → Nat) (base : Nat) (k : Nat) : Nat :=
  (u24 mem (base + 3 * (k / 4)) / 2 ^ (6 * (k % 4))) % 64

/-- What a tile primitive may do to the decoder: `Keeps d e` says that `e` differs from `d` at
most in the bytes of the current buffer and in the two data cursors, and that neither cursor
has moved backwards. -/
structure Keeps (d e : Decoder) : Prop where
  mem : e.mem = d.mem
  heap : e.heap = d.heap
  width : e.m_Width = d.m_Width
  height : e.m_Height = d.m_Height
  frameNumber : e.m_FrameNumber = d.m_FrameNumber
  chunk : e.m_CurrentChunk = d.m_CurrentChunk
  format : e.m_Format = d.m_Format
  palette : e.m_Palette = d.m_Palette
  frameLen : e.m_FrameLen = d.m_FrameLen
  camera : e.m_Camera = d.m_Camera
  previousBuffer : e.m_PreviousBuffer = d.m_PreviousBuffer
  previousFrameBuffer : e.m_PreviousFrameBuffer = d.m_PreviousFrameBuffer
  previousTile : e.m_PreviousTile = d.m_PreviousTile
  currentWidth : e.m_CurrentBuffer.m_Width = d.m_CurrentBuffer.m_Width
  currentHeight : e.m_CurrentBuffer.m_Height = d.m_CurrentBuffer.m_Height
  currentTile : e.m_CurrentTile = d.m_CurrentTile
  aligned : d.m_AlignedStream ≤ e.m_AlignedStream
  unaligned : d.m_UnAlignedStream ≤ e.m_UnAlignedStream
  saved : e.saved = d.saved

/-- The decoder `d` with its two tile cursors replaced. -/
def Decoder.withTiles (d : Decoder) (currentTile previousTile : Int) : Decoder :=
  { d with m_CurrentTile := currentTile, m_PreviousTile := previousTile }

/-- Offset of the top-left pixel of tile `(tx, ty)` in a buffer whose lines are `width` bytes
apart. -/
def tileOffset (width : Int) (tx ty : Nat) : Int := (tx : Int) * 8 + (ty : Int) * 8 * width

/-- Offset of the top-left pixel of the `k`-th tile in raster order, `w8` tiles per row. -/
def rasterOffset (width : Int) (w8 k : Nat) : Int := tileOffset width (k % w8) (k / w8)

/-- The opcode register before the `k`-th tile when it is reloaded every fourth tile. -/
def codesAt (mem : Nat → Nat) (base k : Nat) : Int :=
  if k % 4 = 0 then -1 else reload mem (base + 3 * (k / 4)) / 64 ^ (k % 4)

/-- The opcode pointer before the `k`-th tile when the register is reloaded every fourth
tile. -/
def ptrAt (base k : Nat) : Nat := base + 3 * ((k + 3) / 4)

/-- The opcode register as the `switch` of the next tile sees it: reloaded when it holds -1. -/
def fetched (s : FrameLoop) : Int :=
  if s.codes = -1 then reload s.dec.mem s.ptr_opcode else s.codes

/-- The invariant of the loops of `DecompressFrame` that holds whatever the opcodes are, stated
before tile `tx` of row `ty`, for a frame that started in `d0` with `w8` tiles per row: only the
current buffer and the data cursors have changed, both tile cursors sit on the tile, and the
tiles dispatched so far were met at their raster positions. -/
structure FrameInv (d0 : Decoder) (w8 ty tx : Nat) (s : FrameLoop) : Prop where
  keeps : Keeps (d0.withTiles s.dec.m_CurrentTile s.dec.m_PreviousTile) s.dec
  currentTile : s.dec.m_CurrentTile = tileOffset d0.m_Width tx ty
  previousTile : s.dec.m_PreviousTile = tileOffset d0.m_Width tx ty
  currentTiles : s.trace.map Dispatched.currentTile =
    (List.range (ty * w8 + tx)).map (rasterOffset d0.m_Width w8)
  previousTiles : s.trace.map Dispatched.previousTile =
    (List.range (ty * w8 + tx)).map (rasterOffset d0.m_Width w8)

/-- The invariant of the opcode register before tile `k`: it has been reloaded every fourth
tile and every tile so far was given its own 6-bit field. -/
structure RegInv (mem : Nat → Nat) (base k : Nat) (s : FrameLoop) : Prop where
  codes : s.codes = codesAt mem base k
  ptr : s.ptr_opcode = ptrAt base k
  opcodes : s.trace.map Dispatched.opcode = (List.range k).map (opcodeField mem base)

/-- Pixel `(x, y)` lies in a tile that the raster walk has finished before it reaches tile
`tx` of row `ty`. -/
def doneBefore (tx ty x y : Nat) : Prop := y / 8 < ty ∨ (y / 8 = ty ∧ x / 8 < tx)

/-- The behaviour that `uniform_frame` asks of an opcode `op` in a frame that started in `d0`,
`w8` tiles per row: dispatched on the tile `(tx, ty)` from a decoder whose cursors are where
`ty * w8 + tx` earlier tiles of the same kind left them, it moves the aligned cursor by
`alStep` and the unaligned cursor by `unStep`, leaves the bytes outside the eight rows of the
tile alone and gives pixel `(c, r)` of the tile the value `target (8 * tx + c) (8 * ty + r)`. -/
def TileFills (d0 : Decoder) (w8 op alStep unStep : Nat) (target : Nat → Nat → Nat) : Prop :=
  ∀ (e : Decoder) (tx ty : Nat), tx < w8 →
    Keeps (d0.withTiles e.m_CurrentTile e.m_PreviousTile) e →
    e.m_CurrentTile = tileOffset d0.m_Width tx ty →
    e.m_PreviousTile = tileOffset d0.m_Width tx ty →
    e.m_AlignedStream = d0.m_AlignedStream + alStep * (ty * w8 + tx) →
    e.m_UnAlignedStream = d0.m_UnAlignedStream + unStep * (ty * w8 + tx) →
    (dispatch op e).m_AlignedStream = e.m_AlignedStream + alStep ∧
    (dispatch op e).m_UnAlignedStream = e.m_UnAlignedStream + unStep ∧
    (∀ i, (∀ r : Nat, r < 8 → ¬ (tileOffset d0.m_Width tx ty + (r : Int) * d0.m_Width ≤ i ∧
        i < tileOffset d0.m_Width tx ty + (r : Int) * d0.m_Width + 8)) →
      (dispatch op e).m_CurrentBuffer.m_Buffer i = e.m_CurrentBuffer.m_Buffer i) ∧
    (∀ r c : Nat, r < 8 → c < 8 →
      (dispatch op e).m_CurrentBuffer.m_Buffer
          (tileOffset d0.m_Width tx ty + ((c : Int) + (r : Int) * d0.m_Width)) =
        target (8 * tx + c) (8 * ty + r))

/-- The invariant of a frame whose first `limit` opcodes all call for the same primitive, stated
before tile `tx` of row `ty`: the geometry of `FrameInv`, and as long as the walk is within the
first `limit` tiles the opcode register is in step, both data cursors have moved by a fixed
amount per tile, and the pixels of the finished tiles hold their `target` value. -/
def UniformInv (d0 : Decoder) (w8 base limit alStep unStep : Nat) (target : Nat → Nat → Nat)
    (ty tx : Nat) (s : FrameLoop) : Prop :=
  FrameInv d0 w8 ty tx s ∧
  (ty * w8 + tx ≤ limit →
    RegInv d0.mem base (ty * w8 + tx) s ∧
    s.dec.m_AlignedStream = d0.m_AlignedStream + alStep * (ty * w8 + tx) ∧
    s.dec.m_UnAlignedStream = d0.m_UnAlignedStream + unStep * (ty * w8 + tx) ∧
    ∀ x y, x < 8 * w8 → doneBefore tx ty x y →
      s.dec.m_CurrentBuffer.m_Buffer ((x : Int) + (y : Int) * d0.m_Width) = target x y)

/-! ## Sample inputs -/

/-- The input memory that holds `bytes` from address 0 on and zero after them. -/
def memOfList (bytes : List Nat) : Nat → Nat := fun a => bytes.getD a 0

/-- The twelve bytes of a chunk header: the tag, then the payload size in little-endian
order. -/
def chunkHeader (name : String) (size : Nat) : List Nat :=
  tag name ++ [size % 256, size / 256 % 256, size / 65536 % 256, size / 16777216 % 256]

/-- A decoder about to decode the chunk at address 0 of `bytes` as a `width` by `height` frame:
the current buffer is zero-filled and the previous buffer holds `previous`. -/
def sampleDecoder (bytes : List Nat) (width height : Int) (previous : Int → Nat) : Decoder :=
  { Decoder.init (memOfList bytes) (fun _ => 0) with
    m_Width := width
    m_Height := height
    m_CurrentBuffer := ImageBuffer.create (fun _ => 0) (toU32 width) (toU32 height)
    m_PreviousBuffer :=
      { m_Width := toU32 width, m_Height := toU32 height, m_Buffer := previous } }

/-- A 320 by 8 key frame whose opcode bytes are `00 00 FC 01 00 ...`: the 6-bit fields are
0, 0, 0, 63, 1, 0, 0, ... -/
def frameWithOpcode63 : Decoder :=
  sampleDecoder (chunkHeader "KeyFrame" 2594 ++ [34, 0, 0, 0, 0, 0, 252, 1]) 320 8 (fun _ => 0)

/-- A 320 by 8 key frame of 40 Raw tiles: all the opcode bytes are zero and the aligned data
are the bytes 1, 2, 3, ... -/
def rawFrame (previous : Int → Nat) : Decoder :=
  sampleDecoder (chunkHeader "KeyFrame" 2594 ++ [34, 0, 0, 0] ++ List.replicate 30 0 ++
    List.range' 1 64) 320 8 previous

/-- A 16 by 16 delta frame of four ZeroMotion tiles (opcode bytes `41 10 04`) over a previous
buffer that holds the byte `i % 251` at offset `i`. -/
def zeroMotionFrame : Decoder :=
  sampleDecoder (chunkHeader "DltFrame" 34 ++ [34, 0, 0, 0, 65, 16, 4]) 16 16
    (fun i => (i % 251).toNat)

/-- An 8 by 8 key frame of one ZeroMotion tile in a chunk that declares a payload of 40 bytes
and a `color_offset` of 1000. -/
def frameWithFarColors : Decoder :=
  sampleDecoder (chunkHeader "KeyFrame" 40 ++ [232, 3, 0, 0, 1]) 8 8 (fun _ => 0)

/-- A file of three chunks: a `Format  ` chunk for a 320 by 200 video, a `Palette ` chunk of 768
zero bytes and an `End     ` chunk; 848 bytes in all. -/
def headerOnlyFile : Nat → Nat :=
  memOfList (chunkHeader "Format  " 44 ++ [44, 0, 0, 0, 64, 1, 0, 0, 200, 0, 0, 0] ++
    List.replicate 32 0 ++ chunkHeader "Palette " 768 ++ List.replicate 768 0 ++
    chunkHeader "End     " 0)

/-- The field `width` of the `Format` record in the payload of the chunk at `chunk`. -/
def formatWidth (mem : Nat → Nat) (chunk : Nat) : Nat := u32 mem (GetData chunk + 4)

/-- The field `height` of the `Format` record in the payload of the chunk at `chunk`. -/
def formatHeight (mem : Nat → Nat) (chunk : Nat) : Nat := u32 mem (GetData chunk + 8)

/-! ## The run-length writer of `SaveToPcx` -/

/-- A 320 by 8 key frame of 40 SingleColorFill tiles: the opcode bytes are all `55` (four 6-bit
fields 21 in three bytes), there are no aligned data, and the unaligned data are the bytes
0, 1, ..., 39. -/
def singleColorFrame : Decoder :=
  sampleDecoder (chunkHeader "KeyFrame" 74 ++ [34, 0, 0, 0] ++ List.replicate 30 85 ++
    List.range 40) 320 8 (fun _ => 7)

/-- A decoder at the first tile of a 16 by 16 frame, as `frameStart` leaves it: the aligned
stream holds the bytes 1, 2, ..., 64, the unaligned stream the bytes 1, 2, 3, 4, and the
previous buffer holds the byte `i % 251` at offset `i`. -/
def tileSample : Decoder :=
  (frameStart (sampleDecoder (chunkHeader "KeyFrame" 132 ++ [128, 0, 0, 0] ++
    List.replicate 60 0 ++ List.range' 1 64 ++ [1, 2, 3, 4]) 16 16
      (fun i => (i % 251).toNat))).dec

/-- A 4-bit field `n` (0 to 15) read as a signed 4-bit integer, in the range -8 to 7. -/
def signed4 (n : Nat) : Int := if n < 8 then (n : Int) else (n : Int) - 16

/-- A 320 by 8 delta frame of 40 Motion8 tiles over a previous buffer that holds the byte
`i % 251` at offset `i`: the opcode bytes are ten times `49 92 24` (four 6-bit fields 9 in three
bytes), there are no aligned data, and the unaligned data are the 16-bit offsets
`8 * i + 8` for `i` from 0 to 39. -/
def motion8Frame : Decoder :=
  sampleDecoder (chunkHeader "DltFrame" 114 ++ [34, 0, 0, 0] ++
    (List.range 10).flatMap (fun _ => [73, 146, 36]) ++
    (List.range 40).flatMap (fun i => [(8 * i + 8) % 256, (8 * i + 8) / 256])) 320 8
      (fun i => (i % 251).toNat)

/-- The 40-bit little-endian integer formed by the five bytes at address `a`. -/
def le40 (mem : Nat → Nat) (a : Nat) : Nat :=
  u8 mem a + 2 ^ 8 * u8 mem (a + 1) + 2 ^ 16 * u8 mem (a + 2) + 2 ^ 24 * u8 mem (a + 3) +
    2 ^ 32 * u8 mem (a + 4)

/-- The bit-level definition of a pixel of a two-bank tile, in the words of the specification:
with the bank byte `b`, `bank0 = (b & 0x0F) << 4` and `bank1 = b & 0xF0`; with `R` the 40-bit
integer of the row, `f = (R >> 5 * x) & 31`; the pixel is `bank[bit 4 of f] + (f & 15)`. -/
def twoBanksPixel (b R x : Nat) : Nat :=
  let bank0 := (b &&& 0x0F) <<< 4
  let bank1 := b &&& 0xF0
  let f := (R >>> (5 * x)) &&& 31
  (if f.testBit 4 then bank1 else bank0) + (f &&& 15)

/-- The decoder `d` over another input memory. -/
def Decoder.withMem (d : Decoder) (mem : Nat → Nat) : Decoder := { d with mem := mem }

/-! ## Vocabulary of the diagonal tables -/

/-- The regular zig-zag scan of an 8 by 8 block, as pixels `(x, y)`: the anti-diagonals
`x + y = s` are visited for `s` from 0 to 14, with `x` going up on the even ones and down on
the odd ones, so that the scan starts `(0,0), (1,0), (0,1), (0,2), (1,1), (2,0), (3,0), ...`. -/
def zigzag8 : List (Nat × Nat) :=
  (List.range 15).flatMap (fun s =>
    let xs := (List.range 8).filter (fun x => decide (x ≤ s ∧ s - x < 8))
    (if s % 2 = 1 then xs.reverse else xs).map (fun x => (x, s - x)))

/-- The pixel `(x, y)` that an entry `x + 320 * y` of an offset table stands for. -/
def offsetPixel (offset : Nat) : Nat × Nat := (offset % 320, offset / 320)

/-- The left-right mirror image `x -> 7 - x` of a pixel of an 8 by 8 block. -/
def mirrorPixel (p : Nat × Nat) : Nat × Nat := (7 - p.1, p.2)

/-! ## Vocabulary of the update overlays -/

/-- The column of patch `k` of an `Update4` whose 24-bit position word is `V`:
`(V >> 6 * k) & 7`. -/
def patchX (V k : Nat) : Nat := (V >>> (6 * k)) &&& 7

/-- The line of patch `k` of an `Update4` whose 24-bit position word is `V`:
`(V >> (6 * k + 3)) & 7`. -/
def patchY (V k : Nat) : Nat := (V >>> (6 * k + 3)) &&& 7

/-- The address in the current buffer of patch `k` of the `Update4` that the decoder `d` is
about to run: pixel `(patchX, patchY)` of the tile. -/
def patchAddress (d : Decoder) (k : Nat) : Int :=
  d.m_CurrentTile + ((patchX (u24 d.mem d.m_UnAlignedStream) k : Nat) +
    (patchY (u24 d.mem d.m_UnAlignedStream) k : Nat) * d.m_Width)

/-- The input memory of `tileSample` with the fourth unaligned byte, at address 143, changed
from 4 to 99. -/
def tileSampleOtherByte : Nat → Nat := fun a => if a = 143 then 99 else tileSample.mem a

/-! ## Vocabulary of the cross tile -/

/-- The body of the loop of `CrossDecode` over the quadrants, on the pair of the decoder and
the local `value`. -/
def crossStep (p : Decoder × Nat) (offset : Int) : Decoder × Nat :=
  let value := p.2
  let d := p.1
  let dest : Int := d.m_CurrentTile + offset
  let d := if value % 2 = 1 then d.poke (dest + 0) (d.aligned 1)
           else d.poke (dest + 0) (d.aligned 0)
  let d := d.poke (dest + 0) (d.aligned (value % 2))
  let d := d.poke (dest + 1) (d.aligned 0)
  let d := d.poke (dest + 2) (d.aligned 0)
  let d := d.poke (dest + 3) (d.aligned (((value &&& 2) / 2) * 3))
  let d := d.poke (dest + 320) (d.aligned 1)
  let d := d.poke (dest + 321) (d.aligned ((value &&& 4) / 4))
  let d := d.poke (dest + 322) (d.aligned (((value &&& 8) / 8) * 3))
  let d := d.poke (dest + 323) (d.aligned 3)
  let d := d.poke (dest + 640) (d.aligned 1)
  let d := d.poke (dest + 641) (d.aligned (1 + (value &&& 16) / 16))
  let d := d.poke (dest + 642) (d.aligned (2 + (value &&& 32) / 32))
  let d := d.poke (dest + 643) (d.aligned 3)
  let d := d.poke (dest + 960) (d.aligned (1 + (value &&& 64) / 64))
  let d := d.poke (dest + 961) (d.aligned 2)
  let d := d.poke (dest + 962) (d.aligned 2)
  let d := d.poke (dest + 963) (d.aligned (2 + (value &&& 128) / 128))
  (d.skipAligned 4, value / 256)

/-- The lookup pattern of a quadrant of a cross tile in the words of the specification, for
the base colours `c 0 .. c 3` and the selector bits `v 0 .. v 7`: its four rows, left to
right. -/
def crossRows (c v : Nat → Nat) : List (List Nat) :=
  [[c (v 0), c 0, c 0, c (3 * v 1)],
   [c 1, c (v 2), c (3 * v 3), c 3],
   [c 1, c (1 + v 4), c (2 + v 5), c 3],
   [c (1 + v 6), c 2, c 2, c (2 + v 7)]]

/-- Entry `q` of the source table `g_SplitTileOffsets`, as an offset into the image. -/
def quadrantOffset (q : Nat) : Int := ((g_SplitTileOffsets.getD q 0 : Nat) : Int)

/-- A decoder at the first tile of the 320 by 8 frame `rawFrame`, as `frameStart` leaves it:
the aligned stream holds the bytes 1, 2, ..., 64 and the rest of the input is zero. -/
def wideSample : Decoder := (frameStart (rawFrame (fun _ => 7))).dec

/-! ## Vocabulary of the block decodes -/

/-- The common shape of the eight block decodes of the source (`BlockDecodeHorizontal` to
`BlockBank1Decode3`): eight mask bytes from the aligned stream, one per outer turn `o`; at
inner turn `i` a set mask bit makes `step` take a new colour, and `store o i` puts the colour
of the state into the current buffer.  `τ` is the colour state carried through the tile. -/
def blockScan {τ : Type} (step : Decoder → τ → Decoder × τ) (colour : τ → Nat)
    (store : Nat → Nat → Decoder → Nat → Decoder) (init : τ) (d : Decoder) : Decoder × τ :=
  forN 8 (fun o (s : Decoder × τ) =>
      let a := s.1.aligned 0
      let d := s.1.skipAligned 1
      let r := forN 8 (fun i (p : Decoder × Nat × τ) =>
          let q : Decoder × τ := if p.2.1 % 2 = 1 then step p.1 p.2.2 else (p.1, p.2.2)
          (store o i q.1 (colour q.2), p.2.1 / 2, q.2))
        (d, a, s.2)
      (r.1, r.2.2))
    (d, init)

/-- The loops of the four Bank-1 block decodes of the source, as they are written there: the
outer loop carries the decoder, `last_color` and `flag`, the inner loop the decoder, `a`,
`last_color` and `flag`; `store o i` is the store of inner turn `i` of outer turn `o`. -/
def blockScanBank (bank : Nat) (store : Nat → Nat → Decoder → Nat → Decoder) (d : Decoder) :
    Decoder × Nat × Nat :=
  forN 8 (fun o (s : Decoder × Nat × Nat) =>
      let a := s.1.aligned 0
      let d := s.1.skipAligned 1
      let r := forN 8 (fun i (p : Decoder × Nat × Nat × Nat) =>
          let q : Decoder × Nat × Nat :=
            if p.2.1 % 2 = 1 then
              (if p.2.2.2 ≠ 0 then (p.1.skipUnaligned 1, p.1.unaligned 0 / 16, 0)
               else (p.1, p.1.unaligned 0 % 16, p.2.2.2 + 1))
            else (p.1, p.2.2.1, p.2.2.2)
          (store o i q.1 ((bank + q.2.1) % 256), p.2.1 / 2, q.2.1, q.2.2))
        (d, a, s.2.1, s.2.2)
      (r.1, r.2.2.1, r.2.2.2))
    (d, 0, 1)

/-- The store of the horizontal block decodes: `SetPixel(x, y, colour)` with `y` the outer and
`x` the inner loop variable. -/
def storeHorizontal (y x : Nat) (e : Decoder) (c : Nat) : Decoder := e.SetPixel x y c

/-- The store of the vertical block decodes: `SetPixel(x, y, colour)` with `x` the outer and
`y` the inner loop variable. -/
def storeVertical (x y : Nat) (e : Decoder) (c : Nat) : Decoder := e.SetPixel x y c

/-- The store of the diagonal block decodes: `m_CurrentTile[*offsets++] = colour`, the pointer
`offsets` reading entry `8 * y + x` of `table`. -/
def storeTable (table : List Nat) (y x : Nat) (e : Decoder) (c : Nat) : Decoder :=
  e.poke (e.m_CurrentTile + ((table.getD (8 * y + x) 0 : Nat) : Int)) c

/-- The step of the plain block decodes at a set mask bit: `last_color = *m_UnAlignedStream++`. -/
def byteStep (e : Decoder) (_last : Nat) : Decoder × Nat := (e.skipUnaligned 1, e.unaligned 0)

/-- The step of the Bank-1 block decodes at a set mask bit, on the pair of `last_color` and
`flag`. -/
def nibbleStep (e : Decoder) (t : Nat × Nat) : Decoder × Nat × Nat :=
  if t.2 ≠ 0 then (e.skipUnaligned 1, e.unaligned 0 / 16, 0)
  else (e, e.unaligned 0 % 16, t.2 + 1)

/-- Mask bit of position `j` (0 to 63) of a block decode whose mask bytes start at `al`: bit
`j mod 8` of byte `j / 8`, the least significant bit first. -/
def maskBit (mem : Nat → Nat) (al j : Nat) : Nat := u8 mem (al + j / 8) / 2 ^ (j % 8) % 2

/-- The number of set mask bits at the positions below `j`. -/
def setBits (mem : Nat → Nat) (al : Nat) : Nat → Nat
  | 0 => 0
  | j + 1 => setBits mem al j + maskBit mem al j

/-- The effect on a buffer of `n` stores, store `j` putting `val j` at `dest j`: the addresses
that no store hits keep their byte, and an address holds the value of the last store that hits
it. -/
def Scattered (dest : Nat → Int) (val : Nat → Nat) (old new : Int → Nat) (n : Nat) : Prop :=
  (∀ i, (∀ j, j < n → dest j ≠ i) → new i = old i) ∧
  (∀ j, j < n → (∀ k, j < k → k < n → dest k ≠ dest j) → new (dest j) = val j)

/-- The state of a block decode in front of position `j` (the positions 0 to 63 in traversal
order): `al` is the aligned cursor, the unaligned cursor and the colour state are those after
as many steps as there are set mask bits below `j`, and the buffer holds the `j` stores made so
far, store `k` putting at `A k` the colour of the state after position `k`. -/
def ScanInv {τ : Type} (d : Decoder) (st : Nat → τ) (un : Nat → Nat) (A : Nat → Int)
    (colour : τ → Nat) (j al : Nat) (e : Decoder) (t : τ) : Prop :=
  e.m_AlignedStream = al ∧
  e.m_UnAlignedStream = un (setBits d.mem d.m_AlignedStream j) ∧
  e.mem = d.mem ∧ e.m_CurrentTile = d.m_CurrentTile ∧ e.m_Width = d.m_Width ∧
  t = st (setBits d.mem d.m_AlignedStream j) ∧
  Scattered A (fun k => colour (st (setBits d.mem d.m_AlignedStream (k + 1))))
    d.m_CurrentBuffer.m_Buffer e.m_CurrentBuffer.m_Buffer j

/-- What a store function of a block decode does: `store o i` puts the colour at address
`A (8 * o + i)` of the current buffer and leaves the cursors alone. -/
def StoresAt (d : Decoder) (store : Nat → Nat → Decoder → Nat → Decoder) (A : Nat → Int) : Prop :=
  ∀ (o i : Nat) (e : Decoder) (c : Nat), o < 8 → i < 8 →
    e.m_CurrentTile = d.m_CurrentTile → e.m_Width = d.m_Width →
    (store o i e c).mem = e.mem ∧ (store o i e c).m_AlignedStream = e.m_AlignedStream ∧
    (store o i e c).m_UnAlignedStream = e.m_UnAlignedStream ∧
    (store o i e c).m_CurrentTile = e.m_CurrentTile ∧
    (store o i e c).m_Width = e.m_Width ∧
    ∀ k, (store o i e c).m_CurrentBuffer.m_Buffer k =
      if k = A (8 * o + i) then c else e.m_CurrentBuffer.m_Buffer k

/-- The variable `last_color` of a plain block decode after `c` set mask bits, the colour bytes
starting at `un`: 0 at first, then the `c`-th byte read. -/
def plainState (mem : Nat → Nat) (un c : Nat) : Nat :=
  if c = 0 then 0 else u8 mem (un + (c - 1))

/-- The colour of position `j` of a plain block decode with mask bytes at `al` and colour bytes
at `un`: the byte read for the latest set bit at a position up to `j`, the `k`-th set bit
reading the `k`-th byte, and 0 when no bit up to `j` is set. -/
def blockColour (mem : Nat → Nat) (al un j : Nat) : Nat :=
  plainState mem un (setBits mem al (j + 1))

/-- The colour state of the Bank-1 block decodes after `c` set mask bits: `last_color` and
`flag`.  The first nibble taken is the high nibble of the byte at `un`, the bank byte. -/
def bankState (mem : Nat → Nat) (un c : Nat) : Nat × Nat :=
  if c = 0 then (0, 1)
  else if c % 2 = 1 then (u8 mem (un + (c - 1) / 2) / 16, 0)
  else (u8 mem (un + c / 2) % 16, 1)

/-- The `k`-th new colour (`k` = 0, 1, 2, ...) of a Bank-1 block decode whose unaligned cursor
starts at `un`, as `last_color` receives it. -/
def bankNibble (mem : Nat → Nat) (un k : Nat) : Nat := (bankState mem un (k + 1)).1

/-- The `k`-th new colour of a Bank-1 block decode in the words of the specification: the low
nibble of `u[1 + k/2]` for even `k`, its high nibble for odd `k`. -/
def specNibble (mem : Nat → Nat) (un k : Nat) : Nat :=
  if k % 2 = 0 then u8 mem (un + (1 + k / 2)) % 16 else u8 mem (un + (1 + k / 2)) / 16

/-- The nibble that position `j` of a Bank-1 block decode shows: the new colour of the latest
set mask bit at a position up to `j`, and 0 when no bit up to `j` is set. -/
def currentNibble (mem : Nat → Nat) (al un j : Nat) : Nat :=
  if setBits mem al (j + 1) = 0 then 0 else bankNibble mem un (setBits mem al (j + 1) - 1)

/-- The pixel of position `j` of a Bank-1 block decode: `bank + last_color` as a byte, with
`bank = (u[0] << 4) mod 256`. -/
def bankColour (mem : Nat → Nat) (al un j : Nat) : Nat :=
  (u8 mem un * 16 % 256 + currentNibble mem al un j) % 256

/-- The index of the unaligned byte that holds the `k`-th new colour of a Bank-1 block
decode. -/
def nibbleByte (k : Nat) : Nat := if k % 2 = 0 then k / 2 else (k + 1) / 2

/-- The address of position `j` in the horizontal traversal: pixel `(j mod 8, j / 8)`. -/
def horizontalAddress (d : Decoder) (j : Nat) : Int :=
  d.m_CurrentTile + (((j % 8 : Nat) : Int) + ((j / 8 : Nat) : Int) * d.m_Width)

/-- The address of position `j` in the vertical traversal: pixel `(j / 8, j mod 8)`. -/
def verticalAddress (d : Decoder) (j : Nat) : Int :=
  d.m_CurrentTile + (((j / 8 : Nat) : Int) + ((j % 8 : Nat) : Int) * d.m_Width)

/-- The address of position `j` in a traversal along a table of offsets. -/
def tableAddress (table : List Nat) (d : Decoder) (j : Nat) : Int :=
  d.m_CurrentTile + ((table.getD j 0 : Nat) : Int)

/-- A decoder at the start of a 16x16 key frame, the current buffer all zero: the aligned stream
holds the bytes 1 to 64 and the unaligned stream the bytes 101 to 132, so every colour that a
split tile can store is positive. -/
def splitSample : Decoder :=
  (frameStart (sampleDecoder (chunkHeader "KeyFrame" 160 ++ [128, 0, 0, 0] ++
    List.replicate 60 0 ++ List.range' 1 64 ++ List.range' 101 32) 16 16 (fun _ => 0))).dec

/-! ## Two runs that differ in the current buffer -/

/-- The decoder `d` with the bytes of its current buffer replaced by `b`. -/
def Decoder.withBuffer (d : Decoder) (b : Int → Nat) : Decoder :=
  { d with m_CurrentBuffer := { d.m_CurrentBuffer with m_Buffer := b } }

/-- Position `i` of the current buffer is one of the 64 pixels `x + W * y` of the 8x8 tile at
`t`, the lines of the buffer `W` bytes apart. -/
def InTile (t W : Int) (i : Int) : Prop :=
  ∃ x y : Nat, x < 8 ∧ y < 8 ∧ i = t + ((x : Int) + (y : Int) * W)

/-- What a piece of code does to the current buffer, seen on two runs that start with the
buffers `c` and `b` and end with `c2` and `b2`: the positions in `P` end with the same byte in
both runs, the positions outside `Q` keep their byte in both runs, and a position where the
runs agreed before is one where they agree after. -/
def Touch (P Q : Int → Prop) (c b c2 b2 : Int → Nat) : Prop :=
  ∀ i, (P i → c2 i = b2 i) ∧ (¬ Q i → c2 i = c i ∧ b2 i = b i) ∧ (c i = b i → c2 i = b2 i)

/-- The sum `k 0 + ... + k (n - 1)`. -/
def sumTo (k : Nat → Nat) : Nat → Nat
  | 0 => 0
  | n + 1 => sumTo k n + k n

/-- The piece of code `F` on a decoder whose tile cursor is `t` and whose width is `W`: a run
from the same decoder with another current buffer ends in the same decoder up to the current
buffer, the tile cursor and the width stay, the aligned cursor moves by `k`, and the two
buffers are touched at `P` and `Q`. -/
def Tr (t W : Int) (k : Nat) (P Q : Int → Prop) (F : Decoder → Decoder) : Prop :=
  ∀ (e : Decoder) (b : Int → Nat), e.m_CurrentTile = t → e.m_Width = W →
    ∃ b2, F (e.withBuffer b) = (F e).withBuffer b2 ∧
      (F e).m_CurrentTile = t ∧ (F e).m_Width = W ∧
      (F e).m_AlignedStream = e.m_AlignedStream + k ∧
      Touch P Q e.m_CurrentBuffer.m_Buffer b (F e).m_CurrentBuffer.m_Buffer b2

/-- The same for a piece of code that carries local variables of type `τ` beside the
decoder. -/
def TrS {τ : Type} (t W : Int) (k : Nat) (P Q : Int → Prop)
    (G : Decoder × τ → Decoder × τ) : Prop :=
  ∀ (e : Decoder) (b : Int → Nat) (s : τ), e.m_CurrentTile = t → e.m_Width = W →
    ∃ b2, G (e.withBuffer b, s) = ((G (e, s)).1.withBuffer b2, (G (e, s)).2) ∧
      (G (e, s)).1.m_CurrentTile = t ∧ (G (e, s)).1.m_Width = W ∧
      (G (e, s)).1.m_AlignedStream = e.m_AlignedStream + k ∧
      Touch P Q e.m_CurrentBuffer.m_Buffer b (G (e, s)).1.m_CurrentBuffer.m_Buffer b2

/-- Position `i` is one of the 16 bytes of the 4x4 block at `D` in a buffer whose lines are `W`
bytes apart. -/
def InQuad (D W : Int) (i : Int) : Prop :=
  ∃ x y : Nat, x < 4 ∧ y < 4 ∧ i = D + ((x : Int) + (y : Int) * W)

/-- Position `i` is one of the bytes that the split-tile primitives store: pixel `(x, y)` of a
4x4 block whose rows are `W` bytes apart, at an offset of `g_SplitTileOffsets` from `t`. -/
def InSplit (t W : Int) (i : Int) : Prop :=
  ∃ a : Nat, a ∈ g_SplitTileOffsets ∧ ∃ y : Nat, y < 4 ∧ ∃ x : Nat, x < 4 ∧
    i = t + ((x : Int) + (y : Int) * W + (a : Int))

/-- The number of bytes of the aligned stream that the dispatch of opcode `op` consumes, base
primitive and overlay together. -/
def alignedAdvance (op : Nat) : Nat :=
  [64, 0, 4, 8, 8, 0, 4, 8, 8, 0, 4, 8, 8, 4, 8, 12, 12, 8, 12, 16, 16, 0, 4, 8, 8, 4, 8, 12, 12,
   8, 20, 24, 32, 16, 32, 24, 20, 8, 32, 40, 8, 8, 8, 8, 8, 8, 8, 8, 0, 4, 8, 8, 0, 4, 8, 8,
   8, 12, 16, 16, 8, 12, 16, 16].getD op 0

/-- What the dispatch of one opcode does, for a tile cursor `t` and a width `W`: it is a piece
of code that moves the aligned cursor by `k` and, when the width is 320, makes two runs agree
on every pixel of the tile and stores nothing outside the tile. -/
def TileStep (t W : Int) (k : Nat) (F : Decoder → Decoder) : Prop :=
  ∃ P Q : Int → Prop, Tr t W k P Q F ∧
    (W = 320 → ∀ i, (InTile t 320 i → P i) ∧ (Q i → InTile t 320 i))

/-! ## The loads of the aligned stream -/

/-- Source `TwoBanksTileDecode` with a record of the addresses of its 32-bit loads from the
aligned stream: every row loads `*(int32_t*)m_AlignedStream` and
`*(int32_t*)(m_AlignedStream + 4)` and then moves the cursor by 5.  The first component is the
decoder, the second the addresses in the order of the loads. -/
def TwoBanksTileDecodeLoads (d : Decoder) : Decoder × List Nat :=
  let bank0 := ((d.unaligned 0 % 16) * 16) % 256
  let bank1 := d.unaligned 0 &&& 0xf0
  let d := d.skipUnaligned 1
  forN 8 (fun y (s : Decoder × List Nat) =>
    let d := s.1
    let part1 := u32 d.mem d.m_AlignedStream
    let part2 := u32 d.mem (d.m_AlignedStream + 4)
    let loads := s.2 ++ [d.m_AlignedStream, d.m_AlignedStream + 4]
    let d := d.skipAligned 5
    ((forN 8 (fun x (p : Decoder × Nat × Nat) =>
        (p.1.SetPixel x y
            (((if (p.2.1 &&& 16) / 16 = 0 then bank0 else bank1) + p.2.1 % 16) % 256),
         (p.2.1 / 32) ||| ((p.2.2 * 134217728) % 4294967296),
         p.2.2 / 32))
      (d, part1, part2)).1, loads)) (d, [])

/-- Source `ThreeBitTileDecode` with a record of the addresses of its 32-bit loads from the
aligned stream: every row calls `ReadU32(m_AlignedStream, 3)`, which loads four bytes at the
cursor and moves it by 3. -/
def ThreeBitTileDecodeLoads (d : Decoder) : Decoder × List Nat :=
  let s := forN 8 (fun y (s : Decoder × List Nat) =>
    let d := s.1
    let r := ReadU32 d.mem d.m_AlignedStream 3
    let loads := s.2 ++ [d.m_AlignedStream]
    let d := d.withAligned r.2
    ((forN 8 (fun x (p : Decoder × Nat) =>
        (p.1.SetPixel x y (p.1.unaligned (p.2 % 8)), p.2 / 8))
      (d, r.1)).1, loads)) (d, [])
  (s.1.skipUnaligned 8, s.2)

/-- The state of the loops of `DecompressFrame` with the bytes of the current buffer replaced
by `b`. -/
def FrameLoop.withBuffer (s : FrameLoop) (b : Int → Nat) : FrameLoop :=
  { s with dec := s.dec.withBuffer b }

/-- An 8 by 8 key frame of one SingleColorFill tile (opcode 21) in a chunk that declares a
payload of 40 bytes, the addresses 12 to 51, and a `color_offset` of 100: the unaligned stream
starts at address 112, where the input holds the byte 77. -/
def farFillFrame : Decoder :=
  sampleDecoder (chunkHeader "KeyFrame" 40 ++ [100, 0, 0, 0, 21] ++ List.replicate 95 0 ++
    [77]) 8 8 (fun _ => 0)

/-- The input of `farFillFrame` with the byte at address 112 replaced by 78. -/
def farFillOtherByte : Nat → Nat := fun a => if a = 112 then 78 else farFillFrame.mem a

/-- The number of bytes that the tiles of a dispatch history take from the aligned stream: the
sum of `alignedAdvance` over the opcodes dispatched. -/
def alignedTotal (trace : List Dispatched) : Nat :=
  (trace.map (fun t => alignedAdvance t.opcode)).sum

/-- The decoder `e` has taken at least `k` bytes from the unaligned stream since `d`. -/
def Took (k : Nat) (d e : Decoder) : Prop := d.m_UnAlignedStream + k ≤ e.m_UnAlignedStream

/-- The least number of bytes that the dispatch of an opcode takes from the unaligned stream:
the bytes that its base primitive takes whatever the data are, and 3 or 6 more for an
`Update4` or `Update8` overlay.  The block decodes, `PrimeDecode` and `Update16` take one more
byte for each set bit (each second set bit, for the Bank-1 decodes) of their masks. -/
def unalignedLeast (op : Nat) : Nat :=
  [0, 0, 3, 6, 0, 1, 4, 7, 1, 2, 5, 8, 2, 0, 3, 6, 0, 0, 3, 6, 0, 1, 4, 7, 1, 0, 3, 6, 0,
   2, 0, 8, 16, 0, 0, 32, 0, 1, 1, 1, 0, 0, 0, 0, 1, 1, 1, 1, 2, 5, 8, 2, 2, 5, 8, 2,
   0, 3, 6, 0, 0, 3, 6, 0].getD op 0

/-- The sum of `unalignedLeast` over the opcodes of a dispatch history. -/
def unalignedTotal (trace : List Dispatched) : Nat :=
  (trace.map (fun t => unalignedLeast t.opcode)).sum
/-! ## What the tile primitives leave alone -/

theorem keeps_rfl (d : Decoder) : Keeps d d := by
  constructor <;> rfl

theorem keeps_trans {a b c : Decoder} (h : Keeps a b) (k : Keeps b c) : Keeps a c := by
  constructor
  · exact k.mem.trans h.mem
  · exact k.heap.trans h.heap
  · exact k.width.trans h.width
  · exact k.height.trans h.height
  · exact k.frameNumber.trans h.frameNumber
  · exact k.chunk.trans h.chunk
  · exact k.format.trans h.format
  · exact k.palette.trans h.palette
  · exact k.frameLen.trans h.frameLen
  · exact k.camera.trans h.camera
  · exact k.previousBuffer.trans h.previousBuffer
  · exact k.previousFrameBuffer.trans h.previousFrameBuffer
  · exact k.previousTile.trans h.previousTile
  · exact k.currentWidth.trans h.currentWidth
  · exact k.currentHeight.trans h.currentHeight
  · exact k.currentTile.trans h.currentTile
  · exact Nat.le_trans h.aligned k.aligned
  · exact Nat.le_trans h.unaligned k.unaligned
  · exact k.saved.trans h.saved

theorem keeps_poke {d e : Decoder} (a : Int) (v : Nat) (h : Keeps d e) : Keeps d (e.poke a v) :=
  keeps_trans h (by constructor <;> rfl)

theorem keeps_blit {d e : Decoder} (a : Int) (n : Nat) (g : Nat → Nat) (h : Keeps d e) :
    Keeps d (e.blit a n g) :=
  keeps_trans h (by constructor <;> rfl)

theorem keeps_memcpyPrev {d e : Decoder} (a b : Int) (n : Nat) (h : Keeps d e) :
    Keeps d (e.memcpyPrev a b n) := keeps_blit _ _ _ h

theorem keeps_memcpyStream {d e : Decoder} (a : Int) (b n : Nat) (h : Keeps d e) :
    Keeps d (e.memcpyStream a b n) := keeps_blit _ _ _ h

theorem keeps_memset {d e : Decoder} (a : Int) (c n : Nat) (h : Keeps d e) :
    Keeps d (e.memset a c n) := keeps_blit _ _ _ h

theorem keeps_SetPixel {d e : Decoder} (x y c : Nat) (h : Keeps d e) :
    Keeps d (e.SetPixel x y c) := keeps_poke _ _ h

theorem keeps_skipAligned {d e : Decoder} (n : Nat) (h : Keeps d e) :
    Keeps d (e.skipAligned n) :=
  keeps_trans h (by constructor <;> first | rfl | exact Nat.le_add_right _ _)

theorem keeps_skipUnaligned {d e : Decoder} (n : Nat) (h : Keeps d e) :
    Keeps d (e.skipUnaligned n) :=
  keeps_trans h (by constructor <;> first | rfl | exact Nat.le_add_right _ _)

theorem keeps_forN {d : Decoder} (n : Nat) (f : Nat → Decoder → Decoder)
    (hf : ∀ i e, Keeps d e → Keeps d (f i e)) {e : Decoder} (h : Keeps d e) :
    Keeps d (forN n f e) := by
  induction n with
  | zero => exact h
  | succ n ih => exact hf n _ ih

theorem keeps_forN_fst {τ : Type} {d : Decoder} (n : Nat)
    (f : Nat → Decoder × τ → Decoder × τ)
    (hf : ∀ i p, Keeps d p.1 → Keeps d (f i p).1) {p : Decoder × τ} (h : Keeps d p.1) :
    Keeps d (forN n f p).1 := by
  induction n with
  | zero => exact h
  | succ n ih => exact hf n _ ih

theorem keeps_foldl {α : Type} {d : Decoder} (l : List α) (f : Decoder → α → Decoder)
    (hf : ∀ e a, Keeps d e → Keeps d (f e a)) {e : Decoder} (h : Keeps d e) :
    Keeps d (l.foldl f e) := by
  induction l generalizing e with
  | nil => exact h
  | cons a l ih => exact ih (hf e a h)

theorem keeps_foldl_fst {α τ : Type} {d : Decoder} (l : List α)
    (f : Decoder × τ → α → Decoder × τ)
    (hf : ∀ p a, Keeps d p.1 → Keeps d (f p a).1) {p : Decoder × τ} (h : Keeps d p.1) :
    Keeps d (l.foldl f p).1 := by
  induction l generalizing p with
  | nil => exact h
  | cons a l ih => exact ih (hf p a h)

theorem keeps_Update4 {d e : Decoder} (h : Keeps d e) : Keeps d (Update4 e) := by
  unfold Update4
  apply keeps_forN_fst
  · intro i p hp
    apply keeps_skipAligned
    apply keeps_SetPixel
    exact hp
  · apply keeps_skipUnaligned
    exact h


theorem keeps_withAligned {d e : Decoder} (n : Nat) (hn : e.m_AlignedStream ≤ n)
    (h : Keeps d e) : Keeps d (e.withAligned n) :=
  keeps_trans h (by constructor <;> first | rfl | exact hn)

theorem keeps_withUnAligned {d e : Decoder} (n : Nat) (hn : e.m_UnAlignedStream ≤ n)
    (h : Keeps d e) : Keeps d (e.withUnAligned n) :=
  keeps_trans h (by constructor <;> first | rfl | exact hn)

theorem keeps_ite {d a b : Decoder} (c : Prop) [Decidable c] (ha : Keeps d a) (hb : Keeps d b) :
    Keeps d (if c then a else b) := by
  split
  · exact ha
  · exact hb

theorem keeps_BlockCopy8x8 {d e : Decoder} (a b : Int) (h : Keeps d e) :
    Keeps d (BlockCopy8x8 e a b) := by
  unfold BlockCopy8x8
  exact keeps_forN _ _ (fun _ _ hp => keeps_memcpyPrev _ _ _ hp) h

theorem keeps_BlockCopy4x4 {d e : Decoder} (a b : Int) (h : Keeps d e) :
    Keeps d (BlockCopy4x4 e a b) := by
  unfold BlockCopy4x4
  exact keeps_forN _ _ (fun _ _ hp => keeps_memcpyPrev _ _ _ hp) h

theorem keeps_Update8 {d e : Decoder} (h : Keeps d e) : Keeps d (Update8 e) := by
  unfold Update8
  repeat (first
    | with_reducible exact h
    | with_reducible assumption
    | intro _ _ _
    | with_reducible apply keeps_forN
    | with_reducible apply keeps_forN_fst
    | with_reducible apply keeps_foldl
    | with_reducible apply keeps_foldl_fst
    | with_reducible apply keeps_skipAligned
    | with_reducible apply keeps_skipUnaligned
    | with_reducible apply keeps_SetPixel
    | with_reducible apply keeps_poke
    | with_reducible apply keeps_memset
    | with_reducible apply keeps_memcpyStream
    | with_reducible apply keeps_BlockCopy8x8
    | with_reducible apply keeps_BlockCopy4x4
    | with_reducible apply keeps_Update4
    | with_reducible apply keeps_withAligned
    | with_reducible apply keeps_withUnAligned
    | with_reducible apply keeps_ite
    | exact Nat.le_add_right _ _
    | split)

theorem keeps_Update16 {d e : Decoder} (h : Keeps d e) : Keeps d (Update16 e) := by
  unfold Update16
  repeat (first
    | with_reducible exact h
    | with_reducible assumption
    | intro _ _ _
    | with_reducible apply keeps_forN
    | with_reducible apply keeps_forN_fst
    | with_reducible apply keeps_foldl
    | with_reducible apply keeps_foldl_fst
    | with_reducible apply keeps_skipAligned
    | with_reducible apply keeps_skipUnaligned
    | with_reducible apply keeps_SetPixel
    | with_reducible apply keeps_poke
    | with_reducible apply keeps_memset
    | with_reducible apply keeps_memcpyStream
    | with_reducible apply keeps_BlockCopy8x8
    | with_reducible apply keeps_BlockCopy4x4
    | with_reducible apply keeps_Update4
    | with_reducible apply keeps_withAligned
    | with_reducible apply keeps_withUnAligned
    | with_reducible apply keeps_ite
    | exact Nat.le_add_right _ _
    | split)

theorem keeps_ZeroMotionDecode {d e : Decoder} (h : Keeps d e) : Keeps d (ZeroMotionDecode e) := by
  unfold ZeroMotionDecode
  repeat (first
    | with_reducible exact h
    | with_reducible assumption
    | intro _ _ _
    | with_reducible apply keeps_forN
    | with_reducible apply keeps_forN_fst
    | with_reducible apply keeps_foldl
    | with_reducible apply keeps_foldl_fst
    | with_reducible apply keeps_skipAligned
    | with_reducible apply keeps_skipUnaligned
    | with_reducible apply keeps_SetPixel
    | with_reducible apply keeps_poke
    | with_reducible apply keeps_memset
    | with_reducible apply keeps_memcpyStream
    | with_reducible apply keeps_BlockCopy8x8
    | with_reducible apply keeps_BlockCopy4x4
    | with_reducible apply keeps_Update4
    | with_reducible apply keeps_withAligned
    | with_reducible apply keeps_withUnAligned
    | with_reducible apply keeps_ite
    | exact Nat.le_add_right _ _
    | split)

theorem keeps_ShortMotion8Decode {d e : Decoder} (h : Keeps d e) : Keeps d (ShortMotion8Decode e) := by
  unfold ShortMotion8Decode
  repeat (first
    | with_reducible exact h
    | with_reducible assumption
    | intro _ _ _
    | with_reducible apply keeps_forN
    | with_reducible apply keeps_forN_fst
    | with_reducible apply keeps_foldl
    | with_reducible apply keeps_foldl_fst
    | with_reducible apply keeps_skipAligned
    | with_reducible apply keeps_skipUnaligned
    | with_reducible apply keeps_SetPixel
    | with_reducible apply keeps_poke
    | with_reducible apply keeps_memset
    | with_reducible apply keeps_memcpyStream
    | with_reducible apply keeps_BlockCopy8x8
    | with_reducible apply keeps_BlockCopy4x4
    | with_reducible apply keeps_Update4
    | with_reducible apply keeps_withAligned
    | with_reducible apply keeps_withUnAligned
    | with_reducible apply keeps_ite
    | exact Nat.le_add_right _ _
    | split)

theorem keeps_ShortMotion4Decode {d e : Decoder} (h : Keeps d e) : Keeps d (ShortMotion4Decode e) := by
  unfold ShortMotion4Decode
  repeat (first
    | with_reducible exact h
    | with_reducible assumption
    | intro _ _ _
    | with_reducible apply keeps_forN
    | with_reducible apply keeps_forN_fst
    | with_reducible apply keeps_foldl
    | with_reducible apply keeps_foldl_fst
    | with_reducible apply keeps_skipAligned
    | with_reducible apply keeps_skipUnaligned
    | with_reducible apply keeps_SetPixel
    | with_reducible apply keeps_poke
    | with_reducible apply keeps_memset
    | with_reducible apply keeps_memcpyStream
    | with_reducible apply keeps_BlockCopy8x8
    | with_reducible apply keeps_BlockCopy4x4
    | with_reducible apply keeps_Update4
    | with_reducible apply keeps_withAligned
    | with_reducible apply keeps_withUnAligned
    | with_reducible apply keeps_ite
    | exact Nat.le_add_right _ _
    | split)

theorem keeps_Motion8Decode {d e : Decoder} (h : Keeps d e) : Keeps d (Motion8Decode e) := by
  unfold Motion8Decode
  repeat (first
    | with_reducible exact h
    | with_reducible assumption
    | intro _ _ _
    | with_reducible apply keeps_forN
    | with_reducible apply keeps_forN_fst
    | with_reducible apply keeps_foldl
    | with_reducible apply keeps_foldl_fst
    | with_reducible apply keeps_skipAligned
    | with_reducible apply keeps_skipUnaligned
    | with_reducible apply keeps_SetPixel
    | with_reducible apply keeps_poke
    | with_reducible apply keeps_memset
    | with_reducible apply keeps_memcpyStream
    | with_reducible apply keeps_BlockCopy8x8
    | with_reducible apply keeps_BlockCopy4x4
    | with_reducible apply keeps_Update4
    | with_reducible apply keeps_withAligned
    | with_reducible apply keeps_withUnAligned
    | with_reducible apply keeps_ite
    | exact Nat.le_add_right _ _
    | split)

theorem keeps_Motion4Decode {d e : Decoder} (h : Keeps d e) : Keeps d (Motion4Decode e) := by
  unfold Motion4Decode
  repeat (first
    | with_reducible exact h
    | with_reducible assumption
    | intro _ _ _
    | with_reducible apply keeps_forN
    | with_reducible apply keeps_forN_fst
    | with_reducible apply keeps_foldl
    | with_reducible apply keeps_foldl_fst
    | with_reducible apply keeps_skipAligned
    | with_reducible apply keeps_skipUnaligned
    | with_reducible apply keeps_SetPixel
    | with_reducible apply keeps_poke
    | with_reducible apply keeps_memset
    | with_reducible apply keeps_memcpyStream
    | with_reducible apply keeps_BlockCopy8x8
    | with_reducible apply keeps_BlockCopy4x4
    | with_reducible apply keeps_Update4
    | with_reducible apply keeps_withAligned
    | with_reducible apply keeps_withUnAligned
    | with_reducible apply keeps_ite
    | exact Nat.le_add_right _ _
    | split)

theorem keeps_ROMotion8Decode {d e : Decoder} (h : Keeps d e) : Keeps d (ROMotion8Decode e) := by
  unfold ROMotion8Decode
  repeat (first
    | with_reducible exact h
    | with_reducible assumption
    | intro _ _ _
    | with_reducible apply keeps_forN
    | with_reducible apply keeps_forN_fst
    | with_reducible apply keeps_foldl
    | with_reducible apply keeps_foldl_fst
    | with_reducible apply keeps_skipAligned
    | with_reducible apply keeps_skipUnaligned
    | with_reducible apply keeps_SetPixel
    | with_reducible apply keeps_poke
    | with_reducible apply keeps_memset
    | with_reducible apply keeps_memcpyStream
    | with_reducible apply keeps_BlockCopy8x8
    | with_reducible apply keeps_BlockCopy4x4
    | with_reducible apply keeps_Update4
    | with_reducible apply keeps_withAligned
    | with_reducible apply keeps_withUnAligned
    | with_reducible apply keeps_ite
    | exact Nat.le_add_right _ _
    | split)

theorem keeps_ROMotion4Decode {d e : Decoder} (h : Keeps d e) : Keeps d (ROMotion4Decode e) := by
  unfold ROMotion4Decode
  repeat (first
    | with_reducible exact h
    | with_reducible assumption
    | intro _ _ _
    | with_reducible apply keeps_forN
    | with_reducible apply keeps_forN_fst
    | with_reducible apply keeps_foldl
    | with_reducible apply keeps_foldl_fst
    | with_reducible apply keeps_skipAligned
    | with_reducible apply keeps_skipUnaligned
    | with_reducible apply keeps_SetPixel
    | with_reducible apply keeps_poke
    | with_reducible apply keeps_memset
    | with_reducible apply keeps_memcpyStream
    | with_reducible apply keeps_BlockCopy8x8
    | with_reducible apply keeps_BlockCopy4x4
    | with_reducible apply keeps_Update4
    | with_reducible apply keeps_withAligned
    | with_reducible apply keeps_withUnAligned
    | with_reducible apply keeps_ite
    | exact Nat.le_add_right _ _
    | split)

theorem keeps_RCMotion8Decode {d e : Decoder} (h : Keeps d e) : Keeps d (RCMotion8Decode e) := by
  unfold RCMotion8Decode
  repeat (first
    | with_reducible exact h
    | with_reducible assumption
    | intro _ _ _
    | with_reducible apply keeps_forN
    | with_reducible apply keeps_forN_fst
    | with_reducible apply keeps_foldl
    | with_reducible apply keeps_foldl_fst
    | with_reducible apply keeps_skipAligned
    | with_reducible apply keeps_skipUnaligned
    | with_reducible apply keeps_SetPixel
    | with_reducible apply keeps_poke
    | with_reducible apply keeps_memset
    | with_reducible apply keeps_memcpyStream
    | with_reducible apply keeps_BlockCopy8x8
    | with_reducible apply keeps_BlockCopy4x4
    | with_reducible apply keeps_Update4
    | with_reducible apply keeps_withAligned
    | with_reducible apply keeps_withUnAligned
    | with_reducible apply keeps_ite
    | exact Nat.le_add_right _ _
    | split)

theorem keeps_RCMotion4Decode {d e : Decoder} (h : Keeps d e) : Keeps d (RCMotion4Decode e) := by
  unfold RCMotion4Decode
  repeat (first
    | with_reducible exact h
    | with_reducible assumption
    | intro _ _ _
    | with_reducible apply keeps_forN
    | with_reducible apply keeps_forN_fst
    | with_reducible apply keeps_foldl
    | with_reducible apply keeps_foldl_fst
    | with_reducible apply keeps_skipAligned
    | with_reducible apply keeps_skipUnaligned
    | with_reducible apply keeps_SetPixel
    | with_reducible apply keeps_poke
    | with_reducible apply keeps_memset
    | with_reducible apply keeps_memcpyStream
    | with_reducible apply keeps_BlockCopy8x8
    | with_reducible apply keeps_BlockCopy4x4
    | with_reducible apply keeps_Update4
    | with_reducible apply keeps_withAligned
    | with_reducible apply keeps_withUnAligned
    | with_reducible apply keeps_ite
    | exact Nat.le_add_right _ _
    | split)

theorem keeps_SingleColorFillDecode {d e : Decoder} (h : Keeps d e) : Keeps d (SingleColorFillDecode e) := by
  unfold SingleColorFillDecode
  repeat (first
    | with_reducible exact h
    | with_reducible assumption
    | intro _ _ _
    | with_reducible apply keeps_forN
    | with_reducible apply keeps_forN_fst
    | with_reducible apply keeps_foldl
    | with_reducible apply keeps_foldl_fst
    | with_reducible apply keeps_skipAligned
    | with_reducible apply keeps_skipUnaligned
    | with_reducible apply keeps_SetPixel
    | with_reducible apply keeps_poke
    | with_reducible apply keeps_memset
    | with_reducible apply keeps_memcpyStream
    | with_reducible apply keeps_BlockCopy8x8
    | with_reducible apply keeps_BlockCopy4x4
    | with_reducible apply keeps_Update4
    | with_reducible apply keeps_withAligned
    | with_reducible apply keeps_withUnAligned
    | with_reducible apply keeps_ite
    | exact Nat.le_add_right _ _
    | split)

theorem keeps_FourColorFillDecode {d e : Decoder} (h : Keeps d e) : Keeps d (FourColorFillDecode e) := by
  unfold FourColorFillDecode
  repeat (first
    | with_reducible exact h
    | with_reducible assumption
    | intro _ _ _
    | with_reducible apply keeps_forN
    | with_reducible apply keeps_forN_fst
    | with_reducible apply keeps_foldl
    | with_reducible apply keeps_foldl_fst
    | with_reducible apply keeps_skipAligned
    | with_reducible apply keeps_skipUnaligned
    | with_reducible apply keeps_SetPixel
    | with_reducible apply keeps_poke
    | with_reducible apply keeps_memset
    | with_reducible apply keeps_memcpyStream
    | with_reducible apply keeps_BlockCopy8x8
    | with_reducible apply keeps_BlockCopy4x4
    | with_reducible apply keeps_Update4
    | with_reducible apply keeps_withAligned
    | with_reducible apply keeps_withUnAligned
    | with_reducible apply keeps_ite
    | exact Nat.le_add_right _ _
    | split)

theorem keeps_OneBitTileDecode {d e : Decoder} (h : Keeps d e) : Keeps d (OneBitTileDecode e) := by
  unfold OneBitTileDecode
  repeat (first
    | with_reducible exact h
    | with_reducible assumption
    | intro _ _ _
    | with_reducible apply keeps_forN
    | with_reducible apply keeps_forN_fst
    | with_reducible apply keeps_foldl
    | with_reducible apply keeps_foldl_fst
    | with_reducible apply keeps_skipAligned
    | with_reducible apply keeps_skipUnaligned
    | with_reducible apply keeps_SetPixel
    | with_reducible apply keeps_poke
    | with_reducible apply keeps_memset
    | with_reducible apply keeps_memcpyStream
    | with_reducible apply keeps_BlockCopy8x8
    | with_reducible apply keeps_BlockCopy4x4
    | with_reducible apply keeps_Update4
    | with_reducible apply keeps_withAligned
    | with_reducible apply keeps_withUnAligned
    | with_reducible apply keeps_ite
    | exact Nat.le_add_right _ _
    | split)

theorem keeps_TwoBitTileDecode {d e : Decoder} (h : Keeps d e) : Keeps d (TwoBitTileDecode e) := by
  unfold TwoBitTileDecode
  repeat (first
    | with_reducible exact h
    | with_reducible assumption
    | intro _ _ _
    | with_reducible apply keeps_forN
    | with_reducible apply keeps_forN_fst
    | with_reducible apply keeps_foldl
    | with_reducible apply keeps_foldl_fst
    | with_reducible apply keeps_skipAligned
    | with_reducible apply keeps_skipUnaligned
    | with_reducible apply keeps_SetPixel
    | with_reducible apply keeps_poke
    | with_reducible apply keeps_memset
    | with_reducible apply keeps_memcpyStream
    | with_reducible apply keeps_BlockCopy8x8
    | with_reducible apply keeps_BlockCopy4x4
    | with_reducible apply keeps_Update4
    | with_reducible apply keeps_withAligned
    | with_reducible apply keeps_withUnAligned
    | with_reducible apply keeps_ite
    | exact Nat.le_add_right _ _
    | split)

theorem keeps_ThreeBitTileDecode {d e : Decoder} (h : Keeps d e) : Keeps d (ThreeBitTileDecode e) := by
  unfold ThreeBitTileDecode
  repeat (first
    | with_reducible exact h
    | with_reducible assumption
    | intro _ _ _
    | with_reducible apply keeps_forN
    | with_reducible apply keeps_forN_fst
    | with_reducible apply keeps_foldl
    | with_reducible apply keeps_foldl_fst
    | with_reducible apply keeps_skipAligned
    | with_reducible apply keeps_skipUnaligned
    | with_reducible apply keeps_SetPixel
    | with_reducible apply keeps_poke
    | with_reducible apply keeps_memset
    | with_reducible apply keeps_memcpyStream
    | with_reducible apply keeps_BlockCopy8x8
    | with_reducible apply keeps_BlockCopy4x4
    | with_reducible apply keeps_Update4
    | with_reducible apply keeps_withAligned
    | with_reducible apply keeps_withUnAligned
    | with_reducible apply keeps_ite
    | exact Nat.le_add_right _ _
    | split)

theorem keeps_FourBitTileDecode {d e : Decoder} (h : Keeps d e) : Keeps d (FourBitTileDecode e) := by
  unfold FourBitTileDecode
  repeat (first
    | with_reducible exact h
    | with_reducible assumption
    | intro _ _ _
    | with_reducible apply keeps_forN
    | with_reducible apply keeps_forN_fst
    | with_reducible apply keeps_foldl
    | with_reducible apply keeps_foldl_fst
    | with_reducible apply keeps_skipAligned
    | with_reducible apply keeps_skipUnaligned
    | with_reducible apply keeps_SetPixel
    | with_reducible apply keeps_poke
    | with_reducible apply keeps_memset
    | with_reducible apply keeps_memcpyStream
    | with_reducible apply keeps_BlockCopy8x8
    | with_reducible apply keeps_BlockCopy4x4
    | with_reducible apply keeps_Update4
    | with_reducible apply keeps_withAligned
    | with_reducible apply keeps_withUnAligned
    | with_reducible apply keeps_ite
    | exact Nat.le_add_right _ _
    | split)

theorem keeps_OneBitSplitTileDecode {d e : Decoder} (h : Keeps d e) : Keeps d (OneBitSplitTileDecode e) := by
  unfold OneBitSplitTileDecode
  repeat (first
    | with_reducible exact h
    | with_reducible assumption
    | intro _ _ _
    | with_reducible apply keeps_forN
    | with_reducible apply keeps_forN_fst
    | with_reducible apply keeps_foldl
    | with_reducible apply keeps_foldl_fst
    | with_reducible apply keeps_skipAligned
    | with_reducible apply keeps_skipUnaligned
    | with_reducible apply keeps_SetPixel
    | with_reducible apply keeps_poke
    | with_reducible apply keeps_memset
    | with_reducible apply keeps_memcpyStream
    | with_reducible apply keeps_BlockCopy8x8
    | with_reducible apply keeps_BlockCopy4x4
    | with_reducible apply keeps_Update4
    | with_reducible apply keeps_withAligned
    | with_reducible apply keeps_withUnAligned
    | with_reducible apply keeps_ite
    | exact Nat.le_add_right _ _
    | split)

theorem keeps_TwoBitSplitTileDecode {d e : Decoder} (h : Keeps d e) : Keeps d (TwoBitSplitTileDecode e) := by
  unfold TwoBitSplitTileDecode
  repeat (first
    | with_reducible exact h
    | with_reducible assumption
    | intro _ _ _
    | with_reducible apply keeps_forN
    | with_reducible apply keeps_forN_fst
    | with_reducible apply keeps_foldl
    | with_reducible apply keeps_foldl_fst
    | with_reducible apply keeps_skipAligned
    | with_reducible apply keeps_skipUnaligned
    | with_reducible apply keeps_SetPixel
    | with_reducible apply keeps_poke
    | with_reducible apply keeps_memset
    | with_reducible apply keeps_memcpyStream
    | with_reducible apply keeps_BlockCopy8x8
    | with_reducible apply keeps_BlockCopy4x4
    | with_reducible apply keeps_Update4
    | with_reducible apply keeps_withAligned
    | with_reducible apply keeps_withUnAligned
    | with_reducible apply keeps_ite
    | exact Nat.le_add_right _ _
    | split)

theorem keeps_ThreeBitSplitTileDecode {d e : Decoder} (h : Keeps d e) : Keeps d (ThreeBitSplitTileDecode e) := by
  unfold ThreeBitSplitTileDecode
  repeat (first
    | with_reducible exact h
    | with_reducible assumption
    | intro _ _ _
    | with_reducible apply keeps_forN
    | with_reducible apply keeps_forN_fst
    | with_reducible apply keeps_foldl
    | with_reducible apply keeps_foldl_fst
    | with_reducible apply keeps_skipAligned
    | with_reducible apply keeps_skipUnaligned
    | with_reducible apply keeps_SetPixel
    | with_reducible apply keeps_poke
    | with_reducible apply keeps_memset
    | with_reducible apply keeps_memcpyStream
    | with_reducible apply keeps_BlockCopy8x8
    | with_reducible apply keeps_BlockCopy4x4
    | with_reducible apply keeps_Update4
    | with_reducible apply keeps_withAligned
    | with_reducible apply keeps_withUnAligned
    | with_reducible apply keeps_ite
    | exact Nat.le_add_right _ _
    | split)

theorem keeps_CrossDecode {d e : Decoder} (h : Keeps d e) : Keeps d (CrossDecode e) := by
  unfold CrossDecode
  repeat (first
    | with_reducible exact h
    | with_reducible assumption
    | intro _ _ _
    | with_reducible apply keeps_forN
    | with_reducible apply keeps_forN_fst
    | with_reducible apply keeps_foldl
    | with_reducible apply keeps_foldl_fst
    | with_reducible apply keeps_skipAligned
    | with_reducible apply keeps_skipUnaligned
    | with_reducible apply keeps_SetPixel
    | with_reducible apply keeps_poke
    | with_reducible apply keeps_memset
    | with_reducible apply keeps_memcpyStream
    | with_reducible apply keeps_BlockCopy8x8
    | with_reducible apply keeps_BlockCopy4x4
    | with_reducible apply keeps_Update4
    | with_reducible apply keeps_withAligned
    | with_reducible apply keeps_withUnAligned
    | with_reducible apply keeps_ite
    | exact Nat.le_add_right _ _
    | split)

theorem keeps_PrimeDecode {d e : Decoder} (h : Keeps d e) : Keeps d (PrimeDecode e) := by
  unfold PrimeDecode
  repeat (first
    | with_reducible exact h
    | with_reducible assumption
    | intro _ _ _
    | with_reducible apply keeps_forN
    | with_reducible apply keeps_forN_fst
    | with_reducible apply keeps_foldl
    | with_reducible apply keeps_foldl_fst
    | with_reducible apply keeps_skipAligned
    | with_reducible apply keeps_skipUnaligned
    | with_reducible apply keeps_SetPixel
    | with_reducible apply keeps_poke
    | with_reducible apply keeps_memset
    | with_reducible apply keeps_memcpyStream
    | with_reducible apply keeps_BlockCopy8x8
    | with_reducible apply keeps_BlockCopy4x4
    | with_reducible apply keeps_Update4
    | with_reducible apply keeps_withAligned
    | with_reducible apply keeps_withUnAligned
    | with_reducible apply keeps_ite
    | exact Nat.le_add_right _ _
    | split)

theorem keeps_RawTileDecode {d e : Decoder} (h : Keeps d e) : Keeps d (RawTileDecode e) := by
  unfold RawTileDecode
  repeat (first
    | with_reducible exact h
    | with_reducible assumption
    | intro _ _ _
    | with_reducible apply keeps_forN
    | with_reducible apply keeps_forN_fst
    | with_reducible apply keeps_foldl
    | with_reducible apply keeps_foldl_fst
    | with_reducible apply keeps_skipAligned
    | with_reducible apply keeps_skipUnaligned
    | with_reducible apply keeps_SetPixel
    | with_reducible apply keeps_poke
    | with_reducible apply keeps_memset
    | with_reducible apply keeps_memcpyStream
    | with_reducible apply keeps_BlockCopy8x8
    | with_reducible apply keeps_BlockCopy4x4
    | with_reducible apply keeps_Update4
    | with_reducible apply keeps_withAligned
    | with_reducible apply keeps_withUnAligned
    | with_reducible apply keeps_ite
    | exact Nat.le_add_right _ _
    | split)

theorem keeps_OneBankTileDecode {d e : Decoder} (h : Keeps d e) : Keeps d (OneBankTileDecode e) := by
  unfold OneBankTileDecode
  repeat (first
    | with_reducible exact h
    | with_reducible assumption
    | intro _ _ _
    | with_reducible apply keeps_forN
    | with_reducible apply keeps_forN_fst
    | with_reducible apply keeps_foldl
    | with_reducible apply keeps_foldl_fst
    | with_reducible apply keeps_skipAligned
    | with_reducible apply keeps_skipUnaligned
    | with_reducible apply keeps_SetPixel
    | with_reducible apply keeps_poke
    | with_reducible apply keeps_memset
    | with_reducible apply keeps_memcpyStream
    | with_reducible apply keeps_BlockCopy8x8
    | with_reducible apply keeps_BlockCopy4x4
    | with_reducible apply keeps_Update4
    | with_reducible apply keeps_withAligned
    | with_reducible apply keeps_withUnAligned
    | with_reducible apply keeps_ite
    | exact Nat.le_add_right _ _
    | split)

theorem keeps_TwoBanksTileDecode {d e : Decoder} (h : Keeps d e) : Keeps d (TwoBanksTileDecode e) := by
  unfold TwoBanksTileDecode
  repeat (first
    | with_reducible exact h
    | with_reducible assumption
    | intro _ _ _
    | with_reducible apply keeps_forN
    | with_reducible apply keeps_forN_fst
    | with_reducible apply keeps_foldl
    | with_reducible apply keeps_foldl_fst
    | with_reducible apply keeps_skipAligned
    | with_reducible apply keeps_skipUnaligned
    | with_reducible apply keeps_SetPixel
    | with_reducible apply keeps_poke
    | with_reducible apply keeps_memset
    | with_reducible apply keeps_memcpyStream
    | with_reducible apply keeps_BlockCopy8x8
    | with_reducible apply keeps_BlockCopy4x4
    | with_reducible apply keeps_Update4
    | with_reducible apply keeps_withAligned
    | with_reducible apply keeps_withUnAligned
    | with_reducible apply keeps_ite
    | exact Nat.le_add_right _ _
    | split)

theorem keeps_BlockDecodeHorizontal {d e : Decoder} (h : Keeps d e) : Keeps d (BlockDecodeHorizontal e) := by
  unfold BlockDecodeHorizontal
  repeat (first
    | with_reducible exact h
    | with_reducible assumption
    | intro _ _ _
    | with_reducible apply keeps_forN
    | with_reducible apply keeps_forN_fst
    | with_reducible apply keeps_foldl
    | with_reducible apply keeps_foldl_fst
    | with_reducible apply keeps_skipAligned
    | with_reducible apply keeps_skipUnaligned
    | with_reducible apply keeps_SetPixel
    | with_reducible apply keeps_poke
    | with_reducible apply keeps_memset
    | with_reducible apply keeps_memcpyStream
    | with_reducible apply keeps_BlockCopy8x8
    | with_reducible apply keeps_BlockCopy4x4
    | with_reducible apply keeps_Update4
    | with_reducible apply keeps_withAligned
    | with_reducible apply keeps_withUnAligned
    | with_reducible apply keeps_ite
    | exact Nat.le_add_right _ _
    | split)

theorem keeps_BlockDecodeVertical {d e : Decoder} (h : Keeps d e) : Keeps d (BlockDecodeVertical e) := by
  unfold BlockDecodeVertical
  repeat (first
    | with_reducible exact h
    | with_reducible assumption
    | intro _ _ _
    | with_reducible apply keeps_forN
    | with_reducible apply keeps_forN_fst
    | with_reducible apply keeps_foldl
    | with_reducible apply keeps_foldl_fst
    | with_reducible apply keeps_skipAligned
    | with_reducible apply keeps_skipUnaligned
    | with_reducible apply keeps_SetPixel
    | with_reducible apply keeps_poke
    | with_reducible apply keeps_memset
    | with_reducible apply keeps_memcpyStream
    | with_reducible apply keeps_BlockCopy8x8
    | with_reducible apply keeps_BlockCopy4x4
    | with_reducible apply keeps_Update4
    | with_reducible apply keeps_withAligned
    | with_reducible apply keeps_withUnAligned
    | with_reducible apply keeps_ite
    | exact Nat.le_add_right _ _
    | split)

theorem keeps_BlockDecode2 {d e : Decoder} (h : Keeps d e) : Keeps d (BlockDecode2 e) := by
  unfold BlockDecode2
  repeat (first
    | with_reducible exact h
    | with_reducible assumption
    | intro _ _ _
    | with_reducible apply keeps_forN
    | with_reducible apply keeps_forN_fst
    | with_reducible apply keeps_foldl
    | with_reducible apply keeps_foldl_fst
    | with_reducible apply keeps_skipAligned
    | with_reducible apply keeps_skipUnaligned
    | with_reducible apply keeps_SetPixel
    | with_reducible apply keeps_poke
    | with_reducible apply keeps_memset
    | with_reducible apply keeps_memcpyStream
    | with_reducible apply keeps_BlockCopy8x8
    | with_reducible apply keeps_BlockCopy4x4
    | with_reducible apply keeps_Update4
    | with_reducible apply keeps_withAligned
    | with_reducible apply keeps_withUnAligned
    | with_reducible apply keeps_ite
    | exact Nat.le_add_right _ _
    | split)

theorem keeps_BlockDecode3 {d e : Decoder} (h : Keeps d e) : Keeps d (BlockDecode3 e) := by
  unfold BlockDecode3
  repeat (first
    | with_reducible exact h
    | with_reducible assumption
    | intro _ _ _
    | with_reducible apply keeps_forN
    | with_reducible apply keeps_forN_fst
    | with_reducible apply keeps_foldl
    | with_reducible apply keeps_foldl_fst
    | with_reducible apply keeps_skipAligned
    | with_reducible apply keeps_skipUnaligned
    | with_reducible apply keeps_SetPixel
    | with_reducible apply keeps_poke
    | with_reducible apply keeps_memset
    | with_reducible apply keeps_memcpyStream
    | with_reducible apply keeps_BlockCopy8x8
    | with_reducible apply keeps_BlockCopy4x4
    | with_reducible apply keeps_Update4
    | with_reducible apply keeps_withAligned
    | with_reducible apply keeps_withUnAligned
    | with_reducible apply keeps_ite
    | exact Nat.le_add_right _ _
    | split)

theorem keeps_BlockBank1DecodeHorizontal {d e : Decoder} (h : Keeps d e) : Keeps d (BlockBank1DecodeHorizontal e) := by
  unfold BlockBank1DecodeHorizontal
  repeat (first
    | with_reducible exact h
    | with_reducible assumption
    | intro _ _ _
    | with_reducible apply keeps_forN
    | with_reducible apply keeps_forN_fst
    | with_reducible apply keeps_foldl
    | with_reducible apply keeps_foldl_fst
    | with_reducible apply keeps_skipAligned
    | with_reducible apply keeps_skipUnaligned
    | with_reducible apply keeps_SetPixel
    | with_reducible apply keeps_poke
    | with_reducible apply keeps_memset
    | with_reducible apply keeps_memcpyStream
    | with_reducible apply keeps_BlockCopy8x8
    | with_reducible apply keeps_BlockCopy4x4
    | with_reducible apply keeps_Update4
    | with_reducible apply keeps_withAligned
    | with_reducible apply keeps_withUnAligned
    | with_reducible apply keeps_ite
    | exact Nat.le_add_right _ _
    | split)

theorem keeps_BlockBank1DecodeVertical {d e : Decoder} (h : Keeps d e) : Keeps d (BlockBank1DecodeVertical e) := by
  unfold BlockBank1DecodeVertical
  repeat (first
    | with_reducible exact h
    | with_reducible assumption
    | intro _ _ _
    | with_reducible apply keeps_forN
    | with_reducible apply keeps_forN_fst
    | with_reducible apply keeps_foldl
    | with_reducible apply keeps_foldl_fst
    | with_reducible apply keeps_skipAligned
    | with_reducible apply keeps_skipUnaligned
    | with_reducible apply keeps_SetPixel
    | with_reducible apply keeps_poke
    | with_reducible apply keeps_memset
    | with_reducible apply keeps_memcpyStream
    | with_reducible apply keeps_BlockCopy8x8
    | with_reducible apply keeps_BlockCopy4x4
    | with_reducible apply keeps_Update4
    | with_reducible apply keeps_withAligned
    | with_reducible apply keeps_withUnAligned
    | with_reducible apply keeps_ite
    | exact Nat.le_add_right _ _
    | split)

theorem keeps_BlockBank1Decode2 {d e : Decoder} (h : Keeps d e) : Keeps d (BlockBank1Decode2 e) := by
  unfold BlockBank1Decode2
  repeat (first
    | with_reducible exact h
    | with_reducible assumption
    | intro _ _ _
    | with_reducible apply keeps_forN
    | with_reducible apply keeps_forN_fst
    | with_reducible apply keeps_foldl
    | with_reducible apply keeps_foldl_fst
    | with_reducible apply keeps_skipAligned
    | with_reducible apply keeps_skipUnaligned
    | with_reducible apply keeps_SetPixel
    | with_reducible apply keeps_poke
    | with_reducible apply keeps_memset
    | with_reducible apply keeps_memcpyStream
    | with_reducible apply keeps_BlockCopy8x8
    | with_reducible apply keeps_BlockCopy4x4
    | with_reducible apply keeps_Update4
    | with_reducible apply keeps_withAligned
    | with_reducible apply keeps_withUnAligned
    | with_reducible apply keeps_ite
    | exact Nat.le_add_right _ _
    | split)

theorem keeps_BlockBank1Decode3 {d e : Decoder} (h : Keeps d e) : Keeps d (BlockBank1Decode3 e) := by
  unfold BlockBank1Decode3
  repeat (first
    | with_reducible exact h
    | with_reducible assumption
    | intro _ _ _
    | with_reducible apply keeps_forN
    | with_reducible apply keeps_forN_fst
    | with_reducible apply keeps_foldl
    | with_reducible apply keeps_foldl_fst
    | with_reducible apply keeps_skipAligned
    | with_reducible apply keeps_skipUnaligned
    | with_reducible apply keeps_SetPixel
    | with_reducible apply keeps_poke
    | with_reducible apply keeps_memset
    | with_reducible apply keeps_memcpyStream
    | with_reducible apply keeps_BlockCopy8x8
    | with_reducible apply keeps_BlockCopy4x4
    | with_reducible apply keeps_Update4
    | with_reducible apply keeps_withAligned
    | with_reducible apply keeps_withUnAligned
    | with_reducible apply keeps_ite
    | exact Nat.le_add_right _ _
    | split)


theorem keeps_dispatch (op : Nat) {d e : Decoder} (h : Keeps d e) :
    Keeps d (dispatch op e) := by
  unfold dispatch
  split <;> repeat (first
    | with_reducible exact h
    | with_reducible apply keeps_Update4
    | with_reducible apply keeps_Update8
    | with_reducible apply keeps_Update16
    | with_reducible apply keeps_ZeroMotionDecode
    | with_reducible apply keeps_ShortMotion8Decode
    | with_reducible apply keeps_ShortMotion4Decode
    | with_reducible apply keeps_Motion8Decode
    | with_reducible apply keeps_Motion4Decode
    | with_reducible apply keeps_ROMotion8Decode
    | with_reducible apply keeps_ROMotion4Decode
    | with_reducible apply keeps_RCMotion8Decode
    | with_reducible apply keeps_RCMotion4Decode
    | with_reducible apply keeps_SingleColorFillDecode
    | with_reducible apply keeps_FourColorFillDecode
    | with_reducible apply keeps_OneBitTileDecode
    | with_reducible apply keeps_TwoBitTileDecode
    | with_reducible apply keeps_ThreeBitTileDecode
    | with_reducible apply keeps_FourBitTileDecode
    | with_reducible apply keeps_OneBitSplitTileDecode
    | with_reducible apply keeps_TwoBitSplitTileDecode
    | with_reducible apply keeps_ThreeBitSplitTileDecode
    | with_reducible apply keeps_CrossDecode
    | with_reducible apply keeps_PrimeDecode
    | with_reducible apply keeps_RawTileDecode
    | with_reducible apply keeps_OneBankTileDecode
    | with_reducible apply keeps_TwoBanksTileDecode
    | with_reducible apply keeps_BlockDecodeHorizontal
    | with_reducible apply keeps_BlockDecodeVertical
    | with_reducible apply keeps_BlockDecode2
    | with_reducible apply keeps_BlockDecode3
    | with_reducible apply keeps_BlockBank1DecodeHorizontal
    | with_reducible apply keeps_BlockBank1DecodeVertical
    | with_reducible apply keeps_BlockBank1Decode2
    | with_reducible apply keeps_BlockBank1Decode3)

/-! ## The opcode register -/

theorem u8_lt (mem : Nat → Nat) (a : Nat) : u8 mem a < 256 := Nat.mod_lt _ (by decide)

theorem u24_lt (mem : Nat → Nat) (a : Nat) : u24 mem a < 16777216 := by
  have h0 := u8_lt mem a
  have h1 := u8_lt mem (a + 1)
  have h2 := u8_lt mem (a + 2)
  unfold u24
  omega

theorem u32_eq_u24 (mem : Nat → Nat) (a : Nat) :
    u32 mem a = 2 ^ 24 * u8 mem (a + 3) + u24 mem a := by
  unfold u32 u24
  omega

theorem lor_high_byte (hi : Nat) (h : hi < 256) : 2 ^ 24 * hi ||| 0xff000000 = 2 ^ 24 * 255 := by
  interval_cases hi <;> rfl

theorem lor_ff000000 (lo hi : Nat) (hlo : lo < 2 ^ 24) (hhi : hi < 256) :
    (2 ^ 24 * hi + lo) ||| 0xff000000 = 4278190080 + lo := by
  rw [Nat.mul_add_lt_is_or hlo, Nat.lor_assoc, Nat.lor_comm lo, ← Nat.lor_assoc,
    lor_high_byte hi hhi, ← Nat.mul_add_lt_is_or hlo]

theorem reload_eq (mem : Nat → Nat) (p : Nat) :
    reload mem p = (u24 mem p : Int) - 16777216 := by
  have h := u24_lt mem p
  unfold reload
  rw [u32_eq_u24, lor_ff000000 _ _ (by simpa using h) (u8_lt _ _)]
  unfold toS32
  push_cast
  omega


/-- One turn of the opcode register. -/
theorem register_step (mem : Nat → Nat) (base k : Nat)
    (hk : k % 4 = 0 ∨ opcodeField mem base k ≠ 63) (f : Int)
    (hf : f = if codesAt mem base k = -1 then reload mem (ptrAt base k) else codesAt mem base k) :
    (f % 64).toNat = opcodeField mem base k ∧ f / 64 = codesAt mem base (k + 1) ∧
      (if codesAt mem base k = -1 then ptrAt base k + 3 else ptrAt base k) = ptrAt base (k + 1) := by
  have hv := u24_lt mem (base + 3 * (k / 4))
  have hj : k % 4 = 0 ∨ k % 4 = 1 ∨ k % 4 = 2 ∨ k % 4 = 3 := by omega
  have hp1 : ptrAt base (k + 1) = base + 3 * (k / 4) + 3 := by
    unfold ptrAt; omega
  unfold opcodeField at hk ⊢
  unfold codesAt at hf ⊢
  rw [hp1]
  rcases hj with h | h | h | h
  · have h1 : (k + 1) % 4 = 1 := by omega
    have hq : (k + 1) / 4 = k / 4 := by omega
    have hp : ptrAt base k = base + 3 * (k / 4) := by unfold ptrAt; omega
    simp only [h, h1, hp, hq, reload_eq] at hf ⊢
    generalize u24 mem (base + 3 * (k / 4)) = v at *
    norm_num at hf ⊢
    subst hf
    omega
  · have h1 : (k + 1) % 4 = 2 := by omega
    have hq : (k + 1) / 4 = k / 4 := by omega
    have hp : ptrAt base k = base + 3 * (k / 4) + 3 := by unfold ptrAt; omega
    simp only [h, h1, hp, hq, reload_eq] at hf hk ⊢
    generalize u24 mem (base + 3 * (k / 4)) = v at *
    generalize u24 mem (base + 3 * (k / 4) + 3) = v2 at *
    norm_num at hf hk ⊢
    have hc : ¬ (((v : Int) - 16777216) / 64 = -1) := by omega
    rw [if_neg hc] at hf
    subst hf
    omega
  · have h1 : (k + 1) % 4 = 3 := by omega
    have hq : (k + 1) / 4 = k / 4 := by omega
    have hp : ptrAt base k = base + 3 * (k / 4) + 3 := by unfold ptrAt; omega
    simp only [h, h1, hp, hq, reload_eq] at hf hk ⊢
    generalize u24 mem (base + 3 * (k / 4)) = v at *
    generalize u24 mem (base + 3 * (k / 4) + 3) = v2 at *
    norm_num at hf hk ⊢
    have hc : ¬ (((v : Int) - 16777216) / 4096 = -1) := by omega
    rw [if_neg hc] at hf
    subst hf
    omega
  · have h1 : (k + 1) % 4 = 0 := by omega
    have hp : ptrAt base k = base + 3 * (k / 4) + 3 := by unfold ptrAt; omega
    simp only [h, h1, hp, reload_eq] at hf hk ⊢
    generalize u24 mem (base + 3 * (k / 4)) = v at *
    generalize u24 mem (base + 3 * (k / 4) + 3) = v2 at *
    norm_num at hf hk ⊢
    have hc : ¬ (((v : Int) - 16777216) / 262144 = -1) := by omega
    rw [if_neg hc] at hf
    subst hf
    omega


/-! ## The loops of the frame decoder -/

theorem keeps_withTiles {d e : Decoder} (h : Keeps d e) (a b : Int) :
    Keeps (d.withTiles a b) (e.withTiles a b) := by
  constructor
  · exact h.mem
  · exact h.heap
  · exact h.width
  · exact h.height
  · exact h.frameNumber
  · exact h.chunk
  · exact h.format
  · exact h.palette
  · exact h.frameLen
  · exact h.camera
  · exact h.previousBuffer
  · exact h.previousFrameBuffer
  · rfl
  · exact h.currentWidth
  · exact h.currentHeight
  · rfl
  · exact h.aligned
  · exact h.unaligned
  · exact h.saved

theorem tileStep_codes (s : FrameLoop) : (tileStep s).codes = fetched s / 64 := by
  by_cases h : s.codes = -1 <;> simp [tileStep, fetched, h]

theorem tileStep_ptr (s : FrameLoop) :
    (tileStep s).ptr_opcode = if s.codes = -1 then s.ptr_opcode + 3 else s.ptr_opcode := by
  by_cases h : s.codes = -1 <;> simp [tileStep, h]

theorem tileStep_trace (s : FrameLoop) :
    (tileStep s).trace =
      s.trace ++ [⟨(fetched s % 64).toNat, s.dec.m_CurrentTile, s.dec.m_PreviousTile⟩] := by
  by_cases h : s.codes = -1 <;> simp [tileStep, fetched, h]

theorem tileStep_dec (s : FrameLoop) :
    (tileStep s).dec =
      (dispatch (fetched s % 64).toNat s.dec).withTiles
        (s.dec.m_CurrentTile + 8) (s.dec.m_PreviousTile + 8) := by
  have k := keeps_dispatch (fetched s % 64).toNat (keeps_rfl s.dec)
  have h1 := k.currentTile
  have h2 := k.previousTile
  unfold fetched at k h1 h2 ⊢
  by_cases h : s.codes = -1
  · simp only [h, if_true] at h1 h2 ⊢
    simp [tileStep, Decoder.withTiles, h, h1, h2]
  · simp only [h, if_false] at h1 h2 ⊢
    simp [tileStep, Decoder.withTiles, h, h1, h2]

theorem tileStep_keeps (s : FrameLoop) :
    Keeps (s.dec.withTiles (s.dec.m_CurrentTile + 8) (s.dec.m_PreviousTile + 8))
      (tileStep s).dec := by
  rw [tileStep_dec]
  exact keeps_withTiles (keeps_dispatch _ (keeps_rfl s.dec)) _ _


theorem tdiv_eight (w8 : Nat) : (Int.tdiv (8 * (w8 : Int)) 8).toNat = w8 := by
  rw [Int.tdiv_eq_ediv (by omega) (by omega)]
  omega

theorem rasterOffset_eq (width : Int) (w8 ty tx : Nat) (h : tx < w8) :
    rasterOffset width w8 (ty * w8 + tx) = tileOffset width tx ty := by
  unfold rasterOffset
  have h1 : (ty * w8 + tx) % w8 = tx := by
    rw [Nat.add_comm, Nat.add_mul_mod_self_right, Nat.mod_eq_of_lt h]
  have h2 : (ty * w8 + tx) / w8 = ty := by
    rw [Nat.add_comm, Nat.add_mul_div_right _ _ (by omega), Nat.div_eq_of_lt h, Nat.zero_add]
  rw [h1, h2]

/-- Induction over the two nested loops of `DecompressFrame`. -/
theorem frame_induction (w8 : Nat) (P : Nat → Nat → FrameLoop → Prop)
    (hw : ∀ ty s, P ty 0 s → (Int.tdiv s.dec.m_Width 8).toNat = w8)
    (htile : ∀ ty tx s, tx < w8 → P ty tx s → P ty (tx + 1) (tileStep s))
    (hrow : ∀ ty s, P ty w8 s → P (ty + 1) 0 (rowEnd s))
    (s : FrameLoop) (h0 : P 0 0 s) (n : Nat) : P n 0 (rowStep^[n] s) := by
  induction n with
  | zero => exact h0
  | succ n ih =>
    rw [Function.iterate_succ_apply']
    have inner : ∀ m, m ≤ w8 → P n m (tileStep^[m] (rowStep^[n] s)) := by
      intro m
      induction m with
      | zero => intro _; exact ih
      | succ m ihm =>
        intro hm
        rw [Function.iterate_succ_apply']
        exact htile n m _ (by omega) (ihm (by omega))
    have e : rowStep (rowStep^[n] s) = rowEnd (tileStep^[w8] (rowStep^[n] s)) := by
      rw [← hw n _ ih]
      rfl
    rw [e]
    exact hrow n _ (inner w8 (Nat.le_refl _))

theorem frameInv_start (d : Decoder) (w8 : Nat) :
    FrameInv (frameStart d).dec w8 0 0 (frameStart d) := by
  constructor
  · exact keeps_rfl _
  · simp [frameStart, tileOffset]
  · simp [frameStart, tileOffset]
  · simp [frameStart]
  · simp [frameStart]

theorem frameInv_count {d0 : Decoder} {w8 ty tx : Nat} {s : FrameLoop}
    (hW : d0.m_Width = 8 * (w8 : Int)) (h : FrameInv d0 w8 ty tx s) :
    (Int.tdiv s.dec.m_Width 8).toNat = w8 := by
  have := h.keeps.width
  simp only [Decoder.withTiles] at this
  rw [this, hW, tdiv_eight]

theorem frameInv_tile {d0 : Decoder} {w8 ty tx : Nat} {s : FrameLoop} (htx : tx < w8)
    (h : FrameInv d0 w8 ty tx s) : FrameInv d0 w8 ty (tx + 1) (tileStep s) := by
  have k := tileStep_keeps s
  have hc : (tileStep s).dec.m_CurrentTile = s.dec.m_CurrentTile + 8 := k.currentTile
  have hp : (tileStep s).dec.m_PreviousTile = s.dec.m_PreviousTile + 8 := k.previousTile
  constructor
  · rw [hc, hp]
    exact keeps_trans (keeps_withTiles h.keeps _ _) k
  · rw [hc, h.currentTile]
    simp only [tileOffset]
    push_cast
    ring
  · rw [hp, h.previousTile]
    simp only [tileOffset]
    push_cast
    ring
  · rw [tileStep_trace, List.map_append, h.currentTiles, ← Nat.add_assoc, List.range_succ,
      List.map_append, List.map_singleton, List.map_singleton, rasterOffset_eq _ _ _ _ htx,
      h.currentTile]
  · rw [tileStep_trace, List.map_append, h.previousTiles, ← Nat.add_assoc, List.range_succ,
      List.map_append, List.map_singleton, List.map_singleton, rasterOffset_eq _ _ _ _ htx,
      h.previousTile]

theorem frameInv_row {d0 : Decoder} {w8 ty : Nat} {s : FrameLoop}
    (hW : d0.m_Width = 8 * (w8 : Int)) (h : FrameInv d0 w8 ty w8 s) :
    FrameInv d0 w8 (ty + 1) 0 (rowEnd s) := by
  have hw : s.dec.m_Width = d0.m_Width := h.keeps.width
  constructor
  · exact keeps_withTiles h.keeps _ _
  · show s.dec.m_CurrentTile + s.dec.m_Width * 7 = _
    rw [h.currentTile, hw, hW]
    simp only [tileOffset]
    push_cast
    ring
  · show s.dec.m_PreviousTile + s.dec.m_Width * 7 = _
    rw [h.previousTile, hw, hW]
    simp only [tileOffset]
    push_cast
    ring
  · have e : (ty + 1) * w8 + 0 = ty * w8 + w8 := by ring
    rw [e]
    exact h.currentTiles
  · have e : (ty + 1) * w8 + 0 = ty * w8 + w8 := by ring
    rw [e]
    exact h.previousTiles

/-- The invariant `FrameInv` holds when the loops of `DecompressFrame` end. -/
theorem frameLoop_inv (d : Decoder) (w8 : Nat) (hW : d.m_Width = 8 * (w8 : Int)) :
    FrameInv (frameStart d).dec w8 (Int.tdiv d.m_Height 8).toNat 0 (frameLoop d) := by
  have hW0 : (frameStart d).dec.m_Width = 8 * (w8 : Int) := hW
  exact frame_induction w8 (FrameInv (frameStart d).dec w8)
    (fun _ _ h => frameInv_count hW0 h) (fun _ _ _ htx h => frameInv_tile htx h)
    (fun _ _ h => frameInv_row hW0 h)
    _ (frameInv_start d w8) _


/-! ## Loops that write one row per turn -/

/-- A loop whose turn `r` stores `val r` over the addresses `dest r ≤ i < dest r + len` of the
current buffer: addresses outside every row keep their byte, and an address holds the value of
the last row that covers it. -/
theorem forN_rows (I : Nat → Decoder → Prop) (body : Nat → Decoder → Decoder)
    (dest : Nat → Int) (len : Int) (val : Nat → Int → Nat)
    (hbody : ∀ r e, I r e → I (r + 1) (body r e) ∧
      ∀ i, (body r e).m_CurrentBuffer.m_Buffer i =
        if dest r ≤ i ∧ i < dest r + len then val r i else e.m_CurrentBuffer.m_Buffer i)
    (d : Decoder) (h0 : I 0 d) (n : Nat) :
    I n (forN n body d) ∧
    (∀ i, (∀ r, r < n → ¬ (dest r ≤ i ∧ i < dest r + len)) →
      (forN n body d).m_CurrentBuffer.m_Buffer i = d.m_CurrentBuffer.m_Buffer i) ∧
    (∀ r i, r < n → (dest r ≤ i ∧ i < dest r + len) →
      (∀ q, r < q → q < n → ¬ (dest q ≤ i ∧ i < dest q + len)) →
      (forN n body d).m_CurrentBuffer.m_Buffer i = val r i) := by
  induction n with
  | zero =>
    refine ⟨h0, fun i _ => rfl, fun r i hr => ?_⟩
    omega
  | succ n ih =>
    obtain ⟨hI, hout, hin⟩ := ih
    obtain ⟨hI', hb⟩ := hbody n _ hI
    refine ⟨hI', ?_, ?_⟩
    · intro i hi
      show (body n (forN n body d)).m_CurrentBuffer.m_Buffer i = _
      rw [hb, if_neg (hi n (Nat.lt_succ_self n))]
      exact hout i (fun r hr => hi r (Nat.lt_succ_of_lt hr))
    · intro r i hr hri hlast
      show (body n (forN n body d)).m_CurrentBuffer.m_Buffer i = _
      rw [hb]
      by_cases hn : r = n
      · subst hn
        rw [if_pos hri]
      · have hrn : r < n := by omega
        rw [if_neg (hlast n hrn (Nat.lt_succ_self n))]
        exact hin r i hrn hri (fun q hq hqn => hlast q hq (Nat.lt_succ_of_lt hqn))

/-- Rows of eight bytes that start `width ≥ 8` bytes apart do not overlap. -/
theorem rows_disjoint (t width : Int) (hW : 8 ≤ width) (r q : Nat) (h : r < q) (i : Int)
    (hi : t + (r : Int) * width ≤ i ∧ i < t + (r : Int) * width + 8) :
    ¬ (t + (q : Int) * width ≤ i ∧ i < t + (q : Int) * width + 8) := by
  have h1 : ((r : Int) + 1) * width ≤ (q : Int) * width :=
    Int.mul_le_mul_of_nonneg_right (by omega) (by omega)
  have h2 : ((r : Int) + 1) * width = (r : Int) * width + width := by ring
  omega


/-- What `RawTileDecode` does: the aligned cursor moves by 64, the unaligned cursor stays,
bytes outside the eight rows of the tile keep their value, and when the rows do not overlap
pixel `(c, r)` of the tile is aligned byte `8 * r + c`. -/
theorem RawTileDecode_spec (d : Decoder) :
    (RawTileDecode d).m_AlignedStream = d.m_AlignedStream + 64 ∧
    (RawTileDecode d).m_UnAlignedStream = d.m_UnAlignedStream ∧
    (∀ i, (∀ r : Nat, r < 8 → ¬ (d.m_CurrentTile + (r : Int) * d.m_Width ≤ i ∧
        i < d.m_CurrentTile + (r : Int) * d.m_Width + 8)) →
      (RawTileDecode d).m_CurrentBuffer.m_Buffer i = d.m_CurrentBuffer.m_Buffer i) ∧
    (8 ≤ d.m_Width → ∀ r c : Nat, r < 8 → c < 8 →
      (RawTileDecode d).m_CurrentBuffer.m_Buffer
          (d.m_CurrentTile + ((c : Int) + (r : Int) * d.m_Width)) = d.aligned (8 * r + c)) := by
  have key := forN_rows
    (fun r e => e.m_AlignedStream = d.m_AlignedStream + 8 * r ∧
      e.m_UnAlignedStream = d.m_UnAlignedStream ∧ e.mem = d.mem ∧
      e.m_CurrentTile = d.m_CurrentTile ∧ e.m_Width = d.m_Width)
    (fun y d =>
      (d.memcpyStream (d.m_CurrentTile + (y : Int) * d.m_Width) d.m_AlignedStream 8).skipAligned 8)
    (fun r => d.m_CurrentTile + (r : Int) * d.m_Width) 8
    (fun r i => u8 d.mem (d.m_AlignedStream + 8 * r +
      (i - (d.m_CurrentTile + (r : Int) * d.m_Width)).toNat))
    (by
      rintro r e ⟨h1, h2, h3, h4, h5⟩
      refine ⟨⟨?_, h2, h3, h4, h5⟩, fun i => ?_⟩
      · show e.m_AlignedStream + 8 = _
        omega
      · show (if _ then _ else _) = _
        rw [h1, h3, h4, h5]
        rfl)
    d ⟨rfl, rfl, rfl, rfl, rfl⟩ 8
  obtain ⟨⟨h1, h2, -⟩, hout, hin⟩ := key
  unfold RawTileDecode
  refine ⟨?_, ?_, ?_, fun hW r c hr hc => ?_⟩
  · rw [h1]
  · rw [h2]
  · exact hout
  have e := hin r (d.m_CurrentTile + ((c : Int) + (r : Int) * d.m_Width)) hr
    (by constructor <;> omega)
    (fun q hq _ => rows_disjoint _ _ hW r q hq _ (by constructor <;> omega))
  have idx : (d.m_CurrentTile + ((c : Int) + (r : Int) * d.m_Width) -
      (d.m_CurrentTile + (r : Int) * d.m_Width)).toNat = c := by omega
  rw [e, idx, Nat.add_assoc]
  rfl

/-- What `BlockCopy8x8` does: both data cursors stay, bytes outside the eight rows at `dest`
keep their value, and when the rows do not overlap byte `(c, r)` of the block at `dest` is
byte `(c, r)` of the block at `source` in the previous buffer. -/
theorem BlockCopy8x8_spec (d : Decoder) (dest source : Int) :
    (BlockCopy8x8 d dest source).m_AlignedStream = d.m_AlignedStream ∧
    (BlockCopy8x8 d dest source).m_UnAlignedStream = d.m_UnAlignedStream ∧
    (∀ i, (∀ r : Nat, r < 8 → ¬ (dest + (r : Int) * d.m_Width ≤ i ∧
        i < dest + (r : Int) * d.m_Width + 8)) →
      (BlockCopy8x8 d dest source).m_CurrentBuffer.m_Buffer i = d.m_CurrentBuffer.m_Buffer i) ∧
    (8 ≤ d.m_Width → ∀ r c : Nat, r < 8 → c < 8 →
      (BlockCopy8x8 d dest source).m_CurrentBuffer.m_Buffer
          (dest + ((c : Int) + (r : Int) * d.m_Width)) =
        d.m_PreviousBuffer.m_Buffer (source + ((c : Int) + (r : Int) * d.m_Width))) := by
  have key := forN_rows
    (fun _ e => e.m_AlignedStream = d.m_AlignedStream ∧
      e.m_UnAlignedStream = d.m_UnAlignedStream ∧ e.m_PreviousBuffer = d.m_PreviousBuffer ∧
      e.m_Width = d.m_Width)
    (fun y d =>
      d.memcpyPrev (dest + (y : Int) * d.m_Width) (source + (y : Int) * d.m_Width) 8)
    (fun r => dest + (r : Int) * d.m_Width) 8
    (fun r i => d.m_PreviousBuffer.m_Buffer (source + (r : Int) * d.m_Width +
      ((i - (dest + (r : Int) * d.m_Width)).toNat : Int)))
    (by
      rintro r e ⟨h1, h2, h3, h4⟩
      refine ⟨⟨h1, h2, h3, h4⟩, fun i => ?_⟩
      show (if _ then _ else _) = _
      rw [h3, h4]
      rfl)
    d ⟨rfl, rfl, rfl, rfl⟩ 8
  obtain ⟨⟨h1, h2, -⟩, hout, hin⟩ := key
  unfold BlockCopy8x8
  refine ⟨h1, h2, hout, fun hW r c hr hc => ?_⟩
  have e := hin r (dest + ((c : Int) + (r : Int) * d.m_Width)) hr
    (by constructor <;> omega)
    (fun q hq _ => rows_disjoint _ _ hW r q hq _ (by constructor <;> omega))
  have idx : (dest + ((c : Int) + (r : Int) * d.m_Width) -
      (dest + (r : Int) * d.m_Width)).toNat = c := by omega
  have ring1 : source + (r : Int) * d.m_Width + (c : Int) =
      source + ((c : Int) + (r : Int) * d.m_Width) := by ring
  rw [e, idx, ring1]


/-- What `ZeroMotionDecode` does: both data cursors stay, bytes outside the eight rows of the
tile keep their value, and pixel `(c, r)` of the tile is the pixel at the same place of the
previous tile. -/
theorem ZeroMotionDecode_spec (d : Decoder) :
    (ZeroMotionDecode d).m_AlignedStream = d.m_AlignedStream ∧
    (ZeroMotionDecode d).m_UnAlignedStream = d.m_UnAlignedStream ∧
    (∀ i, (∀ r : Nat, r < 8 → ¬ (d.m_CurrentTile + (r : Int) * d.m_Width ≤ i ∧
        i < d.m_CurrentTile + (r : Int) * d.m_Width + 8)) →
      (ZeroMotionDecode d).m_CurrentBuffer.m_Buffer i = d.m_CurrentBuffer.m_Buffer i) ∧
    (8 ≤ d.m_Width → ∀ r c : Nat, r < 8 → c < 8 →
      (ZeroMotionDecode d).m_CurrentBuffer.m_Buffer
          (d.m_CurrentTile + ((c : Int) + (r : Int) * d.m_Width)) =
        d.m_PreviousBuffer.m_Buffer (d.m_PreviousTile + ((c : Int) + (r : Int) * d.m_Width))) :=
  BlockCopy8x8_spec d d.m_CurrentTile d.m_PreviousTile


/-! ## Frames made of tiles that fill their own 8x8 square -/

/-- One tile of a frame whose tiles each write their own square: if the tile at `(tx, ty)`
leaves the bytes outside its eight rows alone and gives its pixels their `target` value, the
pixels finished before the next tile all hold their `target` value. -/
theorem content_tile (width : Int) (w8 : Nat) (hW : width = 8 * (w8 : Int)) (tx ty : Nat)
    (htx : tx < w8) (cur new : Int → Nat) (target : Nat → Nat → Nat)
    (hout : ∀ i, (∀ r : Nat, r < 8 → ¬ (tileOffset width tx ty + (r : Int) * width ≤ i ∧
        i < tileOffset width tx ty + (r : Int) * width + 8)) → new i = cur i)
    (hin : ∀ r c : Nat, r < 8 → c < 8 →
      new (tileOffset width tx ty + ((c : Int) + (r : Int) * width)) =
        target (8 * tx + c) (8 * ty + r))
    (h : ∀ x y, x < 8 * w8 → doneBefore tx ty x y → cur ((x : Int) + (y : Int) * width) = target x y) :
    ∀ x y, x < 8 * w8 → doneBefore (tx + 1) ty x y →
      new ((x : Int) + (y : Int) * width) = target x y := by
  intro x y hx hd
  by_cases hnew : y / 8 = ty ∧ x / 8 = tx
  · obtain ⟨hy, hx8⟩ := hnew
    have e := hin (y % 8) (x % 8) (Nat.mod_lt _ (by decide)) (Nat.mod_lt _ (by decide))
    have ex : 8 * tx + x % 8 = x := by omega
    have ey : 8 * ty + y % 8 = y := by omega
    have ei : tileOffset width tx ty + (((x % 8 : Nat) : Int) + ((y % 8 : Nat) : Int) * width) =
        (x : Int) + (y : Int) * width := by
      have hx' : (x : Int) = 8 * (tx : Int) + ((x % 8 : Nat) : Int) := by omega
      have hy' : (y : Int) = 8 * (ty : Int) + ((y % 8 : Nat) : Int) := by omega
      unfold tileOffset
      rw [hx', hy']
      push_cast
      ring_nf
    rw [ei, ex, ey] at e
    exact e
  · have hold : doneBefore tx ty x y := by
      unfold doneBefore at hd ⊢
      omega
    rw [hout, h x y hx hold]
    intro r hr ⟨h1, h2⟩
    unfold tileOffset at h1 h2
    have hwpos : (0 : Int) ≤ width := by omega
    have key : (y : Int) = 8 * (ty : Int) + (r : Int) := by
      rcases Int.lt_trichotomy (y : Int) (8 * (ty : Int) + (r : Int)) with hlt | heq | hgt
      · exfalso
        have h3 : ((y : Int) + 1) * width ≤ (8 * (ty : Int) + (r : Int)) * width :=
          Int.mul_le_mul_of_nonneg_right (by omega) hwpos
        have h4 : ((y : Int) + 1) * width = (y : Int) * width + width := by ring
        have h5 : (8 * (ty : Int) + (r : Int)) * width = (ty : Int) * 8 * width + (r : Int) * width := by
          ring
        omega
      · exact heq
      · exfalso
        have h3 : (8 * (ty : Int) + (r : Int) + 1) * width ≤ (y : Int) * width :=
          Int.mul_le_mul_of_nonneg_right (by omega) hwpos
        have h4 : (8 * (ty : Int) + (r : Int) + 1) * width =
            (ty : Int) * 8 * width + (r : Int) * width + width := by ring
        omega
    have h6 : (y : Int) * width = (ty : Int) * 8 * width + (r : Int) * width := by
      rw [key]; ring
    unfold doneBefore at hold
    omega

/-- The end of a row of tiles: the pixels finished are those of the rows above the next one. -/
theorem doneBefore_row (w8 ty x y : Nat) (hx : x < 8 * w8) :
    doneBefore 0 (ty + 1) x y ↔ doneBefore w8 ty x y := by
  unfold doneBefore
  omega


theorem regInv_start (mem : Nat → Nat) (d : Decoder) :
    RegInv mem (frameStart d).ptr_opcode 0 (frameStart d) := by
  constructor
  · rfl
  · rfl
  · rfl

theorem regInv_tile {mem : Nat → Nat} {base k : Nat} {s : FrameLoop} (h : RegInv mem base k s)
    (hmem : s.dec.mem = mem) (hk : k % 4 = 0 ∨ opcodeField mem base k ≠ 63) :
    RegInv mem base (k + 1) (tileStep s) ∧ (fetched s % 64).toNat = opcodeField mem base k := by
  have hf : fetched s =
      if codesAt mem base k = -1 then reload mem (ptrAt base k) else codesAt mem base k := by
    unfold fetched
    rw [h.codes, h.ptr, hmem]
  obtain ⟨h1, h2, h3⟩ := register_step mem base k hk (fetched s) hf
  refine ⟨⟨?_, ?_, ?_⟩, h1⟩
  · rw [tileStep_codes, h2]
  · rw [tileStep_ptr, h.codes, h.ptr, h3]
  · rw [tileStep_trace, List.map_append, h.opcodes, List.range_succ, List.map_append,
      List.map_singleton, List.map_singleton, h1]

theorem regInv_row {mem : Nat → Nat} {base k : Nat} {s : FrameLoop} (h : RegInv mem base k s) :
    RegInv mem base k (rowEnd s) :=
  ⟨h.codes, h.ptr, h.opcodes⟩

theorem uniformInv_tile {d0 : Decoder} {w8 base limit alStep unStep op : Nat}
    {target : Nat → Nat → Nat} (hW : d0.m_Width = 8 * (w8 : Int)) (hop : op ≠ 63)
    (hops : ∀ k, k < limit → opcodeField d0.mem base k = op)
    (hfill : TileFills d0 w8 op alStep unStep target) {ty tx : Nat} {s : FrameLoop}
    (htx : tx < w8) (h : UniformInv d0 w8 base limit alStep unStep target ty tx s) :
    UniformInv d0 w8 base limit alStep unStep target ty (tx + 1) (tileStep s) := by
  obtain ⟨hg, hu⟩ := h
  refine ⟨frameInv_tile htx hg, fun hk => ?_⟩
  have hk' : ty * w8 + tx < limit := by omega
  obtain ⟨hr, hal, hun, hc⟩ := hu (by omega)
  have hmem : s.dec.mem = d0.mem := hg.keeps.mem
  obtain ⟨hr', hfetch⟩ := regInv_tile hr hmem (Or.inr (by rw [hops _ hk']; exact hop))
  rw [hops _ hk'] at hfetch
  obtain ⟨f1, f2, f3, f4⟩ := hfill s.dec tx ty htx hg.keeps hg.currentTile hg.previousTile hal hun
  have hdec := tileStep_dec s
  rw [hfetch] at hdec
  refine ⟨?_, ?_, ?_, ?_⟩
  · rw [← Nat.add_assoc]; exact hr'
  · rw [hdec]
    show (dispatch op s.dec).m_AlignedStream = _
    rw [f1, hal]
    ring
  · rw [hdec]
    show (dispatch op s.dec).m_UnAlignedStream = _
    rw [f2, hun]
    ring
  · rw [hdec]
    exact content_tile d0.m_Width w8 hW tx ty htx _ _ target f3 f4 hc

theorem uniformInv_row {d0 : Decoder} {w8 base limit alStep unStep : Nat}
    {target : Nat → Nat → Nat} (hW : d0.m_Width = 8 * (w8 : Int)) {ty : Nat} {s : FrameLoop}
    (h : UniformInv d0 w8 base limit alStep unStep target ty w8 s) :
    UniformInv d0 w8 base limit alStep unStep target (ty + 1) 0 (rowEnd s) := by
  obtain ⟨hg, hu⟩ := h
  refine ⟨frameInv_row hW hg, fun hk => ?_⟩
  have e : (ty + 1) * w8 + 0 = ty * w8 + w8 := by ring
  rw [e] at hk ⊢
  obtain ⟨hr, hal, hun, hc⟩ := hu hk
  exact ⟨regInv_row hr, hal, hun, fun x y hx hd => hc x y hx ((doneBefore_row w8 ty x y hx).1 hd)⟩

/-- A frame whose opcodes all call for the same primitive `op`, a primitive that fills its own
tile: when the loops end, every tile has been given its field of the opcode stream, both data
cursors have moved by their step times the number of tiles, and every pixel holds its `target`
value. -/
theorem uniform_frame (d : Decoder) (w8 : Nat) (hW : d.m_Width = 8 * (w8 : Int))
    (op alStep unStep : Nat) (target : Nat → Nat → Nat) (hop : op ≠ 63)
    (hops : ∀ k, k < (Int.tdiv d.m_Height 8).toNat * w8 →
      opcodeField d.mem (GetOpcodesArray (GetData d.m_CurrentChunk)) k = op)
    (hfill : TileFills (frameStart d).dec w8 op alStep unStep target) :
    UniformInv (frameStart d).dec w8 (GetOpcodesArray (GetData d.m_CurrentChunk))
      ((Int.tdiv d.m_Height 8).toNat * w8) alStep unStep target
      (Int.tdiv d.m_Height 8).toNat 0 (frameLoop d) := by
  have hW0 : (frameStart d).dec.m_Width = 8 * (w8 : Int) := hW
  refine frame_induction w8 (UniformInv (frameStart d).dec w8 _ _ alStep unStep target)
    (fun _ _ h => frameInv_count hW0 h.1)
    (fun _ _ _ htx h => uniformInv_tile hW0 hop hops hfill htx h)
    (fun _ _ h => uniformInv_row hW0 h) _ ?_ _
  refine ⟨frameInv_start d w8, fun _ => ⟨?_, ?_, ?_, ?_⟩⟩
  · rw [Nat.zero_mul]
    exact regInv_start _ d
  · simp
  · simp
  · intro x y _ hd
    unfold doneBefore at hd
    omega


/-! ## What a whole frame leaves alone -/

theorem tileStep_keepsTiles {d0 : Decoder} {s : FrameLoop}
    (h : Keeps (d0.withTiles s.dec.m_CurrentTile s.dec.m_PreviousTile) s.dec) :
    Keeps (d0.withTiles (tileStep s).dec.m_CurrentTile (tileStep s).dec.m_PreviousTile)
      (tileStep s).dec := by
  have k := tileStep_keeps s
  have hc : (tileStep s).dec.m_CurrentTile = s.dec.m_CurrentTile + 8 := k.currentTile
  have hp : (tileStep s).dec.m_PreviousTile = s.dec.m_PreviousTile + 8 := k.previousTile
  rw [hc, hp]
  exact keeps_trans (keeps_withTiles h _ _) k

theorem iterate_keepsTiles {d0 : Decoder} (f : FrameLoop → FrameLoop)
    (hf : ∀ s, Keeps (d0.withTiles s.dec.m_CurrentTile s.dec.m_PreviousTile) s.dec →
      Keeps (d0.withTiles (f s).dec.m_CurrentTile (f s).dec.m_PreviousTile) (f s).dec)
    (n : Nat) {s : FrameLoop}
    (h : Keeps (d0.withTiles s.dec.m_CurrentTile s.dec.m_PreviousTile) s.dec) :
    Keeps (d0.withTiles (f^[n] s).dec.m_CurrentTile (f^[n] s).dec.m_PreviousTile)
      (f^[n] s).dec := by
  induction n with
  | zero => exact h
  | succ n ih =>
    rw [Function.iterate_succ_apply']
    exact hf _ ih

theorem rowStep_keepsTiles {d0 : Decoder} {s : FrameLoop}
    (h : Keeps (d0.withTiles s.dec.m_CurrentTile s.dec.m_PreviousTile) s.dec) :
    Keeps (d0.withTiles (rowStep s).dec.m_CurrentTile (rowStep s).dec.m_PreviousTile)
      (rowStep s).dec :=
  keeps_withTiles (iterate_keepsTiles tileStep (fun _ => tileStep_keepsTiles) _ h) _ _

/-- Whatever the opcodes and the dimensions, the loops of `DecompressFrame` change nothing but
the bytes of the current buffer, the two tile cursors and the two data cursors, and the data
cursors never move backwards. -/
theorem frameLoop_keeps (d : Decoder) :
    Keeps ((frameStart d).dec.withTiles (frameLoop d).dec.m_CurrentTile
      (frameLoop d).dec.m_PreviousTile) (frameLoop d).dec :=
  iterate_keepsTiles rowStep (fun _ => rowStep_keepsTiles) _ (keeps_rfl _)


/-! ## `DecompressFrame` as a whole -/

theorem DecompressFrame_saved (d : Decoder) :
    (DecompressFrame d).saved =
      d.saved ++ [⟨d.m_FrameNumber, (frameLoop d).dec.m_CurrentBuffer, d.m_Palette⟩] := by
  have k := frameLoop_keeps d
  have h1 : (frameLoop d).dec.saved = d.saved := k.saved
  have h2 : (frameLoop d).dec.m_FrameNumber = d.m_FrameNumber := k.frameNumber
  have h3 : (frameLoop d).dec.m_Palette = d.m_Palette := k.palette
  show (frameLoop d).dec.saved ++ [⟨(frameLoop d).dec.m_FrameNumber,
    (frameLoop d).dec.m_CurrentBuffer, (frameLoop d).dec.m_Palette⟩] = _
  rw [h1, h2, h3]

theorem DecompressFrame_getLast (d : Decoder) :
    (DecompressFrame d).saved.getLast? =
      some ⟨d.m_FrameNumber, (frameLoop d).dec.m_CurrentBuffer, d.m_Palette⟩ := by
  rw [DecompressFrame_saved, List.getLast?_append]
  rfl

theorem DecompressFrame_chunk (d : Decoder) :
    (DecompressFrame d).m_CurrentChunk = d.m_CurrentChunk :=
  (frameLoop_keeps d).chunk

/-- Opcode 0 fills its tile with the next 64 aligned bytes. -/
theorem tileFills_raw (d0 : Decoder) (w8 : Nat) (hW : d0.m_Width = 8 * (w8 : Int)) :
    TileFills d0 w8 0 64 0 (fun x y =>
      u8 d0.mem (d0.m_AlignedStream + (64 * (y / 8 * w8 + x / 8) + 8 * (y % 8) + x % 8))) := by
  intro e tx ty htx k hc _ hal hun
  have hw : e.m_Width = d0.m_Width := k.width
  have hmem : e.mem = d0.mem := k.mem
  obtain ⟨s1, s2, s3, s4⟩ := RawTileDecode_spec e
  rw [hc, hw] at s3 s4
  refine ⟨s1, s2, s3, fun r c hr hcc => ?_⟩
  show (RawTileDecode e).m_CurrentBuffer.m_Buffer _ = _
  rw [s4 (by omega) r c hr hcc]
  unfold Decoder.aligned
  have e1 : (8 * ty + r) / 8 = ty := by omega
  have e2 : (8 * tx + c) / 8 = tx := by omega
  have e3 : (8 * ty + r) % 8 = r := by omega
  have e4 : (8 * tx + c) % 8 = c := by omega
  beta_reduce
  rw [hmem, hal, e1, e2, e3, e4, Nat.add_assoc, Nat.add_assoc (64 * (ty * w8 + tx)) (8 * r) c]

/-- Opcode 1 fills its tile with the same tile of the previous buffer. -/
theorem tileFills_zeroMotion (d0 : Decoder) (w8 : Nat) (hW : d0.m_Width = 8 * (w8 : Int)) :
    TileFills d0 w8 1 0 0 (fun x y =>
      d0.m_PreviousBuffer.m_Buffer ((x : Int) + (y : Int) * d0.m_Width)) := by
  intro e tx ty htx k hc hp hal hun
  have hw : e.m_Width = d0.m_Width := k.width
  have hprev : e.m_PreviousBuffer = d0.m_PreviousBuffer := k.previousBuffer
  obtain ⟨s1, s2, s3, s4⟩ := ZeroMotionDecode_spec e
  rw [hc, hw] at s3 s4
  rw [hp, hprev] at s4
  refine ⟨s1, s2, s3, fun r c hr hcc => ?_⟩
  show (ZeroMotionDecode e).m_CurrentBuffer.m_Buffer _ = _
  rw [s4 (by omega) r c hr hcc]
  congr 1
  unfold tileOffset
  push_cast
  ring

/-! ## The chunk walk -/

theorem CreateBuffers_chunk (d : Decoder) :
    (CreateBuffers d).m_CurrentChunk = d.m_CurrentChunk := rfl

theorem withFormat_chunk (d : Decoder) (f : Nat) (w h : Int) :
    (d.withFormat f w h).m_CurrentChunk = d.m_CurrentChunk := rfl

theorem processChunk_chunk (ty : ChunkType) (d : Decoder) :
    (processChunk ty d).m_CurrentChunk = d.m_CurrentChunk := by
  cases ty
  case e_KeyFrame => exact DecompressFrame_chunk d
  case e_DltFrame => exact DecompressFrame_chunk d
  case e_Format =>
    show (CreateBuffers (d.withFormat _ _ _)).m_CurrentChunk = _
    rw [CreateBuffers_chunk, withFormat_chunk]
  all_goals rfl

/-- The loop of `ParseACF` ends, and with `true`, as soon as the fuel covers the bytes that
remain between the current chunk and the end of the input. -/
theorem parseLoop_returns (lastChunk : Nat) (fuel : Nat) :
    ∀ d : Decoder, lastChunk ≤ d.m_CurrentChunk + fuel →
      ∃ e, parseLoop lastChunk fuel d = some (true, e) := by
  induction fuel with
  | zero =>
    intro d h
    unfold parseLoop
    rw [if_neg (by omega)]
    exact ⟨d, rfl⟩
  | succ fuel ih =>
    intro d h
    unfold parseLoop
    by_cases hc : d.m_CurrentChunk < lastChunk
    · rw [if_pos hc]
      by_cases he : GetChunkType d.mem d.m_CurrentChunk = ChunkType.e_End
      · simp only [he, if_true]
        exact ⟨d, rfl⟩
      · simp only [he, if_false]
        apply ih
        show lastChunk ≤ GetNextChunk _ _ + fuel
        rw [processChunk_chunk]
        unfold GetNextChunk
        omega
    · rw [if_neg hc]
      exact ⟨d, rfl⟩

/-- The embedded `ParseACF` has enough fuel on every input, and what it returns is `true`: both
`return` statements of the source are `return true`. -/
theorem ParseACF_returns (d : Decoder) (size : Nat) :
    ∃ e, ParseACF d size = some (true, e) := by
  unfold ParseACF
  apply parseLoop_returns
  show size ≤ 0 + size
  omega


/-! ## Whole frames of one opcode -/

theorem tdiv_height (height : Int) (h8 : Nat) (hH : height = 8 * (h8 : Int)) :
    (Int.tdiv height 8).toNat = h8 := by
  rw [hH, tdiv_eight]

/-- The pixels and the cursors after the loops of a frame whose opcodes are all 0. -/
theorem raw_frame (d : Decoder) (w8 h8 : Nat) (hW : d.m_Width = 8 * (w8 : Int))
    (hH : d.m_Height = 8 * (h8 : Int))
    (hops : ∀ k, k < w8 * h8 →
      opcodeField d.mem (GetOpcodesArray (GetData d.m_CurrentChunk)) k = 0) :
    (frameLoop d).dec.m_AlignedStream =
      GetAlignedData (GetData d.m_CurrentChunk) (toU32 d.m_Height) + 64 * (w8 * h8) ∧
    (frameLoop d).dec.m_UnAlignedStream = GetUnalignedData d.mem (GetData d.m_CurrentChunk) ∧
    ∀ x y : Nat, x < 8 * w8 → y < 8 * h8 →
      (frameLoop d).dec.m_CurrentBuffer.m_Buffer ((x : Int) + (y : Int) * d.m_Width) =
        u8 d.mem (GetAlignedData (GetData d.m_CurrentChunk) (toU32 d.m_Height) +
          (64 * (y / 8 * w8 + x / 8) + 8 * (y % 8) + x % 8)) := by
  have hh := tdiv_height d.m_Height h8 hH
  have key := uniform_frame d w8 hW 0 64 0 _ (by decide)
    (by rw [hh, Nat.mul_comm]; exact hops) (tileFills_raw (frameStart d).dec w8 hW)
  rw [hh] at key
  obtain ⟨-, h1, h2, h3⟩ := key.2 (by omega)
  refine ⟨?_, ?_, fun x y hx hy => ?_⟩
  · rw [h1, Nat.add_zero, Nat.mul_comm h8 w8]
    rfl
  · rw [h2]
    show _ + 0 * _ = _
    rw [Nat.zero_mul]
    rfl
  · exact h3 x y hx (Or.inl (by omega))

/-- The pixels and the cursors after the loops of a frame whose opcodes are all 1. -/
theorem zeroMotion_frame (d : Decoder) (w8 h8 : Nat) (hW : d.m_Width = 8 * (w8 : Int))
    (hH : d.m_Height = 8 * (h8 : Int))
    (hops : ∀ k, k < w8 * h8 →
      opcodeField d.mem (GetOpcodesArray (GetData d.m_CurrentChunk)) k = 1) :
    (frameLoop d).dec.m_AlignedStream =
      GetAlignedData (GetData d.m_CurrentChunk) (toU32 d.m_Height) ∧
    (frameLoop d).dec.m_UnAlignedStream = GetUnalignedData d.mem (GetData d.m_CurrentChunk) ∧
    ∀ x y : Nat, x < 8 * w8 → y < 8 * h8 →
      (frameLoop d).dec.m_CurrentBuffer.m_Buffer ((x : Int) + (y : Int) * d.m_Width) =
        d.m_PreviousBuffer.m_Buffer ((x : Int) + (y : Int) * d.m_Width) := by
  have hh := tdiv_height d.m_Height h8 hH
  have key := uniform_frame d w8 hW 1 0 0 _ (by decide)
    (by rw [hh, Nat.mul_comm]; exact hops) (tileFills_zeroMotion (frameStart d).dec w8 hW)
  rw [hh] at key
  obtain ⟨-, h1, h2, h3⟩ := key.2 (by omega)
  refine ⟨?_, ?_, fun x y hx hy => ?_⟩
  · rw [h1]
    show _ + 0 * _ = _
    rw [Nat.zero_mul]
    rfl
  · rw [h2]
    show _ + 0 * _ = _
    rw [Nat.zero_mul]
    rfl
  · exact h3 x y hx (Or.inl (by omega))

/-- Every offset of a `width` by `height` image is the offset of a pixel. -/
theorem offset_is_pixel (w8 h8 : Nat) (i : Int) (h0 : 0 ≤ i)
    (h1 : i < 8 * (w8 : Int) * (8 * (h8 : Int))) :
    ∃ x y : Nat, x < 8 * w8 ∧ y < 8 * h8 ∧ i = (x : Int) + (y : Int) * (8 * (w8 : Int)) := by
  have hw : (0 : Int) < 8 * (w8 : Int) := by
    rcases Nat.eq_zero_or_pos w8 with h | h
    · subst h
      simp at h1
      omega
    · omega
  refine ⟨(i % (8 * (w8 : Int))).toNat, (i / (8 * (w8 : Int))).toNat, ?_, ?_, ?_⟩
  · have := Int.emod_lt_of_pos i hw
    have := Int.emod_nonneg i (ne_of_gt hw)
    omega
  · have h2 : i / (8 * (w8 : Int)) < 8 * (h8 : Int) :=
      Int.ediv_lt_of_lt_mul hw (by rw [Int.mul_comm]; exact h1)
    have h3 : 0 ≤ i / (8 * (w8 : Int)) := Int.ediv_nonneg h0 (le_of_lt hw)
    omega
  · have h3 : 0 ≤ i / (8 * (w8 : Int)) := Int.ediv_nonneg h0 (le_of_lt hw)
    have h4 := Int.emod_nonneg i (ne_of_gt hw)
    rw [Int.toNat_of_nonneg h3, Int.toNat_of_nonneg h4]
    exact (Int.emod_add_ediv' i _).symm


/-- Where the opcode register works as intended: if, among the first `limit` tiles, no tile
other than the first of its group of four has the 6-bit field 63, every one of these tiles is
dispatched with its own field of the opcode stream. -/
theorem dispatch_follows_fields (d : Decoder) (w8 : Nat) (hW : d.m_Width = 8 * (w8 : Int))
    (hops : ∀ k, k < (Int.tdiv d.m_Height 8).toNat * w8 → k % 4 = 0 ∨
      opcodeField d.mem (GetOpcodesArray (GetData d.m_CurrentChunk)) k ≠ 63) :
    (frameLoop d).trace.map Dispatched.opcode =
      (List.range ((Int.tdiv d.m_Height 8).toNat * w8)).map
        (opcodeField d.mem (GetOpcodesArray (GetData d.m_CurrentChunk))) := by
  have hW0 : (frameStart d).dec.m_Width = 8 * (w8 : Int) := hW
  have key := frame_induction w8
    (fun ty tx s => FrameInv (frameStart d).dec w8 ty tx s ∧
      (ty * w8 + tx ≤ (Int.tdiv d.m_Height 8).toNat * w8 →
        RegInv d.mem (GetOpcodesArray (GetData d.m_CurrentChunk)) (ty * w8 + tx) s))
    (fun _ _ h => frameInv_count hW0 h.1)
    (fun ty tx s htx h => ⟨frameInv_tile htx h.1, fun hk =>
      (regInv_tile (h.2 (by omega)) h.1.keeps.mem (hops _ (by omega))).1⟩)
    (fun ty s h => ⟨frameInv_row hW0 h.1, fun hk => by
      have e : (ty + 1) * w8 + 0 = ty * w8 + w8 := by ring
      rw [e] at hk ⊢
      exact regInv_row (h.2 hk)⟩)
    (frameStart d)
    ⟨frameInv_start d w8, fun _ => by rw [Nat.zero_mul]; exact regInv_start _ d⟩
    (Int.tdiv d.m_Height 8).toNat
  exact (key.2 (by omega)).opcodes

/-! ## Claims C1 to C10 -/

set_option maxRecDepth 100000

/-- C1 (the code departs from the claim): in the 320 by 8 frame `frameWithOpcode63` the 6-bit
field of tile 3 is 63, yet `DecompressFrame` dispatches opcode 1, the field of tile 4, for tile
3: after three shifts the register equals -1, so it is reloaded one tile early and the 63 is
never used. -/
theorem C1_opcode_63_in_fourth_place_is_dropped :
    frameWithOpcode63.m_Width = 320 ∧ frameWithOpcode63.m_Height = 8 ∧
    opcodeField frameWithOpcode63.mem
      (GetOpcodesArray (GetData frameWithOpcode63.m_CurrentChunk)) 3 = 63 ∧
    opcodeField frameWithOpcode63.mem
      (GetOpcodesArray (GetData frameWithOpcode63.m_CurrentChunk)) 4 = 1 ∧
    ((frameLoop frameWithOpcode63).trace.map Dispatched.opcode)[3]? = some 1 := by
  decide

/-- C2: `RawTileDecode` is a byte-exact identity.  For every frame width of at least 8, after the
call pixel `(x, y)` of the tile at the current tile cursor is aligned byte `8 * y + x`, the
aligned cursor has advanced by exactly 64 and the unaligned cursor has not moved. -/
theorem C2_RawTileDecode_is_identity (d : Decoder) (hW : 8 ≤ d.m_Width) :
    (∀ x y : Nat, x < 8 → y < 8 →
      (RawTileDecode d).m_CurrentBuffer.m_Buffer
          (d.m_CurrentTile + ((x : Int) + (y : Int) * d.m_Width)) = d.aligned (8 * y + x)) ∧
    (RawTileDecode d).m_AlignedStream = d.m_AlignedStream + 64 ∧
    (RawTileDecode d).m_UnAlignedStream = d.m_UnAlignedStream := by
  obtain ⟨h1, h2, -, h4⟩ := RawTileDecode_spec d
  exact ⟨fun x y hx hy => h4 hW y x hy hx, h1, h2⟩

/-- Witness of C2 on the first tile of `rawFrame`. -/
theorem C2_RawTileDecode_is_identity_witness :
    (8 : Int) ≤ (frameStart (rawFrame (fun _ => 0))).dec.m_Width ∧
    ((∀ x y : Nat, x < 8 → y < 8 →
      (RawTileDecode (frameStart (rawFrame (fun _ => 0))).dec).m_CurrentBuffer.m_Buffer
          ((frameStart (rawFrame (fun _ => 0))).dec.m_CurrentTile +
            ((x : Int) + (y : Int) * (frameStart (rawFrame (fun _ => 0))).dec.m_Width)) =
        (frameStart (rawFrame (fun _ => 0))).dec.aligned (8 * y + x)) ∧
    (RawTileDecode (frameStart (rawFrame (fun _ => 0))).dec).m_AlignedStream =
      (frameStart (rawFrame (fun _ => 0))).dec.m_AlignedStream + 64 ∧
    (RawTileDecode (frameStart (rawFrame (fun _ => 0))).dec).m_UnAlignedStream =
      (frameStart (rawFrame (fun _ => 0))).dec.m_UnAlignedStream) :=
  ⟨by decide, C2_RawTileDecode_is_identity _ (by decide)⟩


/-- C3: a frame made only of Raw opcodes depends on the aligned stream alone.  For width 320 and
a height that is a multiple of 8, if every opcode of the frame is 0, then two runs of
`DecompressFrame` on the same payload, whatever their current and previous buffers hold, save
frames that agree on every pixel, and pixel `(x, y)` of the saved frame is aligned byte
`64 * ((y / 8) * 40 + x / 8) + 8 * (y mod 8) + (x mod 8)`. -/
theorem C3_raw_frame_depends_on_aligned_stream_only (d1 d2 : Decoder) (h8 : Nat)
    (hW1 : d1.m_Width = 320) (hH1 : d1.m_Height = 8 * (h8 : Int))
    (hW2 : d2.m_Width = 320) (hH2 : d2.m_Height = 8 * (h8 : Int))
    (hmem : d2.mem = d1.mem) (hchunk : d2.m_CurrentChunk = d1.m_CurrentChunk)
    (hops : ∀ k, k < 40 * h8 →
      opcodeField d1.mem (GetOpcodesArray (GetData d1.m_CurrentChunk)) k = 0) :
    ∃ f1 f2 : ImageBuffer,
      (DecompressFrame d1).saved.getLast? = some ⟨d1.m_FrameNumber, f1, d1.m_Palette⟩ ∧
      (DecompressFrame d2).saved.getLast? = some ⟨d2.m_FrameNumber, f2, d2.m_Palette⟩ ∧
      ∀ x y : Nat, x < 320 → y < 8 * h8 →
        f1.m_Buffer ((x : Int) + (y : Int) * 320) =
          u8 d1.mem (GetAlignedData (GetData d1.m_CurrentChunk) (toU32 d1.m_Height) +
            (64 * (y / 8 * 40 + x / 8) + 8 * (y % 8) + x % 8)) ∧
        f2.m_Buffer ((x : Int) + (y : Int) * 320) = f1.m_Buffer ((x : Int) + (y : Int) * 320) := by
  have r1 := (raw_frame d1 40 h8 (by rw [hW1]; rfl) hH1 hops).2.2
  have r2 := (raw_frame d2 40 h8 (by rw [hW2]; rfl) hH2 (by rw [hmem, hchunk]; exact hops)).2.2
  rw [hW1] at r1
  rw [hW2, hmem, hchunk, hH2, ← hH1] at r2
  refine ⟨_, _, DecompressFrame_getLast d1, DecompressFrame_getLast d2, fun x y hx hy => ?_⟩
  rw [r1 x y hx hy, r2 x y hx hy]
  exact ⟨rfl, rfl⟩

/-- Witness of C3: two runs on `rawFrame`, one over an all-zero previous buffer and one over a
previous buffer full of sevens. -/
theorem C3_raw_frame_depends_on_aligned_stream_only_witness :
    ∃ f1 f2 : ImageBuffer,
      (DecompressFrame (rawFrame (fun _ => 0))).saved.getLast? =
        some ⟨(rawFrame (fun _ => 0)).m_FrameNumber, f1, (rawFrame (fun _ => 0)).m_Palette⟩ ∧
      (DecompressFrame (rawFrame (fun _ => 7))).saved.getLast? =
        some ⟨(rawFrame (fun _ => 7)).m_FrameNumber, f2, (rawFrame (fun _ => 7)).m_Palette⟩ ∧
      ∀ x y : Nat, x < 320 → y < 8 * 1 →
        f1.m_Buffer ((x : Int) + (y : Int) * 320) =
          u8 (rawFrame (fun _ => 0)).mem
            (GetAlignedData (GetData (rawFrame (fun _ => 0)).m_CurrentChunk)
              (toU32 (rawFrame (fun _ => 0)).m_Height) +
              (64 * (y / 8 * 40 + x / 8) + 8 * (y % 8) + x % 8)) ∧
        f2.m_Buffer ((x : Int) + (y : Int) * 320) = f1.m_Buffer ((x : Int) + (y : Int) * 320) :=
  C3_raw_frame_depends_on_aligned_stream_only (rawFrame (fun _ => 0)) (rawFrame (fun _ => 7)) 1
    (by decide) (by decide) (by decide) (by decide) rfl rfl (by decide)

/-- C4: a frame made only of ZeroMotion opcodes reproduces the previous frame.  For every width
and height that are multiples of 8, if every opcode of the frame is 1, the frame that
`DecompressFrame` saves is byte for byte the previous buffer, and neither data cursor has
moved from where the frame started it. -/
theorem C4_zero_motion_frame_reproduces_previous (d : Decoder) (w8 h8 : Nat)
    (hW : d.m_Width = 8 * (w8 : Int)) (hH : d.m_Height = 8 * (h8 : Int))
    (hops : ∀ k, k < w8 * h8 →
      opcodeField d.mem (GetOpcodesArray (GetData d.m_CurrentChunk)) k = 1) :
    (∃ f : ImageBuffer,
      (DecompressFrame d).saved.getLast? = some ⟨d.m_FrameNumber, f, d.m_Palette⟩ ∧
      ∀ i : Int, 0 ≤ i → i < d.m_Width * d.m_Height →
        f.m_Buffer i = d.m_PreviousBuffer.m_Buffer i) ∧
    (DecompressFrame d).m_AlignedStream =
      GetAlignedData (GetData d.m_CurrentChunk) (toU32 d.m_Height) ∧
    (DecompressFrame d).m_UnAlignedStream = GetUnalignedData d.mem (GetData d.m_CurrentChunk) := by
  obtain ⟨h1, h2, h3⟩ := zeroMotion_frame d w8 h8 hW hH hops
  refine ⟨⟨_, DecompressFrame_getLast d, fun i hi0 hi1 => ?_⟩, h1, h2⟩
  rw [hW, hH] at hi1
  obtain ⟨x, y, hx, hy, rfl⟩ := offset_is_pixel w8 h8 i hi0 hi1
  rw [← hW]
  exact h3 x y hx hy

/-- Witness of C4 on the 16 by 16 frame `zeroMotionFrame`. -/
theorem C4_zero_motion_frame_reproduces_previous_witness :
    (∃ f : ImageBuffer,
      (DecompressFrame zeroMotionFrame).saved.getLast? =
        some ⟨zeroMotionFrame.m_FrameNumber, f, zeroMotionFrame.m_Palette⟩ ∧
      ∀ i : Int, 0 ≤ i → i < zeroMotionFrame.m_Width * zeroMotionFrame.m_Height →
        f.m_Buffer i = zeroMotionFrame.m_PreviousBuffer.m_Buffer i) ∧
    (DecompressFrame zeroMotionFrame).m_AlignedStream =
      GetAlignedData (GetData zeroMotionFrame.m_CurrentChunk) (toU32 zeroMotionFrame.m_Height) ∧
    (DecompressFrame zeroMotionFrame).m_UnAlignedStream =
      GetUnalignedData zeroMotionFrame.mem (GetData zeroMotionFrame.m_CurrentChunk) :=
  C4_zero_motion_frame_reproduces_previous zeroMotionFrame 2 2 (by decide) (by decide)
    (by decide)

/-- C6: for every width that is a multiple of 8 and every height, `DecompressFrame` dispatches
exactly `(width / 8) * (height / 8)` tiles, and when tile `(tx, ty)` is dispatched both the
current and the previous tile cursor are at offset `tx * 8 + ty * 8 * width` of their
buffer. -/
theorem C6_tile_count_and_cursors (d : Decoder) (w8 : Nat) (hW : d.m_Width = 8 * (w8 : Int)) :
    (frameLoop d).trace.length =
      (Int.tdiv d.m_Width 8).toNat * (Int.tdiv d.m_Height 8).toNat ∧
    ∀ tx ty : Nat, tx < (Int.tdiv d.m_Width 8).toNat → ty < (Int.tdiv d.m_Height 8).toNat →
      ∃ t : Dispatched,
        (frameLoop d).trace[ty * (Int.tdiv d.m_Width 8).toNat + tx]? = some t ∧
        t.currentTile = (tx : Int) * 8 + (ty : Int) * 8 * d.m_Width ∧
        t.previousTile = (tx : Int) * 8 + (ty : Int) * 8 * d.m_Width := by
  have inv := frameLoop_inv d w8 hW
  have hw : (Int.tdiv d.m_Width 8).toNat = w8 := by rw [hW, tdiv_eight]
  rw [hw]
  generalize (Int.tdiv d.m_Height 8).toNat = h8 at *
  have hc := inv.currentTiles
  have hp := inv.previousTiles
  have hlen : (frameLoop d).trace.length = h8 * w8 := by
    have := congrArg List.length hc
    simpa using this
  refine ⟨by rw [hlen, Nat.mul_comm], fun tx ty htx hty => ?_⟩
  have hk : ty * w8 + tx < h8 * w8 := by
    have : (ty + 1) * w8 ≤ h8 * w8 := Nat.mul_le_mul_right _ (by omega)
    rw [Nat.succ_mul] at this
    omega
  have hk' : ty * w8 + tx < (frameLoop d).trace.length := by rw [hlen]; exact hk
  refine ⟨(frameLoop d).trace[ty * w8 + tx], List.getElem?_eq_getElem hk', ?_, ?_⟩
  · have e1 := congrArg (fun l => l[ty * w8 + tx]?) hc
    simp only [List.getElem?_map, List.getElem?_eq_getElem hk', Option.map_some,
      Nat.add_zero, List.getElem?_range hk] at e1
    rw [Option.some.inj e1, rasterOffset_eq _ _ _ _ htx]
    rfl
  · have e1 := congrArg (fun l => l[ty * w8 + tx]?) hp
    simp only [List.getElem?_map, List.getElem?_eq_getElem hk', Option.map_some,
      Nat.add_zero, List.getElem?_range hk] at e1
    rw [Option.some.inj e1, rasterOffset_eq _ _ _ _ htx]
    rfl

/-- Witness of C6 on the 16 by 16 frame `zeroMotionFrame`. -/
theorem C6_tile_count_and_cursors_witness :
    zeroMotionFrame.m_Width = 8 * ((2 : Nat) : Int) ∧
    ((frameLoop zeroMotionFrame).trace.length =
      (Int.tdiv zeroMotionFrame.m_Width 8).toNat * (Int.tdiv zeroMotionFrame.m_Height 8).toNat ∧
    ∀ tx ty : Nat, tx < (Int.tdiv zeroMotionFrame.m_Width 8).toNat →
      ty < (Int.tdiv zeroMotionFrame.m_Height 8).toNat →
      ∃ t : Dispatched,
        (frameLoop zeroMotionFrame).trace[ty * (Int.tdiv zeroMotionFrame.m_Width 8).toNat + tx]? =
          some t ∧
        t.currentTile = (tx : Int) * 8 + (ty : Int) * 8 * zeroMotionFrame.m_Width ∧
        t.previousTile = (tx : Int) * 8 + (ty : Int) * 8 * zeroMotionFrame.m_Width) :=
  ⟨by decide, C6_tile_count_and_cursors zeroMotionFrame 2 (by decide)⟩


/-- C7 (counterexample): for the 8 by 8 frame `frameWithFarColors` the claim puts the start of
the aligned stream at offset `(8 / 8) * 30 = 30` of the payload, but `DecompressFrame` starts it
at offset 34. -/
theorem C7_aligned_start_counterexample :
    frameWithFarColors.m_Height = 8 ∧
    (frameStart frameWithFarColors).dec.m_AlignedStream ≠
      GetData frameWithFarColors.m_CurrentChunk + (8 / 8) * 30 ∧
    (frameStart frameWithFarColors).dec.m_AlignedStream =
      GetData frameWithFarColors.m_CurrentChunk + 34 := by
  decide

/-- C7 (amended): `DecompressFrame` starts the aligned cursor at byte offset
`4 + (height / 8) * 30` from the start of the frame payload, that is `(height / 8) * 30` bytes
after the opcode array, which itself follows the 4-byte `color_offset` field; the unaligned
cursor starts at offset `color_offset` from the start of the payload.  (The height is taken
below 2^30 so that the 32-bit product does not wrap.) -/
theorem C7_aligned_start_amended (d : Decoder) (h0 : 0 ≤ d.m_Height)
    (h1 : d.m_Height < 1073741824) :
    (frameStart d).dec.m_AlignedStream =
      GetData d.m_CurrentChunk + (4 + (d.m_Height.toNat / 8) * 30) ∧
    (frameStart d).ptr_opcode = GetData d.m_CurrentChunk + 4 ∧
    (frameStart d).dec.m_UnAlignedStream =
      GetData d.m_CurrentChunk + u32 d.mem (GetData d.m_CurrentChunk) := by
  refine ⟨?_, rfl, rfl⟩
  show GetAlignedData (GetData d.m_CurrentChunk) (toU32 d.m_Height) = _
  unfold GetAlignedData GetOpcodesArray toU32
  omega

/-- Witness of the amended C7 on `frameWithFarColors`. -/
theorem C7_aligned_start_amended_witness :
    (0 : Int) ≤ frameWithFarColors.m_Height ∧ frameWithFarColors.m_Height < 1073741824 ∧
    ((frameStart frameWithFarColors).dec.m_AlignedStream =
      GetData frameWithFarColors.m_CurrentChunk +
        (4 + (frameWithFarColors.m_Height.toNat / 8) * 30) ∧
    (frameStart frameWithFarColors).ptr_opcode = GetData frameWithFarColors.m_CurrentChunk + 4 ∧
    (frameStart frameWithFarColors).dec.m_UnAlignedStream =
      GetData frameWithFarColors.m_CurrentChunk +
        u32 frameWithFarColors.mem (GetData frameWithFarColors.m_CurrentChunk)) :=
  ⟨by decide, by decide, C7_aligned_start_amended frameWithFarColors (by decide) (by decide)⟩

/-- C8 (counterexample): for the height 200, a multiple of 8, the aligned cursor computed by
`GetAlignedData` for a payload at address 12 is at offset 754 of the payload, which is not a
multiple of 4. -/
theorem C8_alignment_counterexample :
    200 % 8 = 0 ∧ GetAlignedData 12 200 - 12 = 754 ∧ (GetAlignedData 12 200 - 12) % 4 ≠ 0 := by
  decide

/-- C8 (amended): for a frame height that is a multiple of 8, the offset of the initial aligned
cursor from the start of the payload is a multiple of 4 exactly when the height is a multiple
of 16 (as 240 is); for the other multiples of 8 (as 200) it is 2 modulo 4. -/
theorem C8_alignment_amended (frameData height : Nat) (h : height % 8 = 0) :
    ((GetAlignedData frameData height - frameData) % 4 = 0 ↔ height % 16 = 0) ∧
    ((GetAlignedData frameData height - frameData) % 4 = 2 ↔ height % 16 = 8) := by
  unfold GetAlignedData GetOpcodesArray
  omega

/-- Witness of the amended C8 at height 240. -/
theorem C8_alignment_amended_witness :
    240 % 8 = 0 ∧
    (((GetAlignedData 12 240 - 12) % 4 = 0 ↔ 240 % 16 = 0) ∧
     ((GetAlignedData 12 240 - 12) % 4 = 2 ↔ 240 % 16 = 8)) :=
  ⟨by decide, C8_alignment_amended 12 240 (by decide)⟩

/-- C9 (counterexample): the chunk of `frameWithFarColors` is a `KeyFrame` that declares a
payload of 40 bytes, and when `DecompressFrame` completes the unaligned cursor is at offset
1000 of the payload, outside it. -/
theorem C9_cursors_counterexample :
    GetChunkType frameWithFarColors.mem frameWithFarColors.m_CurrentChunk = ChunkType.e_KeyFrame ∧
    GetChunkSize frameWithFarColors.mem frameWithFarColors.m_CurrentChunk = 40 ∧
    (DecompressFrame frameWithFarColors).m_UnAlignedStream =
      GetData frameWithFarColors.m_CurrentChunk + 1000 ∧
    ¬ ((DecompressFrame frameWithFarColors).m_UnAlignedStream ≤
      GetData frameWithFarColors.m_CurrentChunk +
        GetChunkSize frameWithFarColors.mem frameWithFarColors.m_CurrentChunk) := by
  decide

theorem toU32_toS32_ofNat (w : Nat) (h : w < 4294967296) : toU32 (toS32 (w : Int)) = w := by
  unfold toU32 toS32
  split <;> omega

theorem u32_lt (mem : Nat → Nat) (a : Nat) : u32 mem a < 4294967296 := by
  have h0 := u8_lt mem a
  have h1 := u8_lt mem (a + 1)
  have h2 := u8_lt mem (a + 2)
  have h3 := u8_lt mem (a + 3)
  unfold u32
  omega

theorem create_zero (heap : Int → Nat) (w h : Nat) (i : Int) (h0 : 0 ≤ i)
    (h1 : i < (w : Int) * (h : Int)) : (ImageBuffer.create heap w h).m_Buffer i = 0 := by
  unfold ImageBuffer.create
  simp only
  rw [if_pos]
  push_cast
  exact ⟨h0, h1⟩

theorem CreateBuffers_current (d : Decoder) :
    (CreateBuffers d).m_CurrentBuffer =
      ImageBuffer.create d.heap (toU32 d.m_Width) (toU32 d.m_Height) := rfl

theorem CreateBuffers_previous (d : Decoder) :
    (CreateBuffers d).m_PreviousBuffer =
      ImageBuffer.create d.heap (toU32 d.m_Width) (toU32 d.m_Height) := rfl

theorem withFormat_width (d : Decoder) (f : Nat) (w h : Int) :
    (d.withFormat f w h).m_Width = w := rfl

theorem withFormat_height (d : Decoder) (f : Nat) (w h : Int) :
    (d.withFormat f w h).m_Height = h := rfl

theorem withFormat_heap (d : Decoder) (f : Nat) (w h : Int) :
    (d.withFormat f w h).heap = d.heap := rfl

/-- The two buffers after a `Format` chunk: fresh images of the declared dimensions. -/
theorem processChunk_format_buffers (d : Decoder) :
    (processChunk ChunkType.e_Format d).m_CurrentBuffer =
      ImageBuffer.create d.heap (u32 d.mem (GetData d.m_CurrentChunk + 4))
        (u32 d.mem (GetData d.m_CurrentChunk + 8)) ∧
    (processChunk ChunkType.e_Format d).m_PreviousBuffer =
      ImageBuffer.create d.heap (u32 d.mem (GetData d.m_CurrentChunk + 4))
        (u32 d.mem (GetData d.m_CurrentChunk + 8)) := by
  constructor
  · show (CreateBuffers (d.withFormat _ _ _)).m_CurrentBuffer = _
    rw [CreateBuffers_current, withFormat_width, withFormat_height, withFormat_heap,
      toU32_toS32_ofNat _ (u32_lt _ _), toU32_toS32_ofNat _ (u32_lt _ _)]
  · show (CreateBuffers (d.withFormat _ _ _)).m_PreviousBuffer = _
    rw [CreateBuffers_previous, withFormat_width, withFormat_height, withFormat_heap,
      toU32_toS32_ofNat _ (u32_lt _ _), toU32_toS32_ofNat _ (u32_lt _ _)]

/-- The bytes of an in-frame tile lie inside the image. -/
theorem tile_in_image (w h tx ty r c : Nat) (hx : 8 * tx + 8 ≤ w) (hy : 8 * ty + 8 ≤ h)
    (hr : r < 8) (hc : c < 8) :
    0 ≤ tileOffset (w : Int) tx ty + ((c : Int) + (r : Int) * (w : Int)) ∧
    tileOffset (w : Int) tx ty + ((c : Int) + (r : Int) * (w : Int)) < (w : Int) * (h : Int) := by
  unfold tileOffset
  have e : (tx : Int) * 8 + (ty : Int) * 8 * (w : Int) + ((c : Int) + (r : Int) * (w : Int)) =
      ((8 * tx + c : Nat) : Int) + ((8 * ty + r : Nat) : Int) * (w : Int) := by
    push_cast
    ring
  rw [e]
  have h1 : (8 * ty + r + 1) * w ≤ h * w := Nat.mul_le_mul_right _ (by omega)
  have h2 : (8 * ty + r + 1) * w = (8 * ty + r) * w + w := by ring
  have h3 : 8 * tx + c + (8 * ty + r) * w < w * h := by
    rw [Nat.mul_comm w h]
    omega
  constructor
  · positivity
  · exact_mod_cast h3

/-- C12: after `ParseACF` has processed a `Format` chunk of width `w` and height `h`, the current
and the previous buffer are `w` by `h` images whose `w * h` bytes are all zero, whatever the
buffers held before; at the start of `ParseACF` a newly built decoder gets two all-zero 320 by
240 buffers in the same way.  Hence a decoder of width `w` whose previous buffer is the one
left by the `Format` chunk gets an all-zero tile from `ZeroMotionDecode` at every tile of the
frame. -/
theorem C12_buffers_zero_after_format (d : Decoder) (mem : Nat → Nat) (heap : Int → Nat) :
    ((processChunk ChunkType.e_Format d).m_CurrentBuffer.m_Width =
        formatWidth d.mem d.m_CurrentChunk ∧
      (processChunk ChunkType.e_Format d).m_CurrentBuffer.m_Height =
        formatHeight d.mem d.m_CurrentChunk ∧
      (processChunk ChunkType.e_Format d).m_PreviousBuffer.m_Width =
        formatWidth d.mem d.m_CurrentChunk ∧
      (processChunk ChunkType.e_Format d).m_PreviousBuffer.m_Height =
        formatHeight d.mem d.m_CurrentChunk ∧
      ∀ i : Int, 0 ≤ i →
        i < (formatWidth d.mem d.m_CurrentChunk : Int) * (formatHeight d.mem d.m_CurrentChunk : Int) →
        (processChunk ChunkType.e_Format d).m_CurrentBuffer.m_Buffer i = 0 ∧
        (processChunk ChunkType.e_Format d).m_PreviousBuffer.m_Buffer i = 0) ∧
    ((CreateBuffers { Decoder.init mem heap with m_CurrentChunk := 0 }).m_CurrentBuffer.m_Width = 320 ∧
      (CreateBuffers { Decoder.init mem heap with m_CurrentChunk := 0 }).m_CurrentBuffer.m_Height = 240 ∧
      (CreateBuffers { Decoder.init mem heap with m_CurrentChunk := 0 }).m_PreviousBuffer.m_Width = 320 ∧
      (CreateBuffers { Decoder.init mem heap with m_CurrentChunk := 0 }).m_PreviousBuffer.m_Height = 240 ∧
      ∀ i : Int, 0 ≤ i → i < 320 * 240 →
        (CreateBuffers { Decoder.init mem heap with m_CurrentChunk := 0 }).m_CurrentBuffer.m_Buffer i = 0 ∧
        (CreateBuffers { Decoder.init mem heap with m_CurrentChunk := 0 }).m_PreviousBuffer.m_Buffer i = 0) ∧
    (∀ (g : Decoder) (tx ty : Nat),
      g.m_PreviousBuffer = (processChunk ChunkType.e_Format d).m_PreviousBuffer →
      g.m_Width = (formatWidth d.mem d.m_CurrentChunk : Int) →
      g.m_PreviousTile = tileOffset g.m_Width tx ty →
      8 * tx + 8 ≤ formatWidth d.mem d.m_CurrentChunk →
      8 * ty + 8 ≤ formatHeight d.mem d.m_CurrentChunk →
      ∀ x y : Nat, x < 8 → y < 8 →
        (ZeroMotionDecode g).m_CurrentBuffer.m_Buffer
          (g.m_CurrentTile + ((x : Int) + (y : Int) * g.m_Width)) = 0) := by
  obtain ⟨hc, hp⟩ := processChunk_format_buffers d
  refine ⟨?_, ?_, ?_⟩
  · rw [hc, hp]
    exact ⟨rfl, rfl, rfl, rfl, fun i h0 h1 =>
      ⟨create_zero _ _ _ i h0 h1, create_zero _ _ _ i h0 h1⟩⟩
  · rw [CreateBuffers_current, CreateBuffers_previous]
    exact ⟨rfl, rfl, rfl, rfl, fun i h0 h1 =>
      ⟨create_zero _ 320 240 i h0 h1, create_zero _ 320 240 i h0 h1⟩⟩
  · intro g tx ty hprev hw ht hx hy x y hxx hyy
    obtain ⟨-, -, -, h4⟩ := ZeroMotionDecode_spec g
    rw [h4 (by rw [hw]; omega) y x hyy hxx, hprev, hp, ht, hw]
    obtain ⟨b0, b1⟩ := tile_in_image _ _ tx ty y x hx hy hyy hxx
    exact create_zero _ _ _ _ b0 b1

/-- Witness of C12 on the `Format` chunk of `headerOnlyFile` (320 by 200) and the tile `(3, 2)`. -/
theorem C12_buffers_zero_after_format_witness :
    ∀ x y : Nat, x < 8 → y < 8 →
      (ZeroMotionDecode
        ((processChunk ChunkType.e_Format (Decoder.init headerOnlyFile (fun _ => 7))).withTiles
          (tileOffset 320 3 2) (tileOffset 320 3 2))).m_CurrentBuffer.m_Buffer
        (((processChunk ChunkType.e_Format (Decoder.init headerOnlyFile (fun _ => 7))).withTiles
          (tileOffset 320 3 2) (tileOffset 320 3 2)).m_CurrentTile +
          ((x : Int) + (y : Int) *
            ((processChunk ChunkType.e_Format (Decoder.init headerOnlyFile (fun _ => 7))).withTiles
              (tileOffset 320 3 2) (tileOffset 320 3 2)).m_Width)) = 0 :=
  (C12_buffers_zero_after_format (Decoder.init headerOnlyFile (fun _ => 7)) headerOnlyFile
    (fun _ => 7)).2.2
    ((processChunk ChunkType.e_Format (Decoder.init headerOnlyFile (fun _ => 7))).withTiles
      (tileOffset 320 3 2) (tileOffset 320 3 2)) 3 2 rfl (by decide) (by decide) (by decide)
    (by decide)

/-! ## The run-length writer -/

/-- What `SingleColorFillDecode` does: the unaligned cursor moves by 1, the aligned cursor
stays, bytes outside the eight rows of the tile keep their value, and when the rows do not
overlap every pixel of the tile is the unaligned byte that was read. -/
theorem SingleColorFillDecode_spec (d : Decoder) :
    (SingleColorFillDecode d).m_AlignedStream = d.m_AlignedStream ∧
    (SingleColorFillDecode d).m_UnAlignedStream = d.m_UnAlignedStream + 1 ∧
    (∀ i, (∀ r : Nat, r < 8 → ¬ (d.m_CurrentTile + (r : Int) * d.m_Width ≤ i ∧
        i < d.m_CurrentTile + (r : Int) * d.m_Width + 8)) →
      (SingleColorFillDecode d).m_CurrentBuffer.m_Buffer i = d.m_CurrentBuffer.m_Buffer i) ∧
    (8 ≤ d.m_Width → ∀ r c : Nat, r < 8 → c < 8 →
      (SingleColorFillDecode d).m_CurrentBuffer.m_Buffer
          (d.m_CurrentTile + ((c : Int) + (r : Int) * d.m_Width)) = d.unaligned 0) := by
  have key := forN_rows
    (fun _ e => e.m_AlignedStream = d.m_AlignedStream ∧
      e.m_UnAlignedStream = d.m_UnAlignedStream + 1 ∧
      e.m_CurrentTile = d.m_CurrentTile ∧ e.m_Width = d.m_Width)
    (fun y e => e.memset (e.m_CurrentTile + (y : Int) * e.m_Width) (d.unaligned 0) 8)
    (fun r => d.m_CurrentTile + (r : Int) * d.m_Width) 8
    (fun _ _ => d.unaligned 0)
    (by
      rintro r e ⟨h1, h2, h3, h4⟩
      refine ⟨⟨h1, h2, h3, h4⟩, fun i => ?_⟩
      show (if _ then _ else _) = _
      rw [h3, h4]
      rfl)
    (d.skipUnaligned 1) ⟨rfl, rfl, rfl, rfl⟩ 8
  obtain ⟨⟨h1, h2, -⟩, hout, hin⟩ := key
  unfold SingleColorFillDecode
  refine ⟨h1, h2, hout, fun hW r c hr hc => ?_⟩
  exact hin r (d.m_CurrentTile + ((c : Int) + (r : Int) * d.m_Width)) hr
    (by constructor <;> omega)
    (fun q hq _ => rows_disjoint _ _ hW r q hq _ (by constructor <;> omega))

/-- Opcode 21 fills its tile with the next unaligned byte. -/
theorem tileFills_singleColor (d0 : Decoder) (w8 : Nat) (hW : d0.m_Width = 8 * (w8 : Int)) :
    TileFills d0 w8 21 0 1 (fun x y => u8 d0.mem (d0.m_UnAlignedStream + (y / 8 * w8 + x / 8))) := by
  intro e tx ty htx k hc _ hal hun
  have hw : e.m_Width = d0.m_Width := k.width
  have hmem : e.mem = d0.mem := k.mem
  obtain ⟨s1, s2, s3, s4⟩ := SingleColorFillDecode_spec e
  rw [hc, hw] at s3 s4
  refine ⟨s1, s2, s3, fun r c hr hcc => ?_⟩
  show (SingleColorFillDecode e).m_CurrentBuffer.m_Buffer _ = _
  rw [s4 (by omega) r c hr hcc]
  unfold Decoder.unaligned
  have e1 : (8 * ty + r) / 8 = ty := by omega
  have e2 : (8 * tx + c) / 8 = tx := by omega
  beta_reduce
  rw [hmem, hun, e1, e2, Nat.add_zero, Nat.one_mul]

/-- The pixels and the cursors after the loops of a frame whose opcodes are all 21. -/
theorem singleColor_frame (d : Decoder) (w8 h8 : Nat) (hW : d.m_Width = 8 * (w8 : Int))
    (hH : d.m_Height = 8 * (h8 : Int))
    (hops : ∀ k, k < w8 * h8 →
      opcodeField d.mem (GetOpcodesArray (GetData d.m_CurrentChunk)) k = 21) :
    (frameLoop d).dec.m_AlignedStream =
      GetAlignedData (GetData d.m_CurrentChunk) (toU32 d.m_Height) ∧
    (frameLoop d).dec.m_UnAlignedStream =
      GetUnalignedData d.mem (GetData d.m_CurrentChunk) + w8 * h8 ∧
    ∀ x y : Nat, x < 8 * w8 → y < 8 * h8 →
      (frameLoop d).dec.m_CurrentBuffer.m_Buffer ((x : Int) + (y : Int) * d.m_Width) =
        u8 d.mem (GetUnalignedData d.mem (GetData d.m_CurrentChunk) + (y / 8 * w8 + x / 8)) := by
  have hh := tdiv_height d.m_Height h8 hH
  have key := uniform_frame d w8 hW 21 0 1 _ (by decide)
    (by rw [hh, Nat.mul_comm]; exact hops) (tileFills_singleColor (frameStart d).dec w8 hW)
  rw [hh] at key
  obtain ⟨-, h1, h2, h3⟩ := key.2 (by omega)
  refine ⟨?_, ?_, fun x y hx hy => ?_⟩
  · rw [h1]
    show _ + 0 * _ = _
    rw [Nat.zero_mul]
    rfl
  · rw [h2, Nat.add_zero, Nat.one_mul, Nat.mul_comm h8 w8]
    rfl
  · exact h3 x y hx (Or.inl (by omega))

theorem DecompressFrame_aligned (d : Decoder) :
    (DecompressFrame d).m_AlignedStream = (frameLoop d).dec.m_AlignedStream := rfl

theorem DecompressFrame_unaligned (d : Decoder) :
    (DecompressFrame d).m_UnAlignedStream = (frameLoop d).dec.m_UnAlignedStream := rfl

/-- C14: the SingleColorFill sweep.  For a 320 by 8 frame whose 40 opcodes are all 21, whatever
the unaligned stream holds, pixel `(x, y)` of the frame that `DecompressFrame` saves is
unaligned byte `x / 8`, so that tile `i` is 64 pixels of value `unaligned[i]`; the frame takes
exactly 40 bytes from the unaligned stream and none from the aligned stream. -/
theorem C14_single_color_fill_sweep (d : Decoder) (hW : d.m_Width = 320) (hH : d.m_Height = 8)
    (hops : ∀ k, k < 40 →
      opcodeField d.mem (GetOpcodesArray (GetData d.m_CurrentChunk)) k = 21) :
    (∃ f : ImageBuffer,
      (DecompressFrame d).saved.getLast? = some ⟨d.m_FrameNumber, f, d.m_Palette⟩ ∧
      ∀ x y : Nat, x < 320 → y < 8 →
        f.m_Buffer ((x : Int) + (y : Int) * 320) =
          u8 d.mem (GetUnalignedData d.mem (GetData d.m_CurrentChunk) + x / 8)) ∧
    (DecompressFrame d).m_UnAlignedStream =
      GetUnalignedData d.mem (GetData d.m_CurrentChunk) + 40 ∧
    (DecompressFrame d).m_AlignedStream =
      GetAlignedData (GetData d.m_CurrentChunk) (toU32 d.m_Height) := by
  obtain ⟨h1, h2, h3⟩ := singleColor_frame d 40 1 (by rw [hW]; rfl) (by rw [hH]; rfl) hops
  rw [hW] at h3
  refine ⟨⟨_, DecompressFrame_getLast d, fun x y hx hy => ?_⟩, ?_, ?_⟩
  · rw [h3 x y hx (by omega)]
    have e : y / 8 * 40 + x / 8 = x / 8 := by omega
    rw [e]
  · rw [DecompressFrame_unaligned, h2]
  · rw [DecompressFrame_aligned, h1]

/-- Witness of C14 on `singleColorFrame`, whose unaligned stream is `0..39`. -/
theorem C14_single_color_fill_sweep_witness :
    (∃ f : ImageBuffer,
      (DecompressFrame singleColorFrame).saved.getLast? =
        some ⟨singleColorFrame.m_FrameNumber, f, singleColorFrame.m_Palette⟩ ∧
      ∀ x y : Nat, x < 320 → y < 8 →
        f.m_Buffer ((x : Int) + (y : Int) * 320) =
          u8 singleColorFrame.mem
            (GetUnalignedData singleColorFrame.mem (GetData singleColorFrame.m_CurrentChunk) +
              x / 8)) ∧
    (DecompressFrame singleColorFrame).m_UnAlignedStream =
      GetUnalignedData singleColorFrame.mem (GetData singleColorFrame.m_CurrentChunk) + 40 ∧
    (DecompressFrame singleColorFrame).m_AlignedStream =
      GetAlignedData (GetData singleColorFrame.m_CurrentChunk)
        (toU32 singleColorFrame.m_Height) :=
  C14_single_color_fill_sweep singleColorFrame (by decide) (by decide) (by decide)

/-! ## Loops that write one pixel per turn -/

/-- A loop over a state with a buffer `buf` whose turn `x` stores `val x` at the address
`row + x`: after `n` turns the addresses `row ≤ i < row + n` hold their `val` and the others
keep their byte. -/
theorem forN_pixels {σ : Type} (buf : σ → Int → Nat) (I : Nat → σ → Prop) (body : Nat → σ → σ)
    (row : Int) (val : Nat → Nat)
    (hbody : ∀ x s, I x s → I (x + 1) (body x s) ∧
      ∀ i, buf (body x s) i = if i = row + (x : Int) then val x else buf s i)
    (s : σ) (h0 : I 0 s) (n : Nat) :
    I n (forN n body s) ∧
    ∀ i, buf (forN n body s) i =
      if row ≤ i ∧ i < row + (n : Int) then val (i - row).toNat else buf s i := by
  induction n with
  | zero =>
    refine ⟨h0, fun i => ?_⟩
    rw [if_neg (by omega)]
    rfl
  | succ n ih =>
    obtain ⟨hI, hb⟩ := ih
    obtain ⟨hI', hs⟩ := hbody n _ hI
    refine ⟨hI', fun i => ?_⟩
    show buf (body n (forN n body s)) i = _
    rw [hs, hb]
    by_cases h1 : i = row + (n : Int)
    · rw [if_pos h1, if_pos (by omega)]
      have e : (i - row).toNat = n := by omega
      rw [e]
    · rw [if_neg h1]
      by_cases h2 : row ≤ i ∧ i < row + (n : Int)
      · rw [if_pos h2, if_pos (by omega)]
      · rw [if_neg h2, if_neg (by omega)]

/-- The store of `SetPixel`. -/
theorem SetPixel_buffer (d : Decoder) (x y c : Nat) (i : Int) :
    (d.SetPixel x y c).m_CurrentBuffer.m_Buffer i =
      if i = d.m_CurrentTile + ((x : Int) + (y : Int) * d.m_Width) then c
      else d.m_CurrentBuffer.m_Buffer i := rfl

/-- One row of `OneBitTileDecode`: the mask byte is taken from the aligned stream and its bits,
least significant first, select the colour of the eight pixels of row `r`. -/
theorem OneBitTileDecode_row (d e : Decoder) (r : Nat)
    (h1 : e.m_AlignedStream = d.m_AlignedStream + r)
    (h2 : e.m_UnAlignedStream = d.m_UnAlignedStream) (h3 : e.mem = d.mem)
    (h4 : e.m_CurrentTile = d.m_CurrentTile) (h5 : e.m_Width = d.m_Width) :
    ((forN 8 (fun x (p : Decoder × Nat) =>
          (p.1.SetPixel x r (p.1.unaligned (p.2 % 2)), p.2 / 2))
        (e.skipAligned 1, e.aligned 0)).1.m_AlignedStream = d.m_AlignedStream + (r + 1) ∧
     (forN 8 (fun x (p : Decoder × Nat) =>
          (p.1.SetPixel x r (p.1.unaligned (p.2 % 2)), p.2 / 2))
        (e.skipAligned 1, e.aligned 0)).1.m_UnAlignedStream = d.m_UnAlignedStream ∧
     (forN 8 (fun x (p : Decoder × Nat) =>
          (p.1.SetPixel x r (p.1.unaligned (p.2 % 2)), p.2 / 2))
        (e.skipAligned 1, e.aligned 0)).1.mem = d.mem ∧
     (forN 8 (fun x (p : Decoder × Nat) =>
          (p.1.SetPixel x r (p.1.unaligned (p.2 % 2)), p.2 / 2))
        (e.skipAligned 1, e.aligned 0)).1.m_CurrentTile = d.m_CurrentTile ∧
     (forN 8 (fun x (p : Decoder × Nat) =>
          (p.1.SetPixel x r (p.1.unaligned (p.2 % 2)), p.2 / 2))
        (e.skipAligned 1, e.aligned 0)).1.m_Width = d.m_Width) ∧
    ∀ i, (forN 8 (fun x (p : Decoder × Nat) =>
          (p.1.SetPixel x r (p.1.unaligned (p.2 % 2)), p.2 / 2))
        (e.skipAligned 1, e.aligned 0)).1.m_CurrentBuffer.m_Buffer i =
      if d.m_CurrentTile + (r : Int) * d.m_Width ≤ i ∧
          i < d.m_CurrentTile + (r : Int) * d.m_Width + 8 then
        d.unaligned (d.aligned r / 2 ^ (i - (d.m_CurrentTile + (r : Int) * d.m_Width)).toNat % 2)
      else e.m_CurrentBuffer.m_Buffer i := by
  have inner := forN_pixels (fun p : Decoder × Nat => p.1.m_CurrentBuffer.m_Buffer)
    (fun x p => p.1.m_AlignedStream = d.m_AlignedStream + (r + 1) ∧
      p.1.m_UnAlignedStream = d.m_UnAlignedStream ∧ p.1.mem = d.mem ∧
      p.1.m_CurrentTile = d.m_CurrentTile ∧ p.1.m_Width = d.m_Width ∧
      p.2 = d.aligned r / 2 ^ x)
    (fun x (p : Decoder × Nat) =>
      (p.1.SetPixel x r (p.1.unaligned (p.2 % 2)), p.2 / 2))
    (d.m_CurrentTile + (r : Int) * d.m_Width)
    (fun x => d.unaligned (d.aligned r / 2 ^ x % 2))
    (by
      rintro x p ⟨g1, g2, g3, g4, g5, g6⟩
      refine ⟨⟨g1, g2, g3, g4, g5, ?_⟩, fun i => ?_⟩
      · show p.2 / 2 = _
        rw [g6, Nat.div_div_eq_div_mul, ← Nat.pow_succ]
      · show (p.1.SetPixel x r (p.1.unaligned (p.2 % 2))).m_CurrentBuffer.m_Buffer i = _
        rw [SetPixel_buffer, g4, g5, g6]
        have e1 : d.m_CurrentTile + ((x : Int) + (r : Int) * d.m_Width) =
            d.m_CurrentTile + (r : Int) * d.m_Width + (x : Int) := by ring
        have e2 : p.1.unaligned (d.aligned r / 2 ^ x % 2) =
            d.unaligned (d.aligned r / 2 ^ x % 2) := by
          unfold Decoder.unaligned
          rw [g2, g3]
        rw [e1, e2])
    (e.skipAligned 1, e.aligned 0)
    ⟨by show e.m_AlignedStream + 1 = _; omega, h2, h3, h4, h5, by
      show e.aligned 0 = _
      unfold Decoder.aligned
      rw [h1, h3]
      simp⟩ 8
  obtain ⟨⟨g1, g2, g3, g4, g5, -⟩, gb⟩ := inner
  exact ⟨⟨g1, g2, g3, g4, g5⟩, gb⟩

theorem skipUnaligned_aligned (d : Decoder) (n : Nat) :
    (d.skipUnaligned n).m_AlignedStream = d.m_AlignedStream := rfl

theorem skipUnaligned_unaligned (d : Decoder) (n : Nat) :
    (d.skipUnaligned n).m_UnAlignedStream = d.m_UnAlignedStream + n := rfl

theorem skipUnaligned_buffer (d : Decoder) (n : Nat) :
    (d.skipUnaligned n).m_CurrentBuffer = d.m_CurrentBuffer := rfl

theorem OneBitTileDecode_eq (d : Decoder) :
    OneBitTileDecode d =
      (forN 8 (fun y d =>
        (forN 8 (fun x (p : Decoder × Nat) =>
            (p.1.SetPixel x y (p.1.unaligned (p.2 % 2)), p.2 / 2))
          (d.skipAligned 1, d.aligned 0)).1) d).skipUnaligned 2 := rfl

/-- What `OneBitTileDecode` does: the aligned cursor moves by 8 and the unaligned cursor by 2,
bytes outside the eight rows of the tile keep their value, and when the rows do not overlap
pixel `(c, r)` of the tile is the colour byte selected by bit `c` of mask byte `r`. -/
theorem OneBitTileDecode_spec (d : Decoder) :
    (OneBitTileDecode d).m_AlignedStream = d.m_AlignedStream + 8 ∧
    (OneBitTileDecode d).m_UnAlignedStream = d.m_UnAlignedStream + 2 ∧
    (∀ i, (∀ r : Nat, r < 8 → ¬ (d.m_CurrentTile + (r : Int) * d.m_Width ≤ i ∧
        i < d.m_CurrentTile + (r : Int) * d.m_Width + 8)) →
      (OneBitTileDecode d).m_CurrentBuffer.m_Buffer i = d.m_CurrentBuffer.m_Buffer i) ∧
    (8 ≤ d.m_Width → ∀ r c : Nat, r < 8 → c < 8 →
      (OneBitTileDecode d).m_CurrentBuffer.m_Buffer
          (d.m_CurrentTile + ((c : Int) + (r : Int) * d.m_Width)) =
        d.unaligned (d.aligned r / 2 ^ c % 2)) := by
  have key := forN_rows
    (fun r e => e.m_AlignedStream = d.m_AlignedStream + r ∧
      e.m_UnAlignedStream = d.m_UnAlignedStream ∧ e.mem = d.mem ∧
      e.m_CurrentTile = d.m_CurrentTile ∧ e.m_Width = d.m_Width)
    (fun y d =>
      (forN 8 (fun x (p : Decoder × Nat) =>
          (p.1.SetPixel x y (p.1.unaligned (p.2 % 2)), p.2 / 2))
        (d.skipAligned 1, d.aligned 0)).1)
    (fun r => d.m_CurrentTile + (r : Int) * d.m_Width) 8
    (fun r i => d.unaligned
      (d.aligned r / 2 ^ (i - (d.m_CurrentTile + (r : Int) * d.m_Width)).toNat % 2))
    (fun r e h => OneBitTileDecode_row d e r h.1 h.2.1 h.2.2.1 h.2.2.2.1 h.2.2.2.2)
    d ⟨rfl, rfl, rfl, rfl, rfl⟩ 8
  obtain ⟨⟨h1, h2, -⟩, hout, hin⟩ := key
  rw [OneBitTileDecode_eq, skipUnaligned_aligned, skipUnaligned_unaligned, skipUnaligned_buffer]
  refine ⟨h1, ?_, hout, fun hW r c hr hc => ?_⟩
  · rw [h2]
  have e := hin r (d.m_CurrentTile + ((c : Int) + (r : Int) * d.m_Width)) hr
    (by constructor <;> omega)
    (fun q hq _ => rows_disjoint _ _ hW r q hq _ (by constructor <;> omega))
  have idx : (d.m_CurrentTile + ((c : Int) + (r : Int) * d.m_Width) -
      (d.m_CurrentTile + (r : Int) * d.m_Width)).toNat = c := by omega
  rw [idx] at e
  exact e

/-- C15: `OneBitTileDecode` with the 8 mask bytes `m[0..7]` at the aligned cursor and the two
colour bytes at the unaligned cursor.  In a frame at least 8 pixels wide, pixel `(x, y)` of the
tile is `color[bit x of m[y]]`, bit 0 being the least significant; hence a mask of zeros gives
64 pixels of `color[0]` and a mask of ones 64 pixels of `color[1]`.  The aligned cursor
advances by 8 and the unaligned cursor by 2. -/
theorem C15_OneBitTileDecode_selects_by_mask_bit (d : Decoder) (hW : 8 ≤ d.m_Width) :
    (∀ x y : Nat, x < 8 → y < 8 →
      (OneBitTileDecode d).m_CurrentBuffer.m_Buffer
          (d.m_CurrentTile + ((x : Int) + (y : Int) * d.m_Width)) =
        d.unaligned (d.aligned y / 2 ^ x % 2)) ∧
    ((∀ y : Nat, y < 8 → d.aligned y = 0) → ∀ x y : Nat, x < 8 → y < 8 →
      (OneBitTileDecode d).m_CurrentBuffer.m_Buffer
          (d.m_CurrentTile + ((x : Int) + (y : Int) * d.m_Width)) = d.unaligned 0) ∧
    ((∀ y : Nat, y < 8 → d.aligned y = 255) → ∀ x y : Nat, x < 8 → y < 8 →
      (OneBitTileDecode d).m_CurrentBuffer.m_Buffer
          (d.m_CurrentTile + ((x : Int) + (y : Int) * d.m_Width)) = d.unaligned 1) ∧
    (OneBitTileDecode d).m_AlignedStream = d.m_AlignedStream + 8 ∧
    (OneBitTileDecode d).m_UnAlignedStream = d.m_UnAlignedStream + 2 := by
  obtain ⟨s1, s2, -, s4⟩ := OneBitTileDecode_spec d
  refine ⟨fun x y hx hy => s4 hW y x hy hx, fun hm x y hx hy => ?_, fun hm x y hx hy => ?_,
    s1, s2⟩
  · rw [s4 hW y x hy hx, hm y hy]
    simp
  · rw [s4 hW y x hy hx, hm y hy]
    have e : 255 / 2 ^ x % 2 = 1 := by interval_cases x <;> rfl
    rw [e]


/-- Witness of C15 on `tileSample`, a 16-pixel-wide frame. -/
theorem C15_OneBitTileDecode_selects_by_mask_bit_witness :
    (8 : Int) ≤ tileSample.m_Width ∧
    ((∀ x y : Nat, x < 8 → y < 8 →
      (OneBitTileDecode tileSample).m_CurrentBuffer.m_Buffer
          (tileSample.m_CurrentTile + ((x : Int) + (y : Int) * tileSample.m_Width)) =
        tileSample.unaligned (tileSample.aligned y / 2 ^ x % 2)) ∧
    ((∀ y : Nat, y < 8 → tileSample.aligned y = 0) → ∀ x y : Nat, x < 8 → y < 8 →
      (OneBitTileDecode tileSample).m_CurrentBuffer.m_Buffer
          (tileSample.m_CurrentTile + ((x : Int) + (y : Int) * tileSample.m_Width)) =
        tileSample.unaligned 0) ∧
    ((∀ y : Nat, y < 8 → tileSample.aligned y = 255) → ∀ x y : Nat, x < 8 → y < 8 →
      (OneBitTileDecode tileSample).m_CurrentBuffer.m_Buffer
          (tileSample.m_CurrentTile + ((x : Int) + (y : Int) * tileSample.m_Width)) =
        tileSample.unaligned 1) ∧
    (OneBitTileDecode tileSample).m_AlignedStream = tileSample.m_AlignedStream + 8 ∧
    (OneBitTileDecode tileSample).m_UnAlignedStream = tileSample.m_UnAlignedStream + 2) :=
  ⟨by decide, C15_OneBitTileDecode_selects_by_mask_bit tileSample (by decide)⟩

/-! ## Motion tiles -/

/-- The expression `((value & 15) << 28) >> 28` is the low nibble of the byte read as a signed
4-bit integer. -/
theorem shl28sar28_nibble (b : Nat) : shl28sar28 ((b : Int) % 16) = signed4 (b % 16) := by
  unfold shl28sar28 toS32 signed4
  split_ifs <;> omega

/-- The expression `(value << 24) >> 28` is the high nibble of the byte read as a signed 4-bit
integer. -/
theorem shl24sar28_nibble (b : Nat) (h : b < 256) : shl24sar28 (b : Int) = signed4 (b / 16) := by
  unfold shl24sar28 toS32 signed4
  split_ifs <;> omega

/-- Two runs of a loop from related states end in related states. -/
theorem forN_rel {σ τ : Type} (R : σ → τ → Prop) (f : Nat → σ → σ) (g : Nat → τ → τ)
    (h : ∀ i s t, R s t → R (f i s) (g i t)) (s : σ) (t : τ) (h0 : R s t) (n : Nat) :
    R (forN n f s) (forN n g t) := by
  induction n with
  | zero => exact h0
  | succ n ih => exact h n _ _ ih

/-- The picture that `BlockCopy8x8` leaves depends on the two buffers and the width only. -/
theorem BlockCopy8x8_congr (d e : Decoder) (dest source : Int)
    (h1 : d.m_CurrentBuffer = e.m_CurrentBuffer) (h2 : d.m_PreviousBuffer = e.m_PreviousBuffer)
    (h3 : d.m_Width = e.m_Width) :
    (BlockCopy8x8 d dest source).m_CurrentBuffer = (BlockCopy8x8 e dest source).m_CurrentBuffer := by
  have key := forN_rel
    (fun a b : Decoder => a.m_CurrentBuffer = b.m_CurrentBuffer ∧
      a.m_PreviousBuffer = b.m_PreviousBuffer ∧ a.m_Width = b.m_Width)
    (fun y d =>
      d.memcpyPrev (dest + (y : Int) * d.m_Width) (source + (y : Int) * d.m_Width) 8)
    (fun y d =>
      d.memcpyPrev (dest + (y : Int) * d.m_Width) (source + (y : Int) * d.m_Width) 8)
    (by
      rintro i s t ⟨g1, g2, g3⟩
      refine ⟨?_, g2, g3⟩
      unfold Decoder.memcpyPrev Decoder.blit
      simp only [g1, g2, g3])
    d e ⟨h1, h2, h3⟩ 8
  exact key.1

theorem skipUnaligned_width (d : Decoder) (n : Nat) :
    (d.skipUnaligned n).m_Width = d.m_Width := rfl

theorem skipUnaligned_currentTile (d : Decoder) (n : Nat) :
    (d.skipUnaligned n).m_CurrentTile = d.m_CurrentTile := rfl

theorem skipUnaligned_previousTile (d : Decoder) (n : Nat) :
    (d.skipUnaligned n).m_PreviousTile = d.m_PreviousTile := rfl

theorem skipUnaligned_previousBuffer (d : Decoder) (n : Nat) :
    (d.skipUnaligned n).m_PreviousBuffer = d.m_PreviousBuffer := rfl

theorem ZeroMotionDecode_eq (d : Decoder) :
    ZeroMotionDecode d = BlockCopy8x8 d d.m_CurrentTile d.m_PreviousTile := rfl

theorem withTiles_currentTile (d : Decoder) (a b : Int) : (d.withTiles a b).m_CurrentTile = a := rfl

theorem withTiles_previousTile (d : Decoder) (a b : Int) :
    (d.withTiles a b).m_PreviousTile = b := rfl

theorem ShortMotion8Decode_eq (d : Decoder) :
    ShortMotion8Decode d =
      BlockCopy8x8 (d.skipUnaligned 1) d.m_CurrentTile
        (d.m_PreviousTile + (4 + d.m_Width * 4) + shl28sar28 (((d.unaligned 0 : Nat) : Int) % 16) +
          shl24sar28 ((d.unaligned 0 : Nat) : Int) * d.m_Width) := by
  unfold ShortMotion8Decode
  simp only [skipUnaligned_width, skipUnaligned_currentTile, skipUnaligned_previousTile]

/-- C16: `ShortMotion8Decode` with the byte `b` at the unaligned cursor.  `dx` is the low nibble
of `b` and `dy` its high nibble, each read as a signed 4-bit integer between -8 and 7; in a
frame at least 8 pixels wide pixel `(x, y)` of the tile is the byte of the previous buffer at
offset `previous tile cursor + 4 + 4 * width + dx + dy * width + x + y * width`; with `b = 0`
the picture is the one that `ZeroMotionDecode` leaves when the previous tile cursor is moved by
`4 + 4 * width`; the unaligned cursor advances by 1 and the aligned cursor stays. -/
theorem C16_ShortMotion8Decode_signed_nibbles (d : Decoder) (hW : 8 ≤ d.m_Width) :
    (-8 ≤ signed4 (d.unaligned 0 % 16) ∧ signed4 (d.unaligned 0 % 16) ≤ 7 ∧
     -8 ≤ signed4 (d.unaligned 0 / 16) ∧ signed4 (d.unaligned 0 / 16) ≤ 7) ∧
    (∀ x y : Nat, x < 8 → y < 8 →
      (ShortMotion8Decode d).m_CurrentBuffer.m_Buffer
          (d.m_CurrentTile + ((x : Int) + (y : Int) * d.m_Width)) =
        d.m_PreviousBuffer.m_Buffer
          (d.m_PreviousTile + 4 + 4 * d.m_Width + signed4 (d.unaligned 0 % 16) +
            signed4 (d.unaligned 0 / 16) * d.m_Width + (x : Int) + (y : Int) * d.m_Width)) ∧
    (d.unaligned 0 = 0 →
      (ShortMotion8Decode d).m_CurrentBuffer =
        (ZeroMotionDecode (d.withTiles d.m_CurrentTile
          (d.m_PreviousTile + 4 + 4 * d.m_Width))).m_CurrentBuffer) ∧
    (ShortMotion8Decode d).m_UnAlignedStream = d.m_UnAlignedStream + 1 ∧
    (ShortMotion8Decode d).m_AlignedStream = d.m_AlignedStream := by
  have hb : d.unaligned 0 < 256 := u8_lt _ _
  have e1 := shl28sar28_nibble (d.unaligned 0)
  have e2 := shl24sar28_nibble (d.unaligned 0) hb
  obtain ⟨s1, s2, -, s4⟩ := BlockCopy8x8_spec (d.skipUnaligned 1) d.m_CurrentTile
    (d.m_PreviousTile + (4 + d.m_Width * 4) + shl28sar28 (((d.unaligned 0 : Nat) : Int) % 16) +
      shl24sar28 ((d.unaligned 0 : Nat) : Int) * d.m_Width)
  rw [skipUnaligned_width, skipUnaligned_previousBuffer] at s4
  refine ⟨?_, fun x y hx hy => ?_, fun h0 => ?_, ?_, ?_⟩
  · unfold signed4
    refine ⟨?_, ?_, ?_, ?_⟩ <;> split_ifs <;> omega
  · have idx : d.m_PreviousTile + (4 + d.m_Width * 4) + signed4 (d.unaligned 0 % 16) +
          signed4 (d.unaligned 0 / 16) * d.m_Width + ((x : Int) + (y : Int) * d.m_Width) =
        d.m_PreviousTile + 4 + 4 * d.m_Width + signed4 (d.unaligned 0 % 16) +
          signed4 (d.unaligned 0 / 16) * d.m_Width + (x : Int) + (y : Int) * d.m_Width := by
      ring
    rw [ShortMotion8Decode_eq, s4 hW y x hy hx, e1, e2, idx]
  · have z1 : shl28sar28 (((0 : Nat) : Int) % 16) = 0 := by
      rw [shl28sar28_nibble]
      rfl
    have z2 : shl24sar28 ((0 : Nat) : Int) = 0 := by
      rw [shl24sar28_nibble 0 (by decide)]
      rfl
    rw [ShortMotion8Decode_eq, h0, z1, z2]
    have e4 : d.m_PreviousTile + (4 + d.m_Width * 4) + 0 + 0 * d.m_Width =
        d.m_PreviousTile + 4 + 4 * d.m_Width := by ring
    rw [e4, ZeroMotionDecode_eq, withTiles_currentTile, withTiles_previousTile]
    exact BlockCopy8x8_congr (d.skipUnaligned 1)
      (d.withTiles d.m_CurrentTile (d.m_PreviousTile + 4 + 4 * d.m_Width)) _ _
      (skipUnaligned_buffer d 1) (skipUnaligned_previousBuffer d 1) (skipUnaligned_width d 1)
  · rw [ShortMotion8Decode_eq, s2, skipUnaligned_unaligned]
  · rw [ShortMotion8Decode_eq, s1, skipUnaligned_aligned]

/-- Witness of C16 on `tileSample`, whose unaligned byte is 1. -/
theorem C16_ShortMotion8Decode_signed_nibbles_witness :
    (8 : Int) ≤ tileSample.m_Width ∧
    ((-8 ≤ signed4 (tileSample.unaligned 0 % 16) ∧ signed4 (tileSample.unaligned 0 % 16) ≤ 7 ∧
     -8 ≤ signed4 (tileSample.unaligned 0 / 16) ∧ signed4 (tileSample.unaligned 0 / 16) ≤ 7) ∧
    (∀ x y : Nat, x < 8 → y < 8 →
      (ShortMotion8Decode tileSample).m_CurrentBuffer.m_Buffer
          (tileSample.m_CurrentTile + ((x : Int) + (y : Int) * tileSample.m_Width)) =
        tileSample.m_PreviousBuffer.m_Buffer
          (tileSample.m_PreviousTile + 4 + 4 * tileSample.m_Width +
            signed4 (tileSample.unaligned 0 % 16) +
            signed4 (tileSample.unaligned 0 / 16) * tileSample.m_Width +
            (x : Int) + (y : Int) * tileSample.m_Width)) ∧
    (tileSample.unaligned 0 = 0 →
      (ShortMotion8Decode tileSample).m_CurrentBuffer =
        (ZeroMotionDecode (tileSample.withTiles tileSample.m_CurrentTile
          (tileSample.m_PreviousTile + 4 + 4 * tileSample.m_Width))).m_CurrentBuffer) ∧
    (ShortMotion8Decode tileSample).m_UnAlignedStream = tileSample.m_UnAlignedStream + 1 ∧
    (ShortMotion8Decode tileSample).m_AlignedStream = tileSample.m_AlignedStream) :=
  ⟨by decide, C16_ShortMotion8Decode_signed_nibbles tileSample (by decide)⟩

theorem Motion8Decode_eq (d : Decoder) :
    Motion8Decode d =
      (BlockCopy8x8 d d.m_CurrentTile
        (d.m_PreviousFrameBuffer + ((u16 d.mem d.m_UnAlignedStream : Nat) : Int))).skipUnaligned 2 :=
  rfl

/-- What `Motion8Decode` does: the unaligned cursor moves by 2, the aligned cursor stays, bytes
outside the eight rows of the tile keep their value, and when the rows do not overlap pixel
`(c, r)` of the tile is the byte of the previous buffer at the 16-bit offset read from the
unaligned stream, plus `c + r * width`. -/
theorem Motion8Decode_spec (d : Decoder) :
    (Motion8Decode d).m_AlignedStream = d.m_AlignedStream ∧
    (Motion8Decode d).m_UnAlignedStream = d.m_UnAlignedStream + 2 ∧
    (∀ i, (∀ r : Nat, r < 8 → ¬ (d.m_CurrentTile + (r : Int) * d.m_Width ≤ i ∧
        i < d.m_CurrentTile + (r : Int) * d.m_Width + 8)) →
      (Motion8Decode d).m_CurrentBuffer.m_Buffer i = d.m_CurrentBuffer.m_Buffer i) ∧
    (8 ≤ d.m_Width → ∀ r c : Nat, r < 8 → c < 8 →
      (Motion8Decode d).m_CurrentBuffer.m_Buffer
          (d.m_CurrentTile + ((c : Int) + (r : Int) * d.m_Width)) =
        d.m_PreviousBuffer.m_Buffer
          (d.m_PreviousFrameBuffer + ((u16 d.mem d.m_UnAlignedStream : Nat) : Int) +
            ((c : Int) + (r : Int) * d.m_Width))) := by
  obtain ⟨s1, s2, s3, s4⟩ := BlockCopy8x8_spec d d.m_CurrentTile
    (d.m_PreviousFrameBuffer + ((u16 d.mem d.m_UnAlignedStream : Nat) : Int))
  rw [Motion8Decode_eq, skipUnaligned_aligned, skipUnaligned_unaligned, skipUnaligned_buffer]
  refine ⟨s1, ?_, s3, s4⟩
  rw [s2]

/-- Opcode 9 fills its tile with the block of the previous buffer that starts at the 16-bit
offset read from the unaligned stream. -/
theorem tileFills_motion8 (d0 : Decoder) (w8 : Nat) (hW : d0.m_Width = 8 * (w8 : Int)) :
    TileFills d0 w8 9 0 2 (fun x y =>
      d0.m_PreviousBuffer.m_Buffer (d0.m_PreviousFrameBuffer +
        ((u16 d0.mem (d0.m_UnAlignedStream + 2 * (y / 8 * w8 + x / 8)) : Nat) : Int) +
        (((x % 8 : Nat) : Int) + ((y % 8 : Nat) : Int) * d0.m_Width))) := by
  intro e tx ty htx k hc _ hal hun
  have hw : e.m_Width = d0.m_Width := k.width
  have hmem : e.mem = d0.mem := k.mem
  have hprev : e.m_PreviousBuffer = d0.m_PreviousBuffer := k.previousBuffer
  have hpfb : e.m_PreviousFrameBuffer = d0.m_PreviousFrameBuffer := k.previousFrameBuffer
  obtain ⟨s1, s2, s3, s4⟩ := Motion8Decode_spec e
  rw [hc, hw] at s3 s4
  rw [hprev, hpfb, hmem, hun] at s4
  refine ⟨s1, s2, s3, fun r c hr hcc => ?_⟩
  show (Motion8Decode e).m_CurrentBuffer.m_Buffer _ = _
  rw [s4 (by omega) r c hr hcc]
  have e1 : (8 * ty + r) / 8 = ty := by omega
  have e2 : (8 * tx + c) / 8 = tx := by omega
  have e3 : (8 * ty + r) % 8 = r := by omega
  have e4 : (8 * tx + c) % 8 = c := by omega
  beta_reduce
  rw [e1, e2, e3, e4]

/-- The pixels and the cursors after the loops of a frame whose opcodes are all 9. -/
theorem motion8_frame (d : Decoder) (w8 h8 : Nat) (hW : d.m_Width = 8 * (w8 : Int))
    (hH : d.m_Height = 8 * (h8 : Int))
    (hops : ∀ k, k < w8 * h8 →
      opcodeField d.mem (GetOpcodesArray (GetData d.m_CurrentChunk)) k = 9) :
    (frameLoop d).dec.m_AlignedStream =
      GetAlignedData (GetData d.m_CurrentChunk) (toU32 d.m_Height) ∧
    (frameLoop d).dec.m_UnAlignedStream =
      GetUnalignedData d.mem (GetData d.m_CurrentChunk) + 2 * (w8 * h8) ∧
    ∀ x y : Nat, x < 8 * w8 → y < 8 * h8 →
      (frameLoop d).dec.m_CurrentBuffer.m_Buffer ((x : Int) + (y : Int) * d.m_Width) =
        d.m_PreviousBuffer.m_Buffer (0 +
          ((u16 d.mem (GetUnalignedData d.mem (GetData d.m_CurrentChunk) +
            2 * (y / 8 * w8 + x / 8)) : Nat) : Int) +
          (((x % 8 : Nat) : Int) + ((y % 8 : Nat) : Int) * d.m_Width)) := by
  have hh := tdiv_height d.m_Height h8 hH
  have key := uniform_frame d w8 hW 9 0 2 _ (by decide)
    (by rw [hh, Nat.mul_comm]; exact hops) (tileFills_motion8 (frameStart d).dec w8 hW)
  rw [hh] at key
  obtain ⟨-, h1, h2, h3⟩ := key.2 (by omega)
  refine ⟨?_, ?_, fun x y hx hy => ?_⟩
  · rw [h1]
    show _ + 0 * _ = _
    rw [Nat.zero_mul]
    rfl
  · rw [h2, Nat.add_zero, Nat.mul_comm h8 w8]
    rfl
  · exact h3 x y hx (Or.inl (by omega))

/-- C17: `Motion8Decode` reads one little-endian 16-bit offset `o` at the unaligned cursor,
advances that cursor by 2 and leaves the aligned cursor alone; with `m_PreviousFrameBuffer` at
the start of the previous buffer, where `DecompressFrame` puts it, pixel `(x, y)` of the tile
is byte `o + x + y * width` of the previous buffer wherever the two tile cursors `a` and `b`
are.  Hence in a 320-wide frame whose opcodes are all 9 and whose offsets for the first row of
tiles are `8 * i + 8`, every tile `i < 39` of the saved frame is tile `i + 1` of the previous
frame. -/
theorem C17_Motion8Decode_absolute_offset :
    (∀ (d : Decoder) (a b : Int), 8 ≤ d.m_Width → d.m_PreviousFrameBuffer = 0 →
      (∀ x y : Nat, x < 8 → y < 8 →
        (Motion8Decode (d.withTiles a b)).m_CurrentBuffer.m_Buffer
            (a + ((x : Int) + (y : Int) * d.m_Width)) =
          d.m_PreviousBuffer.m_Buffer
            (((u16 d.mem d.m_UnAlignedStream : Nat) : Int) + (x : Int) + (y : Int) * d.m_Width)) ∧
      (Motion8Decode (d.withTiles a b)).m_UnAlignedStream = d.m_UnAlignedStream + 2 ∧
      (Motion8Decode (d.withTiles a b)).m_AlignedStream = d.m_AlignedStream) ∧
    (∀ (d : Decoder) (h8 : Nat), d.m_Width = 320 → d.m_Height = 8 * (h8 : Int) → 1 ≤ h8 →
      (∀ k, k < 40 * h8 →
        opcodeField d.mem (GetOpcodesArray (GetData d.m_CurrentChunk)) k = 9) →
      (∀ i, i < 40 →
        u16 d.mem (GetUnalignedData d.mem (GetData d.m_CurrentChunk) + 2 * i) = 8 * i + 8) →
      ∃ f : ImageBuffer,
        (DecompressFrame d).saved.getLast? = some ⟨d.m_FrameNumber, f, d.m_Palette⟩ ∧
        ∀ i x y : Nat, i < 39 → x < 8 → y < 8 →
          f.m_Buffer ((8 * i + x : Nat) + (y : Int) * 320) =
            d.m_PreviousBuffer.m_Buffer ((8 * (i + 1) + x : Nat) + (y : Int) * 320)) := by
  refine ⟨fun d a b hW h0 => ?_, fun d h8 hW hH h1 hops hoff => ?_⟩
  · obtain ⟨s1, s2, -, s4⟩ := Motion8Decode_spec (d.withTiles a b)
    refine ⟨fun x y hx hy => ?_, s2, s1⟩
    have e := s4 hW y x hy hx
    have e1 : (d.withTiles a b).m_CurrentTile = a := rfl
    have e2 : (d.withTiles a b).m_Width = d.m_Width := rfl
    have e3 : (d.withTiles a b).m_PreviousBuffer = d.m_PreviousBuffer := rfl
    have e4 : (d.withTiles a b).m_PreviousFrameBuffer = d.m_PreviousFrameBuffer := rfl
    have e5 : (d.withTiles a b).mem = d.mem := rfl
    have e6 : (d.withTiles a b).m_UnAlignedStream = d.m_UnAlignedStream := rfl
    rw [e1, e2, e3, e4, e5, e6, h0] at e
    have idx : (0 : Int) + ((u16 d.mem d.m_UnAlignedStream : Nat) : Int) +
          ((x : Int) + (y : Int) * d.m_Width) =
        ((u16 d.mem d.m_UnAlignedStream : Nat) : Int) + (x : Int) + (y : Int) * d.m_Width := by
      ring
    rw [idx] at e
    exact e
  · obtain ⟨-, -, h3⟩ := motion8_frame d 40 h8 (by rw [hW]; rfl) hH hops
    rw [hW] at h3
    refine ⟨_, DecompressFrame_getLast d, fun i x y hi hx hy => ?_⟩
    have e := h3 (8 * i + x) y (by omega) (by omega)
    have e1 : y / 8 * 40 + (8 * i + x) / 8 = i := by omega
    have e2 : (8 * i + x) % 8 = x := by omega
    have e3 : y % 8 = y := by omega
    rw [e1, e2, e3, hoff i (by omega)] at e
    have idx : (0 : Int) + ((8 * i + 8 : Nat) : Int) + ((x : Int) + (y : Int) * 320) =
        ((8 * (i + 1) + x : Nat) : Int) + (y : Int) * 320 := by
      push_cast
      ring
    rw [idx] at e
    exact e

/-- Witness of C17: the tile on `tileSample` with both tile cursors at offset 8, the frame on
`motion8Frame`. -/
theorem C17_Motion8Decode_absolute_offset_witness :
    ((∀ x y : Nat, x < 8 → y < 8 →
        (Motion8Decode (tileSample.withTiles 8 8)).m_CurrentBuffer.m_Buffer
            (8 + ((x : Int) + (y : Int) * tileSample.m_Width)) =
          tileSample.m_PreviousBuffer.m_Buffer
            (((u16 tileSample.mem tileSample.m_UnAlignedStream : Nat) : Int) + (x : Int) +
              (y : Int) * tileSample.m_Width)) ∧
      (Motion8Decode (tileSample.withTiles 8 8)).m_UnAlignedStream =
        tileSample.m_UnAlignedStream + 2 ∧
      (Motion8Decode (tileSample.withTiles 8 8)).m_AlignedStream = tileSample.m_AlignedStream) ∧
    (∃ f : ImageBuffer,
      (DecompressFrame motion8Frame).saved.getLast? =
        some ⟨motion8Frame.m_FrameNumber, f, motion8Frame.m_Palette⟩ ∧
      ∀ i x y : Nat, i < 39 → x < 8 → y < 8 →
        f.m_Buffer ((8 * i + x : Nat) + (y : Int) * 320) =
          motion8Frame.m_PreviousBuffer.m_Buffer ((8 * (i + 1) + x : Nat) + (y : Int) * 320)) :=
  ⟨C17_Motion8Decode_absolute_offset.1 tileSample 8 8 (by decide) (by decide),
   C17_Motion8Decode_absolute_offset.2 motion8Frame 1 (by decide) (by decide) (by decide)
     (by decide) (by decide)⟩

/-! ## The reader `ReadXYOffset` -/

theorem toS8_range (v : Int) : -128 ≤ toS8 v ∧ toS8 v ≤ 127 := by
  unfold toS8
  split_ifs <;> omega

theorem toS16_of_range (v : Int) (h1 : -32768 ≤ v) (h2 : v ≤ 32767) : toS16 v = v := by
  unfold toS16
  split_ifs <;> omega

/-- C18: `ReadXYOffset` on the two bytes at the cursor, read as signed 8-bit `dx` (first byte)
and `dy` (second byte).  For every even stride, in particular every even stride that is not
negative, the value returned is `dx + dy * (stride / 2)` reduced to a signed 16-bit value, and
the cursor advances by exactly 2;
the same value results if the `int` product `dy * stride` wraps around in 32 bits; and for
stride 320 the value is `dx + dy * 160` itself, which lies within the 16-bit range. -/
theorem C18_ReadXYOffset_value (mem : Nat → Nat) (ptr : Nat) (stride : Int)
    (heven : stride % 2 = 0) :
    (ReadXYOffset mem ptr stride).1 =
      toS16 (toS8 (u8 mem ptr) + toS8 (u8 mem (ptr + 1)) * (stride / 2)) ∧
    (ReadXYOffset mem ptr stride).2 = ptr + 2 ∧
    toS16 (toS8 (u8 mem ptr) + Int.tdiv (toS32 (toS8 (u8 mem (ptr + 1)) * stride)) 2) =
      (ReadXYOffset mem ptr stride).1 ∧
    (ReadXYOffset mem ptr 320).1 = toS8 (u8 mem ptr) + toS8 (u8 mem (ptr + 1)) * 160 ∧
    -32768 ≤ toS8 (u8 mem ptr) + toS8 (u8 mem (ptr + 1)) * 160 ∧
    toS8 (u8 mem ptr) + toS8 (u8 mem (ptr + 1)) * 160 ≤ 32767 := by
  obtain ⟨x1, x2⟩ := toS8_range (u8 mem ptr)
  obtain ⟨y1, y2⟩ := toS8_range (u8 mem (ptr + 1))
  have hs : stride = 2 * (stride / 2) := by omega
  have hprod : toS8 (u8 mem (ptr + 1)) * stride = 2 * (toS8 (u8 mem (ptr + 1)) * (stride / 2)) := by
    rw [Int.mul_left_comm, ← hs]
  have hdiv : Int.tdiv (toS8 (u8 mem (ptr + 1)) * stride) 2 =
      toS8 (u8 mem (ptr + 1)) * (stride / 2) := by
    rw [hprod, Int.mul_tdiv_cancel_left _ (by decide)]
  have h320 : Int.tdiv (toS8 (u8 mem (ptr + 1)) * 320) 2 = toS8 (u8 mem (ptr + 1)) * 160 := by
    have e : toS8 (u8 mem (ptr + 1)) * 320 = 2 * (toS8 (u8 mem (ptr + 1)) * 160) := by ring
    rw [e, Int.mul_tdiv_cancel_left _ (by decide)]
  refine ⟨?_, rfl, ?_, ?_, by omega, by omega⟩
  · unfold ReadXYOffset
    rw [hdiv]
  · unfold ReadXYOffset
    rw [hdiv]
    generalize toS8 (u8 mem (ptr + 1)) * (stride / 2) = q at hprod
    generalize toS8 (u8 mem (ptr + 1)) * stride = p at hprod
    generalize toS8 (u8 mem ptr) = dx at x1 x2
    have hw : ∃ k : Int, toS32 p = 2 * (q - k * 2147483648) := by
      unfold toS32
      split_ifs
      · exact ⟨p / 4294967296, by omega⟩
      · exact ⟨p / 4294967296 + 1, by omega⟩
    obtain ⟨k, hk⟩ := hw
    rw [hk, Int.mul_tdiv_cancel_left _ (by decide)]
    unfold toS16
    split_ifs <;> omega
  · unfold ReadXYOffset
    rw [h320]
    exact toS16_of_range _ (by omega) (by omega)

/-- Witness of C18: the bytes `FF 80` (dx = -1, dy = -128) with stride 320 give -20481. -/
theorem C18_ReadXYOffset_value_witness :
    (320 : Int) % 2 = 0 ∧
    ((ReadXYOffset (memOfList [255, 128]) 0 320).1 =
      toS16 (toS8 (u8 (memOfList [255, 128]) 0) +
        toS8 (u8 (memOfList [255, 128]) (0 + 1)) * (320 / 2)) ∧
    (ReadXYOffset (memOfList [255, 128]) 0 320).2 = 0 + 2 ∧
    toS16 (toS8 (u8 (memOfList [255, 128]) 0) +
        Int.tdiv (toS32 (toS8 (u8 (memOfList [255, 128]) (0 + 1)) * 320)) 2) =
      (ReadXYOffset (memOfList [255, 128]) 0 320).1 ∧
    (ReadXYOffset (memOfList [255, 128]) 0 320).1 =
      toS8 (u8 (memOfList [255, 128]) 0) + toS8 (u8 (memOfList [255, 128]) (0 + 1)) * 160 ∧
    -32768 ≤ toS8 (u8 (memOfList [255, 128]) 0) +
      toS8 (u8 (memOfList [255, 128]) (0 + 1)) * 160 ∧
    toS8 (u8 (memOfList [255, 128]) 0) + toS8 (u8 (memOfList [255, 128]) (0 + 1)) * 160 ≤ 32767) :=
  ⟨by decide, C18_ReadXYOffset_value (memOfList [255, 128]) 0 320 (by decide)⟩

/-! ## Bank tiles -/

theorem skipAligned_buffer (d : Decoder) (n : Nat) :
    (d.skipAligned n).m_CurrentBuffer = d.m_CurrentBuffer := rfl

theorem OneBankTileDecode_eq (d : Decoder) :
    OneBankTileDecode d =
      forN 8 (fun y e =>
        forN 8 (fun x e =>
          if x % 2 = 1 then
            (e.SetPixel x y ((d.unaligned 0 + e.aligned 0 / 16) % 256)).skipAligned 1
          else e.SetPixel x y ((d.unaligned 0 + e.aligned 0 % 16) % 256)) e)
        (d.skipUnaligned 1) := rfl

/-- One row of `OneBankTileDecode`: four aligned bytes give the eight pixels of row `r`, the
low nibble of a byte before its high nibble, each added to the byte `bank`. -/
theorem OneBankTileDecode_row (d e : Decoder) (bank r : Nat)
    (h1 : e.m_AlignedStream = d.m_AlignedStream + 4 * r)
    (h2 : e.m_UnAlignedStream = d.m_UnAlignedStream + 1) (h3 : e.mem = d.mem)
    (h4 : e.m_CurrentTile = d.m_CurrentTile) (h5 : e.m_Width = d.m_Width) :
    ((forN 8 (fun x e =>
          if x % 2 = 1 then
            (e.SetPixel x r ((bank + e.aligned 0 / 16) % 256)).skipAligned 1
          else e.SetPixel x r ((bank + e.aligned 0 % 16) % 256)) e).m_AlignedStream =
        d.m_AlignedStream + 4 * (r + 1) ∧
     (forN 8 (fun x e =>
          if x % 2 = 1 then
            (e.SetPixel x r ((bank + e.aligned 0 / 16) % 256)).skipAligned 1
          else e.SetPixel x r ((bank + e.aligned 0 % 16) % 256)) e).m_UnAlignedStream =
        d.m_UnAlignedStream + 1 ∧
     (forN 8 (fun x e =>
          if x % 2 = 1 then
            (e.SetPixel x r ((bank + e.aligned 0 / 16) % 256)).skipAligned 1
          else e.SetPixel x r ((bank + e.aligned 0 % 16) % 256)) e).mem = d.mem ∧
     (forN 8 (fun x e =>
          if x % 2 = 1 then
            (e.SetPixel x r ((bank + e.aligned 0 / 16) % 256)).skipAligned 1
          else e.SetPixel x r ((bank + e.aligned 0 % 16) % 256)) e).m_CurrentTile =
        d.m_CurrentTile ∧
     (forN 8 (fun x e =>
          if x % 2 = 1 then
            (e.SetPixel x r ((bank + e.aligned 0 / 16) % 256)).skipAligned 1
          else e.SetPixel x r ((bank + e.aligned 0 % 16) % 256)) e).m_Width = d.m_Width) ∧
    ∀ i, (forN 8 (fun x e =>
          if x % 2 = 1 then
            (e.SetPixel x r ((bank + e.aligned 0 / 16) % 256)).skipAligned 1
          else e.SetPixel x r ((bank + e.aligned 0 % 16) % 256)) e).m_CurrentBuffer.m_Buffer i =
      if d.m_CurrentTile + (r : Int) * d.m_Width ≤ i ∧
          i < d.m_CurrentTile + (r : Int) * d.m_Width + 8 then
        (bank +
          (if (i - (d.m_CurrentTile + (r : Int) * d.m_Width)).toNat % 2 = 1 then
            d.aligned (4 * r + (i - (d.m_CurrentTile + (r : Int) * d.m_Width)).toNat / 2) / 16
          else
            d.aligned (4 * r + (i - (d.m_CurrentTile + (r : Int) * d.m_Width)).toNat / 2) % 16))
          % 256
      else e.m_CurrentBuffer.m_Buffer i := by
  have inner := forN_pixels (fun p : Decoder => p.m_CurrentBuffer.m_Buffer)
    (fun x p => p.m_AlignedStream = d.m_AlignedStream + 4 * r + x / 2 ∧
      p.m_UnAlignedStream = d.m_UnAlignedStream + 1 ∧ p.mem = d.mem ∧
      p.m_CurrentTile = d.m_CurrentTile ∧ p.m_Width = d.m_Width)
    (fun x e =>
      if x % 2 = 1 then
        (e.SetPixel x r ((bank + e.aligned 0 / 16) % 256)).skipAligned 1
      else e.SetPixel x r ((bank + e.aligned 0 % 16) % 256))
    (d.m_CurrentTile + (r : Int) * d.m_Width)
    (fun x => (bank + (if x % 2 = 1 then d.aligned (4 * r + x / 2) / 16
      else d.aligned (4 * r + x / 2) % 16)) % 256)
    (by
      rintro x p ⟨g1, g2, g3, g4, g5⟩
      have e1 : d.m_CurrentTile + ((x : Int) + (r : Int) * d.m_Width) =
          d.m_CurrentTile + (r : Int) * d.m_Width + (x : Int) := by ring
      have e2 : p.aligned 0 = d.aligned (4 * r + x / 2) := by
        unfold Decoder.aligned
        rw [g1, g3, Nat.add_zero, Nat.add_assoc]
      by_cases hx : x % 2 = 1
      · simp only [if_pos hx]
        refine ⟨⟨?_, g2, g3, g4, g5⟩, fun i => ?_⟩
        · show p.m_AlignedStream + 1 = _
          omega
        · rw [skipAligned_buffer, SetPixel_buffer, g4, g5, e1, e2]
      · simp only [if_neg hx]
        refine ⟨⟨?_, g2, g3, g4, g5⟩, fun i => ?_⟩
        · show p.m_AlignedStream = _
          omega
        · rw [SetPixel_buffer, g4, g5, e1, e2])
    e ⟨by omega, h2, h3, h4, h5⟩ 8
  obtain ⟨⟨g1, g2, g3, g4, g5⟩, gb⟩ := inner
  exact ⟨⟨by omega, g2, g3, g4, g5⟩, gb⟩

/-- What `OneBankTileDecode` does: the unaligned cursor moves by 1 and the aligned cursor by 32,
bytes outside the eight rows of the tile keep their value, and when the rows do not overlap
pixel `(c, r)` of the tile is the unaligned byte plus a nibble of aligned byte `4 * r + c / 2`,
the low one for even `c` and the high one for odd `c`, reduced modulo 256. -/
theorem OneBankTileDecode_spec (d : Decoder) :
    (OneBankTileDecode d).m_AlignedStream = d.m_AlignedStream + 32 ∧
    (OneBankTileDecode d).m_UnAlignedStream = d.m_UnAlignedStream + 1 ∧
    (∀ i, (∀ r : Nat, r < 8 → ¬ (d.m_CurrentTile + (r : Int) * d.m_Width ≤ i ∧
        i < d.m_CurrentTile + (r : Int) * d.m_Width + 8)) →
      (OneBankTileDecode d).m_CurrentBuffer.m_Buffer i = d.m_CurrentBuffer.m_Buffer i) ∧
    (8 ≤ d.m_Width → ∀ r c : Nat, r < 8 → c < 8 →
      (OneBankTileDecode d).m_CurrentBuffer.m_Buffer
          (d.m_CurrentTile + ((c : Int) + (r : Int) * d.m_Width)) =
        (d.unaligned 0 + (if c % 2 = 1 then d.aligned (4 * r + c / 2) / 16
          else d.aligned (4 * r + c / 2) % 16)) % 256) := by
  have key := forN_rows
    (fun r e => e.m_AlignedStream = d.m_AlignedStream + 4 * r ∧
      e.m_UnAlignedStream = d.m_UnAlignedStream + 1 ∧ e.mem = d.mem ∧
      e.m_CurrentTile = d.m_CurrentTile ∧ e.m_Width = d.m_Width)
    (fun y e =>
      forN 8 (fun x e =>
        if x % 2 = 1 then
          (e.SetPixel x y ((d.unaligned 0 + e.aligned 0 / 16) % 256)).skipAligned 1
        else e.SetPixel x y ((d.unaligned 0 + e.aligned 0 % 16) % 256)) e)
    (fun r => d.m_CurrentTile + (r : Int) * d.m_Width) 8
    (fun r i => (d.unaligned 0 +
      (if (i - (d.m_CurrentTile + (r : Int) * d.m_Width)).toNat % 2 = 1 then
        d.aligned (4 * r + (i - (d.m_CurrentTile + (r : Int) * d.m_Width)).toNat / 2) / 16
      else
        d.aligned (4 * r + (i - (d.m_CurrentTile + (r : Int) * d.m_Width)).toNat / 2) % 16))
      % 256)
    (fun r e h => OneBankTileDecode_row d e (d.unaligned 0) r h.1 h.2.1 h.2.2.1 h.2.2.2.1
      h.2.2.2.2)
    (d.skipUnaligned 1) ⟨rfl, rfl, rfl, rfl, rfl⟩ 8
  obtain ⟨⟨h1, h2, -⟩, hout, hin⟩ := key
  rw [OneBankTileDecode_eq]
  refine ⟨h1, h2, hout, fun hW r c hr hc => ?_⟩
  have e := hin r (d.m_CurrentTile + ((c : Int) + (r : Int) * d.m_Width)) hr
    (by constructor <;> omega)
    (fun q hq _ => rows_disjoint _ _ hW r q hq _ (by constructor <;> omega))
  have idx : (d.m_CurrentTile + ((c : Int) + (r : Int) * d.m_Width) -
      (d.m_CurrentTile + (r : Int) * d.m_Width)).toNat = c := by omega
  rw [idx] at e
  exact e

/-- C19 (counterexample): on `tileSample` the byte read from the unaligned stream is the bank
index 1 and the low nibble of the first aligned byte is 1; the claim puts `1 * 16 + 1 = 17` in
pixel `(0, 0)` of the tile, but `OneBankTileDecode` stores `1 + 1 = 2`. -/
theorem C19_bank_index_counterexample :
    (8 : Int) ≤ tileSample.m_Width ∧ tileSample.unaligned 0 = 1 ∧
    tileSample.aligned (4 * 0 + 0 / 2) % 16 = 1 ∧
    (OneBankTileDecode tileSample).m_CurrentBuffer.m_Buffer
        (tileSample.m_CurrentTile + (((0 : Nat) : Int) + ((0 : Nat) : Int) * tileSample.m_Width)) = 2 ∧
    (OneBankTileDecode tileSample).m_CurrentBuffer.m_Buffer
        (tileSample.m_CurrentTile + (((0 : Nat) : Int) + ((0 : Nat) : Int) * tileSample.m_Width)) ≠
      tileSample.unaligned 0 * 16 + tileSample.aligned (4 * 0 + 0 / 2) % 16 := by
  decide

/-- C19 (amended): `OneBankTileDecode` adds the byte `b` read from the unaligned stream as it is,
without a multiplication by 16.  For every byte `b` (0 to 255) and every 32 bytes `a[0..31]` at
the aligned cursor, in a frame at least 8 pixels wide, pixel `(x, y)` of the tile is
`(b + n) mod 256`, where `n` is the low nibble of `a[4 * y + x / 2]` when `x` is even and its
high nibble when `x` is odd; so the pixel is `k * 16 + n` when the byte is `b = 16 * k`, the
first colour of bank `k`.  The unaligned cursor advances by 1 and the aligned cursor by 32. -/
theorem C19_OneBankTileDecode_adds_bank_byte (d : Decoder) (hW : 8 ≤ d.m_Width) :
    (∀ x y : Nat, x < 8 → y < 8 →
      (OneBankTileDecode d).m_CurrentBuffer.m_Buffer
          (d.m_CurrentTile + ((x : Int) + (y : Int) * d.m_Width)) =
        (d.unaligned 0 + (if x % 2 = 1 then d.aligned (4 * y + x / 2) / 16
          else d.aligned (4 * y + x / 2) % 16)) % 256) ∧
    (∀ k : Nat, k < 16 → d.unaligned 0 = 16 * k → ∀ x y : Nat, x < 8 → y < 8 →
      (OneBankTileDecode d).m_CurrentBuffer.m_Buffer
          (d.m_CurrentTile + ((x : Int) + (y : Int) * d.m_Width)) =
        k * 16 + (if x % 2 = 1 then d.aligned (4 * y + x / 2) / 16
          else d.aligned (4 * y + x / 2) % 16)) ∧
    (OneBankTileDecode d).m_UnAlignedStream = d.m_UnAlignedStream + 1 ∧
    (OneBankTileDecode d).m_AlignedStream = d.m_AlignedStream + 32 := by
  obtain ⟨s1, s2, -, s4⟩ := OneBankTileDecode_spec d
  refine ⟨fun x y hx hy => s4 hW y x hy hx, fun k hk hb x y hx hy => ?_, s2, s1⟩
  rw [s4 hW y x hy hx, hb]
  have ha : d.aligned (4 * y + x / 2) < 256 := u8_lt _ _
  split_ifs <;> omega

/-- Witness of the amended C19 on `tileSample`. -/
theorem C19_OneBankTileDecode_adds_bank_byte_witness :
    (8 : Int) ≤ tileSample.m_Width ∧
    ((∀ x y : Nat, x < 8 → y < 8 →
      (OneBankTileDecode tileSample).m_CurrentBuffer.m_Buffer
          (tileSample.m_CurrentTile + ((x : Int) + (y : Int) * tileSample.m_Width)) =
        (tileSample.unaligned 0 + (if x % 2 = 1 then tileSample.aligned (4 * y + x / 2) / 16
          else tileSample.aligned (4 * y + x / 2) % 16)) % 256) ∧
    (∀ k : Nat, k < 16 → tileSample.unaligned 0 = 16 * k → ∀ x y : Nat, x < 8 → y < 8 →
      (OneBankTileDecode tileSample).m_CurrentBuffer.m_Buffer
          (tileSample.m_CurrentTile + ((x : Int) + (y : Int) * tileSample.m_Width)) =
        k * 16 + (if x % 2 = 1 then tileSample.aligned (4 * y + x / 2) / 16
          else tileSample.aligned (4 * y + x / 2) % 16)) ∧
    (OneBankTileDecode tileSample).m_UnAlignedStream = tileSample.m_UnAlignedStream + 1 ∧
    (OneBankTileDecode tileSample).m_AlignedStream = tileSample.m_AlignedStream + 32) :=
  ⟨by decide, C19_OneBankTileDecode_adds_bank_byte tileSample (by decide)⟩

/-! ## Two-bank tiles -/

theorem land_15 (n : Nat) : n &&& 15 = n % 16 := Nat.and_pow_two_sub_one_eq_mod n 4

theorem land_31 (n : Nat) : n &&& 31 = n % 32 := Nat.and_pow_two_sub_one_eq_mod n 5

theorem land_16_div (n : Nat) : (n &&& 16) / 16 = n / 16 % 2 := by
  have h := Nat.and_two_pow n 4
  have e : (2 : Nat) ^ 4 = 16 := by norm_num
  rw [e] at h
  rw [h, Nat.testBit_to_div_mod, e]
  by_cases hb : n / 16 % 2 = 1
  · simp [hb]
  · have h0 : n / 16 % 2 = 0 := by omega
    simp [h0]

theorem testBit_4 (n : Nat) : n.testBit 4 = decide (n / 16 % 2 = 1) := by
  rw [Nat.testBit_to_div_mod]

/-- One turn of the 64-bit shift register that `part1` and `part2` form. -/
theorem twoBanks_shift (T : Nat) :
    (T % 4294967296) / 32 ||| (T / 4294967296 * 134217728) % 4294967296 =
      (T / 32) % 4294967296 := by
  have ha : (T % 4294967296) / 32 < 2 ^ 27 := by omega
  have hb : (T / 4294967296 * 134217728) % 4294967296 = 2 ^ 27 * (T / 4294967296 % 32) := by
    omega
  rw [hb, Nat.lor_comm, ← Nat.mul_add_lt_is_or ha]
  omega

theorem TwoBanksTileDecode_eq (d : Decoder) :
    TwoBanksTileDecode d =
      forN 8 (fun y e =>
        (forN 8 (fun x (p : Decoder × Nat × Nat) =>
            (p.1.SetPixel x y
                (((if (p.2.1 &&& 16) / 16 = 0 then ((d.unaligned 0 % 16) * 16) % 256
                    else d.unaligned 0 &&& 0xf0) + p.2.1 % 16) % 256),
             (p.2.1 / 32) ||| ((p.2.2 * 134217728) % 4294967296),
             p.2.2 / 32))
          (e.skipAligned 5, u32 e.mem e.m_AlignedStream, u32 e.mem (e.m_AlignedStream + 4))).1)
        (d.skipUnaligned 1) := rfl

/-- One row of `TwoBanksTileDecode`: `part1` and `part2` form a shift register over the eight
bytes at the aligned cursor, of which five are consumed, and turn `x` sees in `part1` the low
32 bits of the register shifted right by `5 * x`. -/
theorem TwoBanksTileDecode_row (d e : Decoder) (bank0 bank1 r : Nat)
    (h1 : e.m_AlignedStream = d.m_AlignedStream + 5 * r)
    (h2 : e.m_UnAlignedStream = d.m_UnAlignedStream + 1) (h3 : e.mem = d.mem)
    (h4 : e.m_CurrentTile = d.m_CurrentTile) (h5 : e.m_Width = d.m_Width) :
    ((forN 8 (fun x (p : Decoder × Nat × Nat) =>
          (p.1.SetPixel x r
              (((if (p.2.1 &&& 16) / 16 = 0 then bank0 else bank1) + p.2.1 % 16) % 256),
           (p.2.1 / 32) ||| ((p.2.2 * 134217728) % 4294967296),
           p.2.2 / 32))
        (e.skipAligned 5, u32 e.mem e.m_AlignedStream, u32 e.mem (e.m_AlignedStream + 4))).1.m_AlignedStream = d.m_AlignedStream + 5 * (r + 1) ∧
     (forN 8 (fun x (p : Decoder × Nat × Nat) =>
          (p.1.SetPixel x r
              (((if (p.2.1 &&& 16) / 16 = 0 then bank0 else bank1) + p.2.1 % 16) % 256),
           (p.2.1 / 32) ||| ((p.2.2 * 134217728) % 4294967296),
           p.2.2 / 32))
        (e.skipAligned 5, u32 e.mem e.m_AlignedStream, u32 e.mem (e.m_AlignedStream + 4))).1.m_UnAlignedStream = d.m_UnAlignedStream + 1 ∧
     (forN 8 (fun x (p : Decoder × Nat × Nat) =>
          (p.1.SetPixel x r
              (((if (p.2.1 &&& 16) / 16 = 0 then bank0 else bank1) + p.2.1 % 16) % 256),
           (p.2.1 / 32) ||| ((p.2.2 * 134217728) % 4294967296),
           p.2.2 / 32))
        (e.skipAligned 5, u32 e.mem e.m_AlignedStream, u32 e.mem (e.m_AlignedStream + 4))).1.mem = d.mem ∧
     (forN 8 (fun x (p : Decoder × Nat × Nat) =>
          (p.1.SetPixel x r
              (((if (p.2.1 &&& 16) / 16 = 0 then bank0 else bank1) + p.2.1 % 16) % 256),
           (p.2.1 / 32) ||| ((p.2.2 * 134217728) % 4294967296),
           p.2.2 / 32))
        (e.skipAligned 5, u32 e.mem e.m_AlignedStream, u32 e.mem (e.m_AlignedStream + 4))).1.m_CurrentTile = d.m_CurrentTile ∧
     (forN 8 (fun x (p : Decoder × Nat × Nat) =>
          (p.1.SetPixel x r
              (((if (p.2.1 &&& 16) / 16 = 0 then bank0 else bank1) + p.2.1 % 16) % 256),
           (p.2.1 / 32) ||| ((p.2.2 * 134217728) % 4294967296),
           p.2.2 / 32))
        (e.skipAligned 5, u32 e.mem e.m_AlignedStream, u32 e.mem (e.m_AlignedStream + 4))).1.m_Width = d.m_Width) ∧
    ∀ i, (forN 8 (fun x (p : Decoder × Nat × Nat) =>
          (p.1.SetPixel x r
              (((if (p.2.1 &&& 16) / 16 = 0 then bank0 else bank1) + p.2.1 % 16) % 256),
           (p.2.1 / 32) ||| ((p.2.2 * 134217728) % 4294967296),
           p.2.2 / 32))
        (e.skipAligned 5, u32 e.mem e.m_AlignedStream, u32 e.mem (e.m_AlignedStream + 4))).1.m_CurrentBuffer.m_Buffer i =
      if d.m_CurrentTile + (r : Int) * d.m_Width ≤ i ∧
          i < d.m_CurrentTile + (r : Int) * d.m_Width + 8 then
        ((if (((u32 d.mem (d.m_AlignedStream + 5 * r) + 4294967296 * u32 d.mem (d.m_AlignedStream + 5 * r + 4)) / 32 ^ (i - (d.m_CurrentTile + (r : Int) * d.m_Width)).toNat %
              4294967296) &&& 16) / 16 = 0 then bank0 else bank1) +
          ((u32 d.mem (d.m_AlignedStream + 5 * r) + 4294967296 * u32 d.mem (d.m_AlignedStream + 5 * r + 4)) / 32 ^ (i - (d.m_CurrentTile + (r : Int) * d.m_Width)).toNat %
              4294967296) % 16) % 256
      else e.m_CurrentBuffer.m_Buffer i := by
  have inner := forN_pixels (fun p : Decoder × Nat × Nat => p.1.m_CurrentBuffer.m_Buffer)
    (fun x p => p.1.m_AlignedStream = d.m_AlignedStream + 5 * (r + 1) ∧
      p.1.m_UnAlignedStream = d.m_UnAlignedStream + 1 ∧ p.1.mem = d.mem ∧
      p.1.m_CurrentTile = d.m_CurrentTile ∧ p.1.m_Width = d.m_Width ∧
      p.2.1 = (u32 d.mem (d.m_AlignedStream + 5 * r) + 4294967296 * u32 d.mem (d.m_AlignedStream + 5 * r + 4)) / 32 ^ x % 4294967296 ∧
      p.2.2 = (u32 d.mem (d.m_AlignedStream + 5 * r) + 4294967296 * u32 d.mem (d.m_AlignedStream + 5 * r + 4)) / 32 ^ x / 4294967296)
    (fun x (p : Decoder × Nat × Nat) =>
          (p.1.SetPixel x r
              (((if (p.2.1 &&& 16) / 16 = 0 then bank0 else bank1) + p.2.1 % 16) % 256),
           (p.2.1 / 32) ||| ((p.2.2 * 134217728) % 4294967296),
           p.2.2 / 32))
    (d.m_CurrentTile + (r : Int) * d.m_Width)
    (fun x => ((if (((u32 d.mem (d.m_AlignedStream + 5 * r) + 4294967296 * u32 d.mem (d.m_AlignedStream + 5 * r + 4)) / 32 ^ x % 4294967296) &&& 16) / 16 = 0 then bank0 else bank1) +
      ((u32 d.mem (d.m_AlignedStream + 5 * r) + 4294967296 * u32 d.mem (d.m_AlignedStream + 5 * r + 4)) / 32 ^ x % 4294967296) % 16) % 256)
    (by
      rintro x p ⟨g1, g2, g3, g4, g5, g6, g7⟩
      refine ⟨⟨g1, g2, g3, g4, g5, ?_, ?_⟩, fun i => ?_⟩
      · show (p.2.1 / 32) ||| ((p.2.2 * 134217728) % 4294967296) = _
        rw [g6, g7, twoBanks_shift, Nat.div_div_eq_div_mul, ← Nat.pow_succ]
      · show p.2.2 / 32 = _
        rw [g7, Nat.pow_succ, ← Nat.div_div_eq_div_mul _ (32 ^ x) 32]
        omega
      · show (p.1.SetPixel x r _).m_CurrentBuffer.m_Buffer i = _
        have e1 : d.m_CurrentTile + ((x : Int) + (r : Int) * d.m_Width) =
            d.m_CurrentTile + (r : Int) * d.m_Width + (x : Int) := by ring
        rw [SetPixel_buffer, g4, g5, g6, e1])
    (e.skipAligned 5, u32 e.mem e.m_AlignedStream, u32 e.mem (e.m_AlignedStream + 4))
    ⟨by show e.m_AlignedStream + 5 = _; omega, h2, h3, h4, h5, by
      show u32 e.mem e.m_AlignedStream = _
      rw [h1, h3, Nat.pow_zero, Nat.div_one]
      have := u32_lt d.mem (d.m_AlignedStream + 5 * r)
      omega, by
      show u32 e.mem (e.m_AlignedStream + 4) = _
      rw [h1, h3, Nat.pow_zero, Nat.div_one]
      have := u32_lt d.mem (d.m_AlignedStream + 5 * r)
      omega⟩ 8
  obtain ⟨⟨g1, g2, g3, g4, g5, -, -⟩, gb⟩ := inner
  exact ⟨⟨g1, g2, g3, g4, g5⟩, gb⟩

/-- What `TwoBanksTileDecode` does: the unaligned cursor moves by 1 and the aligned cursor by
40, bytes outside the eight rows of the tile keep their value, and when the rows do not overlap
pixel `(c, r)` of the tile is computed from the low 32 bits of the two words loaded for row
`r`, shifted right by `5 * c`. -/
theorem TwoBanksTileDecode_spec (d : Decoder) :
    (TwoBanksTileDecode d).m_AlignedStream = d.m_AlignedStream + 40 ∧
    (TwoBanksTileDecode d).m_UnAlignedStream = d.m_UnAlignedStream + 1 ∧
    (∀ i, (∀ r : Nat, r < 8 → ¬ (d.m_CurrentTile + (r : Int) * d.m_Width ≤ i ∧
        i < d.m_CurrentTile + (r : Int) * d.m_Width + 8)) →
      (TwoBanksTileDecode d).m_CurrentBuffer.m_Buffer i = d.m_CurrentBuffer.m_Buffer i) ∧
    (8 ≤ d.m_Width → ∀ r c : Nat, r < 8 → c < 8 →
      (TwoBanksTileDecode d).m_CurrentBuffer.m_Buffer
          (d.m_CurrentTile + ((c : Int) + (r : Int) * d.m_Width)) =
        ((if (((u32 d.mem (d.m_AlignedStream + 5 * r) + 4294967296 * u32 d.mem (d.m_AlignedStream + 5 * r + 4)) / 32 ^ c % 4294967296) &&& 16) / 16 = 0 then
            ((d.unaligned 0 % 16) * 16) % 256 else d.unaligned 0 &&& 0xf0) +
          ((u32 d.mem (d.m_AlignedStream + 5 * r) + 4294967296 * u32 d.mem (d.m_AlignedStream + 5 * r + 4)) / 32 ^ c % 4294967296) % 16) % 256) := by
  have key := forN_rows
    (fun r e => e.m_AlignedStream = d.m_AlignedStream + 5 * r ∧
      e.m_UnAlignedStream = d.m_UnAlignedStream + 1 ∧ e.mem = d.mem ∧
      e.m_CurrentTile = d.m_CurrentTile ∧ e.m_Width = d.m_Width)
    (fun y e =>
      (forN 8 (fun x (p : Decoder × Nat × Nat) =>
          (p.1.SetPixel x y
              (((if (p.2.1 &&& 16) / 16 = 0 then ((d.unaligned 0 % 16) * 16) % 256
                  else d.unaligned 0 &&& 0xf0) + p.2.1 % 16) % 256),
           (p.2.1 / 32) ||| ((p.2.2 * 134217728) % 4294967296),
           p.2.2 / 32))
        (e.skipAligned 5, u32 e.mem e.m_AlignedStream, u32 e.mem (e.m_AlignedStream + 4))).1)
    (fun r => d.m_CurrentTile + (r : Int) * d.m_Width) 8
    (fun r i =>
      ((if (((u32 d.mem (d.m_AlignedStream + 5 * r) + 4294967296 * u32 d.mem (d.m_AlignedStream + 5 * r + 4)) / 32 ^ (i - (d.m_CurrentTile + (r : Int) * d.m_Width)).toNat %
            4294967296) &&& 16) / 16 = 0 then
          ((d.unaligned 0 % 16) * 16) % 256 else d.unaligned 0 &&& 0xf0) +
        ((u32 d.mem (d.m_AlignedStream + 5 * r) + 4294967296 * u32 d.mem (d.m_AlignedStream + 5 * r + 4)) / 32 ^ (i - (d.m_CurrentTile + (r : Int) * d.m_Width)).toNat %
            4294967296) % 16) % 256)
    (fun r e h => TwoBanksTileDecode_row d e _ _ r h.1 h.2.1 h.2.2.1 h.2.2.2.1 h.2.2.2.2)
    (d.skipUnaligned 1) ⟨rfl, rfl, rfl, rfl, rfl⟩ 8
  obtain ⟨⟨h1, h2, -⟩, hout, hin⟩ := key
  rw [TwoBanksTileDecode_eq]
  refine ⟨h1, h2, hout, fun hW r c hr hc => ?_⟩
  have e := hin r (d.m_CurrentTile + ((c : Int) + (r : Int) * d.m_Width)) hr
    (by constructor <;> omega)
    (fun q hq _ => rows_disjoint _ _ hW r q hq _ (by constructor <;> omega))
  have idx : (d.m_CurrentTile + ((c : Int) + (r : Int) * d.m_Width) -
      (d.m_CurrentTile + (r : Int) * d.m_Width)).toNat = c := by omega
  rw [idx] at e
  exact e

/-- The two 32-bit words loaded for a row hold the 40 bits of the row in their low part. -/
theorem le40_of_words (mem : Nat → Nat) (a : Nat) :
    le40 mem a = (u32 mem a + 4294967296 * u32 mem (a + 4)) % 1099511627776 := by
  unfold le40 u32
  have h0 := u8_lt mem a
  have h1 := u8_lt mem (a + 1)
  have h2 := u8_lt mem (a + 2)
  have h3 := u8_lt mem (a + 3)
  have h4 := u8_lt mem (a + 4)
  have h5 := u8_lt mem (a + 4 + 1)
  have h6 := u8_lt mem (a + 4 + 2)
  have h7 := u8_lt mem (a + 4 + 3)
  norm_num
  omega

/-- The pixel that the code computes from the shift register is the pixel of the bit-level
definition. -/
theorem twoBanks_pixel (b S R x : Nat) (hR : R = S % 1099511627776) (hx : x < 8) :
    ((if ((S / 32 ^ x % 4294967296) &&& 16) / 16 = 0 then ((b % 16) * 16) % 256
        else b &&& 0xf0) + (S / 32 ^ x % 4294967296) % 16) % 256 =
      twoBanksPixel b R x := by
  unfold twoBanksPixel
  simp only [land_15, land_31, testBit_4, land_16_div, Nat.shiftRight_eq_div_pow,
    Nat.shiftLeft_eq]
  have hp : S / 32 ^ x % 4294967296 % 32 = R / 2 ^ (5 * x) % 32 := by
    subst hR
    interval_cases x <;> norm_num <;> omega
  have hb1 : b &&& 0xf0 ≤ 0xf0 := Nat.and_le_right
  generalize S / 32 ^ x % 4294967296 = p at hp
  generalize R / 2 ^ (5 * x) % 32 = f at hp
  generalize b &&& 0xf0 = bank1 at hb1
  by_cases hf : f / 16 % 2 = 1
  · have hq : ¬ (p / 16 % 2 = 0) := by omega
    simp only [hf, hq, if_false, decide_True, if_true]
    omega
  · have hq : p / 16 % 2 = 0 := by omega
    simp only [hf, hq, if_true, decide_False]
    norm_num
    omega

/-- The 40-bit integer of a row depends on its five bytes only. -/
theorem le40_congr (mem mem2 : Nat → Nat) (a : Nat)
    (h : ∀ j, j < 5 → u8 mem2 (a + j) = u8 mem (a + j)) : le40 mem2 a = le40 mem a := by
  unfold le40
  have h0 := h 0 (by decide)
  rw [Nat.add_zero] at h0
  rw [h0, h 1 (by decide), h 2 (by decide), h 3 (by decide), h 4 (by decide)]

/-- C20: `TwoBanksTileDecode` equals its bit-level definition.  With the bank byte `b` at the
unaligned cursor, `bank0 = (b & 0x0F) << 4` and `bank1 = b & 0xF0`, and with `R_y` the 40-bit
little-endian integer formed by aligned bytes `5 * y` to `5 * y + 4`, in a frame at least 8
pixels wide pixel `(x, y)` of the tile is `bank[bit 4 of f] + (f & 15)` where
`f = (R_y >> 5 * x) & 31`.  The tile is the same over every input memory that agrees on the 40
aligned bytes and on the bank byte, although the code loads two 32-bit words for each row; the
aligned cursor advances by 40 and the unaligned cursor by 1. -/
theorem C20_TwoBanksTileDecode_bit_level (d : Decoder) (hW : 8 ≤ d.m_Width) :
    (∀ x y : Nat, x < 8 → y < 8 →
      (TwoBanksTileDecode d).m_CurrentBuffer.m_Buffer
          (d.m_CurrentTile + ((x : Int) + (y : Int) * d.m_Width)) =
        twoBanksPixel (d.unaligned 0) (le40 d.mem (d.m_AlignedStream + 5 * y)) x) ∧
    (∀ mem2 : Nat → Nat,
      (∀ k, k < 40 → u8 mem2 (d.m_AlignedStream + k) = u8 d.mem (d.m_AlignedStream + k)) →
      u8 mem2 d.m_UnAlignedStream = u8 d.mem d.m_UnAlignedStream →
      ∀ x y : Nat, x < 8 → y < 8 →
        (TwoBanksTileDecode (d.withMem mem2)).m_CurrentBuffer.m_Buffer
            (d.m_CurrentTile + ((x : Int) + (y : Int) * d.m_Width)) =
          (TwoBanksTileDecode d).m_CurrentBuffer.m_Buffer
            (d.m_CurrentTile + ((x : Int) + (y : Int) * d.m_Width))) ∧
    (TwoBanksTileDecode d).m_AlignedStream = d.m_AlignedStream + 40 ∧
    (TwoBanksTileDecode d).m_UnAlignedStream = d.m_UnAlignedStream + 1 := by
  have pix : ∀ e : Decoder, 8 ≤ e.m_Width → ∀ x y : Nat, x < 8 → y < 8 →
      (TwoBanksTileDecode e).m_CurrentBuffer.m_Buffer
          (e.m_CurrentTile + ((x : Int) + (y : Int) * e.m_Width)) =
        twoBanksPixel (e.unaligned 0) (le40 e.mem (e.m_AlignedStream + 5 * y)) x := by
    intro e he x y hx hy
    rw [(TwoBanksTileDecode_spec e).2.2.2 he y x hy hx]
    exact twoBanks_pixel _ _ _ x (le40_of_words e.mem (e.m_AlignedStream + 5 * y)) hx
  obtain ⟨s1, s2, -, -⟩ := TwoBanksTileDecode_spec d
  refine ⟨pix d hW, fun mem2 hal hun x y hx hy => ?_, s1, s2⟩
  have e := pix (d.withMem mem2) hW x y hx hy
  have e1 : (d.withMem mem2).m_CurrentTile = d.m_CurrentTile := rfl
  have e2 : (d.withMem mem2).m_Width = d.m_Width := rfl
  have e3 : (d.withMem mem2).m_AlignedStream = d.m_AlignedStream := rfl
  have e4 : (d.withMem mem2).mem = mem2 := rfl
  have e5 : (d.withMem mem2).unaligned 0 = d.unaligned 0 := by
    unfold Decoder.unaligned
    rw [e4, Nat.add_zero, Nat.add_zero]
    exact hun
  have e6 : le40 mem2 (d.m_AlignedStream + 5 * y) = le40 d.mem (d.m_AlignedStream + 5 * y) :=
    le40_congr _ _ _ (fun j hj => by
      rw [Nat.add_assoc]
      exact hal (5 * y + j) (by omega))
  rw [e1, e2, e3, e4, e5, e6] at e
  rw [e, pix d hW x y hx hy]

/-- Witness of C20 on `tileSample`. -/
theorem C20_TwoBanksTileDecode_bit_level_witness :
    (8 : Int) ≤ tileSample.m_Width ∧
    ((∀ x y : Nat, x < 8 → y < 8 →
      (TwoBanksTileDecode tileSample).m_CurrentBuffer.m_Buffer
          (tileSample.m_CurrentTile + ((x : Int) + (y : Int) * tileSample.m_Width)) =
        twoBanksPixel (tileSample.unaligned 0)
          (le40 tileSample.mem (tileSample.m_AlignedStream + 5 * y)) x) ∧
    (∀ mem2 : Nat → Nat,
      (∀ k, k < 40 → u8 mem2 (tileSample.m_AlignedStream + k) =
        u8 tileSample.mem (tileSample.m_AlignedStream + k)) →
      u8 mem2 tileSample.m_UnAlignedStream = u8 tileSample.mem tileSample.m_UnAlignedStream →
      ∀ x y : Nat, x < 8 → y < 8 →
        (TwoBanksTileDecode (tileSample.withMem mem2)).m_CurrentBuffer.m_Buffer
            (tileSample.m_CurrentTile + ((x : Int) + (y : Int) * tileSample.m_Width)) =
          (TwoBanksTileDecode tileSample).m_CurrentBuffer.m_Buffer
            (tileSample.m_CurrentTile + ((x : Int) + (y : Int) * tileSample.m_Width))) ∧
    (TwoBanksTileDecode tileSample).m_AlignedStream = tileSample.m_AlignedStream + 40 ∧
    (TwoBanksTileDecode tileSample).m_UnAlignedStream = tileSample.m_UnAlignedStream + 1) :=
  ⟨by decide, C20_TwoBanksTileDecode_bit_level tileSample (by decide)⟩

/-! ## The update overlays -/

/-- The four stores of `Update4`, the last one outermost. -/
theorem Update4_buffer (d : Decoder) (i : Int) :
    (Update4 d).m_CurrentBuffer.m_Buffer i =
      if i = d.m_CurrentTile + (((u32 d.mem d.m_UnAlignedStream / 64 / 64 / 64 % 8 : Nat) : Int) +
          ((u32 d.mem d.m_UnAlignedStream / 64 / 64 / 64 / 8 % 8 : Nat) : Int) * d.m_Width)
        then d.aligned 3
      else if i = d.m_CurrentTile + (((u32 d.mem d.m_UnAlignedStream / 64 / 64 % 8 : Nat) : Int) +
          ((u32 d.mem d.m_UnAlignedStream / 64 / 64 / 8 % 8 : Nat) : Int) * d.m_Width)
        then d.aligned 2
      else if i = d.m_CurrentTile + (((u32 d.mem d.m_UnAlignedStream / 64 % 8 : Nat) : Int) +
          ((u32 d.mem d.m_UnAlignedStream / 64 / 8 % 8 : Nat) : Int) * d.m_Width)
        then d.aligned 1
      else if i = d.m_CurrentTile + (((u32 d.mem d.m_UnAlignedStream % 8 : Nat) : Int) +
          ((u32 d.mem d.m_UnAlignedStream / 8 % 8 : Nat) : Int) * d.m_Width)
        then d.aligned 0
      else d.m_CurrentBuffer.m_Buffer i := by
  simp only [Update4, forN, Decoder.SetPixel, Decoder.poke, Decoder.skipAligned,
    Decoder.skipUnaligned, Decoder.aligned, Nat.add_zero, Nat.add_assoc]

theorem Update4_aligned (d : Decoder) :
    (Update4 d).m_AlignedStream = d.m_AlignedStream + 4 := by
  simp only [Update4, forN, Decoder.SetPixel, Decoder.poke, Decoder.skipAligned,
    Decoder.skipUnaligned, Nat.add_assoc]

theorem Update4_unaligned (d : Decoder) :
    (Update4 d).m_UnAlignedStream = d.m_UnAlignedStream + 3 := by
  simp only [Update4, forN, Decoder.SetPixel, Decoder.poke, Decoder.skipAligned,
    Decoder.skipUnaligned]

theorem land_7 (n : Nat) : n &&& 7 = n % 8 := Nat.and_pow_two_sub_one_eq_mod n 3

/-- The positions that the code takes from the 32-bit load are those of the 24-bit word. -/
theorem patch_of_u32 (mem : Nat → Nat) (a : Nat) :
    u32 mem a % 8 = patchX (u24 mem a) 0 ∧ u32 mem a / 8 % 8 = patchY (u24 mem a) 0 ∧
    u32 mem a / 64 % 8 = patchX (u24 mem a) 1 ∧ u32 mem a / 64 / 8 % 8 = patchY (u24 mem a) 1 ∧
    u32 mem a / 64 / 64 % 8 = patchX (u24 mem a) 2 ∧
    u32 mem a / 64 / 64 / 8 % 8 = patchY (u24 mem a) 2 ∧
    u32 mem a / 64 / 64 / 64 % 8 = patchX (u24 mem a) 3 ∧
    u32 mem a / 64 / 64 / 64 / 8 % 8 = patchY (u24 mem a) 3 := by
  have h := u32_eq_u24 mem a
  have hb := u8_lt mem (a + 3)
  simp only [patchX, patchY, land_7, Nat.shiftRight_eq_div_pow]
  norm_num
  omega

theorem u24_congr (mem mem2 : Nat → Nat) (a : Nat)
    (h : ∀ k, k < 3 → u8 mem2 (a + k) = u8 mem (a + k)) : u24 mem2 a = u24 mem a := by
  unfold u24
  have h0 := h 0 (by decide)
  rw [Nat.add_zero] at h0
  rw [h0, h 1 (by decide), h 2 (by decide)]

/-- The picture that `Update4` leaves, in the words of the specification. -/
theorem Update4_patches (d : Decoder) (i : Int) :
    (Update4 d).m_CurrentBuffer.m_Buffer i =
      if i = patchAddress d 3 then d.aligned 3
      else if i = patchAddress d 2 then d.aligned 2
      else if i = patchAddress d 1 then d.aligned 1
      else if i = patchAddress d 0 then d.aligned 0
      else d.m_CurrentBuffer.m_Buffer i := by
  obtain ⟨x0, y0, x1, y1, x2, y2, x3, y3⟩ := patch_of_u32 d.mem d.m_UnAlignedStream
  rw [Update4_buffer, x0, y0, x1, y1, x2, y2, x3, y3]
  rfl

/-- C25: `Update4`, with `V` the 24-bit little-endian value of the 3 bytes at the unaligned
cursor and `c[0..3]` the 4 bytes at the aligned cursor.  For `k = 0..3` in this order pixel
`(x_k, y_k)` of the tile is set to `c[k]`, where `x_k = (V >> 6 * k) & 7` and
`y_k = (V >> (6 * k + 3)) & 7`, a later patch winning over an earlier one; every other byte of
the current buffer is unchanged; the picture is the same over every input memory `mem2` that
agrees on the 3 unaligned and the 4 aligned bytes, whatever the fourth byte of the 32-bit load
is; the unaligned cursor advances by 3 and the aligned cursor by 4.  `Update8` is two
consecutive `Update4`. -/
theorem C25_Update4_patches_four_pixels (d : Decoder) (mem2 : Nat → Nat)
    (hun : ∀ k, k < 3 → u8 mem2 (d.m_UnAlignedStream + k) = u8 d.mem (d.m_UnAlignedStream + k))
    (hal : ∀ k, k < 4 → u8 mem2 (d.m_AlignedStream + k) = u8 d.mem (d.m_AlignedStream + k)) :
    (∀ i : Int, (Update4 d).m_CurrentBuffer.m_Buffer i =
      if i = patchAddress d 3 then d.aligned 3
      else if i = patchAddress d 2 then d.aligned 2
      else if i = patchAddress d 1 then d.aligned 1
      else if i = patchAddress d 0 then d.aligned 0
      else d.m_CurrentBuffer.m_Buffer i) ∧
    (∀ k, k < 4 → patchX (u24 d.mem d.m_UnAlignedStream) k < 8 ∧
      patchY (u24 d.mem d.m_UnAlignedStream) k < 8) ∧
    (∀ i : Int, (∀ k, k < 4 → i ≠ patchAddress d k) →
      (Update4 d).m_CurrentBuffer.m_Buffer i = d.m_CurrentBuffer.m_Buffer i) ∧
    (∀ i : Int, (Update4 (d.withMem mem2)).m_CurrentBuffer.m_Buffer i =
      (Update4 d).m_CurrentBuffer.m_Buffer i) ∧
    (Update4 d).m_UnAlignedStream = d.m_UnAlignedStream + 3 ∧
    (Update4 d).m_AlignedStream = d.m_AlignedStream + 4 ∧
    Update8 d = Update4 (Update4 d) := by
  refine ⟨Update4_patches d, fun k _ => ?_, fun i hi => ?_, fun i => ?_, Update4_unaligned d,
    Update4_aligned d, rfl⟩
  · simp only [patchX, patchY, land_7]
    omega
  · rw [Update4_patches, if_neg (hi 3 (by decide)), if_neg (hi 2 (by decide)),
      if_neg (hi 1 (by decide)), if_neg (hi 0 (by decide))]
  · have e1 : ∀ k, patchAddress (d.withMem mem2) k = patchAddress d k := by
      intro k
      unfold patchAddress
      have e : u24 (d.withMem mem2).mem (d.withMem mem2).m_UnAlignedStream =
          u24 d.mem d.m_UnAlignedStream := u24_congr _ _ _ hun
      rw [e]
      rfl
    have e2 : ∀ k, k < 4 → (d.withMem mem2).aligned k = d.aligned k := fun k hk => hal k hk
    rw [Update4_patches, Update4_patches, e1, e1, e1, e1, e2 0 (by decide), e2 1 (by decide),
      e2 2 (by decide), e2 3 (by decide)]
    rfl

/-- Witness of C25 on `tileSample` and a memory that differs in the fourth byte of the 32-bit
load. -/
theorem C25_Update4_patches_four_pixels_witness :
    (∀ i : Int, (Update4 tileSample).m_CurrentBuffer.m_Buffer i =
      if i = patchAddress tileSample 3 then tileSample.aligned 3
      else if i = patchAddress tileSample 2 then tileSample.aligned 2
      else if i = patchAddress tileSample 1 then tileSample.aligned 1
      else if i = patchAddress tileSample 0 then tileSample.aligned 0
      else tileSample.m_CurrentBuffer.m_Buffer i) ∧
    (∀ k, k < 4 → patchX (u24 tileSample.mem tileSample.m_UnAlignedStream) k < 8 ∧
      patchY (u24 tileSample.mem tileSample.m_UnAlignedStream) k < 8) ∧
    (∀ i : Int, (∀ k, k < 4 → i ≠ patchAddress tileSample k) →
      (Update4 tileSample).m_CurrentBuffer.m_Buffer i = tileSample.m_CurrentBuffer.m_Buffer i) ∧
    (∀ i : Int, (Update4 (tileSample.withMem tileSampleOtherByte)).m_CurrentBuffer.m_Buffer i =
      (Update4 tileSample).m_CurrentBuffer.m_Buffer i) ∧
    (Update4 tileSample).m_UnAlignedStream = tileSample.m_UnAlignedStream + 3 ∧
    (Update4 tileSample).m_AlignedStream = tileSample.m_AlignedStream + 4 ∧
    Update8 tileSample = Update4 (Update4 tileSample) :=
  C25_Update4_patches_four_pixels tileSample tileSampleOtherByte (by decide) (by decide)

/-! ## The diagonal tables -/

/-- C26 (counterexample): no entry of `g_DiagonalOffsets_1` differs from the regular zig-zag
scan, and no entry of `g_DiagonalOffsets_2` differs from the left-right mirror image of the
same entry of `g_DiagonalOffsets_1`. -/
theorem C26_tables_differ_counterexample :
    ¬ (∃ i, i < 64 ∧ (g_DiagonalOffsets_1.map offsetPixel)[i]? ≠ zigzag8[i]?) ∧
    ¬ (∃ i, i < 64 ∧ (g_DiagonalOffsets_2.map offsetPixel)[i]? ≠
        ((g_DiagonalOffsets_1.map offsetPixel).map mirrorPixel)[i]?) := by
  decide

/-- C26 (amended): read as pixels `(x, y)` with offset `x + 320 * y`, `g_DiagonalOffsets_1` is
entry for entry the regular zig-zag scan of the 8 by 8 block (the scan that visits the
positions `x + 8 * y` in the order 0, 1, 8, 16, 9, 2, 3, 10, ...), and `g_DiagonalOffsets_2` is
entry for entry its left-right mirror image `x -> 7 - x`; both have 64 entries. -/
theorem C26_tables_are_zigzag_and_mirror :
    g_DiagonalOffsets_1.map offsetPixel = zigzag8 ∧
    g_DiagonalOffsets_2.map offsetPixel = zigzag8.map mirrorPixel ∧
    g_DiagonalOffsets_1 = zigzag8.map (fun p => p.1 + 320 * p.2) ∧
    g_DiagonalOffsets_2 = zigzag8.map (fun p => (7 - p.1) + 320 * p.2) ∧
    g_DiagonalOffsets_1.length = 64 ∧ g_DiagonalOffsets_2.length = 64 ∧
    zigzag8.map (fun p => p.1 + 8 * p.2) =
      [0, 1, 8, 16, 9, 2, 3, 10, 17, 24, 32, 25, 18, 11, 4, 5, 12, 19, 26, 33, 40, 48, 41, 34,
       27, 20, 13, 6, 7, 14, 21, 28, 35, 42, 49, 56, 57, 50, 43, 36, 29, 22, 15, 23, 30, 37, 44,
       51, 58, 59, 52, 45, 38, 31, 39, 46, 53, 60, 61, 54, 47, 55, 62, 63] := by
  decide

/-! ## The cross tile -/

theorem skipAligned_aligned (d : Decoder) (n : Nat) :
    (d.skipAligned n).m_AlignedStream = d.m_AlignedStream + n := rfl

theorem skipAligned_unaligned (d : Decoder) (n : Nat) :
    (d.skipAligned n).m_UnAlignedStream = d.m_UnAlignedStream := rfl

theorem skipAligned_mem (d : Decoder) (n : Nat) : (d.skipAligned n).mem = d.mem := rfl

theorem skipAligned_currentTile (d : Decoder) (n : Nat) :
    (d.skipAligned n).m_CurrentTile = d.m_CurrentTile := rfl

theorem skipAligned_width (d : Decoder) (n : Nat) : (d.skipAligned n).m_Width = d.m_Width := rfl

theorem offset_ne (a j k : Int) (h : j ≠ k) : a + j ≠ a + k :=
  fun e => h (Int.add_left_cancel e)

/-- What one store does to the decoder. -/
theorem poke_step (d e : Decoder) (a : Int) (v : Nat) (h : e = d.poke a v) :
    (∀ k, e.aligned k = d.aligned k) ∧ e.m_AlignedStream = d.m_AlignedStream ∧
    e.m_UnAlignedStream = d.m_UnAlignedStream ∧ e.mem = d.mem ∧
    e.m_CurrentTile = d.m_CurrentTile ∧ e.m_Width = d.m_Width ∧
    ∀ i, e.m_CurrentBuffer.m_Buffer i = if i = a then v else d.m_CurrentBuffer.m_Buffer i := by
  subst h
  exact ⟨fun _ => rfl, rfl, rfl, rfl, rfl, rfl, fun _ => rfl⟩

/-- What one of two stores at the same address does to the decoder. -/
theorem ite_poke_step (d e : Decoder) (c : Prop) [Decidable c] (a : Int) (v w : Nat)
    (h : e = if c then d.poke a v else d.poke a w) :
    (∀ k, e.aligned k = d.aligned k) ∧ e.m_AlignedStream = d.m_AlignedStream ∧
    e.m_UnAlignedStream = d.m_UnAlignedStream ∧ e.mem = d.mem ∧
    e.m_CurrentTile = d.m_CurrentTile ∧ e.m_Width = d.m_Width ∧
    ∀ i, i ≠ a → e.m_CurrentBuffer.m_Buffer i = d.m_CurrentBuffer.m_Buffer i := by
  subst h
  by_cases hc : c
  · rw [if_pos hc]
    exact ⟨fun _ => rfl, rfl, rfl, rfl, rfl, rfl, fun i hi => if_neg hi⟩
  · rw [if_neg hc]
    exact ⟨fun _ => rfl, rfl, rfl, rfl, rfl, rfl, fun i hi => if_neg hi⟩

/-- One quadrant of `CrossDecode`: the sixteen stores at `dest + k`, the colours taken from the
four bytes at the aligned cursor; eight bits of `value` and four aligned bytes are consumed. -/
theorem crossStep_spec (p : Decoder × Nat) (offset : Int) :
    (crossStep p offset).2 = p.2 / 256 ∧
    (crossStep p offset).1.m_AlignedStream = p.1.m_AlignedStream + 4 ∧
    (crossStep p offset).1.m_UnAlignedStream = p.1.m_UnAlignedStream ∧
    (crossStep p offset).1.mem = p.1.mem ∧
    (crossStep p offset).1.m_CurrentTile = p.1.m_CurrentTile ∧
    (crossStep p offset).1.m_Width = p.1.m_Width ∧
    (∀ i, (∀ r c : Nat, r < 4 → c < 4 →
        i ≠ p.1.m_CurrentTile + offset + ((c : Int) + 320 * (r : Int))) →
      (crossStep p offset).1.m_CurrentBuffer.m_Buffer i = p.1.m_CurrentBuffer.m_Buffer i) ∧
    (crossStep p offset).1.m_CurrentBuffer.m_Buffer (p.1.m_CurrentTile + offset + 0) =
      p.1.aligned (p.2 % 2) ∧
    (crossStep p offset).1.m_CurrentBuffer.m_Buffer (p.1.m_CurrentTile + offset + 1) =
      p.1.aligned (0) ∧
    (crossStep p offset).1.m_CurrentBuffer.m_Buffer (p.1.m_CurrentTile + offset + 2) =
      p.1.aligned (0) ∧
    (crossStep p offset).1.m_CurrentBuffer.m_Buffer (p.1.m_CurrentTile + offset + 3) =
      p.1.aligned (((p.2 &&& 2) / 2) * 3) ∧
    (crossStep p offset).1.m_CurrentBuffer.m_Buffer (p.1.m_CurrentTile + offset + 320) =
      p.1.aligned (1) ∧
    (crossStep p offset).1.m_CurrentBuffer.m_Buffer (p.1.m_CurrentTile + offset + 321) =
      p.1.aligned ((p.2 &&& 4) / 4) ∧
    (crossStep p offset).1.m_CurrentBuffer.m_Buffer (p.1.m_CurrentTile + offset + 322) =
      p.1.aligned (((p.2 &&& 8) / 8) * 3) ∧
    (crossStep p offset).1.m_CurrentBuffer.m_Buffer (p.1.m_CurrentTile + offset + 323) =
      p.1.aligned (3) ∧
    (crossStep p offset).1.m_CurrentBuffer.m_Buffer (p.1.m_CurrentTile + offset + 640) =
      p.1.aligned (1) ∧
    (crossStep p offset).1.m_CurrentBuffer.m_Buffer (p.1.m_CurrentTile + offset + 641) =
      p.1.aligned (1 + (p.2 &&& 16) / 16) ∧
    (crossStep p offset).1.m_CurrentBuffer.m_Buffer (p.1.m_CurrentTile + offset + 642) =
      p.1.aligned (2 + (p.2 &&& 32) / 32) ∧
    (crossStep p offset).1.m_CurrentBuffer.m_Buffer (p.1.m_CurrentTile + offset + 643) =
      p.1.aligned (3) ∧
    (crossStep p offset).1.m_CurrentBuffer.m_Buffer (p.1.m_CurrentTile + offset + 960) =
      p.1.aligned (1 + (p.2 &&& 64) / 64) ∧
    (crossStep p offset).1.m_CurrentBuffer.m_Buffer (p.1.m_CurrentTile + offset + 961) =
      p.1.aligned (2) ∧
    (crossStep p offset).1.m_CurrentBuffer.m_Buffer (p.1.m_CurrentTile + offset + 962) =
      p.1.aligned (2) ∧
    (crossStep p offset).1.m_CurrentBuffer.m_Buffer (p.1.m_CurrentTile + offset + 963) =
      p.1.aligned (2 + (p.2 &&& 128) / 128) := by
  have key : ∀ q : Decoder × Nat, crossStep p offset = q →
      q.2 = p.2 / 256 ∧
      q.1.m_AlignedStream = p.1.m_AlignedStream + 4 ∧
      q.1.m_UnAlignedStream = p.1.m_UnAlignedStream ∧
      q.1.mem = p.1.mem ∧
      q.1.m_CurrentTile = p.1.m_CurrentTile ∧
      q.1.m_Width = p.1.m_Width ∧
      (∀ i, (∀ r c : Nat, r < 4 → c < 4 →
          i ≠ p.1.m_CurrentTile + offset + ((c : Int) + 320 * (r : Int))) →
        q.1.m_CurrentBuffer.m_Buffer i = p.1.m_CurrentBuffer.m_Buffer i) ∧
      q.1.m_CurrentBuffer.m_Buffer (p.1.m_CurrentTile + offset + 0) =
        p.1.aligned (p.2 % 2) ∧
      q.1.m_CurrentBuffer.m_Buffer (p.1.m_CurrentTile + offset + 1) =
        p.1.aligned (0) ∧
      q.1.m_CurrentBuffer.m_Buffer (p.1.m_CurrentTile + offset + 2) =
        p.1.aligned (0) ∧
      q.1.m_CurrentBuffer.m_Buffer (p.1.m_CurrentTile + offset + 3) =
        p.1.aligned (((p.2 &&& 2) / 2) * 3) ∧
      q.1.m_CurrentBuffer.m_Buffer (p.1.m_CurrentTile + offset + 320) =
        p.1.aligned (1) ∧
      q.1.m_CurrentBuffer.m_Buffer (p.1.m_CurrentTile + offset + 321) =
        p.1.aligned ((p.2 &&& 4) / 4) ∧
      q.1.m_CurrentBuffer.m_Buffer (p.1.m_CurrentTile + offset + 322) =
        p.1.aligned (((p.2 &&& 8) / 8) * 3) ∧
      q.1.m_CurrentBuffer.m_Buffer (p.1.m_CurrentTile + offset + 323) =
        p.1.aligned (3) ∧
      q.1.m_CurrentBuffer.m_Buffer (p.1.m_CurrentTile + offset + 640) =
        p.1.aligned (1) ∧
      q.1.m_CurrentBuffer.m_Buffer (p.1.m_CurrentTile + offset + 641) =
        p.1.aligned (1 + (p.2 &&& 16) / 16) ∧
      q.1.m_CurrentBuffer.m_Buffer (p.1.m_CurrentTile + offset + 642) =
        p.1.aligned (2 + (p.2 &&& 32) / 32) ∧
      q.1.m_CurrentBuffer.m_Buffer (p.1.m_CurrentTile + offset + 643) =
        p.1.aligned (3) ∧
      q.1.m_CurrentBuffer.m_Buffer (p.1.m_CurrentTile + offset + 960) =
        p.1.aligned (1 + (p.2 &&& 64) / 64) ∧
      q.1.m_CurrentBuffer.m_Buffer (p.1.m_CurrentTile + offset + 961) =
        p.1.aligned (2) ∧
      q.1.m_CurrentBuffer.m_Buffer (p.1.m_CurrentTile + offset + 962) =
        p.1.aligned (2) ∧
      q.1.m_CurrentBuffer.m_Buffer (p.1.m_CurrentTile + offset + 963) =
        p.1.aligned (2 + (p.2 &&& 128) / 128) := by
    intro q
    unfold crossStep
    lift_lets
    intro value d dest d1 d2 d3 d4 d5 d6 d7 d8 d9 d10 d11 d12 d13 d14 d15 d16 d17 hq
    obtain ⟨A1, L1, U1, M1, T1, W1, B1⟩ := ite_poke_step d d1 _ _ _ _ rfl
    obtain ⟨A2, L2, U2, M2, T2, W2, B2⟩ := poke_step d1 d2 _ _ rfl
    rw [A1] at B2
    replace A2 : ∀ k, d2.aligned k = d.aligned k := fun k => (A2 k).trans (A1 k)
    replace L2 := L2.trans L1
    replace U2 := U2.trans U1
    replace M2 := M2.trans M1
    replace T2 := T2.trans T1
    replace W2 := W2.trans W1
    clear A1 L1 U1 M1 T1 W1
    obtain ⟨A3, L3, U3, M3, T3, W3, B3⟩ := poke_step d2 d3 _ _ rfl
    rw [A2] at B3
    replace A3 : ∀ k, d3.aligned k = d.aligned k := fun k => (A3 k).trans (A2 k)
    replace L3 := L3.trans L2
    replace U3 := U3.trans U2
    replace M3 := M3.trans M2
    replace T3 := T3.trans T2
    replace W3 := W3.trans W2
    clear A2 L2 U2 M2 T2 W2
    obtain ⟨A4, L4, U4, M4, T4, W4, B4⟩ := poke_step d3 d4 _ _ rfl
    rw [A3] at B4
    replace A4 : ∀ k, d4.aligned k = d.aligned k := fun k => (A4 k).trans (A3 k)
    replace L4 := L4.trans L3
    replace U4 := U4.trans U3
    replace M4 := M4.trans M3
    replace T4 := T4.trans T3
    replace W4 := W4.trans W3
    clear A3 L3 U3 M3 T3 W3
    obtain ⟨A5, L5, U5, M5, T5, W5, B5⟩ := poke_step d4 d5 _ _ rfl
    rw [A4] at B5
    replace A5 : ∀ k, d5.aligned k = d.aligned k := fun k => (A5 k).trans (A4 k)
    replace L5 := L5.trans L4
    replace U5 := U5.trans U4
    replace M5 := M5.trans M4
    replace T5 := T5.trans T4
    replace W5 := W5.trans W4
    clear A4 L4 U4 M4 T4 W4
    obtain ⟨A6, L6, U6, M6, T6, W6, B6⟩ := poke_step d5 d6 _ _ rfl
    rw [A5] at B6
    replace A6 : ∀ k, d6.aligned k = d.aligned k := fun k => (A6 k).trans (A5 k)
    replace L6 := L6.trans L5
    replace U6 := U6.trans U5
    replace M6 := M6.trans M5
    replace T6 := T6.trans T5
    replace W6 := W6.trans W5
    clear A5 L5 U5 M5 T5 W5
    obtain ⟨A7, L7, U7, M7, T7, W7, B7⟩ := poke_step d6 d7 _ _ rfl
    rw [A6] at B7
    replace A7 : ∀ k, d7.aligned k = d.aligned k := fun k => (A7 k).trans (A6 k)
    replace L7 := L7.trans L6
    replace U7 := U7.trans U6
    replace M7 := M7.trans M6
    replace T7 := T7.trans T6
    replace W7 := W7.trans W6
    clear A6 L6 U6 M6 T6 W6
    obtain ⟨A8, L8, U8, M8, T8, W8, B8⟩ := poke_step d7 d8 _ _ rfl
    rw [A7] at B8
    replace A8 : ∀ k, d8.aligned k = d.aligned k := fun k => (A8 k).trans (A7 k)
    replace L8 := L8.trans L7
    replace U8 := U8.trans U7
    replace M8 := M8.trans M7
    replace T8 := T8.trans T7
    replace W8 := W8.trans W7
    clear A7 L7 U7 M7 T7 W7
    obtain ⟨A9, L9, U9, M9, T9, W9, B9⟩ := poke_step d8 d9 _ _ rfl
    rw [A8] at B9
    replace A9 : ∀ k, d9.aligned k = d.aligned k := fun k => (A9 k).trans (A8 k)
    replace L9 := L9.trans L8
    replace U9 := U9.trans U8
    replace M9 := M9.trans M8
    replace T9 := T9.trans T8
    replace W9 := W9.trans W8
    clear A8 L8 U8 M8 T8 W8
    obtain ⟨A10, L10, U10, M10, T10, W10, B10⟩ := poke_step d9 d10 _ _ rfl
    rw [A9] at B10
    replace A10 : ∀ k, d10.aligned k = d.aligned k := fun k => (A10 k).trans (A9 k)
    replace L10 := L10.trans L9
    replace U10 := U10.trans U9
    replace M10 := M10.trans M9
    replace T10 := T10.trans T9
    replace W10 := W10.trans W9
    clear A9 L9 U9 M9 T9 W9
    obtain ⟨A11, L11, U11, M11, T11, W11, B11⟩ := poke_step d10 d11 _ _ rfl
    rw [A10] at B11
    replace A11 : ∀ k, d11.aligned k = d.aligned k := fun k => (A11 k).trans (A10 k)
    replace L11 := L11.trans L10
    replace U11 := U11.trans U10
    replace M11 := M11.trans M10
    replace T11 := T11.trans T10
    replace W11 := W11.trans W10
    clear A10 L10 U10 M10 T10 W10
    obtain ⟨A12, L12, U12, M12, T12, W12, B12⟩ := poke_step d11 d12 _ _ rfl
    rw [A11] at B12
    replace A12 : ∀ k, d12.aligned k = d.aligned k := fun k => (A12 k).trans (A11 k)
    replace L12 := L12.trans L11
    replace U12 := U12.trans U11
    replace M12 := M12.trans M11
    replace T12 := T12.trans T11
    replace W12 := W12.trans W11
    clear A11 L11 U11 M11 T11 W11
    obtain ⟨A13, L13, U13, M13, T13, W13, B13⟩ := poke_step d12 d13 _ _ rfl
    rw [A12] at B13
    replace A13 : ∀ k, d13.aligned k = d.aligned k := fun k => (A13 k).trans (A12 k)
    replace L13 := L13.trans L12
    replace U13 := U13.trans U12
    replace M13 := M13.trans M12
    replace T13 := T13.trans T12
    replace W13 := W13.trans W12
    clear A12 L12 U12 M12 T12 W12
    obtain ⟨A14, L14, U14, M14, T14, W14, B14⟩ := poke_step d13 d14 _ _ rfl
    rw [A13] at B14
    replace A14 : ∀ k, d14.aligned k = d.aligned k := fun k => (A14 k).trans (A13 k)
    replace L14 := L14.trans L13
    replace U14 := U14.trans U13
    replace M14 := M14.trans M13
    replace T14 := T14.trans T13
    replace W14 := W14.trans W13
    clear A13 L13 U13 M13 T13 W13
    obtain ⟨A15, L15, U15, M15, T15, W15, B15⟩ := poke_step d14 d15 _ _ rfl
    rw [A14] at B15
    replace A15 : ∀ k, d15.aligned k = d.aligned k := fun k => (A15 k).trans (A14 k)
    replace L15 := L15.trans L14
    replace U15 := U15.trans U14
    replace M15 := M15.trans M14
    replace T15 := T15.trans T14
    replace W15 := W15.trans W14
    clear A14 L14 U14 M14 T14 W14
    obtain ⟨A16, L16, U16, M16, T16, W16, B16⟩ := poke_step d15 d16 _ _ rfl
    rw [A15] at B16
    replace A16 : ∀ k, d16.aligned k = d.aligned k := fun k => (A16 k).trans (A15 k)
    replace L16 := L16.trans L15
    replace U16 := U16.trans U15
    replace M16 := M16.trans M15
    replace T16 := T16.trans T15
    replace W16 := W16.trans W15
    clear A15 L15 U15 M15 T15 W15
    obtain ⟨A17, L17, U17, M17, T17, W17, B17⟩ := poke_step d16 d17 _ _ rfl
    rw [A16] at B17
    replace A17 : ∀ k, d17.aligned k = d.aligned k := fun k => (A17 k).trans (A16 k)
    replace L17 := L17.trans L16
    replace U17 := U17.trans U16
    replace M17 := M17.trans M16
    replace T17 := T17.trans T16
    replace W17 := W17.trans W16
    clear A16 L16 U16 M16 T16 W16
    have hq1 : q.1 = d17.skipAligned 4 := by rw [← hq]
    have hq2 : q.2 = value / 256 := by rw [← hq]
    have hd : d = p.1 := rfl
    have hv : value = p.2 := rfl
    have hdest : dest = p.1.m_CurrentTile + offset := rfl
    clear hq
    clear_value d1 d2 d3 d4 d5 d6 d7 d8 d9 d10 d11 d12 d13 d14 d15 d16 d17 dest d value
    subst hd hv hdest
    have hb : q.1.m_CurrentBuffer = d17.m_CurrentBuffer := by rw [hq1]; rfl
    rw [hq2, hb, hq1]
    rw [skipAligned_aligned, skipAligned_unaligned, skipAligned_mem, skipAligned_currentTile,
      skipAligned_width]
    refine ⟨rfl, ?_, U17, M17, T17, W17, ?_, ?_⟩
    · rw [L17]
    · intro i hi
      have n0 : i ≠ p.1.m_CurrentTile + offset + 0 := hi 0 0 (by decide) (by decide)
      have n1 : i ≠ p.1.m_CurrentTile + offset + 1 := hi 0 1 (by decide) (by decide)
      have n2 : i ≠ p.1.m_CurrentTile + offset + 2 := hi 0 2 (by decide) (by decide)
      have n3 : i ≠ p.1.m_CurrentTile + offset + 3 := hi 0 3 (by decide) (by decide)
      have n320 : i ≠ p.1.m_CurrentTile + offset + 320 := hi 1 0 (by decide) (by decide)
      have n321 : i ≠ p.1.m_CurrentTile + offset + 321 := hi 1 1 (by decide) (by decide)
      have n322 : i ≠ p.1.m_CurrentTile + offset + 322 := hi 1 2 (by decide) (by decide)
      have n323 : i ≠ p.1.m_CurrentTile + offset + 323 := hi 1 3 (by decide) (by decide)
      have n640 : i ≠ p.1.m_CurrentTile + offset + 640 := hi 2 0 (by decide) (by decide)
      have n641 : i ≠ p.1.m_CurrentTile + offset + 641 := hi 2 1 (by decide) (by decide)
      have n642 : i ≠ p.1.m_CurrentTile + offset + 642 := hi 2 2 (by decide) (by decide)
      have n643 : i ≠ p.1.m_CurrentTile + offset + 643 := hi 2 3 (by decide) (by decide)
      have n960 : i ≠ p.1.m_CurrentTile + offset + 960 := hi 3 0 (by decide) (by decide)
      have n961 : i ≠ p.1.m_CurrentTile + offset + 961 := hi 3 1 (by decide) (by decide)
      have n962 : i ≠ p.1.m_CurrentTile + offset + 962 := hi 3 2 (by decide) (by decide)
      have n963 : i ≠ p.1.m_CurrentTile + offset + 963 := hi 3 3 (by decide) (by decide)
      rw [B17, if_neg n963, B16, if_neg n962, B15, if_neg n961, B14, if_neg n960, B13, if_neg n643, B12, if_neg n642, B11, if_neg n641, B10, if_neg n640, B9, if_neg n323, B8, if_neg n322, B7, if_neg n321, B6, if_neg n320, B5, if_neg n3, B4, if_neg n2, B3, if_neg n1, B2, if_neg n0]
      exact B1 i n0
    · refine ⟨?_, ?_, ?_, ?_, ?_, ?_, ?_, ?_, ?_, ?_, ?_, ?_, ?_, ?_, ?_, ?_⟩
      · rw [B17, if_neg (offset_ne _ 0 963 (by decide)), B16, if_neg (offset_ne _ 0 962 (by decide)), B15, if_neg (offset_ne _ 0 961 (by decide)), B14, if_neg (offset_ne _ 0 960 (by decide)), B13, if_neg (offset_ne _ 0 643 (by decide)), B12, if_neg (offset_ne _ 0 642 (by decide)), B11, if_neg (offset_ne _ 0 641 (by decide)), B10, if_neg (offset_ne _ 0 640 (by decide)), B9, if_neg (offset_ne _ 0 323 (by decide)), B8, if_neg (offset_ne _ 0 322 (by decide)), B7, if_neg (offset_ne _ 0 321 (by decide)), B6, if_neg (offset_ne _ 0 320 (by decide)), B5, if_neg (offset_ne _ 0 3 (by decide)), B4, if_neg (offset_ne _ 0 2 (by decide)), B3, if_neg (offset_ne _ 0 1 (by decide)), B2, if_pos rfl]
      · rw [B17, if_neg (offset_ne _ 1 963 (by decide)), B16, if_neg (offset_ne _ 1 962 (by decide)), B15, if_neg (offset_ne _ 1 961 (by decide)), B14, if_neg (offset_ne _ 1 960 (by decide)), B13, if_neg (offset_ne _ 1 643 (by decide)), B12, if_neg (offset_ne _ 1 642 (by decide)), B11, if_neg (offset_ne _ 1 641 (by decide)), B10, if_neg (offset_ne _ 1 640 (by decide)), B9, if_neg (offset_ne _ 1 323 (by decide)), B8, if_neg (offset_ne _ 1 322 (by decide)), B7, if_neg (offset_ne _ 1 321 (by decide)), B6, if_neg (offset_ne _ 1 320 (by decide)), B5, if_neg (offset_ne _ 1 3 (by decide)), B4, if_neg (offset_ne _ 1 2 (by decide)), B3, if_pos rfl]
      · rw [B17, if_neg (offset_ne _ 2 963 (by decide)), B16, if_neg (offset_ne _ 2 962 (by decide)), B15, if_neg (offset_ne _ 2 961 (by decide)), B14, if_neg (offset_ne _ 2 960 (by decide)), B13, if_neg (offset_ne _ 2 643 (by decide)), B12, if_neg (offset_ne _ 2 642 (by decide)), B11, if_neg (offset_ne _ 2 641 (by decide)), B10, if_neg (offset_ne _ 2 640 (by decide)), B9, if_neg (offset_ne _ 2 323 (by decide)), B8, if_neg (offset_ne _ 2 322 (by decide)), B7, if_neg (offset_ne _ 2 321 (by decide)), B6, if_neg (offset_ne _ 2 320 (by decide)), B5, if_neg (offset_ne _ 2 3 (by decide)), B4, if_pos rfl]
      · rw [B17, if_neg (offset_ne _ 3 963 (by decide)), B16, if_neg (offset_ne _ 3 962 (by decide)), B15, if_neg (offset_ne _ 3 961 (by decide)), B14, if_neg (offset_ne _ 3 960 (by decide)), B13, if_neg (offset_ne _ 3 643 (by decide)), B12, if_neg (offset_ne _ 3 642 (by decide)), B11, if_neg (offset_ne _ 3 641 (by decide)), B10, if_neg (offset_ne _ 3 640 (by decide)), B9, if_neg (offset_ne _ 3 323 (by decide)), B8, if_neg (offset_ne _ 3 322 (by decide)), B7, if_neg (offset_ne _ 3 321 (by decide)), B6, if_neg (offset_ne _ 3 320 (by decide)), B5, if_pos rfl]
      · rw [B17, if_neg (offset_ne _ 320 963 (by decide)), B16, if_neg (offset_ne _ 320 962 (by decide)), B15, if_neg (offset_ne _ 320 961 (by decide)), B14, if_neg (offset_ne _ 320 960 (by decide)), B13, if_neg (offset_ne _ 320 643 (by decide)), B12, if_neg (offset_ne _ 320 642 (by decide)), B11, if_neg (offset_ne _ 320 641 (by decide)), B10, if_neg (offset_ne _ 320 640 (by decide)), B9, if_neg (offset_ne _ 320 323 (by decide)), B8, if_neg (offset_ne _ 320 322 (by decide)), B7, if_neg (offset_ne _ 320 321 (by decide)), B6, if_pos rfl]
      · rw [B17, if_neg (offset_ne _ 321 963 (by decide)), B16, if_neg (offset_ne _ 321 962 (by decide)), B15, if_neg (offset_ne _ 321 961 (by decide)), B14, if_neg (offset_ne _ 321 960 (by decide)), B13, if_neg (offset_ne _ 321 643 (by decide)), B12, if_neg (offset_ne _ 321 642 (by decide)), B11, if_neg (offset_ne _ 321 641 (by decide)), B10, if_neg (offset_ne _ 321 640 (by decide)), B9, if_neg (offset_ne _ 321 323 (by decide)), B8, if_neg (offset_ne _ 321 322 (by decide)), B7, if_pos rfl]
      · rw [B17, if_neg (offset_ne _ 322 963 (by decide)), B16, if_neg (offset_ne _ 322 962 (by decide)), B15, if_neg (offset_ne _ 322 961 (by decide)), B14, if_neg (offset_ne _ 322 960 (by decide)), B13, if_neg (offset_ne _ 322 643 (by decide)), B12, if_neg (offset_ne _ 322 642 (by decide)), B11, if_neg (offset_ne _ 322 641 (by decide)), B10, if_neg (offset_ne _ 322 640 (by decide)), B9, if_neg (offset_ne _ 322 323 (by decide)), B8, if_pos rfl]
      · rw [B17, if_neg (offset_ne _ 323 963 (by decide)), B16, if_neg (offset_ne _ 323 962 (by decide)), B15, if_neg (offset_ne _ 323 961 (by decide)), B14, if_neg (offset_ne _ 323 960 (by decide)), B13, if_neg (offset_ne _ 323 643 (by decide)), B12, if_neg (offset_ne _ 323 642 (by decide)), B11, if_neg (offset_ne _ 323 641 (by decide)), B10, if_neg (offset_ne _ 323 640 (by decide)), B9, if_pos rfl]
      · rw [B17, if_neg (offset_ne _ 640 963 (by decide)), B16, if_neg (offset_ne _ 640 962 (by decide)), B15, if_neg (offset_ne _ 640 961 (by decide)), B14, if_neg (offset_ne _ 640 960 (by decide)), B13, if_neg (offset_ne _ 640 643 (by decide)), B12, if_neg (offset_ne _ 640 642 (by decide)), B11, if_neg (offset_ne _ 640 641 (by decide)), B10, if_pos rfl]
      · rw [B17, if_neg (offset_ne _ 641 963 (by decide)), B16, if_neg (offset_ne _ 641 962 (by decide)), B15, if_neg (offset_ne _ 641 961 (by decide)), B14, if_neg (offset_ne _ 641 960 (by decide)), B13, if_neg (offset_ne _ 641 643 (by decide)), B12, if_neg (offset_ne _ 641 642 (by decide)), B11, if_pos rfl]
      · rw [B17, if_neg (offset_ne _ 642 963 (by decide)), B16, if_neg (offset_ne _ 642 962 (by decide)), B15, if_neg (offset_ne _ 642 961 (by decide)), B14, if_neg (offset_ne _ 642 960 (by decide)), B13, if_neg (offset_ne _ 642 643 (by decide)), B12, if_pos rfl]
      · rw [B17, if_neg (offset_ne _ 643 963 (by decide)), B16, if_neg (offset_ne _ 643 962 (by decide)), B15, if_neg (offset_ne _ 643 961 (by decide)), B14, if_neg (offset_ne _ 643 960 (by decide)), B13, if_pos rfl]
      · rw [B17, if_neg (offset_ne _ 960 963 (by decide)), B16, if_neg (offset_ne _ 960 962 (by decide)), B15, if_neg (offset_ne _ 960 961 (by decide)), B14, if_pos rfl]
      · rw [B17, if_neg (offset_ne _ 961 963 (by decide)), B16, if_neg (offset_ne _ 961 962 (by decide)), B15, if_pos rfl]
      · rw [B17, if_neg (offset_ne _ 962 963 (by decide)), B16, if_pos rfl]
      · rw [B17, if_pos rfl]
  exact key _ rfl

theorem land_pow_div (n k : Nat) : (n &&& 2 ^ k) / 2 ^ k = n / 2 ^ k % 2 := by
  rw [Nat.and_two_pow, Nat.testBit_to_div_mod]
  have hk : 0 < 2 ^ k := Nat.pow_pos (by decide)
  by_cases hb : n / 2 ^ k % 2 = 1
  · simp [hb, Nat.div_self hk]
  · have h0 : n / 2 ^ k % 2 = 0 := by omega
    simp [h0]

/-- The selector expressions of `CrossDecode` are single bits of `value`. -/
theorem cross_bits (n : Nat) :
    n % 2 = n / 2 ^ 0 % 2 ∧ (n &&& 2) / 2 * 3 = 3 * (n / 2 ^ 1 % 2) ∧
    (n &&& 4) / 4 = n / 2 ^ 2 % 2 ∧ (n &&& 8) / 8 * 3 = 3 * (n / 2 ^ 3 % 2) ∧
    (n &&& 16) / 16 = n / 2 ^ 4 % 2 ∧ (n &&& 32) / 32 = n / 2 ^ 5 % 2 ∧
    (n &&& 64) / 64 = n / 2 ^ 6 % 2 ∧ (n &&& 128) / 128 = n / 2 ^ 7 % 2 := by
  have b1 := land_pow_div n 1
  have b2 := land_pow_div n 2
  have b3 := land_pow_div n 3
  have b4 := land_pow_div n 4
  have b5 := land_pow_div n 5
  have b6 := land_pow_div n 6
  have b7 := land_pow_div n 7
  norm_num at b1 b2 b3 b4 b5 b6 b7 ⊢
  omega

/-- One quadrant of `CrossDecode` in the words of the specification: pixel `(c, r)` of the
quadrant at `offset` is entry `c` of row `r` of the lookup pattern, for the four colours at the
aligned cursor and the low eight bits of `value`. -/
theorem crossStep_rows (p : Decoder × Nat) (offset : Int) (r c : Nat) (hr : r < 4) (hc : c < 4) :
    (crossStep p offset).1.m_CurrentBuffer.m_Buffer
        (p.1.m_CurrentTile + offset + ((c : Int) + 320 * (r : Int))) =
      ((crossRows (fun j => p.1.aligned j) (fun j => p.2 / 2 ^ j % 2)).getD r []).getD c 0 := by
  obtain ⟨-, -, -, -, -, -, -, h0, h1, h2, h3, h320, h321, h322, h323, h640, h641, h642, h643, h960, h961, h962, h963⟩ := crossStep_spec p offset
  obtain ⟨v0, v1, v2, v3, v4, v5, v6, v7⟩ := cross_bits p.2
  rw [v0] at h0
  rw [v1] at h3
  rw [v2] at h321
  rw [v3] at h322
  rw [v4] at h641
  rw [v5] at h642
  rw [v6] at h960
  rw [v7] at h963
  interval_cases r <;> interval_cases c
  · exact h0
  · exact h1
  · exact h2
  · exact h3
  · exact h320
  · exact h321
  · exact h322
  · exact h323
  · exact h640
  · exact h641
  · exact h642
  · exact h643
  · exact h960
  · exact h961
  · exact h962
  · exact h963

theorem splitOffsets_cast :
    (do let a ← g_SplitTileOffsets; pure (a : Int) : List Int) = [0, 4, 1280, 1284] := by
  decide

theorem CrossDecode_eq (d : Decoder) :
    CrossDecode d =
      (([0, 4, 1280, 1284] : List Int).foldl crossStep
        (d.withAligned (ReadU32 d.mem d.m_AlignedStream 4).2,
          (ReadU32 d.mem d.m_AlignedStream 4).1)).1 := by
  unfold CrossDecode
  rw [splitOffsets_cast]
  unfold crossStep
  with_reducible rfl

theorem CrossDecode_steps (d : Decoder) :
    CrossDecode d =
      (crossStep (crossStep (crossStep (crossStep
        (d.withAligned (d.m_AlignedStream + 4), u32 d.mem d.m_AlignedStream) 0) 4) 1280) 1284).1 := by
  rw [CrossDecode_eq]
  simp only [List.foldl, ReadU32]

/-- The colours and selector bits that a quadrant of `CrossDecode` sees when the aligned cursor
has moved by `4 + 4 * q` and `value` has been shifted by `8 * q`. -/
theorem cross_view (d : Decoder) (p : Decoder × Nat) (q : Nat)
    (hal : p.1.m_AlignedStream = d.m_AlignedStream + (4 + 4 * q)) (hmem : p.1.mem = d.mem)
    (hv : p.2 = u32 d.mem d.m_AlignedStream / 256 ^ q) :
    crossRows (fun j => p.1.aligned j) (fun j => p.2 / 2 ^ j % 2) =
      crossRows (fun j => d.aligned (4 + 4 * q + j))
        (fun j => u32 d.mem d.m_AlignedStream / 2 ^ (8 * q + j) % 2) := by
  have h1 : (fun j => p.1.aligned j) = (fun j => d.aligned (4 + 4 * q + j)) := by
    funext j
    unfold Decoder.aligned
    rw [hal, hmem, Nat.add_assoc]
  have h2 : (fun j => p.2 / 2 ^ j % 2) =
      (fun j => u32 d.mem d.m_AlignedStream / 2 ^ (8 * q + j) % 2) := by
    funext j
    have e : (256 : Nat) ^ q = 2 ^ (8 * q) := by
      rw [Nat.pow_mul]
    rw [hv, Nat.div_div_eq_div_mul, e, ← Nat.pow_add]
  rw [h1, h2]

/-- What `CrossDecode` does: the aligned cursor moves by 20 and the unaligned cursor stays;
bytes outside the four quadrants keep their value; pixel `(c, r)` of quadrant `q`, the one at
offset `g_SplitTileOffsets[q]`, is entry `c` of row `r` of the lookup pattern for the four
aligned bytes from `4 + 4 * q` on and bits `8 * q` to `8 * q + 7` of the 32-bit value at the
aligned cursor. -/
theorem CrossDecode_spec (d : Decoder) :
    (CrossDecode d).m_AlignedStream = d.m_AlignedStream + 20 ∧
    (CrossDecode d).m_UnAlignedStream = d.m_UnAlignedStream ∧
    (∀ i, (∀ q r c : Nat, q < 4 → r < 4 → c < 4 →
        i ≠ d.m_CurrentTile + quadrantOffset q + ((c : Int) + 320 * (r : Int))) →
      (CrossDecode d).m_CurrentBuffer.m_Buffer i = d.m_CurrentBuffer.m_Buffer i) ∧
    (∀ q r c : Nat, q < 4 → r < 4 → c < 4 →
      (CrossDecode d).m_CurrentBuffer.m_Buffer
          (d.m_CurrentTile + quadrantOffset q + ((c : Int) + 320 * (r : Int))) =
        ((crossRows (fun j => d.aligned (4 + 4 * q + j))
          (fun j => u32 d.mem d.m_AlignedStream / 2 ^ (8 * q + j) % 2)).getD r []).getD c 0) := by
  rw [CrossDecode_steps]
  generalize hp0 : (d.withAligned (d.m_AlignedStream + 4), u32 d.mem d.m_AlignedStream) = p0
  have a0 : p0.1.m_AlignedStream = d.m_AlignedStream + (4 + 4 * 0) := by rw [← hp0]; rfl
  have u0 : p0.1.m_UnAlignedStream = d.m_UnAlignedStream := by rw [← hp0]; rfl
  have m0 : p0.1.mem = d.mem := by rw [← hp0]; rfl
  have t0 : p0.1.m_CurrentTile = d.m_CurrentTile := by rw [← hp0]; rfl
  have v0 : p0.2 = u32 d.mem d.m_AlignedStream / 256 ^ 0 := by rw [← hp0]; simp
  have b0 : p0.1.m_CurrentBuffer = d.m_CurrentBuffer := by rw [← hp0]; rfl
  clear hp0
  obtain ⟨sv0, sa0, su0, sm0, st0, -, so0, -⟩ := crossStep_spec p0 0
  have sr0 := crossStep_rows p0 0
  rw [cross_view d p0 0 a0 m0 v0, t0] at sr0
  rw [t0] at so0
  generalize crossStep p0 0 = p1 at sv0 sa0 su0 sm0 st0 so0 sr0 ⊢
  have a1 : p1.1.m_AlignedStream = d.m_AlignedStream + (4 + 4 * 1) := by rw [sa0, a0]
  have u1 : p1.1.m_UnAlignedStream = d.m_UnAlignedStream := by rw [su0, u0]
  have m1 : p1.1.mem = d.mem := by rw [sm0, m0]
  have t1 : p1.1.m_CurrentTile = d.m_CurrentTile := by rw [st0, t0]
  have v1 : p1.2 = u32 d.mem d.m_AlignedStream / 256 ^ 1 := by
    rw [sv0, v0, Nat.div_div_eq_div_mul, ← Nat.pow_succ]
  obtain ⟨sv1, sa1, su1, sm1, st1, -, so1, -⟩ := crossStep_spec p1 4
  have sr1 := crossStep_rows p1 4
  rw [cross_view d p1 1 a1 m1 v1, t1] at sr1
  rw [t1] at so1
  generalize crossStep p1 4 = p2 at sv1 sa1 su1 sm1 st1 so1 sr1 ⊢
  have a2 : p2.1.m_AlignedStream = d.m_AlignedStream + (4 + 4 * 2) := by rw [sa1, a1]
  have u2 : p2.1.m_UnAlignedStream = d.m_UnAlignedStream := by rw [su1, u1]
  have m2 : p2.1.mem = d.mem := by rw [sm1, m1]
  have t2 : p2.1.m_CurrentTile = d.m_CurrentTile := by rw [st1, t1]
  have v2 : p2.2 = u32 d.mem d.m_AlignedStream / 256 ^ 2 := by
    rw [sv1, v1, Nat.div_div_eq_div_mul, ← Nat.pow_succ]
  obtain ⟨sv2, sa2, su2, sm2, st2, -, so2, -⟩ := crossStep_spec p2 1280
  have sr2 := crossStep_rows p2 1280
  rw [cross_view d p2 2 a2 m2 v2, t2] at sr2
  rw [t2] at so2
  generalize crossStep p2 1280 = p3 at sv2 sa2 su2 sm2 st2 so2 sr2 ⊢
  have a3 : p3.1.m_AlignedStream = d.m_AlignedStream + (4 + 4 * 3) := by rw [sa2, a2]
  have u3 : p3.1.m_UnAlignedStream = d.m_UnAlignedStream := by rw [su2, u2]
  have m3 : p3.1.mem = d.mem := by rw [sm2, m2]
  have t3 : p3.1.m_CurrentTile = d.m_CurrentTile := by rw [st2, t2]
  have v3 : p3.2 = u32 d.mem d.m_AlignedStream / 256 ^ 3 := by
    rw [sv2, v2, Nat.div_div_eq_div_mul, ← Nat.pow_succ]
  obtain ⟨sv3, sa3, su3, sm3, st3, -, so3, -⟩ := crossStep_spec p3 1284
  have sr3 := crossStep_rows p3 1284
  rw [cross_view d p3 3 a3 m3 v3, t3] at sr3
  rw [t3] at so3
  generalize crossStep p3 1284 = p4 at sv3 sa3 su3 sm3 st3 so3 sr3 ⊢
  have a4 : p4.1.m_AlignedStream = d.m_AlignedStream + (4 + 4 * 4) := by rw [sa3, a3]
  have u4 : p4.1.m_UnAlignedStream = d.m_UnAlignedStream := by rw [su3, u3]
  have m4 : p4.1.mem = d.mem := by rw [sm3, m3]
  have t4 : p4.1.m_CurrentTile = d.m_CurrentTile := by rw [st3, t3]
  have v4 : p4.2 = u32 d.mem d.m_AlignedStream / 256 ^ 4 := by
    rw [sv3, v3, Nat.div_div_eq_div_mul, ← Nat.pow_succ]
  refine ⟨?_, u4, fun i hi => ?_, fun q r c hq hr hc => ?_⟩
  · rw [a4]
  · rw [so3 i (fun r c hr hc => hi 3 r c (by decide) hr hc),
      so2 i (fun r c hr hc => hi 2 r c (by decide) hr hc),
      so1 i (fun r c hr hc => hi 1 r c (by decide) hr hc),
      so0 i (fun r c hr hc => hi 0 r c (by decide) hr hc), b0]
  · have q0 : quadrantOffset 0 = 0 := rfl
    have q1 : quadrantOffset 1 = 4 := rfl
    have q2 : quadrantOffset 2 = 1280 := rfl
    have q3 : quadrantOffset 3 = 1284 := rfl
    interval_cases q
    · rw [q0, so3 _ (fun r2 c2 _ _ => by omega), so2 _ (fun r2 c2 _ _ => by omega),
        so1 _ (fun r2 c2 _ _ => by omega)]
      exact sr0 r c hr hc
    · rw [q1, so3 _ (fun r2 c2 _ _ => by omega), so2 _ (fun r2 c2 _ _ => by omega)]
      exact sr1 r c hr hc
    · rw [q2, so3 _ (fun r2 c2 _ _ => by omega)]
      exact sr2 r c hr hc
    · rw [q3]
      exact sr3 r c hr hc

/-- C21 (counterexample): on `tileSample` the aligned bytes are 1, 2, 3, 4, 5, 6, 7, 8, ...; the
second pixel of the first row of a cross tile is always the first base colour `c0` of the first
quadrant, which the claim takes from aligned byte 0 (the byte 1), but `CrossDecode` stores
aligned byte 4 (the byte 5) there; and the whole first quadrant differs from the lookup pattern
computed with the colours at aligned bytes 0..3 and the selector at aligned bytes 4..7. -/
theorem C21_cross_layout_counterexample :
    tileSample.aligned 0 = 1 ∧ tileSample.aligned 4 = 5 ∧
    (CrossDecode tileSample).m_CurrentBuffer.m_Buffer (tileSample.m_CurrentTile + 1) = 5 ∧
    (CrossDecode tileSample).m_CurrentBuffer.m_Buffer (tileSample.m_CurrentTile + 1) ≠
      tileSample.aligned 0 ∧
    (List.range 4).map (fun r => (List.range 4).map (fun c =>
      (CrossDecode tileSample).m_CurrentBuffer.m_Buffer
        (tileSample.m_CurrentTile + ((c : Int) + 320 * (r : Int))))) ≠
      crossRows (fun j => tileSample.aligned j)
        (fun j => u32 tileSample.mem (tileSample.m_AlignedStream + 4) / 2 ^ j % 2) := by
  decide

/-- C21 (amended): `CrossDecode` reads the 32-bit selector value first, the little-endian u32 at
aligned bytes 0..3, and the four base colours of the first quadrant after it, at aligned bytes
4..7: the first quadrant, rows 320 bytes apart at the tile cursor, is the lookup pattern for
these colours and bits 0..7 of that value.  In particular its second pixel is aligned byte 4
and its first pixel is aligned byte 4 or 5 according to bit 0 of aligned byte 0. -/
theorem C21_cross_value_before_colours (d : Decoder) :
    (∀ r c : Nat, r < 4 → c < 4 →
      (CrossDecode d).m_CurrentBuffer.m_Buffer (d.m_CurrentTile + ((c : Int) + 320 * (r : Int))) =
        ((crossRows (fun j => d.aligned (4 + j))
          (fun j => u32 d.mem d.m_AlignedStream / 2 ^ j % 2)).getD r []).getD c 0) ∧
    (CrossDecode d).m_CurrentBuffer.m_Buffer (d.m_CurrentTile + 1) = d.aligned 4 ∧
    (CrossDecode d).m_CurrentBuffer.m_Buffer d.m_CurrentTile = d.aligned (4 + d.aligned 0 % 2) := by
  obtain ⟨-, -, -, h⟩ := CrossDecode_spec d
  have q0 : quadrantOffset 0 = 0 := rfl
  have key : ∀ r c : Nat, r < 4 → c < 4 →
      (CrossDecode d).m_CurrentBuffer.m_Buffer (d.m_CurrentTile + ((c : Int) + 320 * (r : Int))) =
        ((crossRows (fun j => d.aligned (4 + j))
          (fun j => u32 d.mem d.m_AlignedStream / 2 ^ j % 2)).getD r []).getD c 0 := by
    intro r c hr hc
    have e := h 0 r c (by decide) hr hc
    rw [q0, Int.add_zero] at e
    simp only [Nat.mul_zero, Nat.add_zero, Nat.zero_add] at e
    exact e
  refine ⟨key, ?_, ?_⟩
  · exact key 0 1 (by decide) (by decide)
  · have e := key 0 0 (by decide) (by decide)
    have hb : u32 d.mem d.m_AlignedStream / 2 ^ 0 % 2 = d.aligned 0 % 2 := by
      unfold u32 Decoder.aligned
      simp only [Nat.add_zero, Nat.pow_zero, Nat.div_one]
      omega
    have e2 : d.m_CurrentTile + (((0 : Nat) : Int) + 320 * ((0 : Nat) : Int)) = d.m_CurrentTile := by
      simp
    rw [e2] at e
    rw [e]
    show d.aligned (4 + u32 d.mem d.m_AlignedStream / 2 ^ 0 % 2) = _
    rw [hb]

/-- C28: `CrossDecode` reproduces the fixed lookup pattern.  For width 320, with `value` the
little-endian u32 at the aligned cursor, quadrant `q = 0..3` is placed at the tile offset
`g_SplitTileOffsets[q]`, that is 0, 4, 4*320, 4*320+4, so that its pixel `(c, r)` is pixel
`(4 * (q mod 2) + c, 4 * (q / 2) + r)` of the tile; with `c0..c3` the `q`-th group of four colour
bytes that follow the value and `v0..v7` bits `8 * q` to `8 * q + 7` of `value`, its rows are
those of `crossRows`: `[c(v0), c0, c0, c(3 v1)]`, `[c1, c(v2), c(3 v3), c3]`,
`[c1, c(1+v4), c(2+v5), c3]`, `[c(1+v6), c2, c2, c(2+v7)]`.  The call takes exactly 20 bytes
from the aligned stream and none from the unaligned stream. -/
theorem C28_cross_lookup_pattern (d : Decoder) (hW : d.m_Width = 320) :
    g_SplitTileOffsets = [0, 4, 4 * 320, 4 * 320 + 4] ∧
    (∀ q r c : Nat, q < 4 → r < 4 → c < 4 →
      (CrossDecode d).m_CurrentBuffer.m_Buffer
          (d.m_CurrentTile + (((4 * (q % 2) + c : Nat) : Int) +
            ((4 * (q / 2) + r : Nat) : Int) * d.m_Width)) =
        ((crossRows (fun j => d.aligned (4 + 4 * q + j))
          (fun j => u32 d.mem d.m_AlignedStream / 2 ^ (8 * q + j) % 2)).getD r []).getD c 0) ∧
    (CrossDecode d).m_AlignedStream = d.m_AlignedStream + 20 ∧
    (CrossDecode d).m_UnAlignedStream = d.m_UnAlignedStream := by
  obtain ⟨h1, h2, -, h⟩ := CrossDecode_spec d
  refine ⟨rfl, fun q r c hq hr hc => ?_, h1, h2⟩
  rw [← h q r c hq hr hc, hW]
  have e : d.m_CurrentTile + (((4 * (q % 2) + c : Nat) : Int) +
        ((4 * (q / 2) + r : Nat) : Int) * 320) =
      d.m_CurrentTile + quadrantOffset q + ((c : Int) + 320 * (r : Int)) := by
    have q0 : quadrantOffset 0 = 0 := rfl
    have q1 : quadrantOffset 1 = 4 := rfl
    have q2 : quadrantOffset 2 = 1280 := rfl
    have q3 : quadrantOffset 3 = 1284 := rfl
    interval_cases q
    · rw [q0]; push_cast; ring
    · rw [q1]; push_cast; ring
    · rw [q2]; push_cast; ring
    · rw [q3]; push_cast; ring
  rw [e]

/-- Witness of C28 on `wideSample`, a decoder of a 320-wide frame. -/
theorem C28_cross_lookup_pattern_witness :
    wideSample.m_Width = 320 ∧
    (g_SplitTileOffsets = [0, 4, 4 * 320, 4 * 320 + 4] ∧
    (∀ q r c : Nat, q < 4 → r < 4 → c < 4 →
      (CrossDecode wideSample).m_CurrentBuffer.m_Buffer
          (wideSample.m_CurrentTile + (((4 * (q % 2) + c : Nat) : Int) +
            ((4 * (q / 2) + r : Nat) : Int) * wideSample.m_Width)) =
        ((crossRows (fun j => wideSample.aligned (4 + 4 * q + j))
          (fun j => u32 wideSample.mem wideSample.m_AlignedStream / 2 ^ (8 * q + j) % 2)).getD
            r []).getD c 0) ∧
    (CrossDecode wideSample).m_AlignedStream = wideSample.m_AlignedStream + 20 ∧
    (CrossDecode wideSample).m_UnAlignedStream = wideSample.m_UnAlignedStream) :=
  ⟨by decide, C28_cross_lookup_pattern wideSample (by decide)⟩

/-! ## Block decodes -/

theorem forN_induct {σ : Type} (I : Nat → σ → Prop) (body : Nat → σ → σ) (n : Nat) (s : σ)
    (h0 : I 0 s) (h : ∀ i t, i < n → I i t → I (i + 1) (body i t)) : I n (forN n body s) := by
  have key : ∀ m, m ≤ n → I m (forN m body s) := by
    intro m
    induction m with
    | zero => intro _; exact h0
    | succ m ih => intro hm; exact h m _ (by omega) (ih (by omega))
  exact key n (le_refl n)

theorem forN_congr {σ : Type} (f g : Nat → σ → σ) (h : ∀ i s, f i s = g i s) (n : Nat) (s : σ) :
    forN n f s = forN n g s := by
  induction n with
  | zero => rfl
  | succ n ih => show f n (forN n f s) = g n (forN n g s); rw [ih, h]

theorem scattered_zero (dest : Nat → Int) (val : Nat → Nat) (old : Int → Nat) :
    Scattered dest val old old 0 :=
  ⟨fun _ _ => rfl, fun j hj => absurd hj (Nat.not_lt_zero j)⟩

theorem scattered_succ (dest : Nat → Int) (val : Nat → Nat) (old b c : Int → Nat) (n : Nat)
    (h : Scattered dest val old b n) (hb : ∀ k, c k = if k = dest n then val n else b k) :
    Scattered dest val old c (n + 1) := by
  refine ⟨fun i hi => ?_, fun j hj hl => ?_⟩
  · rw [hb, if_neg (fun e => hi n (Nat.lt_succ_self n) e.symm)]
    exact h.1 i (fun j hj => hi j (by omega))
  · rcases Nat.lt_succ_iff_lt_or_eq.mp hj with hj2 | rfl
    · rw [hb, if_neg (fun e => hl n hj2 (Nat.lt_succ_self _) e.symm)]
      exact h.2 j hj2 (fun k hk hkn => hl k hk (by omega))
    · rw [hb, if_pos rfl]

/-- With stores at distinct addresses, each address holds the value of its store. -/
theorem scattered_injective (dest : Nat → Int) (val : Nat → Nat) (old new : Int → Nat) (n : Nat)
    (h : Scattered dest val old new n)
    (hinj : ∀ j k, j < n → k < n → dest j = dest k → j = k) :
    ∀ j, j < n → new (dest j) = val j := by
  intro j hj
  exact h.2 j hj (fun k hjk hk e => by have := hinj k j hk hj e; omega)

theorem maskBit_split (mem : Nat → Nat) (al o i : Nat) (hi : i < 8) :
    maskBit mem al (8 * o + i) = u8 mem (al + o) / 2 ^ i % 2 := by
  unfold maskBit
  have h1 : (8 * o + i) / 8 = o := by omega
  have h2 : (8 * o + i) % 8 = i := by omega
  rw [h1, h2]

theorem maskBit_le (mem : Nat → Nat) (al j : Nat) : maskBit mem al j ≤ 1 := by
  unfold maskBit; omega

/-- The scan of a block decode: its invariant holds in front of position 64. -/
theorem blockScan_spec {τ : Type} (step : Decoder → τ → Decoder × τ) (colour : τ → Nat)
    (store : Nat → Nat → Decoder → Nat → Decoder) (init : τ) (d : Decoder)
    (st : Nat → τ) (un : Nat → Nat) (A : Nat → Int)
    (h0 : st 0 = init) (hu0 : un 0 = d.m_UnAlignedStream)
    (hstep : ∀ (e : Decoder) (c : Nat), e.mem = d.mem → e.m_UnAlignedStream = un c →
      (step e (st c)).2 = st (c + 1) ∧ (step e (st c)).1.m_UnAlignedStream = un (c + 1) ∧
      (step e (st c)).1.mem = e.mem ∧
      (step e (st c)).1.m_AlignedStream = e.m_AlignedStream ∧
      (step e (st c)).1.m_CurrentTile = e.m_CurrentTile ∧
      (step e (st c)).1.m_Width = e.m_Width ∧
      (step e (st c)).1.m_CurrentBuffer = e.m_CurrentBuffer)
    (hstore : ∀ (o i : Nat) (e : Decoder) (c : Nat), o < 8 → i < 8 →
      e.m_CurrentTile = d.m_CurrentTile → e.m_Width = d.m_Width →
      (store o i e c).mem = e.mem ∧ (store o i e c).m_AlignedStream = e.m_AlignedStream ∧
      (store o i e c).m_UnAlignedStream = e.m_UnAlignedStream ∧
      (store o i e c).m_CurrentTile = e.m_CurrentTile ∧
      (store o i e c).m_Width = e.m_Width ∧
      ∀ k, (store o i e c).m_CurrentBuffer.m_Buffer k =
        if k = A (8 * o + i) then c else e.m_CurrentBuffer.m_Buffer k) :
    ScanInv d st un A colour 64 (d.m_AlignedStream + 8)
      (blockScan step colour store init d).1 (blockScan step colour store init d).2 := by
  have outer := forN_induct
    (fun o (s : Decoder × τ) => ScanInv d st un A colour (8 * o) (d.m_AlignedStream + o) s.1 s.2)
    (fun o (s : Decoder × τ) =>
      let a := s.1.aligned 0
      let d := s.1.skipAligned 1
      let r := forN 8 (fun i (p : Decoder × Nat × τ) =>
          let q : Decoder × τ := if p.2.1 % 2 = 1 then step p.1 p.2.2 else (p.1, p.2.2)
          (store o i q.1 (colour q.2), p.2.1 / 2, q.2))
        (d, a, s.2)
      (r.1, r.2.2)) 8 (d, init)
    ⟨rfl, hu0.symm, rfl, rfl, rfl, h0.symm, scattered_zero _ _ _⟩ ?_
  · exact outer
  · intro o s ho hs
    obtain ⟨s1, s2, s3, s4, s5, s6, s7⟩ := hs
    have inner := forN_induct
      (fun i (p : Decoder × Nat × τ) =>
        ScanInv d st un A colour (8 * o + i) (d.m_AlignedStream + o + 1) p.1 p.2.2 ∧
        p.2.1 = u8 d.mem (d.m_AlignedStream + o) / 2 ^ i)
      (fun i (p : Decoder × Nat × τ) =>
          let q : Decoder × τ := if p.2.1 % 2 = 1 then step p.1 p.2.2 else (p.1, p.2.2)
          (store o i q.1 (colour q.2), p.2.1 / 2, q.2))
      8 (s.1.skipAligned 1, s.1.aligned 0, s.2)
      ⟨⟨by rw [skipAligned_aligned, s1], s2, s3, s4, s5, s6, s7⟩, by
        show u8 s.1.mem (s.1.m_AlignedStream + 0) = _
        rw [s3, s1, Nat.add_zero, Nat.pow_zero, Nat.div_one]⟩ ?_
    · exact inner.1
    · intro i p hi hp
      obtain ⟨⟨p1, p2, p3, p4, p5, p6, p7⟩, pa⟩ := hp
      have hbit : p.2.1 % 2 = maskBit d.mem d.m_AlignedStream (8 * o + i) := by
        rw [maskBit_split _ _ _ _ hi, pa]
      have hcnt : setBits d.mem d.m_AlignedStream (8 * o + (i + 1)) =
          setBits d.mem d.m_AlignedStream (8 * o + i) +
            maskBit d.mem d.m_AlignedStream (8 * o + i) := rfl
      have hle := maskBit_le d.mem d.m_AlignedStream (8 * o + i)
      have key : ∀ q : Decoder × τ,
          q = (if p.2.1 % 2 = 1 then step p.1 p.2.2 else (p.1, p.2.2)) →
          q.2 = st (setBits d.mem d.m_AlignedStream (8 * o + (i + 1))) ∧
          q.1.m_UnAlignedStream = un (setBits d.mem d.m_AlignedStream (8 * o + (i + 1))) ∧
          q.1.mem = d.mem ∧ q.1.m_AlignedStream = d.m_AlignedStream + o + 1 ∧
          q.1.m_CurrentTile = d.m_CurrentTile ∧ q.1.m_Width = d.m_Width ∧
          q.1.m_CurrentBuffer = p.1.m_CurrentBuffer := by
        intro q hq
        by_cases hb : p.2.1 % 2 = 1
        · rw [if_pos hb] at hq
          have hm : maskBit d.mem d.m_AlignedStream (8 * o + i) = 1 := by omega
          rw [hcnt, hm, hq, p6]
          obtain ⟨t1, t2, t3, t4, t5, t6, t7⟩ := hstep p.1 _ p3 p2
          exact ⟨t1, t2, t3.trans p3, t4.trans p1, t5.trans p4, t6.trans p5, t7⟩
        · rw [if_neg hb] at hq
          have hm : maskBit d.mem d.m_AlignedStream (8 * o + i) = 0 := by omega
          rw [hcnt, hm, hq, Nat.add_zero]
          exact ⟨p6, p2, p3, p1, p4, p5, rfl⟩
      obtain ⟨q1, q2, q3, q4, q5, q6, q7⟩ := key _ rfl
      obtain ⟨w1, w2, w3, w4, w5, w6⟩ := hstore o i
        (if p.2.1 % 2 = 1 then step p.1 p.2.2 else (p.1, p.2.2)).1
        (colour (if p.2.1 % 2 = 1 then step p.1 p.2.2 else (p.1, p.2.2)).2) ho hi q5 q6
      refine ⟨⟨w2.trans q4, w3.trans q2, w1.trans q3, w4.trans q5, w5.trans q6, q1, ?_⟩, ?_⟩
      · refine scattered_succ _ _ _ _ _ _ p7 (fun k => ?_)
        rw [w6 k, q7, q1]
        rfl
      · show p.2.1 / 2 = _
        rw [pa, Nat.div_div_eq_div_mul, Nat.pow_succ]

theorem storesAt_horizontal (d : Decoder) : StoresAt d storeHorizontal (horizontalAddress d) := by
  intro o i e c ho hi h1 h2
  refine ⟨rfl, rfl, rfl, rfl, rfl, fun k => ?_⟩
  have e1 : (8 * o + i) % 8 = i := by omega
  have e2 : (8 * o + i) / 8 = o := by omega
  unfold storeHorizontal horizontalAddress
  rw [SetPixel_buffer, h1, h2, e1, e2]

theorem storesAt_vertical (d : Decoder) : StoresAt d storeVertical (verticalAddress d) := by
  intro o i e c ho hi h1 h2
  refine ⟨rfl, rfl, rfl, rfl, rfl, fun k => ?_⟩
  have e1 : (8 * o + i) % 8 = i := by omega
  have e2 : (8 * o + i) / 8 = o := by omega
  unfold storeVertical verticalAddress
  rw [SetPixel_buffer, h1, h2, e1, e2]

theorem storesAt_table (table : List Nat) (d : Decoder) :
    StoresAt d (storeTable table) (tableAddress table d) := by
  intro o i e c ho hi h1 h2
  refine ⟨rfl, rfl, rfl, rfl, rfl, fun k => ?_⟩
  unfold storeTable tableAddress
  rw [← h1]
  rfl

/-- The scan of the plain block decodes. -/
theorem plainScan_spec (store : Nat → Nat → Decoder → Nat → Decoder) (A : Nat → Int)
    (d : Decoder) (hstore : StoresAt d store A) :
    ScanInv d (plainState d.mem d.m_UnAlignedStream) (fun c => d.m_UnAlignedStream + c) A id 64
      (d.m_AlignedStream + 8)
      (blockScan byteStep id store 0 d).1 (blockScan byteStep id store 0 d).2 := by
  refine blockScan_spec byteStep id store 0 d _ _ A rfl rfl ?_ hstore
  intro e c h1 h2
  refine ⟨?_, ?_, rfl, rfl, rfl, rfl, rfl⟩
  · show u8 e.mem (e.m_UnAlignedStream + 0) = plainState d.mem d.m_UnAlignedStream (c + 1)
    unfold plainState
    rw [if_neg (Nat.succ_ne_zero c), h1, h2]
    rfl
  · show e.m_UnAlignedStream + 1 = d.m_UnAlignedStream + (c + 1)
    rw [h2]; omega

theorem blockScanBank_eq (bank : Nat) (store : Nat → Nat → Decoder → Nat → Decoder)
    (d : Decoder) :
    blockScanBank bank store d =
      blockScan nibbleStep (fun t => (bank + t.1) % 256) store (0, 1) d := by
  unfold blockScanBank blockScan
  refine forN_congr _ _ (fun o s => ?_) 8 _
  have inner := forN_rel
    (fun (p : Decoder × Nat × Nat × Nat) (q : Decoder × Nat × Nat × Nat) => p = q)
    (fun i (p : Decoder × Nat × Nat × Nat) =>
          let q : Decoder × Nat × Nat :=
            if p.2.1 % 2 = 1 then
              (if p.2.2.2 ≠ 0 then (p.1.skipUnaligned 1, p.1.unaligned 0 / 16, 0)
               else (p.1, p.1.unaligned 0 % 16, p.2.2.2 + 1))
            else (p.1, p.2.2.1, p.2.2.2)
          (store o i q.1 ((bank + q.2.1) % 256), p.2.1 / 2, q.2.1, q.2.2))
    (fun i (p : Decoder × Nat × Nat × Nat) =>
          let q : Decoder × Nat × Nat :=
            if p.2.1 % 2 = 1 then nibbleStep p.1 p.2.2 else (p.1, p.2.2)
          (store o i q.1 ((bank + q.2.1) % 256), p.2.1 / 2, q.2))
    (fun i p q h => by
      subst h
      unfold nibbleStep
      by_cases h1 : p.2.1 % 2 = 1
      · by_cases h2 : p.2.2.2 ≠ 0
        · simp only [h1, h2, if_true, if_pos, ne_eq, not_false_eq_true]
        · simp only [h1, h2, if_true, if_false, ne_eq, not_false_eq_true]
      · simp only [h1, if_false])
    (s.1.skipAligned 1, s.1.aligned 0, s.2.1, s.2.2)
    (s.1.skipAligned 1, s.1.aligned 0, s.2) rfl 8
  show (_, _) = (_, _)
  exact congrArg (fun r : Decoder × Nat × Nat × Nat => (r.1, r.2.2)) inner

/-- The scan of the Bank-1 block decodes. -/
theorem bankScan_spec (bank : Nat) (store : Nat → Nat → Decoder → Nat → Decoder)
    (A : Nat → Int) (d : Decoder) (hstore : StoresAt d store A) :
    ScanInv d (bankState d.mem d.m_UnAlignedStream)
      (fun c => d.m_UnAlignedStream + (c + 1) / 2) A (fun t => (bank + t.1) % 256) 64
      (d.m_AlignedStream + 8)
      (blockScanBank bank store d).1 (blockScanBank bank store d).2 := by
  rw [blockScanBank_eq]
  refine blockScan_spec nibbleStep _ store (0, 1) d _ _ A rfl rfl ?_ hstore
  intro e c h1 h2
  have h2 : e.m_UnAlignedStream = d.m_UnAlignedStream + (c + 1) / 2 := h2
  have key : ∀ r, r = nibbleStep e (bankState d.mem d.m_UnAlignedStream c) →
      r.2 = bankState d.mem d.m_UnAlignedStream (c + 1) ∧
      r.1.m_UnAlignedStream = d.m_UnAlignedStream + (c + 1 + 1) / 2 ∧
      r.1.mem = e.mem ∧ r.1.m_AlignedStream = e.m_AlignedStream ∧
      r.1.m_CurrentTile = e.m_CurrentTile ∧ r.1.m_Width = e.m_Width ∧
      r.1.m_CurrentBuffer = e.m_CurrentBuffer := by
    intro r hr
    unfold nibbleStep at hr
    have hu : e.unaligned 0 = u8 d.mem (d.m_UnAlignedStream + (c + 1) / 2) := by
      show u8 e.mem (e.m_UnAlignedStream + 0) = _
      rw [h1, h2]; rfl
    rw [hu] at hr
    rcases Nat.eq_zero_or_pos c with hc | hc
    · subst hc
      have hs : bankState d.mem d.m_UnAlignedStream 0 = (0, 1) := rfl
      rw [hs] at hr
      subst hr
      refine ⟨?_, ?_, rfl, rfl, rfl, rfl, rfl⟩
      · rfl
      · show e.m_UnAlignedStream + 1 = _
        rw [h2]
    · rcases Nat.mod_two_eq_zero_or_one c with hp | hp
      · have hs : bankState d.mem d.m_UnAlignedStream c =
            (u8 d.mem (d.m_UnAlignedStream + c / 2) % 16, 1) := by
          unfold bankState
          rw [if_neg (by omega), if_neg (by omega)]
        rw [hs] at hr
        subst hr
        refine ⟨?_, ?_, rfl, rfl, rfl, rfl, rfl⟩
        · show (_, 0) = bankState d.mem d.m_UnAlignedStream (c + 1)
          unfold bankState
          rw [if_neg (by omega), if_pos (by omega)]
          have e1 : (c + 1) / 2 = (c + 1 - 1) / 2 := by omega
          rw [e1]
        · show e.m_UnAlignedStream + 1 = _
          rw [h2]; omega
      · have hs : bankState d.mem d.m_UnAlignedStream c =
            (u8 d.mem (d.m_UnAlignedStream + (c - 1) / 2) / 16, 0) := by
          unfold bankState
          rw [if_neg (by omega), if_pos hp]
        rw [hs] at hr
        subst hr
        refine ⟨?_, ?_, rfl, rfl, rfl, rfl, rfl⟩
        · show (_, 0 + 1) = bankState d.mem d.m_UnAlignedStream (c + 1)
          unfold bankState
          rw [if_neg (by omega), if_neg (by omega)]
        · show e.m_UnAlignedStream = _
          rw [h2]; omega
  exact key _ rfl

theorem pixel_address_inj (W : Int) (hW : 8 ≤ W) (x y u v : Nat) (hx : x < 8) (hu : u < 8)
    (h : (x : Int) + (y : Int) * W = (u : Int) + (v : Int) * W) : x = u ∧ y = v := by
  have hy : y = v := by
    rcases Nat.lt_trichotomy y v with c | c | c
    · exfalso
      have c1 : (y : Int) + 1 ≤ v := by omega
      have c2 : ((y : Int) + 1) * W ≤ (v : Int) * W :=
        Int.mul_le_mul_of_nonneg_right c1 (by omega)
      have c3 : ((y : Int) + 1) * W = (y : Int) * W + W := by ring
      omega
    · exact c
    · exfalso
      have c1 : (v : Int) + 1 ≤ y := by omega
      have c2 : ((v : Int) + 1) * W ≤ (y : Int) * W :=
        Int.mul_le_mul_of_nonneg_right c1 (by omega)
      have c3 : ((v : Int) + 1) * W = (v : Int) * W + W := by ring
      omega
  subst hy
  exact ⟨by omega, rfl⟩

theorem horizontalAddress_inj (d : Decoder) (hW : 8 ≤ d.m_Width) (j k : Nat)
    (h : horizontalAddress d j = horizontalAddress d k) : j = k := by
  unfold horizontalAddress at h
  have h2 := pixel_address_inj d.m_Width hW (j % 8) (j / 8) (k % 8) (k / 8)
    (Nat.mod_lt _ (by decide)) (Nat.mod_lt _ (by decide)) (Int.add_left_cancel h)
  omega

theorem verticalAddress_inj (d : Decoder) (hW : 8 ≤ d.m_Width) (j k : Nat)
    (hj : j < 64) (hk : k < 64)
    (h : verticalAddress d j = verticalAddress d k) : j = k := by
  unfold verticalAddress at h
  have h2 := pixel_address_inj d.m_Width hW (j / 8) (j % 8) (k / 8) (k % 8)
    (by omega) (by omega) (Int.add_left_cancel h)
  omega

theorem diagonal1_inj : ∀ j : Fin 64, ∀ k : Fin 64,
    g_DiagonalOffsets_1.getD j.val 0 = g_DiagonalOffsets_1.getD k.val 0 → j = k := by
  decide

theorem diagonal2_inj : ∀ j : Fin 64, ∀ k : Fin 64,
    g_DiagonalOffsets_2.getD j.val 0 = g_DiagonalOffsets_2.getD k.val 0 → j = k := by
  decide

theorem tableAddress_inj (table : List Nat) (d : Decoder)
    (ht : ∀ j : Fin 64, ∀ k : Fin 64, table.getD j.val 0 = table.getD k.val 0 → j = k)
    (j k : Nat) (hj : j < 64) (hk : k < 64)
    (h : tableAddress table d j = tableAddress table d k) : j = k := by
  unfold tableAddress at h
  have h2 : table.getD j 0 = table.getD k 0 := by
    have := Int.add_left_cancel h
    exact_mod_cast this
  exact congrArg Fin.val (ht ⟨j, hj⟩ ⟨k, hk⟩ h2)

/-- A plain block decode: cursors and the stores it leaves. -/
theorem plainDecode_spec (store : Nat → Nat → Decoder → Nat → Decoder) (A : Nat → Int)
    (d : Decoder) (hstore : StoresAt d store A) :
    (blockScan byteStep id store 0 d).1.m_AlignedStream = d.m_AlignedStream + 8 ∧
    (blockScan byteStep id store 0 d).1.m_UnAlignedStream =
      d.m_UnAlignedStream + setBits d.mem d.m_AlignedStream 64 ∧
    (blockScan byteStep id store 0 d).1.mem = d.mem ∧
    (blockScan byteStep id store 0 d).1.m_CurrentTile = d.m_CurrentTile ∧
    (blockScan byteStep id store 0 d).1.m_Width = d.m_Width ∧
    Scattered A (blockColour d.mem d.m_AlignedStream d.m_UnAlignedStream)
      d.m_CurrentBuffer.m_Buffer (blockScan byteStep id store 0 d).1.m_CurrentBuffer.m_Buffer 64 := by
  obtain ⟨h1, h2, h3, h4, h5, -, h7⟩ := plainScan_spec store A d hstore
  exact ⟨h1, h2, h3, h4, h5, h7⟩

theorem bankState_flag (mem : Nat → Nat) (un c : Nat) :
    (bankState mem un c).2 = if c % 2 = 0 then 1 else 0 := by
  unfold bankState
  by_cases h0 : c = 0
  · subst h0; rfl
  · by_cases h1 : c % 2 = 1
    · rw [if_neg h0, if_pos h1, if_neg (by omega)]
    · rw [if_neg h0, if_neg h1, if_pos (by omega)]

theorem bankNibble_eq (mem : Nat → Nat) (un k : Nat) :
    bankNibble mem un k =
      if k % 2 = 0 then u8 mem (un + nibbleByte k) / 16 else u8 mem (un + nibbleByte k) % 16 := by
  unfold bankNibble bankState nibbleByte
  by_cases h : k % 2 = 0
  · rw [if_neg (Nat.succ_ne_zero k), if_pos (by omega), if_pos h, if_pos h]
    rfl
  · rw [if_neg (Nat.succ_ne_zero k), if_neg (by omega), if_neg h, if_neg h]

theorem bankState_colour (mem : Nat → Nat) (al un j : Nat) :
    (bankState mem un (setBits mem al (j + 1))).1 = currentNibble mem al un j := by
  unfold currentNibble
  by_cases h : setBits mem al (j + 1) = 0
  · rw [if_pos h, h]; rfl
  · rw [if_neg h]
    unfold bankNibble
    have e : setBits mem al (j + 1) - 1 + 1 = setBits mem al (j + 1) := by omega
    rw [e]

/-- A Bank-1 block decode: cursors and the stores it leaves. -/
theorem bankDecode_spec (store : Nat → Nat → Decoder → Nat → Decoder) (A : Nat → Int)
    (d R : Decoder) (hstore : StoresAt d store A)
    (hR : R = (let bank := (d.unaligned 0 * 16) % 256
       let o := blockScanBank bank store d
       if o.2.2 ≠ 0 then o.1.skipUnaligned 1 else o.1)) :
    R.m_AlignedStream = d.m_AlignedStream + 8 ∧
    R.m_UnAlignedStream = d.m_UnAlignedStream + (1 + setBits d.mem d.m_AlignedStream 64 / 2) ∧
    R.mem = d.mem ∧ R.m_CurrentTile = d.m_CurrentTile ∧ R.m_Width = d.m_Width ∧
    Scattered A (bankColour d.mem d.m_AlignedStream d.m_UnAlignedStream)
      d.m_CurrentBuffer.m_Buffer R.m_CurrentBuffer.m_Buffer 64 := by
  obtain ⟨h1, h2, h3, h4, h5, h6, h7⟩ :=
    bankScan_spec ((d.unaligned 0 * 16) % 256) store A d hstore
  have h2 : (blockScanBank ((d.unaligned 0 * 16) % 256) store d).1.m_UnAlignedStream =
      d.m_UnAlignedStream + (setBits d.mem d.m_AlignedStream 64 + 1) / 2 := h2
  have hf := bankState_flag d.mem d.m_UnAlignedStream (setBits d.mem d.m_AlignedStream 64)
  rw [← h6] at hf
  have hS : Scattered A (bankColour d.mem d.m_AlignedStream d.m_UnAlignedStream)
      d.m_CurrentBuffer.m_Buffer
      (blockScanBank ((d.unaligned 0 * 16) % 256) store d).1.m_CurrentBuffer.m_Buffer 64 := by
    have e : (fun k => (fun t : Nat × Nat => ((d.unaligned 0 * 16) % 256 + t.1) % 256)
        (bankState d.mem d.m_UnAlignedStream (setBits d.mem d.m_AlignedStream (k + 1)))) =
        bankColour d.mem d.m_AlignedStream d.m_UnAlignedStream := by
      funext k
      show ((d.unaligned 0 * 16) % 256 + _) % 256 = _
      rw [bankState_colour]
      rfl
    rw [← e]
    exact h7
  by_cases hp : setBits d.mem d.m_AlignedStream 64 % 2 = 0
  · rw [if_pos hp] at hf
    have hc : (blockScanBank ((d.unaligned 0 * 16) % 256) store d).2.2 ≠ 0 := by omega
    have hR2 : R = (blockScanBank ((d.unaligned 0 * 16) % 256) store d).1.skipUnaligned 1 := by
      rw [hR]; exact if_pos hc
    subst hR2
    refine ⟨h1, ?_, h3, h4, h5, hS⟩
    rw [skipUnaligned_unaligned, h2]; omega
  · rw [if_neg hp] at hf
    have hR2 : R = (blockScanBank ((d.unaligned 0 * 16) % 256) store d).1 := by
      rw [hR]; exact if_neg (fun c => c hf)
    subst hR2
    refine ⟨h1, ?_, h3, h4, h5, hS⟩
    rw [h2]; omega

theorem BlockDecodeHorizontal_eq (d : Decoder) :
    BlockDecodeHorizontal d = (blockScan byteStep id storeHorizontal 0 d).1 := rfl

theorem BlockDecodeVertical_eq (d : Decoder) :
    BlockDecodeVertical d = (blockScan byteStep id storeVertical 0 d).1 := rfl

theorem BlockDecode2_eq (d : Decoder) :
    BlockDecode2 d = (blockScan byteStep id (storeTable g_DiagonalOffsets_1) 0 d).1 := rfl

theorem BlockDecode3_eq (d : Decoder) :
    BlockDecode3 d = (blockScan byteStep id (storeTable g_DiagonalOffsets_2) 0 d).1 := rfl

theorem BlockBank1DecodeHorizontal_eq (d : Decoder) :
    BlockBank1DecodeHorizontal d =
      (let bank := (d.unaligned 0 * 16) % 256
       let o := blockScanBank bank storeHorizontal d
       if o.2.2 ≠ 0 then o.1.skipUnaligned 1 else o.1) := by
  unfold BlockBank1DecodeHorizontal blockScanBank storeHorizontal
  with_reducible rfl

theorem BlockBank1DecodeVertical_eq (d : Decoder) :
    BlockBank1DecodeVertical d =
      (let bank := (d.unaligned 0 * 16) % 256
       let o := blockScanBank bank storeVertical d
       if o.2.2 ≠ 0 then o.1.skipUnaligned 1 else o.1) := by
  unfold BlockBank1DecodeVertical blockScanBank storeVertical
  with_reducible rfl

theorem BlockBank1Decode2_eq (d : Decoder) :
    BlockBank1Decode2 d =
      (let bank := (d.unaligned 0 * 16) % 256
       let o := blockScanBank bank (storeTable g_DiagonalOffsets_1) d
       if o.2.2 ≠ 0 then o.1.skipUnaligned 1 else o.1) := by
  unfold BlockBank1Decode2 blockScanBank storeTable
  with_reducible rfl

theorem BlockBank1Decode3_eq (d : Decoder) :
    BlockBank1Decode3 d =
      (let bank := (d.unaligned 0 * 16) % 256
       let o := blockScanBank bank (storeTable g_DiagonalOffsets_2) d
       if o.2.2 ≠ 0 then o.1.skipUnaligned 1 else o.1) := by
  unfold BlockBank1Decode3 blockScanBank storeTable
  with_reducible rfl

theorem blockColour_eq (mem : Nat → Nat) (al un j : Nat) :
    blockColour mem al un j =
      if setBits mem al (j + 1) = 0 then 0 else u8 mem (un + (setBits mem al (j + 1) - 1)) := rfl

theorem currentNibble_lt (mem : Nat → Nat) (al un j : Nat) : currentNibble mem al un j < 16 := by
  unfold currentNibble
  by_cases h : setBits mem al (j + 1) = 0
  · rw [if_pos h]; decide
  · rw [if_neg h, bankNibble_eq]
    have hb : ∀ a, u8 mem a < 256 := fun a => Nat.mod_lt _ (by decide)
    have := hb (un + nibbleByte (setBits mem al (j + 1) - 1))
    split <;> omega

/-- C27: the run-to-mask block decodes.  Position `j` (below 64) carries mask bit `j mod 8` of
aligned byte `j / 8`, and `setBits` counts the set mask bits below a position.  When rows are
at least 8 bytes apart, `BlockDecodeHorizontal` leaves at pixel `(j mod 8, j / 8)` and
`BlockDecodeVertical` at pixel `(j / 8, j mod 8)` of the tile the colour of position `j`: 0
when no mask bit up to `j` is set, else the unaligned byte whose index is the number of set bits
up to `j` less one.  So the vertical tile is the transpose of the horizontal tile, and both
advance the aligned cursor by 8 and the unaligned cursor by the number of set mask bits. -/
theorem C27_block_decodes_run_to_mask (d : Decoder) (hW : 8 ≤ d.m_Width) :
    (∀ j, j < 64 →
      (BlockDecodeHorizontal d).m_CurrentBuffer.m_Buffer
          (d.m_CurrentTile + (((j % 8 : Nat) : Int) + ((j / 8 : Nat) : Int) * d.m_Width)) =
        blockColour d.mem d.m_AlignedStream d.m_UnAlignedStream j) ∧
    (∀ j, j < 64 →
      (BlockDecodeVertical d).m_CurrentBuffer.m_Buffer
          (d.m_CurrentTile + (((j / 8 : Nat) : Int) + ((j % 8 : Nat) : Int) * d.m_Width)) =
        blockColour d.mem d.m_AlignedStream d.m_UnAlignedStream j) ∧
    (∀ j, blockColour d.mem d.m_AlignedStream d.m_UnAlignedStream j =
      if setBits d.mem d.m_AlignedStream (j + 1) = 0 then 0
      else d.unaligned (setBits d.mem d.m_AlignedStream (j + 1) - 1)) ∧
    (∀ j, setBits d.mem d.m_AlignedStream (j + 1) =
      setBits d.mem d.m_AlignedStream j + d.aligned (j / 8) / 2 ^ (j % 8) % 2) ∧
    (∀ x y : Nat, x < 8 → y < 8 →
      (BlockDecodeVertical d).m_CurrentBuffer.m_Buffer
          (d.m_CurrentTile + ((x : Int) + (y : Int) * d.m_Width)) =
        (BlockDecodeHorizontal d).m_CurrentBuffer.m_Buffer
          (d.m_CurrentTile + ((y : Int) + (x : Int) * d.m_Width))) ∧
    (BlockDecodeHorizontal d).m_AlignedStream = d.m_AlignedStream + 8 ∧
    (BlockDecodeVertical d).m_AlignedStream = d.m_AlignedStream + 8 ∧
    (BlockDecodeHorizontal d).m_UnAlignedStream =
      d.m_UnAlignedStream + setBits d.mem d.m_AlignedStream 64 ∧
    (BlockDecodeVertical d).m_UnAlignedStream =
      d.m_UnAlignedStream + setBits d.mem d.m_AlignedStream 64 := by
  obtain ⟨a1, a2, -, -, -, a6⟩ := plainDecode_spec storeHorizontal _ d (storesAt_horizontal d)
  obtain ⟨b1, b2, -, -, -, b6⟩ := plainDecode_spec storeVertical _ d (storesAt_vertical d)
  rw [← BlockDecodeHorizontal_eq] at a1 a2 a6
  rw [← BlockDecodeVertical_eq] at b1 b2 b6
  have hH := scattered_injective _ _ _ _ _ a6
    (fun j k _ _ e => horizontalAddress_inj d hW j k e)
  have hV := scattered_injective _ _ _ _ _ b6
    (fun j k hj hk e => verticalAddress_inj d hW j k hj hk e)
  refine ⟨hH, hV, fun j => rfl, fun j => rfl, fun x y hx hy => ?_, a1, b1, a2, b2⟩
  have e1 := hV (8 * x + y) (by omega)
  have e2 := hH (8 * x + y) (by omega)
  unfold verticalAddress at e1
  unfold horizontalAddress at e2
  have f1 : (8 * x + y) / 8 = x := by omega
  have f2 : (8 * x + y) % 8 = y := by omega
  rw [f1, f2] at e1 e2
  rw [e1, e2]

theorem C27_block_decodes_run_to_mask_witness :
    (8 : Int) ≤ tileSample.m_Width ∧
    ((∀ j, j < 64 →
      (BlockDecodeHorizontal tileSample).m_CurrentBuffer.m_Buffer
          (tileSample.m_CurrentTile +
            (((j % 8 : Nat) : Int) + ((j / 8 : Nat) : Int) * tileSample.m_Width)) =
        blockColour tileSample.mem tileSample.m_AlignedStream tileSample.m_UnAlignedStream j) ∧
    (∀ j, j < 64 →
      (BlockDecodeVertical tileSample).m_CurrentBuffer.m_Buffer
          (tileSample.m_CurrentTile +
            (((j / 8 : Nat) : Int) + ((j % 8 : Nat) : Int) * tileSample.m_Width)) =
        blockColour tileSample.mem tileSample.m_AlignedStream tileSample.m_UnAlignedStream j) ∧
    (∀ j, blockColour tileSample.mem tileSample.m_AlignedStream tileSample.m_UnAlignedStream j =
      if setBits tileSample.mem tileSample.m_AlignedStream (j + 1) = 0 then 0
      else tileSample.unaligned (setBits tileSample.mem tileSample.m_AlignedStream (j + 1) - 1)) ∧
    (∀ j, setBits tileSample.mem tileSample.m_AlignedStream (j + 1) =
      setBits tileSample.mem tileSample.m_AlignedStream j +
        tileSample.aligned (j / 8) / 2 ^ (j % 8) % 2) ∧
    (∀ x y : Nat, x < 8 → y < 8 →
      (BlockDecodeVertical tileSample).m_CurrentBuffer.m_Buffer
          (tileSample.m_CurrentTile + ((x : Int) + (y : Int) * tileSample.m_Width)) =
        (BlockDecodeHorizontal tileSample).m_CurrentBuffer.m_Buffer
          (tileSample.m_CurrentTile + ((y : Int) + (x : Int) * tileSample.m_Width))) ∧
    (BlockDecodeHorizontal tileSample).m_AlignedStream = tileSample.m_AlignedStream + 8 ∧
    (BlockDecodeVertical tileSample).m_AlignedStream = tileSample.m_AlignedStream + 8 ∧
    (BlockDecodeHorizontal tileSample).m_UnAlignedStream =
      tileSample.m_UnAlignedStream + setBits tileSample.mem tileSample.m_AlignedStream 64 ∧
    (BlockDecodeVertical tileSample).m_UnAlignedStream =
      tileSample.m_UnAlignedStream + setBits tileSample.mem tileSample.m_AlignedStream 64) :=
  ⟨by decide, C27_block_decodes_run_to_mask tileSample (by decide)⟩

/-- C23: each of the four Bank-1 block decodes advances the unaligned cursor by `1 + n / 2`
bytes, `n` the number of set bits among the 8 mask bytes of the tile, and the aligned cursor
by 8; the byte that holds the `k`-th new colour, `k` below `n`, and the bank byte (index 0) lie
below the new cursor. -/
theorem C23_bank1_cursor_advance (d : Decoder) :
    ((BlockBank1DecodeHorizontal d).m_UnAlignedStream =
        d.m_UnAlignedStream + (1 + setBits d.mem d.m_AlignedStream 64 / 2) ∧
      (BlockBank1DecodeHorizontal d).m_AlignedStream = d.m_AlignedStream + 8) ∧
    ((BlockBank1DecodeVertical d).m_UnAlignedStream =
        d.m_UnAlignedStream + (1 + setBits d.mem d.m_AlignedStream 64 / 2) ∧
      (BlockBank1DecodeVertical d).m_AlignedStream = d.m_AlignedStream + 8) ∧
    ((BlockBank1Decode2 d).m_UnAlignedStream =
        d.m_UnAlignedStream + (1 + setBits d.mem d.m_AlignedStream 64 / 2) ∧
      (BlockBank1Decode2 d).m_AlignedStream = d.m_AlignedStream + 8) ∧
    ((BlockBank1Decode3 d).m_UnAlignedStream =
        d.m_UnAlignedStream + (1 + setBits d.mem d.m_AlignedStream 64 / 2) ∧
      (BlockBank1Decode3 d).m_AlignedStream = d.m_AlignedStream + 8) ∧
    (∀ k, k < setBits d.mem d.m_AlignedStream 64 →
      nibbleByte k < 1 + setBits d.mem d.m_AlignedStream 64 / 2 ∧
      bankNibble d.mem d.m_UnAlignedStream k =
        if k % 2 = 0 then d.unaligned (nibbleByte k) / 16 else d.unaligned (nibbleByte k) % 16) ∧
    0 < 1 + setBits d.mem d.m_AlignedStream 64 / 2 := by
  obtain ⟨a1, a2, -⟩ := bankDecode_spec storeHorizontal _ d _ (storesAt_horizontal d)
    (BlockBank1DecodeHorizontal_eq d)
  obtain ⟨b1, b2, -⟩ := bankDecode_spec storeVertical _ d _ (storesAt_vertical d)
    (BlockBank1DecodeVertical_eq d)
  obtain ⟨c1, c2, -⟩ := bankDecode_spec (storeTable g_DiagonalOffsets_1) _ d _
    (storesAt_table _ d) (BlockBank1Decode2_eq d)
  obtain ⟨e1, e2, -⟩ := bankDecode_spec (storeTable g_DiagonalOffsets_2) _ d _
    (storesAt_table _ d) (BlockBank1Decode3_eq d)
  refine ⟨⟨a2, a1⟩, ⟨b2, b1⟩, ⟨c2, c1⟩, ⟨e2, e1⟩, fun k hk => ⟨?_, bankNibble_eq _ _ _⟩,
    by omega⟩
  unfold nibbleByte
  split <;> omega

/-- C22 (counterexample): on `tileSample` the unaligned bytes are 1, 2, 3, 4 and mask bit 0 is
set, so the first pixel of the tile shows the first new colour.  The bank is 16; the claim
takes the first new colour from the low nibble of `u[1]`, which gives 18, but
`BlockBank1DecodeHorizontal` takes it from the high nibble of the bank byte `u[0]` and stores
16. -/
theorem C22_first_nibble_counterexample :
    maskBit tileSample.mem tileSample.m_AlignedStream 0 = 1 ∧
    tileSample.unaligned 0 = 1 ∧ tileSample.unaligned 1 = 2 ∧
    (tileSample.unaligned 0 * 16 % 256 +
      specNibble tileSample.mem tileSample.m_UnAlignedStream 0) % 256 = 18 ∧
    (BlockBank1DecodeHorizontal tileSample).m_CurrentBuffer.m_Buffer
      tileSample.m_CurrentTile = 16 ∧
    bankNibble tileSample.mem tileSample.m_UnAlignedStream 0 ≠
      specNibble tileSample.mem tileSample.m_UnAlignedStream 0 := by
  decide

/-- C22 (amended): in the four Bank-1 block decodes the bank is `(u[0] << 4) mod 256`, read
once, and the new colours are the nibbles of the unaligned stream starting with the HIGH nibble
of the bank byte `u[0]` itself, then the low and the high nibble of each byte that follows: the
`k`-th new colour is the high nibble of `u[k / 2]` for even `k` and the low nibble of
`u[(k + 1) / 2]` for odd `k`.  The pixel of position `j` is the bank plus the current nibble
(0 before the first set mask bit), for the horizontal and vertical traversals when rows are at
least 8 bytes apart and for the two diagonal tables. -/
theorem C22_bank1_nibbles_start_in_bank_byte (d : Decoder) (hW : 8 ≤ d.m_Width) :
    (∀ j, j < 64 →
      (BlockBank1DecodeHorizontal d).m_CurrentBuffer.m_Buffer
          (d.m_CurrentTile + (((j % 8 : Nat) : Int) + ((j / 8 : Nat) : Int) * d.m_Width)) =
        bankColour d.mem d.m_AlignedStream d.m_UnAlignedStream j) ∧
    (∀ j, j < 64 →
      (BlockBank1DecodeVertical d).m_CurrentBuffer.m_Buffer
          (d.m_CurrentTile + (((j / 8 : Nat) : Int) + ((j % 8 : Nat) : Int) * d.m_Width)) =
        bankColour d.mem d.m_AlignedStream d.m_UnAlignedStream j) ∧
    (∀ j, j < 64 →
      (BlockBank1Decode2 d).m_CurrentBuffer.m_Buffer
          (d.m_CurrentTile + ((g_DiagonalOffsets_1.getD j 0 : Nat) : Int)) =
        bankColour d.mem d.m_AlignedStream d.m_UnAlignedStream j) ∧
    (∀ j, j < 64 →
      (BlockBank1Decode3 d).m_CurrentBuffer.m_Buffer
          (d.m_CurrentTile + ((g_DiagonalOffsets_2.getD j 0 : Nat) : Int)) =
        bankColour d.mem d.m_AlignedStream d.m_UnAlignedStream j) ∧
    (∀ j, bankColour d.mem d.m_AlignedStream d.m_UnAlignedStream j =
      d.unaligned 0 * 16 % 256 + currentNibble d.mem d.m_AlignedStream d.m_UnAlignedStream j) ∧
    (∀ j, currentNibble d.mem d.m_AlignedStream d.m_UnAlignedStream j =
      if setBits d.mem d.m_AlignedStream (j + 1) = 0 then 0
      else bankNibble d.mem d.m_UnAlignedStream (setBits d.mem d.m_AlignedStream (j + 1) - 1)) ∧
    (∀ k, bankNibble d.mem d.m_UnAlignedStream k =
      if k % 2 = 0 then d.unaligned (k / 2) / 16 else d.unaligned ((k + 1) / 2) % 16) := by
  obtain ⟨-, -, -, -, -, a6⟩ := bankDecode_spec storeHorizontal _ d _ (storesAt_horizontal d)
    (BlockBank1DecodeHorizontal_eq d)
  obtain ⟨-, -, -, -, -, b6⟩ := bankDecode_spec storeVertical _ d _ (storesAt_vertical d)
    (BlockBank1DecodeVertical_eq d)
  obtain ⟨-, -, -, -, -, c6⟩ := bankDecode_spec (storeTable g_DiagonalOffsets_1) _ d _
    (storesAt_table _ d) (BlockBank1Decode2_eq d)
  obtain ⟨-, -, -, -, -, e6⟩ := bankDecode_spec (storeTable g_DiagonalOffsets_2) _ d _
    (storesAt_table _ d) (BlockBank1Decode3_eq d)
  refine ⟨scattered_injective _ _ _ _ _ a6 (fun j k _ _ e => horizontalAddress_inj d hW j k e),
    scattered_injective _ _ _ _ _ b6 (fun j k hj hk e => verticalAddress_inj d hW j k hj hk e),
    scattered_injective _ _ _ _ _ c6
      (fun j k hj hk e => tableAddress_inj _ d diagonal1_inj j k hj hk e),
    scattered_injective _ _ _ _ _ e6
      (fun j k hj hk e => tableAddress_inj _ d diagonal2_inj j k hj hk e),
    fun j => ?_, fun j => rfl, fun k => ?_⟩
  · have h := currentNibble_lt d.mem d.m_AlignedStream d.m_UnAlignedStream j
    show (u8 d.mem d.m_UnAlignedStream * 16 % 256 + _) % 256 =
      u8 d.mem (d.m_UnAlignedStream + 0) * 16 % 256 + _
    rw [Nat.add_zero]
    omega
  · rw [bankNibble_eq]
    unfold nibbleByte
    by_cases h : k % 2 = 0
    · rw [if_pos h, if_pos h, if_pos h]; rfl
    · rw [if_neg h, if_neg h, if_neg h]; rfl

theorem C22_bank1_nibbles_start_in_bank_byte_witness :
    (8 : Int) ≤ tileSample.m_Width ∧
    ((∀ j, j < 64 →
      (BlockBank1DecodeHorizontal tileSample).m_CurrentBuffer.m_Buffer
          (tileSample.m_CurrentTile +
            (((j % 8 : Nat) : Int) + ((j / 8 : Nat) : Int) * tileSample.m_Width)) =
        bankColour tileSample.mem tileSample.m_AlignedStream tileSample.m_UnAlignedStream j) ∧
    (∀ j, j < 64 →
      (BlockBank1DecodeVertical tileSample).m_CurrentBuffer.m_Buffer
          (tileSample.m_CurrentTile +
            (((j / 8 : Nat) : Int) + ((j % 8 : Nat) : Int) * tileSample.m_Width)) =
        bankColour tileSample.mem tileSample.m_AlignedStream tileSample.m_UnAlignedStream j) ∧
    (∀ j, j < 64 →
      (BlockBank1Decode2 tileSample).m_CurrentBuffer.m_Buffer
          (tileSample.m_CurrentTile + ((g_DiagonalOffsets_1.getD j 0 : Nat) : Int)) =
        bankColour tileSample.mem tileSample.m_AlignedStream tileSample.m_UnAlignedStream j) ∧
    (∀ j, j < 64 →
      (BlockBank1Decode3 tileSample).m_CurrentBuffer.m_Buffer
          (tileSample.m_CurrentTile + ((g_DiagonalOffsets_2.getD j 0 : Nat) : Int)) =
        bankColour tileSample.mem tileSample.m_AlignedStream tileSample.m_UnAlignedStream j) ∧
    (∀ j, bankColour tileSample.mem tileSample.m_AlignedStream tileSample.m_UnAlignedStream j =
      tileSample.unaligned 0 * 16 % 256 +
        currentNibble tileSample.mem tileSample.m_AlignedStream tileSample.m_UnAlignedStream j) ∧
    (∀ j, currentNibble tileSample.mem tileSample.m_AlignedStream tileSample.m_UnAlignedStream j =
      if setBits tileSample.mem tileSample.m_AlignedStream (j + 1) = 0 then 0
      else bankNibble tileSample.mem tileSample.m_UnAlignedStream
        (setBits tileSample.mem tileSample.m_AlignedStream (j + 1) - 1)) ∧
    (∀ k, bankNibble tileSample.mem tileSample.m_UnAlignedStream k =
      if k % 2 = 0 then tileSample.unaligned (k / 2) / 16
      else tileSample.unaligned ((k + 1) / 2) % 16)) :=
  ⟨by decide, C22_bank1_nibbles_start_in_bank_byte tileSample (by decide)⟩

/-! ## Split tiles on a narrow frame -/

/-- C24 (divergence): on `splitSample`, a frame of width 16 with the tile cursor at 0 and a zero
current buffer, each of the opcodes 33 to 36 (`OneBitSplitTileDecode`, `TwoBitSplitTileDecode`,
`ThreeBitSplitTileDecode`, `CrossDecode`) leaves the 32 pixels of rows 4 to 7 of the tile as
they were, although every colour it can store is positive, and stores a colour at offset
`320 * 4 = 1280` from the tile cursor, which is no pixel `x + 16 * y` of the tile: the lower
quadrants go to the offsets 1280 and 1284 of `g_SplitTileOffsets`, not to `4 * 16` and
`4 * 16 + 4`. -/
theorem C24_split_tiles_hard_code_320 :
    splitSample.m_Width = 16 ∧ splitSample.m_CurrentTile = 0 ∧
    g_SplitTileOffsets = [0, 4, 320 * 4, 320 * 4 + 4] ∧
    (∀ x : Fin 8, ∀ y : Fin 8, (x.val : Int) + (y.val : Int) * splitSample.m_Width ≠ 1280) ∧
    ∀ k : Fin 4,
      (∀ x : Fin 8, ∀ y : Fin 4,
        (dispatch (33 + k.val) splitSample).m_CurrentBuffer.m_Buffer
            (splitSample.m_CurrentTile +
              ((x.val : Int) + ((4 + y.val : Nat) : Int) * splitSample.m_Width)) =
          splitSample.m_CurrentBuffer.m_Buffer
            (splitSample.m_CurrentTile +
              ((x.val : Int) + ((4 + y.val : Nat) : Int) * splitSample.m_Width))) ∧
      splitSample.m_CurrentBuffer.m_Buffer (splitSample.m_CurrentTile + 1280) = 0 ∧
      0 < (dispatch (33 + k.val) splitSample).m_CurrentBuffer.m_Buffer
        (splitSample.m_CurrentTile + 1280) := by
  decide

/-! ## Two runs that differ in the current buffer -/

theorem touch_refl (c b : Int → Nat) : Touch (fun _ => False) (fun _ => False) c b c b :=
  fun _ => ⟨fun h => h.elim, fun _ => ⟨rfl, rfl⟩, fun h => h⟩

theorem touch_trans {P1 Q1 P2 Q2 : Int → Prop} {c b c1 b1 c2 b2 : Int → Nat}
    (h1 : Touch P1 Q1 c b c1 b1) (h2 : Touch P2 Q2 c1 b1 c2 b2) :
    Touch (fun i => P1 i ∨ P2 i) (fun i => Q1 i ∨ Q2 i) c b c2 b2 := by
  intro i
  obtain ⟨a1, a2, a3⟩ := h1 i
  obtain ⟨d1, d2, d3⟩ := h2 i
  refine ⟨fun h => ?_, fun h => ?_, fun h => d3 (a3 h)⟩
  · rcases h with h | h
    · exact d3 (a1 h)
    · exact d1 h
  · have n1 : ¬ Q1 i := fun q => h (Or.inl q)
    have n2 : ¬ Q2 i := fun q => h (Or.inr q)
    exact ⟨(d2 n2).1.trans (a2 n1).1, (d2 n2).2.trans (a2 n1).2⟩

theorem touch_mono {P Q P2 Q2 : Int → Prop} {c b c2 b2 : Int → Nat}
    (h : Touch P Q c b c2 b2) (hP : ∀ i, P2 i → P i) (hQ : ∀ i, Q i → Q2 i) :
    Touch P2 Q2 c b c2 b2 := by
  intro i
  obtain ⟨a1, a2, a3⟩ := h i
  exact ⟨fun p => a1 (hP i p), fun q => a2 (fun q2 => q (hQ i q2)), a3⟩

theorem touch_poke (c b : Int → Nat) (a : Int) (v : Nat) :
    Touch (fun i => i = a) (fun i => i = a) c b
      (fun i => if i = a then v else c i) (fun i => if i = a then v else b i) := by
  intro i
  by_cases h : i = a
  · refine ⟨fun _ => ?_, fun n => (n h).elim, fun _ => ?_⟩ <;> simp only [if_pos h]
  · refine ⟨fun p => (h p).elim, fun _ => ⟨?_, ?_⟩, fun p => ?_⟩
    · simp only [if_neg h]
    · simp only [if_neg h]
    · simp only [if_neg h]; exact p

theorem touch_blit (c b : Int → Nat) (dest : Int) (n : Nat) (src : Nat → Nat) :
    Touch (fun i => dest ≤ i ∧ i < dest + (n : Int)) (fun i => dest ≤ i ∧ i < dest + (n : Int))
      c b
      (fun i => if dest ≤ i ∧ i < dest + (n : Int) then src (i - dest).toNat else c i)
      (fun i => if dest ≤ i ∧ i < dest + (n : Int) then src (i - dest).toNat else b i) := by
  intro i
  by_cases h : dest ≤ i ∧ i < dest + (n : Int)
  · refine ⟨fun _ => ?_, fun n => (n h).elim, fun _ => ?_⟩ <;> simp only [if_pos h]
  · refine ⟨fun p => (h p).elim, fun _ => ⟨?_, ?_⟩, fun p => ?_⟩
    · simp only [if_neg h]
    · simp only [if_neg h]
    · simp only [if_neg h]; exact p

theorem tr_mono {t W : Int} {k : Nat} {P Q P2 Q2 : Int → Prop} {F : Decoder → Decoder}
    (h : Tr t W k P Q F) (hP : ∀ i, P2 i → P i) (hQ : ∀ i, Q i → Q2 i) :
    Tr t W k P2 Q2 F := by
  intro e b ht hW
  obtain ⟨b2, h1, h2, h3, h4, h5⟩ := h e b ht hW
  exact ⟨b2, h1, h2, h3, h4, touch_mono h5 hP hQ⟩

theorem trS_mono {τ : Type} {t W : Int} {k : Nat} {P Q P2 Q2 : Int → Prop}
    {G : Decoder × τ → Decoder × τ}
    (h : TrS t W k P Q G) (hP : ∀ i, P2 i → P i) (hQ : ∀ i, Q i → Q2 i) :
    TrS t W k P2 Q2 G := by
  intro e b s ht hW
  obtain ⟨b2, h1, h2, h3, h4, h5⟩ := h e b s ht hW
  exact ⟨b2, h1, h2, h3, h4, touch_mono h5 hP hQ⟩

/-- Two pieces of code in sequence. -/
theorem tr_comp {t W : Int} {k1 k2 : Nat} {P1 Q1 P2 Q2 : Int → Prop} {F G : Decoder → Decoder}
    (hF : Tr t W k1 P1 Q1 F) (hG : Tr t W k2 P2 Q2 G) :
    Tr t W (k1 + k2) (fun i => P1 i ∨ P2 i) (fun i => Q1 i ∨ Q2 i) (fun d => G (F d)) := by
  intro e b ht hW
  obtain ⟨b1, f1, f2, f3, f4, f5⟩ := hF e b ht hW
  obtain ⟨b2, g1, g2, g3, g4, g5⟩ := hG (F e) b1 f2 f3
  refine ⟨b2, ?_, g2, g3, ?_, touch_trans f5 g5⟩
  · show G (F (e.withBuffer b)) = _
    rw [f1, g1]
  · rw [g4, f4]; omega

/-- A loop over the decoder. -/
theorem tr_forN {t W : Int} (n : Nat) (k : Nat → Nat) (P Q : Nat → Int → Prop)
    (f : Nat → Decoder → Decoder)
    (h : ∀ j, j < n → Tr t W (k j) (P j) (Q j) (f j)) :
    Tr t W (sumTo k n) (fun i => ∃ j, j < n ∧ P j i) (fun i => ∃ j, j < n ∧ Q j i)
      (forN n f) := by
  induction n with
  | zero =>
    intro e b ht hW
    exact ⟨b, rfl, ht, hW, rfl, touch_mono (touch_refl _ _)
      (fun i ⟨j, hj, _⟩ => absurd hj (Nat.not_lt_zero j)) (fun i q => q.elim)⟩
  | succ n ih =>
    have c := tr_comp (ih (fun j hj => h j (by omega))) (h n (Nat.lt_succ_self n))
    refine tr_mono c (fun i ⟨j, hj, p⟩ => ?_) (fun i q => ?_)
    · rcases Nat.lt_succ_iff_lt_or_eq.mp hj with hj2 | rfl
      · exact Or.inl ⟨j, hj2, p⟩
      · exact Or.inr p
    · rcases q with ⟨j, hj, q⟩ | q
      · exact ⟨j, by omega, q⟩
      · exact ⟨n, Nat.lt_succ_self n, q⟩

theorem trS_comp {τ : Type} {t W : Int} {k1 k2 : Nat} {P1 Q1 P2 Q2 : Int → Prop}
    {F G : Decoder × τ → Decoder × τ}
    (hF : TrS t W k1 P1 Q1 F) (hG : TrS t W k2 P2 Q2 G) :
    TrS t W (k1 + k2) (fun i => P1 i ∨ P2 i) (fun i => Q1 i ∨ Q2 i) (fun p => G (F p)) := by
  intro e b s ht hW
  obtain ⟨b1, f1, f2, f3, f4, f5⟩ := hF e b s ht hW
  obtain ⟨b2, g1, g2, g3, g4, g5⟩ := hG (F (e, s)).1 b1 (F (e, s)).2 f2 f3
  refine ⟨b2, ?_, g2, g3, ?_, touch_trans f5 g5⟩
  · show G (F (e.withBuffer b, s)) = _
    rw [f1, g1]
  · show (G (F (e, s))).1.m_AlignedStream = _
    have g4 : (G (F (e, s))).1.m_AlignedStream = (F (e, s)).1.m_AlignedStream + k2 := g4
    rw [g4, f4]; omega

/-- A loop over the decoder and local variables. -/
theorem trS_forN {τ : Type} {t W : Int} (n : Nat) (k : Nat → Nat) (P Q : Nat → Int → Prop)
    (f : Nat → Decoder × τ → Decoder × τ)
    (h : ∀ j, j < n → TrS t W (k j) (P j) (Q j) (f j)) :
    TrS t W (sumTo k n) (fun i => ∃ j, j < n ∧ P j i) (fun i => ∃ j, j < n ∧ Q j i)
      (forN n f) := by
  induction n with
  | zero =>
    intro e b s ht hW
    exact ⟨b, rfl, ht, hW, rfl, touch_mono (touch_refl _ _)
      (fun i ⟨j, hj, _⟩ => absurd hj (Nat.not_lt_zero j)) (fun i q => q.elim)⟩
  | succ n ih =>
    have c := trS_comp (ih (fun j hj => h j (by omega))) (h n (Nat.lt_succ_self n))
    refine trS_mono c (fun i ⟨j, hj, p⟩ => ?_) (fun i q => ?_)
    · rcases Nat.lt_succ_iff_lt_or_eq.mp hj with hj2 | rfl
      · exact Or.inl ⟨j, hj2, p⟩
      · exact Or.inr p
    · rcases q with ⟨j, hj, q⟩ | q
      · exact ⟨j, by omega, q⟩
      · exact ⟨n, Nat.lt_succ_self n, q⟩

/-- A loop over the entries of a list. -/
theorem tr_foldl {α : Type} {t W : Int} (k : Nat) (P Q : α → Int → Prop)
    (f : Decoder → α → Decoder) (l : List α)
    (h : ∀ a, a ∈ l → Tr t W k (P a) (Q a) (fun d => f d a)) :
    Tr t W (k * l.length) (fun i => ∃ a, a ∈ l ∧ P a i) (fun i => ∃ a, a ∈ l ∧ Q a i)
      (fun d => l.foldl f d) := by
  induction l with
  | nil =>
    intro e b ht hW
    exact ⟨b, rfl, ht, hW, rfl, touch_mono (touch_refl _ _)
      (fun i ⟨a, ha, _⟩ => absurd ha (List.not_mem_nil a)) (fun i q => q.elim)⟩
  | cons a l ih =>
    have c := tr_comp (h a (List.mem_cons_self a l))
      (ih (fun x hx => h x (List.mem_cons_of_mem a hx)))
    have c2 : Tr t W (k * (a :: l).length) (fun i => P a i ∨ ∃ x, x ∈ l ∧ P x i)
        (fun i => Q a i ∨ ∃ x, x ∈ l ∧ Q x i) (fun d => (a :: l).foldl f d) := by
      have e : k * (a :: l).length = k + k * l.length := by
        rw [List.length_cons]; ring
      rw [e]
      exact c
    refine tr_mono c2 (fun i ⟨x, hx, p⟩ => ?_) (fun i q => ?_)
    · rcases List.mem_cons.mp hx with rfl | hx2
      · exact Or.inl p
      · exact Or.inr ⟨x, hx2, p⟩
    · rcases q with q | ⟨x, hx, q⟩
      · exact ⟨a, List.mem_cons_self a l, q⟩
      · exact ⟨x, List.mem_cons_of_mem a hx, q⟩

theorem trS_foldl {α τ : Type} {t W : Int} (k : Nat) (P Q : α → Int → Prop)
    (f : Decoder × τ → α → Decoder × τ) (l : List α)
    (h : ∀ a, a ∈ l → TrS t W k (P a) (Q a) (fun p => f p a)) :
    TrS t W (k * l.length) (fun i => ∃ a, a ∈ l ∧ P a i) (fun i => ∃ a, a ∈ l ∧ Q a i)
      (fun p => l.foldl f p) := by
  induction l with
  | nil =>
    intro e b s ht hW
    exact ⟨b, rfl, ht, hW, rfl, touch_mono (touch_refl _ _)
      (fun i ⟨a, ha, _⟩ => absurd ha (List.not_mem_nil a)) (fun i q => q.elim)⟩
  | cons a l ih =>
    have c := trS_comp (h a (List.mem_cons_self a l))
      (ih (fun x hx => h x (List.mem_cons_of_mem a hx)))
    have c2 : TrS t W (k * (a :: l).length) (fun i => P a i ∨ ∃ x, x ∈ l ∧ P x i)
        (fun i => Q a i ∨ ∃ x, x ∈ l ∧ Q x i) (fun p => (a :: l).foldl f p) := by
      have e : k * (a :: l).length = k + k * l.length := by
        rw [List.length_cons]; ring
      rw [e]
      exact c
    refine trS_mono c2 (fun i ⟨x, hx, p⟩ => ?_) (fun i q => ?_)
    · rcases List.mem_cons.mp hx with rfl | hx2
      · exact Or.inl p
      · exact Or.inr ⟨x, hx2, p⟩
    · rcases q with q | ⟨x, hx, q⟩
      · exact ⟨a, List.mem_cons_self a l, q⟩
      · exact ⟨x, List.mem_cons_of_mem a hx, q⟩

theorem sumTo_const (c n : Nat) : sumTo (fun _ => c) n = n * c := by
  induction n with
  | zero => simp [sumTo]
  | succ n ih => simp only [sumTo, ih]; ring

theorem withBuffer_skipAligned (e : Decoder) (b : Int → Nat) (n : Nat) :
    (e.withBuffer b).skipAligned n = (e.skipAligned n).withBuffer b := rfl

theorem withBuffer_skipUnaligned (e : Decoder) (b : Int → Nat) (n : Nat) :
    (e.withBuffer b).skipUnaligned n = (e.skipUnaligned n).withBuffer b := rfl

theorem withBuffer_withAligned (e : Decoder) (b : Int → Nat) (n : Nat) :
    (e.withBuffer b).withAligned n = (e.withAligned n).withBuffer b := rfl

theorem withBuffer_withUnAligned (e : Decoder) (b : Int → Nat) (n : Nat) :
    (e.withBuffer b).withUnAligned n = (e.withUnAligned n).withBuffer b := rfl

theorem withBuffer_alignedStream (e : Decoder) (b : Int → Nat) :
    (e.withBuffer b).m_AlignedStream = e.m_AlignedStream := rfl

theorem withBuffer_unalignedStream (e : Decoder) (b : Int → Nat) :
    (e.withBuffer b).m_UnAlignedStream = e.m_UnAlignedStream := rfl

theorem withBuffer_mem (e : Decoder) (b : Int → Nat) : (e.withBuffer b).mem = e.mem := rfl

theorem withBuffer_aligned (e : Decoder) (b : Int → Nat) (k : Nat) :
    (e.withBuffer b).aligned k = e.aligned k := rfl

theorem withBuffer_unaligned (e : Decoder) (b : Int → Nat) (k : Nat) :
    (e.withBuffer b).unaligned k = e.unaligned k := rfl

theorem withBuffer_currentTile (e : Decoder) (b : Int → Nat) :
    (e.withBuffer b).m_CurrentTile = e.m_CurrentTile := rfl

theorem withBuffer_previousTile (e : Decoder) (b : Int → Nat) :
    (e.withBuffer b).m_PreviousTile = e.m_PreviousTile := rfl

theorem withBuffer_previousFrameBuffer (e : Decoder) (b : Int → Nat) :
    (e.withBuffer b).m_PreviousFrameBuffer = e.m_PreviousFrameBuffer := rfl

theorem withBuffer_previousBuffer (e : Decoder) (b : Int → Nat) :
    (e.withBuffer b).m_PreviousBuffer = e.m_PreviousBuffer := rfl

theorem withBuffer_width (e : Decoder) (b : Int → Nat) :
    (e.withBuffer b).m_Width = e.m_Width := rfl

theorem withBuffer_buffer (e : Decoder) (b : Int → Nat) :
    (e.withBuffer b).m_CurrentBuffer.m_Buffer = b := rfl

/-- A piece of code that moves the cursors only. -/
theorem tr_cursor {t W : Int} (k : Nat) (F : Decoder → Decoder)
    (h1 : ∀ e b, F (e.withBuffer b) = (F e).withBuffer b)
    (h2 : ∀ e, (F e).m_CurrentTile = e.m_CurrentTile ∧ (F e).m_Width = e.m_Width ∧
      (F e).m_AlignedStream = e.m_AlignedStream + k ∧
      (F e).m_CurrentBuffer = e.m_CurrentBuffer) :
    Tr t W k (fun _ => False) (fun _ => False) F := by
  intro e b ht hW
  obtain ⟨a1, a2, a3, a4⟩ := h2 e
  refine ⟨b, h1 e b, a1.trans ht, a2.trans hW, a3, ?_⟩
  rw [a4]
  exact touch_refl _ _

/-- A loop body with local variables, entered from a decoder after a move of the cursors. -/
theorem tr_of_trS {τ : Type} {t W : Int} {k : Nat} {P Q : Int → Prop} (kp : Nat)
    (G : Decoder × τ → Decoder × τ) (pre : Decoder → Decoder) (init : Decoder → τ)
    (hG : TrS t W k P Q G)
    (hpre : ∀ e b, pre (e.withBuffer b) = (pre e).withBuffer b)
    (hinit : ∀ e b, init (e.withBuffer b) = init e)
    (hp : ∀ e, (pre e).m_CurrentTile = e.m_CurrentTile ∧ (pre e).m_Width = e.m_Width ∧
      (pre e).m_AlignedStream = e.m_AlignedStream + kp ∧
      (pre e).m_CurrentBuffer = e.m_CurrentBuffer) :
    Tr t W (kp + k) P Q (fun d => (G (pre d, init d)).1) := by
  intro e b ht hW
  obtain ⟨a1, a2, a3, a4⟩ := hp e
  obtain ⟨b2, h1, h2, h3, h4, h5⟩ := hG (pre e) b (init e) (a1.trans ht) (a2.trans hW)
  refine ⟨b2, ?_, h2, h3, ?_, ?_⟩
  · show (G (pre (e.withBuffer b), init (e.withBuffer b))).1 = _
    rw [hpre, hinit, h1]
  · show (G (pre e, init e)).1.m_AlignedStream = _
    rw [h4, a3]; omega
  · rw [a4] at h5
    exact h5

/-- The store of `SetPixel` in a loop body with local variables. -/
theorem pixel_leaf {τ : Type} (t W : Int) (x y : Nat) (v : Decoder → τ → Nat)
    (nx : Decoder → τ → τ)
    (hv : ∀ e b s, v (e.withBuffer b) s = v e s) (hn : ∀ e b s, nx (e.withBuffer b) s = nx e s) :
    TrS t W 0 (fun i => i = t + ((x : Int) + (y : Int) * W))
      (fun i => i = t + ((x : Int) + (y : Int) * W))
      (fun p : Decoder × τ => (p.1.SetPixel x y (v p.1 p.2), nx p.1 p.2)) := by
  intro e b s ht hW
  subst ht hW
  refine ⟨_, ?_, rfl, rfl, rfl, touch_poke _ _ _ (v e s)⟩
  show ((e.withBuffer b).SetPixel x y (v (e.withBuffer b) s), nx (e.withBuffer b) s) = _
  rw [hv, hn]
  rfl

/-- The pixels of row `y` of a tile, as the union over a loop describes them. -/
theorem inTile_rows (t W : Int) (i : Int) :
    (∃ y : Nat, y < 8 ∧ ∃ x : Nat, x < 8 ∧ i = t + ((x : Int) + (y : Int) * W)) ↔
      InTile t W i :=
  ⟨fun ⟨y, hy, x, hx, h⟩ => ⟨x, y, hx, hy, h⟩, fun ⟨x, y, hx, hy, h⟩ => ⟨y, hy, x, hx, h⟩⟩

/-- A loop over the rows of a tile whose row `y` is touched at its eight pixels. -/
theorem tr_rows {t W : Int} (k : Nat) (f : Nat → Decoder → Decoder)
    (h : ∀ y : Nat, y < 8 → Tr t W k
      (fun i => ∃ x : Nat, x < 8 ∧ i = t + ((x : Int) + (y : Int) * W))
      (fun i => ∃ x : Nat, x < 8 ∧ i = t + ((x : Int) + (y : Int) * W)) (f y)) :
    Tr t W (8 * k) (InTile t W) (InTile t W) (forN 8 f) := by
  have c := tr_forN 8 (fun _ => k) _ _ f h
  rw [sumTo_const] at c
  exact tr_mono c (fun i p => (inTile_rows t W i).mpr p) (fun i q => (inTile_rows t W i).mp q)

/-- A loop over the pixels of a row with local variables. -/
theorem trS_pixels {τ : Type} {t W : Int} (y : Nat) (g : Nat → Decoder × τ → Decoder × τ)
    (h : ∀ x : Nat, x < 8 → TrS t W 0 (fun i => i = t + ((x : Int) + (y : Int) * W))
      (fun i => i = t + ((x : Int) + (y : Int) * W)) (g x)) :
    TrS t W 0 (fun i => ∃ x : Nat, x < 8 ∧ i = t + ((x : Int) + (y : Int) * W))
      (fun i => ∃ x : Nat, x < 8 ∧ i = t + ((x : Int) + (y : Int) * W)) (forN 8 g) := by
  have c := trS_forN 8 (fun _ => 0) _ _ g h
  rw [sumTo_const] at c
  exact c

theorem tr_congr {t W : Int} {k k2 : Nat} {P Q : Int → Prop} {F G : Decoder → Decoder}
    (h : Tr t W k P Q F) (hk : k = k2) (hF : ∀ d, G d = F d) : Tr t W k2 P Q G := by
  subst hk
  have e : G = F := funext hF
  rw [e]
  exact h

/-- A piece of code with a parameter that is read from the decoder but not from the current
buffer. -/
theorem tr_param {α : Type} {t W : Int} {k : Nat} {P Q : Int → Prop} (c : Decoder → α)
    (F : α → Decoder → Decoder) (hc : ∀ e b, c (e.withBuffer b) = c e)
    (h : ∀ a, Tr t W k P Q (F a)) : Tr t W k P Q (fun d => F (c d) d) := by
  intro e b ht hW
  obtain ⟨b2, h1, h2⟩ := h (c e) e b ht hW
  refine ⟨b2, ?_, h2⟩
  show F (c (e.withBuffer b)) (e.withBuffer b) = _
  rw [hc, h1]

/-- The store of `SetPixel`. -/
theorem tr_pixel (t W : Int) (x y : Nat) (v : Decoder → Nat)
    (hv : ∀ e b, v (e.withBuffer b) = v e) :
    Tr t W 0 (fun i => i = t + ((x : Int) + (y : Int) * W))
      (fun i => i = t + ((x : Int) + (y : Int) * W))
      (fun d => d.SetPixel x y (v d)) := by
  intro e b ht hW
  subst ht hW
  refine ⟨_, ?_, rfl, rfl, rfl, touch_poke _ _ _ (v e)⟩
  show (e.withBuffer b).SetPixel x y (v (e.withBuffer b)) = _
  rw [hv]
  rfl

theorem tr_OneBitTileDecode (t W : Int) :
    Tr t W 8 (InTile t W) (InTile t W) OneBitTileDecode := by
  have row : ∀ y : Nat, y < 8 → Tr t W (1 + 0)
      (fun i => ∃ x : Nat, x < 8 ∧ i = t + ((x : Int) + (y : Int) * W))
      (fun i => ∃ x : Nat, x < 8 ∧ i = t + ((x : Int) + (y : Int) * W))
      (fun d => (forN 8 (fun x (p : Decoder × Nat) =>
          (p.1.SetPixel x y (p.1.unaligned (p.2 % 2)), p.2 / 2))
        (d.skipAligned 1, d.aligned 0)).1) :=
    fun y _ => tr_of_trS 1 _ (fun d => d.skipAligned 1) (fun d => d.aligned 0)
      (trS_pixels y _ (fun x _ => pixel_leaf t W x y (fun e s => e.unaligned (s % 2))
        (fun _ s => s / 2) (fun _ _ _ => rfl) (fun _ _ _ => rfl)))
      (fun _ _ => rfl) (fun _ _ => rfl) (fun _ => ⟨rfl, rfl, rfl, rfl⟩)
  have c := tr_comp (tr_rows (1 + 0) _ row)
    (tr_cursor 0 (fun d => d.skipUnaligned 2) (fun _ _ => rfl) (fun _ => ⟨rfl, rfl, rfl, rfl⟩))
  exact tr_congr (tr_mono c (fun i p => Or.inl p) (fun i q => q.elim id False.elim)) rfl
    (fun d => rfl)

theorem tr_TwoBitTileDecode (t W : Int) :
    Tr t W 20 (InTile t W) (InTile t W) TwoBitTileDecode := by
  have row : ∀ (colors y : Nat), y < 8 → Tr t W (2 + 0)
      (fun i => ∃ x : Nat, x < 8 ∧ i = t + ((x : Int) + (y : Int) * W))
      (fun i => ∃ x : Nat, x < 8 ∧ i = t + ((x : Int) + (y : Int) * W))
      (fun d => (forN 8 (fun x (p : Decoder × Nat) =>
          (p.1.SetPixel x y (u8 p.1.mem (colors + p.2 % 4)), p.2 / 4))
        (d.skipAligned 2, u16 d.mem d.m_AlignedStream)).1) :=
    fun colors y _ => tr_of_trS 2 _ (fun d => d.skipAligned 2)
      (fun d => u16 d.mem d.m_AlignedStream)
      (trS_pixels y _ (fun x _ => pixel_leaf t W x y (fun e s => u8 e.mem (colors + s % 4))
        (fun _ s => s / 4) (fun _ _ _ => rfl) (fun _ _ _ => rfl)))
      (fun _ _ => rfl) (fun _ _ => rfl) (fun _ => ⟨rfl, rfl, rfl, rfl⟩)
  have c := tr_param (fun d => d.m_AlignedStream) _ (fun _ _ => rfl) (fun colors =>
    tr_comp (tr_cursor 4 (fun d => d.skipAligned 4) (fun _ _ => rfl)
      (fun _ => ⟨rfl, rfl, rfl, rfl⟩)) (tr_rows (2 + 0) _ (row colors)))
  exact tr_congr (tr_mono c (fun i p => Or.inr p) (fun i q => q.elim False.elim id)) rfl
    (fun d => rfl)

theorem tr_ThreeBitTileDecode (t W : Int) :
    Tr t W 24 (InTile t W) (InTile t W) ThreeBitTileDecode := by
  have row : ∀ y : Nat, y < 8 → Tr t W (3 + 0)
      (fun i => ∃ x : Nat, x < 8 ∧ i = t + ((x : Int) + (y : Int) * W))
      (fun i => ∃ x : Nat, x < 8 ∧ i = t + ((x : Int) + (y : Int) * W))
      (fun d => (forN 8 (fun x (p : Decoder × Nat) =>
          (p.1.SetPixel x y (p.1.unaligned (p.2 % 8)), p.2 / 8))
        (d.withAligned (ReadU32 d.mem d.m_AlignedStream 3).2,
          (ReadU32 d.mem d.m_AlignedStream 3).1)).1) :=
    fun y _ => tr_of_trS 3 _ (fun d => d.withAligned (ReadU32 d.mem d.m_AlignedStream 3).2)
      (fun d => (ReadU32 d.mem d.m_AlignedStream 3).1)
      (trS_pixels y _ (fun x _ => pixel_leaf t W x y (fun e s => e.unaligned (s % 8))
        (fun _ s => s / 8) (fun _ _ _ => rfl) (fun _ _ _ => rfl)))
      (fun _ _ => rfl) (fun _ _ => rfl) (fun _ => ⟨rfl, rfl, rfl, rfl⟩)
  have c := tr_comp (tr_rows (3 + 0) _ row)
    (tr_cursor 0 (fun d => d.skipUnaligned 8) (fun _ _ => rfl) (fun _ => ⟨rfl, rfl, rfl, rfl⟩))
  exact tr_congr (tr_mono c (fun i p => Or.inl p) (fun i q => q.elim id False.elim)) rfl
    (fun d => rfl)

theorem tr_FourBitTileDecode (t W : Int) :
    Tr t W 32 (InTile t W) (InTile t W) FourBitTileDecode := by
  have row : ∀ y : Nat, y < 8 → Tr t W (4 + 0)
      (fun i => ∃ x : Nat, x < 8 ∧ i = t + ((x : Int) + (y : Int) * W))
      (fun i => ∃ x : Nat, x < 8 ∧ i = t + ((x : Int) + (y : Int) * W))
      (fun d => (forN 8 (fun x (p : Decoder × Nat) =>
          (p.1.SetPixel x y (p.1.unaligned (p.2 % 16)), p.2 / 16))
        (d.withAligned (ReadU32 d.mem d.m_AlignedStream 4).2,
          (ReadU32 d.mem d.m_AlignedStream 4).1)).1) :=
    fun y _ => tr_of_trS 4 _ (fun d => d.withAligned (ReadU32 d.mem d.m_AlignedStream 4).2)
      (fun d => (ReadU32 d.mem d.m_AlignedStream 4).1)
      (trS_pixels y _ (fun x _ => pixel_leaf t W x y (fun e s => e.unaligned (s % 16))
        (fun _ s => s / 16) (fun _ _ _ => rfl) (fun _ _ _ => rfl)))
      (fun _ _ => rfl) (fun _ _ => rfl) (fun _ => ⟨rfl, rfl, rfl, rfl⟩)
  have c := tr_comp (tr_rows (4 + 0) _ row)
    (tr_cursor 0 (fun d => d.skipUnaligned 16) (fun _ _ => rfl) (fun _ => ⟨rfl, rfl, rfl, rfl⟩))
  exact tr_congr (tr_mono c (fun i p => Or.inl p) (fun i q => q.elim id False.elim)) rfl
    (fun d => rfl)

theorem tr_TwoBanksTileDecode (t W : Int) :
    Tr t W 40 (InTile t W) (InTile t W) TwoBanksTileDecode := by
  have row : ∀ (bank0 bank1 y : Nat), y < 8 → Tr t W (5 + 0)
      (fun i => ∃ x : Nat, x < 8 ∧ i = t + ((x : Int) + (y : Int) * W))
      (fun i => ∃ x : Nat, x < 8 ∧ i = t + ((x : Int) + (y : Int) * W))
      (fun d => (forN 8 (fun x (p : Decoder × Nat × Nat) =>
          (p.1.SetPixel x y
              (((if (p.2.1 &&& 16) / 16 = 0 then bank0 else bank1) + p.2.1 % 16) % 256),
           (p.2.1 / 32) ||| ((p.2.2 * 134217728) % 4294967296),
           p.2.2 / 32))
        (d.skipAligned 5, u32 d.mem d.m_AlignedStream,
          u32 d.mem (d.m_AlignedStream + 4))).1) :=
    fun bank0 bank1 y _ => tr_of_trS 5 _ (fun d => d.skipAligned 5)
      (fun d => (u32 d.mem d.m_AlignedStream, u32 d.mem (d.m_AlignedStream + 4)))
      (trS_pixels y _ (fun x _ => pixel_leaf t W x y
        (fun _ s => ((if (s.1 &&& 16) / 16 = 0 then bank0 else bank1) + s.1 % 16) % 256)
        (fun _ s => ((s.1 / 32) ||| ((s.2 * 134217728) % 4294967296), s.2 / 32))
        (fun _ _ _ => rfl) (fun _ _ _ => rfl)))
      (fun _ _ => rfl) (fun _ _ => rfl) (fun _ => ⟨rfl, rfl, rfl, rfl⟩)
  have c := tr_param (fun d => (((d.unaligned 0 % 16) * 16) % 256, d.unaligned 0 &&& 0xf0)) _
    (fun _ _ => rfl) (fun banks =>
    tr_comp (tr_cursor 0 (fun d => d.skipUnaligned 1) (fun _ _ => rfl)
      (fun _ => ⟨rfl, rfl, rfl, rfl⟩)) (tr_rows (5 + 0) _ (row banks.1 banks.2)))
  exact tr_congr (tr_mono c (fun i p => Or.inr p) (fun i q => q.elim False.elim id)) rfl
    (fun d => rfl)

theorem tr_PrimeDecode (t W : Int) :
    Tr t W 8 (InTile t W) (InTile t W) PrimeDecode := by
  have leaf : ∀ (prime_color x y : Nat), TrS t W 0
      (fun i => i = t + ((x : Int) + (y : Int) * W))
      (fun i => i = t + ((x : Int) + (y : Int) * W))
      (fun p : Decoder × Nat =>
        (if p.2 % 2 = 1 then (p.1.SetPixel x y (p.1.unaligned 0)).skipUnaligned 1
         else p.1.SetPixel x y prime_color, p.2 / 2)) := by
    intro prime_color x y e b s ht hW
    subst ht hW
    by_cases h : s % 2 = 1
    · refine ⟨fun i => if i = e.m_CurrentTile + ((x : Int) + (y : Int) * e.m_Width)
          then e.unaligned 0 else b i, ?_, ?_, ?_, ?_, ?_⟩
      · simp only [if_pos h]; rfl
      · simp only [if_pos h]; rfl
      · simp only [if_pos h]; rfl
      · simp only [if_pos h]; rfl
      · simp only [if_pos h]; exact touch_poke _ _ _ _
    · refine ⟨fun i => if i = e.m_CurrentTile + ((x : Int) + (y : Int) * e.m_Width)
          then prime_color else b i, ?_, ?_, ?_, ?_, ?_⟩
      · simp only [if_neg h]; rfl
      · simp only [if_neg h]; rfl
      · simp only [if_neg h]; rfl
      · simp only [if_neg h]; rfl
      · simp only [if_neg h]; exact touch_poke _ _ _ _
  have row : ∀ (prime_color y : Nat), y < 8 → Tr t W (1 + 0)
      (fun i => ∃ x : Nat, x < 8 ∧ i = t + ((x : Int) + (y : Int) * W))
      (fun i => ∃ x : Nat, x < 8 ∧ i = t + ((x : Int) + (y : Int) * W))
      (fun d => (forN 8 (fun x (p : Decoder × Nat) =>
          (if p.2 % 2 = 1 then (p.1.SetPixel x y (p.1.unaligned 0)).skipUnaligned 1
           else p.1.SetPixel x y prime_color, p.2 / 2))
        (d.skipAligned 1, d.aligned 0)).1) :=
    fun prime_color y _ => tr_of_trS 1 _ (fun d => d.skipAligned 1) (fun d => d.aligned 0)
      (trS_pixels y _ (fun x _ => leaf prime_color x y))
      (fun _ _ => rfl) (fun _ _ => rfl) (fun _ => ⟨rfl, rfl, rfl, rfl⟩)
  have c := tr_param (fun d => d.unaligned 0) _ (fun _ _ => rfl) (fun prime_color =>
    tr_comp (tr_cursor 0 (fun d => d.skipUnaligned 1) (fun _ _ => rfl)
      (fun _ => ⟨rfl, rfl, rfl, rfl⟩)) (tr_rows (1 + 0) _ (row prime_color)))
  exact tr_congr (tr_mono c (fun i p => Or.inr p) (fun i q => q.elim False.elim id)) rfl
    (fun d => rfl)

theorem tr_OneBankTileDecode (t W : Int) :
    Tr t W 32 (InTile t W) (InTile t W) OneBankTileDecode := by
  have leaf : ∀ (bank x y : Nat), Tr t W (if x % 2 = 1 then 1 else 0)
      (fun i => i = t + ((x : Int) + (y : Int) * W))
      (fun i => i = t + ((x : Int) + (y : Int) * W))
      (fun d => if x % 2 = 1 then (d.SetPixel x y ((bank + d.aligned 0 / 16) % 256)).skipAligned 1
        else d.SetPixel x y ((bank + d.aligned 0 % 16) % 256)) := by
    intro bank x y
    by_cases h : x % 2 = 1
    · simp only [if_pos h]
      have c := tr_comp (tr_pixel t W x y (fun d => (bank + d.aligned 0 / 16) % 256)
        (fun _ _ => rfl))
        (tr_cursor 1 (fun d => d.skipAligned 1) (fun _ _ => rfl) (fun _ => ⟨rfl, rfl, rfl, rfl⟩))
      exact tr_congr (tr_mono c (fun i p => Or.inl p) (fun i q => q.elim id False.elim)) rfl
        (fun d => rfl)
    · simp only [if_neg h]
      exact tr_pixel t W x y (fun d => (bank + d.aligned 0 % 16) % 256) (fun _ _ => rfl)
  have row : ∀ (bank y : Nat), y < 8 → Tr t W 4
      (fun i => ∃ x : Nat, x < 8 ∧ i = t + ((x : Int) + (y : Int) * W))
      (fun i => ∃ x : Nat, x < 8 ∧ i = t + ((x : Int) + (y : Int) * W))
      (fun d => forN 8 (fun x d =>
        if x % 2 = 1 then (d.SetPixel x y ((bank + d.aligned 0 / 16) % 256)).skipAligned 1
        else d.SetPixel x y ((bank + d.aligned 0 % 16) % 256)) d) :=
    fun bank y _ => tr_forN 8 (fun x => if x % 2 = 1 then 1 else 0) _ _ _
      (fun x _ => leaf bank x y)
  have c := tr_param (fun d => d.unaligned 0) _ (fun _ _ => rfl) (fun bank =>
    tr_comp (tr_cursor 0 (fun d => d.skipUnaligned 1) (fun _ _ => rfl)
      (fun _ => ⟨rfl, rfl, rfl, rfl⟩)) (tr_rows 4 _ (row bank)))
  exact tr_congr (tr_mono c (fun i p => Or.inr p) (fun i q => q.elim False.elim id)) rfl
    (fun d => rfl)

/-- The pixel loops of the overlays touch pixels of the tile only. -/
theorem inTile_pixel (t W : Int) (x y : Nat) (hx : x < 8) (hy : y < 8) :
    InTile t W (t + ((x : Int) + (y : Int) * W)) := ⟨x, y, hx, hy, rfl⟩

theorem tr_Update16 (t W : Int) :
    Tr t W 8 (fun _ => False) (InTile t W) Update16 := by
  have leaf : ∀ (x y : Nat), x < 8 → y < 8 → TrS t W 0 (fun _ => False) (InTile t W)
      (fun p : Decoder × Nat =>
        (if p.2 % 2 = 1 then (p.1.SetPixel x y (p.1.unaligned 0)).skipUnaligned 1 else p.1,
         p.2 / 2)) := by
    intro x y hx hy e b s ht hW
    subst ht hW
    by_cases h : s % 2 = 1
    · refine ⟨fun i => if i = e.m_CurrentTile + ((x : Int) + (y : Int) * e.m_Width)
          then e.unaligned 0 else b i, ?_, ?_, ?_, ?_, ?_⟩
      · simp only [if_pos h]; rfl
      · simp only [if_pos h]; rfl
      · simp only [if_pos h]; rfl
      · simp only [if_pos h]; rfl
      · simp only [if_pos h]
        exact touch_mono (touch_poke _ _ _ _) (fun i p => p.elim)
          (fun i q => q ▸ inTile_pixel _ _ x y hx hy)
    · refine ⟨b, ?_, ?_, ?_, ?_, ?_⟩
      · simp only [if_neg h]
      · simp only [if_neg h]
      · simp only [if_neg h]
      · simp only [if_neg h]; rfl
      · simp only [if_neg h]
        exact touch_mono (touch_refl _ _) (fun i p => p.elim) (fun i q => q.elim)
  have row : ∀ y : Nat, y < 8 → Tr t W (1 + sumTo (fun _ => 0) 8) (fun _ => False) (InTile t W)
      (fun d => (forN 8 (fun x (p : Decoder × Nat) =>
          (if p.2 % 2 = 1 then (p.1.SetPixel x y (p.1.unaligned 0)).skipUnaligned 1 else p.1,
           p.2 / 2))
        (d.skipAligned 1, d.aligned 0)).1) :=
    fun y hy => tr_of_trS 1 _ (fun d => d.skipAligned 1) (fun d => d.aligned 0)
      (trS_mono (trS_forN 8 (fun _ => 0) (fun _ _ => False) (fun _ => InTile t W) _
          (fun x hx => leaf x y hx hy))
        (fun i p => p.elim) (fun i ⟨_, _, q⟩ => q))
      (fun _ _ => rfl) (fun _ _ => rfl) (fun _ => ⟨rfl, rfl, rfl, rfl⟩)
  have c := tr_forN 8 (fun _ => 1 + sumTo (fun _ => 0) 8) (fun _ _ => False)
    (fun _ => InTile t W) _ row
  exact tr_congr (tr_mono c (fun i p => p.elim) (fun i ⟨_, _, q⟩ => q)) rfl (fun d => rfl)

theorem tr_Update4 (t W : Int) :
    Tr t W 4 (fun _ => False) (InTile t W) Update4 := by
  have leaf : TrS t W 1 (fun _ => False) (InTile t W)
      (fun p : Decoder × Nat =>
        ((p.1.SetPixel (p.2 % 8) ((p.2 / 8) % 8) (p.1.aligned 0)).skipAligned 1, p.2 / 64)) := by
    intro e b s ht hW
    subst ht hW
    refine ⟨_, rfl, rfl, rfl, rfl, ?_⟩
    exact touch_mono (touch_poke _ _ _ _) (fun i p => p.elim)
      (fun i q => q ▸ inTile_pixel _ _ (s % 8) ((s / 8) % 8)
        (Nat.mod_lt _ (by decide)) (Nat.mod_lt _ (by decide)))
  have inner : TrS t W (sumTo (fun _ => 1) 4) (fun _ => False) (InTile t W)
      (forN 4 (fun _ (p : Decoder × Nat) =>
        ((p.1.SetPixel (p.2 % 8) ((p.2 / 8) % 8) (p.1.aligned 0)).skipAligned 1, p.2 / 64))) :=
    trS_mono (trS_forN 4 (fun _ => 1) (fun _ _ => False) (fun _ => InTile t W) _
        (fun _ _ => leaf))
      (fun i p => p.elim) (fun i ⟨_, _, q⟩ => q)
  have c := tr_of_trS 0 _ (fun d => d.skipUnaligned 3)
    (fun d => u32 d.mem d.m_UnAlignedStream) inner
    (fun _ _ => rfl) (fun _ _ => rfl) (fun _ => ⟨rfl, rfl, rfl, rfl⟩)
  exact tr_congr c rfl (fun d => rfl)

theorem tr_Update8 (t W : Int) :
    Tr t W 8 (fun _ => False) (InTile t W) Update8 := by
  have c := tr_comp (tr_Update4 t W) (tr_Update4 t W)
  exact tr_congr (tr_mono c (fun i p => p.elim) (fun i q => q.elim id id)) rfl (fun d => rfl)

/-- A store of `n` consecutive bytes. -/
theorem tr_blit (t W : Int) (dst : Decoder → Int) (n : Nat) (src : Decoder → Nat → Nat)
    (D : Int) (hdst : ∀ e, e.m_CurrentTile = t → e.m_Width = W → dst e = D)
    (hdstb : ∀ e b, dst (e.withBuffer b) = dst e)
    (hsrc : ∀ e b, src (e.withBuffer b) = src e) :
    Tr t W 0 (fun i => D ≤ i ∧ i < D + (n : Int)) (fun i => D ≤ i ∧ i < D + (n : Int))
      (fun d => d.blit (dst d) n (src d)) := by
  intro e b ht hW
  have hD := hdst e ht hW
  refine ⟨fun i => if D ≤ i ∧ i < D + (n : Int) then src e (i - D).toNat else b i,
    ?_, ht, hW, rfl, ?_⟩
  · show (e.withBuffer b).blit (dst (e.withBuffer b)) n (src (e.withBuffer b)) = _
    rw [hdstb, hsrc, hD]
    rfl
  · show Touch _ _ _ _ (e.blit (dst e) n (src e)).m_CurrentBuffer.m_Buffer _
    rw [hD]
    exact touch_blit _ _ D n (src e)

theorem row_range (D W : Int) (y : Nat) (n : Nat) (i : Int) :
    (D + (y : Int) * W ≤ i ∧ i < D + (y : Int) * W + (n : Int)) ↔
      ∃ x : Nat, x < n ∧ i = D + ((x : Int) + (y : Int) * W) := by
  constructor
  · rintro ⟨h1, h2⟩
    exact ⟨(i - (D + (y : Int) * W)).toNat, by omega, by omega⟩
  · rintro ⟨x, hx, rfl⟩
    constructor <;> omega

/-- A loop over eight rows whose row `y` is touched at the eight bytes from `D + y * W`. -/
theorem tr_rowsAt {t W : Int} (D : Int) (k : Nat) (f : Nat → Decoder → Decoder)
    (h : ∀ y : Nat, y < 8 → Tr t W k
      (fun i => ∃ x : Nat, x < 8 ∧ i = D + ((x : Int) + (y : Int) * W))
      (fun i => ∃ x : Nat, x < 8 ∧ i = D + ((x : Int) + (y : Int) * W)) (f y)) :
    Tr t W (8 * k) (InTile D W) (InTile D W) (forN 8 f) := by
  have c := tr_forN 8 (fun _ => k) _ _ f h
  rw [sumTo_const] at c
  exact tr_mono c (fun i p => (inTile_rows D W i).mpr p) (fun i q => (inTile_rows D W i).mp q)

theorem inQuad_rows (t W : Int) (i : Int) :
    (∃ y : Nat, y < 4 ∧ ∃ x : Nat, x < 4 ∧ i = t + ((x : Int) + (y : Int) * W)) ↔
      InQuad t W i :=
  ⟨fun ⟨y, hy, x, hx, h⟩ => ⟨x, y, hx, hy, h⟩, fun ⟨x, y, hx, hy, h⟩ => ⟨y, hy, x, hx, h⟩⟩

theorem tr_quadRowsAt {t W : Int} (D : Int) (k : Nat) (f : Nat → Decoder → Decoder)
    (h : ∀ y : Nat, y < 4 → Tr t W k
      (fun i => ∃ x : Nat, x < 4 ∧ i = D + ((x : Int) + (y : Int) * W))
      (fun i => ∃ x : Nat, x < 4 ∧ i = D + ((x : Int) + (y : Int) * W)) (f y)) :
    Tr t W (4 * k) (InQuad D W) (InQuad D W) (forN 4 f) := by
  have c := tr_forN 4 (fun _ => k) _ _ f h
  rw [sumTo_const] at c
  exact tr_mono c (fun i p => (inQuad_rows D W i).mpr p) (fun i q => (inQuad_rows D W i).mp q)

/-- The copy `BlockCopy8x8(dest, source)` at a destination `D`. -/
theorem tr_BlockCopy8x8 (t W D source : Int) :
    Tr t W 0 (InTile D W) (InTile D W) (fun d => BlockCopy8x8 d D source) := by
  have row : ∀ y : Nat, y < 8 → Tr t W 0
      (fun i => ∃ x : Nat, x < 8 ∧ i = D + ((x : Int) + (y : Int) * W))
      (fun i => ∃ x : Nat, x < 8 ∧ i = D + ((x : Int) + (y : Int) * W))
      (fun d => d.memcpyPrev (D + (y : Int) * d.m_Width) (source + (y : Int) * d.m_Width) 8) :=
    fun y _ => tr_mono
      (tr_blit t W (fun d => D + (y : Int) * d.m_Width) 8
        (fun d j => d.m_PreviousBuffer.m_Buffer (source + (y : Int) * d.m_Width + (j : Int)))
        (D + (y : Int) * W) (fun e _ hW => by subst hW; rfl) (fun _ _ => rfl) (fun _ _ => rfl))
      (fun i p => (row_range D W y 8 i).mpr p) (fun i q => (row_range D W y 8 i).mp q)
  exact tr_congr (tr_rowsAt D 0 _ row) rfl (fun d => rfl)

/-- The copy `BlockCopy4x4(dest, source)` at a destination `D`. -/
theorem tr_BlockCopy4x4 (t W D source : Int) :
    Tr t W 0 (InQuad D W) (InQuad D W) (fun d => BlockCopy4x4 d D source) := by
  have row : ∀ y : Nat, y < 4 → Tr t W 0
      (fun i => ∃ x : Nat, x < 4 ∧ i = D + ((x : Int) + (y : Int) * W))
      (fun i => ∃ x : Nat, x < 4 ∧ i = D + ((x : Int) + (y : Int) * W))
      (fun d => d.memcpyPrev (D + (y : Int) * d.m_Width) (source + (y : Int) * d.m_Width) 4) :=
    fun y _ => tr_mono
      (tr_blit t W (fun d => D + (y : Int) * d.m_Width) 4
        (fun d j => d.m_PreviousBuffer.m_Buffer (source + (y : Int) * d.m_Width + (j : Int)))
        (D + (y : Int) * W) (fun e _ hW => by subst hW; rfl) (fun _ _ => rfl) (fun _ _ => rfl))
      (fun i p => (row_range D W y 4 i).mpr p) (fun i q => (row_range D W y 4 i).mp q)
  exact tr_congr (tr_quadRowsAt D 0 _ row) rfl (fun d => rfl)

/-- A copy whose destination and source are computed from the decoder, after a move of the
cursors. -/
theorem tr_copy8 (t W : Int) (k : Nat) (pre : Decoder → Decoder) (dst src : Decoder → Int)
    (hpre : ∀ e b, pre (e.withBuffer b) = (pre e).withBuffer b)
    (hp : ∀ e, (pre e).m_CurrentTile = e.m_CurrentTile ∧ (pre e).m_Width = e.m_Width ∧
      (pre e).m_AlignedStream = e.m_AlignedStream + k ∧
      (pre e).m_CurrentBuffer = e.m_CurrentBuffer)
    (hdst : ∀ e, e.m_CurrentTile = t → e.m_Width = W → dst e = t)
    (hdstb : ∀ e b, dst (e.withBuffer b) = dst e)
    (hsrc : ∀ e b, src (e.withBuffer b) = src e) :
    Tr t W k (InTile t W) (InTile t W) (fun d => BlockCopy8x8 (pre d) (dst d) (src d)) := by
  intro e b ht hW
  obtain ⟨b2, h1, h2⟩ := tr_comp (tr_cursor k pre hpre hp) (tr_BlockCopy8x8 t W t (src e))
    e b ht hW
  have hd := hdst e ht hW
  refine ⟨b2, ?_, ?_⟩
  · show BlockCopy8x8 (pre (e.withBuffer b)) (dst (e.withBuffer b)) (src (e.withBuffer b)) =
      (BlockCopy8x8 (pre e) (dst e) (src e)).withBuffer b2
    rw [hdstb, hsrc, hd]
    exact h1
  · show (BlockCopy8x8 (pre e) (dst e) (src e)).m_CurrentTile = t ∧
      (BlockCopy8x8 (pre e) (dst e) (src e)).m_Width = W ∧
      (BlockCopy8x8 (pre e) (dst e) (src e)).m_AlignedStream = e.m_AlignedStream + k ∧
      Touch _ _ e.m_CurrentBuffer.m_Buffer b
        (BlockCopy8x8 (pre e) (dst e) (src e)).m_CurrentBuffer.m_Buffer b2
    rw [hd]
    obtain ⟨a1, a2, a3, a4⟩ := h2
    exact ⟨a1, a2, a3, touch_mono a4 (fun i p => Or.inr p) (fun i q => q.elim False.elim id)⟩

theorem tr_copy4 (t W D : Int) (k : Nat) (pre : Decoder → Decoder) (dst src : Decoder → Int)
    (hpre : ∀ e b, pre (e.withBuffer b) = (pre e).withBuffer b)
    (hp : ∀ e, (pre e).m_CurrentTile = e.m_CurrentTile ∧ (pre e).m_Width = e.m_Width ∧
      (pre e).m_AlignedStream = e.m_AlignedStream + k ∧
      (pre e).m_CurrentBuffer = e.m_CurrentBuffer)
    (hdst : ∀ e, e.m_CurrentTile = t → e.m_Width = W → dst e = D)
    (hdstb : ∀ e b, dst (e.withBuffer b) = dst e)
    (hsrc : ∀ e b, src (e.withBuffer b) = src e) :
    Tr t W k (InQuad D W) (InQuad D W) (fun d => BlockCopy4x4 (pre d) (dst d) (src d)) := by
  intro e b ht hW
  obtain ⟨b2, h1, h2⟩ := tr_comp (tr_cursor k pre hpre hp) (tr_BlockCopy4x4 t W D (src e))
    e b ht hW
  have hd := hdst e ht hW
  refine ⟨b2, ?_, ?_⟩
  · show BlockCopy4x4 (pre (e.withBuffer b)) (dst (e.withBuffer b)) (src (e.withBuffer b)) =
      (BlockCopy4x4 (pre e) (dst e) (src e)).withBuffer b2
    rw [hdstb, hsrc, hd]
    exact h1
  · show (BlockCopy4x4 (pre e) (dst e) (src e)).m_CurrentTile = t ∧
      (BlockCopy4x4 (pre e) (dst e) (src e)).m_Width = W ∧
      (BlockCopy4x4 (pre e) (dst e) (src e)).m_AlignedStream = e.m_AlignedStream + k ∧
      Touch _ _ e.m_CurrentBuffer.m_Buffer b
        (BlockCopy4x4 (pre e) (dst e) (src e)).m_CurrentBuffer.m_Buffer b2
    rw [hd]
    obtain ⟨a1, a2, a3, a4⟩ := h2
    exact ⟨a1, a2, a3, touch_mono a4 (fun i p => Or.inr p) (fun i q => q.elim False.elim id)⟩

/-- The four quadrants of a tile. -/
theorem inTile_quads (t W : Int) (i : Int) :
    InTile t W i ↔
      (((InQuad t W i ∨ InQuad (t + 4) W i) ∨ InQuad (t + W * 4) W i) ∨
        InQuad (t + W * 4 + 4) W i) := by
  constructor
  · rintro ⟨x, y, hx, hy, rfl⟩
    by_cases h1 : x < 4
    · by_cases h2 : y < 4
      · exact Or.inl (Or.inl (Or.inl ⟨x, y, h1, h2, rfl⟩))
      · refine Or.inl (Or.inr ⟨x, y - 4, h1, by omega, ?_⟩)
        have e : ((y - 4 : Nat) : Int) = (y : Int) - 4 := by omega
        rw [e]; ring
    · by_cases h2 : y < 4
      · refine Or.inl (Or.inl (Or.inr ⟨x - 4, y, by omega, h2, ?_⟩))
        have e : ((x - 4 : Nat) : Int) = (x : Int) - 4 := by omega
        rw [e]; ring
      · refine Or.inr ⟨x - 4, y - 4, by omega, by omega, ?_⟩
        have e : ((y - 4 : Nat) : Int) = (y : Int) - 4 := by omega
        have e2 : ((x - 4 : Nat) : Int) = (x : Int) - 4 := by omega
        rw [e, e2]; ring
  · rintro (((⟨x, y, hx, hy, rfl⟩ | ⟨x, y, hx, hy, rfl⟩) | ⟨x, y, hx, hy, rfl⟩) |
      ⟨x, y, hx, hy, rfl⟩)
    · exact ⟨x, y, by omega, by omega, rfl⟩
    · refine ⟨x + 4, y, by omega, by omega, ?_⟩
      push_cast; ring
    · refine ⟨x, y + 4, by omega, by omega, ?_⟩
      push_cast; ring
    · refine ⟨x + 4, y + 4, by omega, by omega, ?_⟩
      push_cast; ring

theorem tr_ZeroMotionDecode (t W : Int) :
    Tr t W 0 (InTile t W) (InTile t W) ZeroMotionDecode :=
  tr_congr (tr_copy8 t W 0 (fun d => d) (fun d => d.m_CurrentTile) (fun d => d.m_PreviousTile)
    (fun _ _ => rfl) (fun _ => ⟨rfl, rfl, rfl, rfl⟩) (fun _ ht _ => ht) (fun _ _ => rfl)
    (fun _ _ => rfl)) rfl (fun _ => rfl)

theorem tr_ShortMotion8Decode (t W : Int) :
    Tr t W 0 (InTile t W) (InTile t W) ShortMotion8Decode :=
  tr_congr (tr_copy8 t W 0 (fun d => d.skipUnaligned 1) (fun d => d.m_CurrentTile)
    (fun d => d.m_PreviousTile + (4 + d.m_Width * 4) +
      shl28sar28 (((d.unaligned 0 : Nat) : Int) % 16) +
      shl24sar28 ((d.unaligned 0 : Nat) : Int) * d.m_Width)
    (fun _ _ => rfl) (fun _ => ⟨rfl, rfl, rfl, rfl⟩) (fun _ ht _ => ht) (fun _ _ => rfl)
    (fun _ _ => rfl)) rfl (fun _ => rfl)

theorem tr_Motion8Decode (t W : Int) :
    Tr t W 0 (InTile t W) (InTile t W) Motion8Decode := by
  have c := tr_comp
    (tr_copy8 t W 0 (fun d => d) (fun d => d.m_CurrentTile)
      (fun d => d.m_PreviousFrameBuffer + (u16 d.mem d.m_UnAlignedStream : Nat))
      (fun _ _ => rfl) (fun _ => ⟨rfl, rfl, rfl, rfl⟩) (fun _ ht _ => ht) (fun _ _ => rfl)
      (fun _ _ => rfl))
    (tr_cursor 0 (fun d => d.skipUnaligned 2) (fun _ _ => rfl) (fun _ => ⟨rfl, rfl, rfl, rfl⟩))
  exact tr_congr (tr_mono c (fun i p => Or.inl p) (fun i q => q.elim id False.elim)) rfl
    (fun _ => rfl)

theorem tr_ROMotion8Decode (t W : Int) :
    Tr t W 0 (InTile t W) (InTile t W) ROMotion8Decode :=
  tr_congr (tr_copy8 t W 0
    (fun d => d.withUnAligned (ReadS16 d.mem d.m_UnAlignedStream).2) (fun d => d.m_CurrentTile)
    (fun d => d.m_PreviousTile + (ReadS16 d.mem d.m_UnAlignedStream).1 + 4 + d.m_Width * 4)
    (fun _ _ => rfl) (fun _ => ⟨rfl, rfl, rfl, rfl⟩) (fun _ ht _ => ht) (fun _ _ => rfl)
    (fun _ _ => rfl)) rfl (fun _ => rfl)

theorem tr_RCMotion8Decode (t W : Int) :
    Tr t W 0 (InTile t W) (InTile t W) RCMotion8Decode :=
  tr_congr (tr_copy8 t W 0
    (fun d => d.withUnAligned (ReadXYOffset d.mem d.m_UnAlignedStream d.m_Width).2)
    (fun d => d.m_CurrentTile)
    (fun d => d.m_PreviousTile + (ReadXYOffset d.mem d.m_UnAlignedStream d.m_Width).1 + 4 +
      d.m_Width * 4)
    (fun _ _ => rfl) (fun _ => ⟨rfl, rfl, rfl, rfl⟩) (fun _ ht _ => ht) (fun _ _ => rfl)
    (fun _ _ => rfl)) rfl (fun _ => rfl)

/-- Four pieces of code, one for each quadrant of the tile. -/
theorem tr_quads {t W : Int} {k : Nat} {S1 S2 S3 S4 : Decoder → Decoder}
    (h1 : Tr t W k (InQuad t W) (InQuad t W) S1)
    (h2 : Tr t W k (InQuad (t + 4) W) (InQuad (t + 4) W) S2)
    (h3 : Tr t W k (InQuad (t + W * 4) W) (InQuad (t + W * 4) W) S3)
    (h4 : Tr t W k (InQuad (t + W * 4 + 4) W) (InQuad (t + W * 4 + 4) W) S4) :
    Tr t W (4 * k) (InTile t W) (InTile t W) (fun d => S4 (S3 (S2 (S1 d)))) := by
  have c := tr_comp (tr_comp (tr_comp h1 h2) h3) h4
  exact tr_congr (tr_mono c (fun i p => (inTile_quads t W i).mp p)
    (fun i q => (inTile_quads t W i).mpr q)) (by omega) (fun _ => rfl)

theorem tr_ShortMotion4Decode (t W : Int) :
    Tr t W 4 (InTile t W) (InTile t W) ShortMotion4Decode := by
  have c := tr_quads
    (tr_copy4 t W t 1 (fun d => d.skipAligned 1) (fun d => (d.skipAligned 1).m_CurrentTile)
      (fun d => (d.skipAligned 1).m_PreviousTile + 2 + (d.skipAligned 1).m_Width * 2 +
        shl28sar28 (((d.aligned 0 : Nat) : Int) % 16) +
        shl24sar28 ((d.aligned 0 : Nat) : Int) * (d.skipAligned 1).m_Width)
      (fun _ _ => rfl) (fun _ => ⟨rfl, rfl, rfl, rfl⟩)
      (fun _ ht _ => ht) (fun _ _ => rfl) (fun _ _ => rfl))
    (tr_copy4 t W (t + 4) 1 (fun d => d.skipAligned 1) (fun d => (d.skipAligned 1).m_CurrentTile + 4)
      (fun d => (d.skipAligned 1).m_PreviousTile + 2 + (d.skipAligned 1).m_Width * 2 +
        shl28sar28 (((d.aligned 0 : Nat) : Int) % 16) +
        shl24sar28 ((d.aligned 0 : Nat) : Int) * (d.skipAligned 1).m_Width + 4)
      (fun _ _ => rfl) (fun _ => ⟨rfl, rfl, rfl, rfl⟩)
      (fun _ ht _ => by subst ht; rfl) (fun _ _ => rfl) (fun _ _ => rfl))
    (tr_copy4 t W (t + W * 4) 1 (fun d => d.skipAligned 1) (fun d => (d.skipAligned 1).m_CurrentTile + (d.skipAligned 1).m_Width * 4)
      (fun d => (d.skipAligned 1).m_PreviousTile + 2 + (d.skipAligned 1).m_Width * 2 +
        shl28sar28 (((d.aligned 0 : Nat) : Int) % 16) +
        shl24sar28 ((d.aligned 0 : Nat) : Int) * (d.skipAligned 1).m_Width + (d.skipAligned 1).m_Width * 4)
      (fun _ _ => rfl) (fun _ => ⟨rfl, rfl, rfl, rfl⟩)
      (fun _ ht hW => by subst ht hW; rfl) (fun _ _ => rfl) (fun _ _ => rfl))
    (tr_copy4 t W (t + W * 4 + 4) 1 (fun d => d.skipAligned 1) (fun d => (d.skipAligned 1).m_CurrentTile + (d.skipAligned 1).m_Width * 4 + 4)
      (fun d => (d.skipAligned 1).m_PreviousTile + 2 + (d.skipAligned 1).m_Width * 2 +
        shl28sar28 (((d.aligned 0 : Nat) : Int) % 16) +
        shl24sar28 ((d.aligned 0 : Nat) : Int) * (d.skipAligned 1).m_Width + (d.skipAligned 1).m_Width * 4 + 4)
      (fun _ _ => rfl) (fun _ => ⟨rfl, rfl, rfl, rfl⟩)
      (fun _ ht hW => by subst ht hW; rfl) (fun _ _ => rfl) (fun _ _ => rfl))
  refine tr_congr c rfl (fun d => ?_)
  unfold ShortMotion4Decode
  with_reducible rfl

theorem tr_Motion4Decode (t W : Int) :
    Tr t W 8 (InTile t W) (InTile t W) Motion4Decode := by
  have c := tr_quads
    (tr_copy4 t W t 2 (fun d => d.withAligned (ReadU16 d.mem d.m_AlignedStream).2)
      (fun d => d.m_CurrentTile)
      (fun d => d.m_PreviousFrameBuffer + ((ReadU16 d.mem d.m_AlignedStream).1 : Nat))
      (fun _ _ => rfl) (fun _ => ⟨rfl, rfl, rfl, rfl⟩) (fun _ ht _ => ht) (fun _ _ => rfl)
      (fun _ _ => rfl))
    (tr_copy4 t W (t + 4) 2 (fun d => d.withAligned (ReadU16 d.mem d.m_AlignedStream).2)
      (fun d => d.m_CurrentTile + 4)
      (fun d => d.m_PreviousFrameBuffer + ((ReadU16 d.mem d.m_AlignedStream).1 : Nat))
      (fun _ _ => rfl) (fun _ => ⟨rfl, rfl, rfl, rfl⟩)
      (fun _ ht _ => by subst ht; rfl) (fun _ _ => rfl) (fun _ _ => rfl))
    (tr_copy4 t W (t + W * 4) 2 (fun d => d.withAligned (ReadU16 d.mem d.m_AlignedStream).2)
      (fun d => d.m_CurrentTile + d.m_Width * 4)
      (fun d => d.m_PreviousFrameBuffer + ((ReadU16 d.mem d.m_AlignedStream).1 : Nat))
      (fun _ _ => rfl) (fun _ => ⟨rfl, rfl, rfl, rfl⟩)
      (fun _ ht hW => by subst ht hW; rfl) (fun _ _ => rfl) (fun _ _ => rfl))
    (tr_copy4 t W (t + W * 4 + 4) 2
      (fun d => d.withAligned (ReadU16 d.mem d.m_AlignedStream).2)
      (fun d => d.m_CurrentTile + d.m_Width * 4 + 4)
      (fun d => d.m_PreviousFrameBuffer + ((ReadU16 d.mem d.m_AlignedStream).1 : Nat))
      (fun _ _ => rfl) (fun _ => ⟨rfl, rfl, rfl, rfl⟩)
      (fun _ ht hW => by subst ht hW; rfl) (fun _ _ => rfl) (fun _ _ => rfl))
  exact tr_congr c rfl (fun _ => rfl)

theorem tr_ROMotion4Decode (t W : Int) :
    Tr t W 8 (InTile t W) (InTile t W) ROMotion4Decode := by
  have c := tr_quads
    (tr_copy4 t W t 2 (fun d => d.withAligned (ReadS16 d.mem d.m_AlignedStream).2)
      (fun d => d.m_CurrentTile)
      (fun d => d.m_PreviousTile + (ReadS16 d.mem d.m_AlignedStream).1 + 2 + d.m_Width * 2)
      (fun _ _ => rfl) (fun _ => ⟨rfl, rfl, rfl, rfl⟩) (fun _ ht _ => ht) (fun _ _ => rfl)
      (fun _ _ => rfl))
    (tr_copy4 t W (t + 4) 2 (fun d => d.withAligned (ReadS16 d.mem d.m_AlignedStream).2)
      (fun d => d.m_CurrentTile + 4)
      (fun d => d.m_PreviousTile + 4 + (ReadS16 d.mem d.m_AlignedStream).1 + 2 +
        d.m_Width * 2)
      (fun _ _ => rfl) (fun _ => ⟨rfl, rfl, rfl, rfl⟩)
      (fun _ ht _ => by subst ht; rfl) (fun _ _ => rfl) (fun _ _ => rfl))
    (tr_copy4 t W (t + W * 4) 2 (fun d => d.withAligned (ReadS16 d.mem d.m_AlignedStream).2)
      (fun d => d.m_CurrentTile + d.m_Width * 4)
      (fun d => d.m_PreviousTile + d.m_Width * 4 + (ReadS16 d.mem d.m_AlignedStream).1 + 2 +
        d.m_Width * 2)
      (fun _ _ => rfl) (fun _ => ⟨rfl, rfl, rfl, rfl⟩)
      (fun _ ht hW => by subst ht hW; rfl) (fun _ _ => rfl) (fun _ _ => rfl))
    (tr_copy4 t W (t + W * 4 + 4) 2
      (fun d => d.withAligned (ReadS16 d.mem d.m_AlignedStream).2)
      (fun d => d.m_CurrentTile + d.m_Width * 4 + 4)
      (fun d => d.m_PreviousTile + d.m_Width * 4 + 4 + (ReadS16 d.mem d.m_AlignedStream).1 +
        2 + d.m_Width * 2)
      (fun _ _ => rfl) (fun _ => ⟨rfl, rfl, rfl, rfl⟩)
      (fun _ ht hW => by subst ht hW; rfl) (fun _ _ => rfl) (fun _ _ => rfl))
  exact tr_congr c rfl (fun _ => rfl)

theorem tr_RCMotion4Decode (t W : Int) :
    Tr t W 8 (InTile t W) (InTile t W) RCMotion4Decode := by
  have c := tr_quads
    (tr_copy4 t W t 2
      (fun d => d.withAligned (ReadXYOffset d.mem d.m_AlignedStream d.m_Width).2)
      (fun d => d.m_CurrentTile)
      (fun d => d.m_PreviousTile + (ReadXYOffset d.mem d.m_AlignedStream d.m_Width).1 + 2 +
        d.m_Width * 2)
      (fun _ _ => rfl) (fun _ => ⟨rfl, rfl, rfl, rfl⟩) (fun _ ht _ => ht) (fun _ _ => rfl)
      (fun _ _ => rfl))
    (tr_copy4 t W (t + 4) 2
      (fun d => d.withAligned (ReadXYOffset d.mem d.m_AlignedStream d.m_Width).2)
      (fun d => d.m_CurrentTile + 4)
      (fun d => d.m_PreviousTile + (ReadXYOffset d.mem d.m_AlignedStream d.m_Width).1 + 2 +
        d.m_Width * 2 + 4)
      (fun _ _ => rfl) (fun _ => ⟨rfl, rfl, rfl, rfl⟩)
      (fun _ ht _ => by subst ht; rfl) (fun _ _ => rfl) (fun _ _ => rfl))
    (tr_copy4 t W (t + W * 4) 2
      (fun d => d.withAligned (ReadXYOffset d.mem d.m_AlignedStream d.m_Width).2)
      (fun d => d.m_CurrentTile + d.m_Width * 4)
      (fun d => d.m_PreviousTile + (ReadXYOffset d.mem d.m_AlignedStream d.m_Width).1 + 2 +
        d.m_Width * 2 + d.m_Width * 4)
      (fun _ _ => rfl) (fun _ => ⟨rfl, rfl, rfl, rfl⟩)
      (fun _ ht hW => by subst ht hW; rfl) (fun _ _ => rfl) (fun _ _ => rfl))
    (tr_copy4 t W (t + W * 4 + 4) 2
      (fun d => d.withAligned (ReadXYOffset d.mem d.m_AlignedStream d.m_Width).2)
      (fun d => d.m_CurrentTile + d.m_Width * 4 + 4)
      (fun d => d.m_PreviousTile + (ReadXYOffset d.mem d.m_AlignedStream d.m_Width).1 + 2 +
        d.m_Width * 2 + d.m_Width * 4 + 4)
      (fun _ _ => rfl) (fun _ => ⟨rfl, rfl, rfl, rfl⟩)
      (fun _ ht hW => by subst ht hW; rfl) (fun _ _ => rfl) (fun _ _ => rfl))
  exact tr_congr c rfl (fun _ => rfl)

theorem tr_RawTileDecode (t W : Int) :
    Tr t W 64 (InTile t W) (InTile t W) RawTileDecode := by
  have row : ∀ y : Nat, y < 8 → Tr t W (0 + 8)
      (fun i => ∃ x : Nat, x < 8 ∧ i = t + ((x : Int) + (y : Int) * W))
      (fun i => ∃ x : Nat, x < 8 ∧ i = t + ((x : Int) + (y : Int) * W))
      (fun d => (d.memcpyStream (d.m_CurrentTile + (y : Int) * d.m_Width)
        d.m_AlignedStream 8).skipAligned 8) :=
    fun y _ => tr_mono
      (tr_comp (tr_blit t W (fun d => d.m_CurrentTile + (y : Int) * d.m_Width) 8
          (fun d j => u8 d.mem (d.m_AlignedStream + j))
          (t + (y : Int) * W) (fun e ht hW => by subst ht hW; rfl) (fun _ _ => rfl)
          (fun _ _ => rfl))
        (tr_cursor 8 (fun d => d.skipAligned 8) (fun _ _ => rfl)
          (fun _ => ⟨rfl, rfl, rfl, rfl⟩)))
      (fun i p => Or.inl ((row_range t W y 8 i).mpr p))
      (fun i q => q.elim (fun q => (row_range t W y 8 i).mp q) False.elim)
  exact tr_congr (tr_rows (0 + 8) _ row) rfl (fun _ => rfl)

theorem tr_SingleColorFillDecode (t W : Int) :
    Tr t W 0 (InTile t W) (InTile t W) SingleColorFillDecode := by
  have row : ∀ (colorTile y : Nat), y < 8 → Tr t W 0
      (fun i => ∃ x : Nat, x < 8 ∧ i = t + ((x : Int) + (y : Int) * W))
      (fun i => ∃ x : Nat, x < 8 ∧ i = t + ((x : Int) + (y : Int) * W))
      (fun d => d.memset (d.m_CurrentTile + (y : Int) * d.m_Width) colorTile 8) :=
    fun colorTile y _ => tr_mono
      (tr_blit t W (fun d => d.m_CurrentTile + (y : Int) * d.m_Width) 8
          (fun _ _ => colorTile)
          (t + (y : Int) * W) (fun e ht hW => by subst ht hW; rfl) (fun _ _ => rfl)
          (fun _ _ => rfl))
      (fun i p => (row_range t W y 8 i).mpr p) (fun i q => (row_range t W y 8 i).mp q)
  have c := tr_param (fun d => d.unaligned 0) _ (fun _ _ => rfl) (fun colorTile =>
    tr_comp (tr_cursor 0 (fun d => d.skipUnaligned 1) (fun _ _ => rfl)
      (fun _ => ⟨rfl, rfl, rfl, rfl⟩)) (tr_rows 0 _ (row colorTile)))
  exact tr_congr (tr_mono c (fun i p => Or.inr p) (fun i q => q.elim False.elim id)) rfl
    (fun d => rfl)

/-- Two runs of a tile primitive from decoders that differ in the bytes of the current buffer
end in decoders that differ in these bytes only, when both data cursors end at the same
place. -/
theorem twin_of_keeps {e e1 e2 : Decoder} {b : Int → Nat} (h1 : Keeps e e1)
    (h2 : Keeps (e.withBuffer b) e2) (hal : e2.m_AlignedStream = e1.m_AlignedStream)
    (hun : e2.m_UnAlignedStream = e1.m_UnAlignedStream) :
    e2 = e1.withBuffer e2.m_CurrentBuffer.m_Buffer := by
  obtain ⟨a1, a2, a3, a4, a5, a6, a7, a8, a9, a10, a11, a12, a13, a14, a15, a16, -, -, a19⟩ := h1
  obtain ⟨c1, c2, c3, c4, c5, c6, c7, c8, c9, c10, c11, c12, c13, c14, c15, c16, -, -, c19⟩ := h2
  rcases e1 with ⟨x1, x2, x3, x4, x5, x6, x7, x8, x9, x10, x11, x12, x13, ⟨y1, y2, y3⟩, x15,
    x16, x17, x18⟩
  rcases e2 with ⟨z1, z2, z3, z4, z5, z6, z7, z8, z9, z10, z11, z12, z13, ⟨w1, w2, w3⟩, z15,
    z16, z17, z18⟩
  simp only [Decoder.withBuffer] at *
  subst a1 a2 a3 a4 a5 a6 a7 a8 a9 a10 a11 a12 a13 a14 a15 a16 a19 hal hun
  subst c1 c2 c3 c4 c5 c6 c7 c8 c9 c10 c11 c12 c13 c14 c15 c16 c19
  rfl

/-- A tile primitive whose cursors and stores are known: outside `P` the bytes stay, and at `P`
the bytes do not depend on the buffer before. -/
theorem tr_of_facts {t W : Int} (k : Nat) (P : Int → Prop) (F : Decoder → Decoder)
    (hK : ∀ e, Keeps e (F e))
    (hal : ∀ e, (F e).m_AlignedStream = e.m_AlignedStream + k)
    (hun : ∀ e b, (F (e.withBuffer b)).m_UnAlignedStream = (F e).m_UnAlignedStream)
    (hout : ∀ e i, e.m_CurrentTile = t → e.m_Width = W → ¬ P i →
      (F e).m_CurrentBuffer.m_Buffer i = e.m_CurrentBuffer.m_Buffer i)
    (hin : ∀ e b i, e.m_CurrentTile = t → e.m_Width = W → P i →
      (F (e.withBuffer b)).m_CurrentBuffer.m_Buffer i = (F e).m_CurrentBuffer.m_Buffer i) :
    Tr t W k P P F := by
  intro e b ht hW
  refine ⟨(F (e.withBuffer b)).m_CurrentBuffer.m_Buffer,
    twin_of_keeps (hK e) (hK _) (by rw [hal, hal]; rfl) (hun e b),
    (hK e).currentTile.trans ht, (hK e).width.trans hW, hal e, fun i => ?_⟩
  by_cases hp : P i
  · have a := hin e b i ht hW hp
    exact ⟨fun _ => a.symm, fun n => (n hp).elim, fun _ => a.symm⟩
  · have o1 := hout e i ht hW hp
    have o2 : (F (e.withBuffer b)).m_CurrentBuffer.m_Buffer i = b i :=
      hout (e.withBuffer b) i ht hW hp
    exact ⟨fun p => (hp p).elim, fun _ => ⟨o1, o2⟩, fun h => by rw [o1, o2]; exact h⟩

/-- The last store that hits an address. -/
theorem last_hit (dest : Nat → Int) (i : Int) (n : Nat) (h : ∃ j, j < n ∧ dest j = i) :
    ∃ j, j < n ∧ dest j = i ∧ ∀ k, j < k → k < n → dest k ≠ i := by
  induction n with
  | zero => obtain ⟨j, hj, _⟩ := h; exact absurd hj (Nat.not_lt_zero j)
  | succ n ih =>
    by_cases hn : dest n = i
    · exact ⟨n, Nat.lt_succ_self n, hn, fun k h1 h2 => absurd h2 (by omega)⟩
    · obtain ⟨j, hj, hd⟩ := h
      have hjn : j < n := by
        rcases Nat.lt_succ_iff_lt_or_eq.mp hj with c | c
        · exact c
        · subst c; exact absurd hd hn
      obtain ⟨m, hm, hdm, hl⟩ := ih ⟨j, hjn, hd⟩
      refine ⟨m, by omega, hdm, fun k h1 h2 => ?_⟩
      rcases Nat.lt_succ_iff_lt_or_eq.mp h2 with c | c
      · exact hl k h1 c
      · subst c; exact hn

/-- Two runs of the same stores agree wherever a store hits. -/
theorem scattered_agree (dest : Nat → Int) (val : Nat → Nat) (old old2 new new2 : Int → Nat)
    (n : Nat) (h1 : Scattered dest val old new n) (h2 : Scattered dest val old2 new2 n)
    (i : Int) (hi : ∃ j, j < n ∧ dest j = i) : new2 i = new i := by
  obtain ⟨j, hj, hd, hl⟩ := last_hit dest i n hi
  subst hd
  rw [h1.2 j hj hl, h2.2 j hj hl]

/-- A plain block decode in two runs. -/
theorem tr_plainDecode {t W : Int} (store : Nat → Nat → Decoder → Nat → Decoder)
    (A : Decoder → Nat → Int) (F : Decoder → Decoder)
    (hF : ∀ d, F d = (blockScan byteStep id store 0 d).1)
    (hK : ∀ e, Keeps e (F e))
    (hstore : ∀ d, StoresAt d store (A d))
    (hA : ∀ e b, A (e.withBuffer b) = A e) (T : Nat → Int)
    (hT : ∀ e, e.m_CurrentTile = t → e.m_Width = W → A e = T) :
    Tr t W 8 (fun i => ∃ j, j < 64 ∧ T j = i) (fun i => ∃ j, j < 64 ∧ T j = i) F := by
  refine tr_of_facts 8 _ F hK (fun e => ?_) (fun e b => ?_) (fun e i ht hW hp => ?_)
    (fun e b i ht hW hp => ?_)
  · rw [hF]; exact (plainDecode_spec store (A e) e (hstore e)).1
  · rw [hF, hF, (plainDecode_spec store (A e) e (hstore e)).2.1,
      (plainDecode_spec store _ _ (hstore (e.withBuffer b))).2.1]
    rfl
  · rw [hF]
    refine (plainDecode_spec store (A e) e (hstore e)).2.2.2.2.2.1 i (fun j hj h => hp ⟨j, hj, ?_⟩)
    rw [← hT e ht hW]; exact h
  · rw [hF, hF]
    have s1 := (plainDecode_spec store (A e) e (hstore e)).2.2.2.2.2
    have s2 := (plainDecode_spec store _ _ (hstore (e.withBuffer b))).2.2.2.2.2
    rw [hA] at s2
    refine scattered_agree _ _ _ _ _ _ 64 s1 s2 i ?_
    rw [hT e ht hW]
    exact hp

/-- A Bank-1 block decode in two runs. -/
theorem tr_bankDecode {t W : Int} (store : Nat → Nat → Decoder → Nat → Decoder)
    (A : Decoder → Nat → Int) (F : Decoder → Decoder)
    (hF : ∀ d, F d = (let bank := (d.unaligned 0 * 16) % 256
       let o := blockScanBank bank store d
       if o.2.2 ≠ 0 then o.1.skipUnaligned 1 else o.1))
    (hK : ∀ e, Keeps e (F e))
    (hstore : ∀ d, StoresAt d store (A d))
    (hA : ∀ e b, A (e.withBuffer b) = A e) (T : Nat → Int)
    (hT : ∀ e, e.m_CurrentTile = t → e.m_Width = W → A e = T) :
    Tr t W 8 (fun i => ∃ j, j < 64 ∧ T j = i) (fun i => ∃ j, j < 64 ∧ T j = i) F := by
  refine tr_of_facts 8 _ F hK (fun e => ?_) (fun e b => ?_) (fun e i ht hW hp => ?_)
    (fun e b i ht hW hp => ?_)
  · exact (bankDecode_spec store (A e) e _ (hstore e) (hF e)).1
  · rw [(bankDecode_spec store (A e) e _ (hstore e) (hF e)).2.1,
      (bankDecode_spec store _ _ _ (hstore (e.withBuffer b)) (hF _)).2.1]
    rfl
  · refine (bankDecode_spec store (A e) e _ (hstore e) (hF e)).2.2.2.2.2.1 i
      (fun j hj h => hp ⟨j, hj, ?_⟩)
    rw [← hT e ht hW]; exact h
  · have s1 := (bankDecode_spec store (A e) e _ (hstore e) (hF e)).2.2.2.2.2
    have s2 := (bankDecode_spec store _ _ _ (hstore (e.withBuffer b)) (hF _)).2.2.2.2.2
    rw [hA] at s2
    refine scattered_agree _ _ _ _ _ _ 64 s1 s2 i ?_
    rw [hT e ht hW]
    exact hp

theorem inTile_horizontal (t W : Int) (i : Int) :
    (∃ j, j < 64 ∧ t + (((j % 8 : Nat) : Int) + ((j / 8 : Nat) : Int) * W) = i) ↔
      InTile t W i := by
  constructor
  · rintro ⟨j, hj, rfl⟩
    exact ⟨j % 8, j / 8, Nat.mod_lt _ (by decide), by omega, rfl⟩
  · rintro ⟨x, y, hx, hy, rfl⟩
    refine ⟨8 * y + x, by omega, ?_⟩
    have e1 : (8 * y + x) % 8 = x := by omega
    have e2 : (8 * y + x) / 8 = y := by omega
    rw [e1, e2]

theorem inTile_vertical (t W : Int) (i : Int) :
    (∃ j, j < 64 ∧ t + (((j / 8 : Nat) : Int) + ((j % 8 : Nat) : Int) * W) = i) ↔
      InTile t W i := by
  constructor
  · rintro ⟨j, hj, rfl⟩
    exact ⟨j / 8, j % 8, by omega, Nat.mod_lt _ (by decide), rfl⟩
  · rintro ⟨x, y, hx, hy, rfl⟩
    refine ⟨8 * x + y, by omega, ?_⟩
    have e1 : (8 * x + y) % 8 = y := by omega
    have e2 : (8 * x + y) / 8 = x := by omega
    rw [e1, e2]

theorem tr_BlockDecodeHorizontal (t W : Int) :
    Tr t W 8 (InTile t W) (InTile t W) BlockDecodeHorizontal :=
  tr_mono (tr_plainDecode storeHorizontal horizontalAddress BlockDecodeHorizontal
      BlockDecodeHorizontal_eq (fun _ => keeps_BlockDecodeHorizontal (keeps_rfl _))
      storesAt_horizontal (fun _ _ => rfl)
      (fun j => t + (((j % 8 : Nat) : Int) + ((j / 8 : Nat) : Int) * W))
      (fun e ht hW => by subst ht hW; rfl))
    (fun i p => (inTile_horizontal t W i).mpr p) (fun i q => (inTile_horizontal t W i).mp q)

theorem tr_BlockDecodeVertical (t W : Int) :
    Tr t W 8 (InTile t W) (InTile t W) BlockDecodeVertical :=
  tr_mono (tr_plainDecode storeVertical verticalAddress BlockDecodeVertical
      BlockDecodeVertical_eq (fun _ => keeps_BlockDecodeVertical (keeps_rfl _))
      storesAt_vertical (fun _ _ => rfl)
      (fun j => t + (((j / 8 : Nat) : Int) + ((j % 8 : Nat) : Int) * W))
      (fun e ht hW => by subst ht hW; rfl))
    (fun i p => (inTile_vertical t W i).mpr p) (fun i q => (inTile_vertical t W i).mp q)

theorem tr_BlockBank1DecodeHorizontal (t W : Int) :
    Tr t W 8 (InTile t W) (InTile t W) BlockBank1DecodeHorizontal :=
  tr_mono (tr_bankDecode storeHorizontal horizontalAddress BlockBank1DecodeHorizontal
      BlockBank1DecodeHorizontal_eq (fun _ => keeps_BlockBank1DecodeHorizontal (keeps_rfl _))
      storesAt_horizontal (fun _ _ => rfl)
      (fun j => t + (((j % 8 : Nat) : Int) + ((j / 8 : Nat) : Int) * W))
      (fun e ht hW => by subst ht hW; rfl))
    (fun i p => (inTile_horizontal t W i).mpr p) (fun i q => (inTile_horizontal t W i).mp q)

theorem tr_BlockBank1DecodeVertical (t W : Int) :
    Tr t W 8 (InTile t W) (InTile t W) BlockBank1DecodeVertical :=
  tr_mono (tr_bankDecode storeVertical verticalAddress BlockBank1DecodeVertical
      BlockBank1DecodeVertical_eq (fun _ => keeps_BlockBank1DecodeVertical (keeps_rfl _))
      storesAt_vertical (fun _ _ => rfl)
      (fun j => t + (((j / 8 : Nat) : Int) + ((j % 8 : Nat) : Int) * W))
      (fun e ht hW => by subst ht hW; rfl))
    (fun i p => (inTile_vertical t W i).mpr p) (fun i q => (inTile_vertical t W i).mp q)

/-- The positions that a block decode along a table of offsets touches. -/
theorem tr_BlockDecode2 (t W : Int) :
    Tr t W 8 (fun i => ∃ j, j < 64 ∧ t + ((g_DiagonalOffsets_1.getD j 0 : Nat) : Int) = i)
      (fun i => ∃ j, j < 64 ∧ t + ((g_DiagonalOffsets_1.getD j 0 : Nat) : Int) = i)
      BlockDecode2 :=
  tr_plainDecode (storeTable g_DiagonalOffsets_1) (tableAddress g_DiagonalOffsets_1)
    BlockDecode2 BlockDecode2_eq (fun _ => keeps_BlockDecode2 (keeps_rfl _))
    (storesAt_table _) (fun _ _ => rfl) _ (fun e ht hW => by subst ht hW; rfl)

theorem tr_BlockDecode3 (t W : Int) :
    Tr t W 8 (fun i => ∃ j, j < 64 ∧ t + ((g_DiagonalOffsets_2.getD j 0 : Nat) : Int) = i)
      (fun i => ∃ j, j < 64 ∧ t + ((g_DiagonalOffsets_2.getD j 0 : Nat) : Int) = i)
      BlockDecode3 :=
  tr_plainDecode (storeTable g_DiagonalOffsets_2) (tableAddress g_DiagonalOffsets_2)
    BlockDecode3 BlockDecode3_eq (fun _ => keeps_BlockDecode3 (keeps_rfl _))
    (storesAt_table _) (fun _ _ => rfl) _ (fun e ht hW => by subst ht hW; rfl)

theorem tr_BlockBank1Decode2 (t W : Int) :
    Tr t W 8 (fun i => ∃ j, j < 64 ∧ t + ((g_DiagonalOffsets_1.getD j 0 : Nat) : Int) = i)
      (fun i => ∃ j, j < 64 ∧ t + ((g_DiagonalOffsets_1.getD j 0 : Nat) : Int) = i)
      BlockBank1Decode2 :=
  tr_bankDecode (storeTable g_DiagonalOffsets_1) (tableAddress g_DiagonalOffsets_1)
    BlockBank1Decode2 BlockBank1Decode2_eq (fun _ => keeps_BlockBank1Decode2 (keeps_rfl _))
    (storesAt_table _) (fun _ _ => rfl) _ (fun e ht hW => by subst ht hW; rfl)

theorem tr_BlockBank1Decode3 (t W : Int) :
    Tr t W 8 (fun i => ∃ j, j < 64 ∧ t + ((g_DiagonalOffsets_2.getD j 0 : Nat) : Int) = i)
      (fun i => ∃ j, j < 64 ∧ t + ((g_DiagonalOffsets_2.getD j 0 : Nat) : Int) = i)
      BlockBank1Decode3 :=
  tr_bankDecode (storeTable g_DiagonalOffsets_2) (tableAddress g_DiagonalOffsets_2)
    BlockBank1Decode3 BlockBank1Decode3_eq (fun _ => keeps_BlockBank1Decode3 (keeps_rfl _))
    (storesAt_table _) (fun _ _ => rfl) _ (fun e ht hW => by subst ht hW; rfl)

/-- Each diagonal table holds the offsets `x + 320 * y` of the 64 pixels of a tile, each
once. -/
theorem diagonal1_covers : ∀ x : Fin 8, ∀ y : Fin 8,
    ∃ j : Fin 64, g_DiagonalOffsets_1.getD j.val 0 = x.val + 320 * y.val := by
  decide

theorem diagonal2_covers : ∀ x : Fin 8, ∀ y : Fin 8,
    ∃ j : Fin 64, g_DiagonalOffsets_2.getD j.val 0 = x.val + 320 * y.val := by
  decide

theorem diagonal1_inside : ∀ j : Fin 64, ∃ x : Fin 8, ∃ y : Fin 8,
    g_DiagonalOffsets_1.getD j.val 0 = x.val + 320 * y.val := by
  decide

theorem diagonal2_inside : ∀ j : Fin 64, ∃ x : Fin 8, ∃ y : Fin 8,
    g_DiagonalOffsets_2.getD j.val 0 = x.val + 320 * y.val := by
  decide

theorem inTile_table (table : List Nat)
    (hc : ∀ x : Fin 8, ∀ y : Fin 8, ∃ j : Fin 64, table.getD j.val 0 = x.val + 320 * y.val)
    (hi : ∀ j : Fin 64, ∃ x : Fin 8, ∃ y : Fin 8, table.getD j.val 0 = x.val + 320 * y.val)
    (t : Int) (i : Int) :
    (∃ j, j < 64 ∧ t + ((table.getD j 0 : Nat) : Int) = i) ↔ InTile t 320 i := by
  constructor
  · rintro ⟨j, hj, rfl⟩
    obtain ⟨x, y, h⟩ := hi ⟨j, hj⟩
    refine ⟨x.val, y.val, x.isLt, y.isLt, ?_⟩
    have h2 : table.getD j 0 = x.val + 320 * y.val := h
    rw [h2]; push_cast; ring
  · rintro ⟨x, y, hx, hy, rfl⟩
    obtain ⟨j, h⟩ := hc ⟨x, hx⟩ ⟨y, hy⟩
    refine ⟨j.val, j.isLt, ?_⟩
    have h2 : table.getD j.val 0 = x + 320 * y := h
    rw [h2]; push_cast; ring

theorem tr_CrossDecode (t W : Int) :
    Tr t W 20
      (fun i => ∃ q r c : Nat, q < 4 ∧ r < 4 ∧ c < 4 ∧
        i = t + quadrantOffset q + ((c : Int) + 320 * (r : Int)))
      (fun i => ∃ q r c : Nat, q < 4 ∧ r < 4 ∧ c < 4 ∧
        i = t + quadrantOffset q + ((c : Int) + 320 * (r : Int)))
      CrossDecode := by
  refine tr_of_facts 20 _ CrossDecode (fun _ => keeps_CrossDecode (keeps_rfl _))
    (fun e => (CrossDecode_spec e).1) (fun e b => ?_) (fun e i ht hW hp => ?_)
    (fun e b i ht hW hp => ?_)
  · rw [(CrossDecode_spec e).2.1, (CrossDecode_spec (e.withBuffer b)).2.1]
    rfl
  · refine (CrossDecode_spec e).2.2.1 i (fun q r c hq hr hc h => hp ⟨q, r, c, hq, hr, hc, ?_⟩)
    rw [← ht]; exact h
  · obtain ⟨q, r, c, hq, hr, hc, rfl⟩ := hp
    subst ht
    rw [(CrossDecode_spec e).2.2.2 q r c hq hr hc]
    exact (CrossDecode_spec (e.withBuffer b)).2.2.2 q r c hq hr hc

theorem inTile_cross (t : Int) (i : Int) :
    (∃ q r c : Nat, q < 4 ∧ r < 4 ∧ c < 4 ∧
      i = t + quadrantOffset q + ((c : Int) + 320 * (r : Int))) ↔ InTile t 320 i := by
  have q0 : quadrantOffset 0 = 0 := rfl
  have q1 : quadrantOffset 1 = 4 := rfl
  have q2 : quadrantOffset 2 = 1280 := rfl
  have q3 : quadrantOffset 3 = 1284 := rfl
  constructor
  · rintro ⟨q, r, c, hq, hr, hc, rfl⟩
    have hq4 : q = 0 ∨ q = 1 ∨ q = 2 ∨ q = 3 := by omega
    rcases hq4 with rfl | rfl | rfl | rfl
    · exact ⟨c, r, by omega, by omega, by rw [q0]; omega⟩
    · exact ⟨c + 4, r, by omega, by omega, by rw [q1]; push_cast; omega⟩
    · exact ⟨c, r + 4, by omega, by omega, by rw [q2]; push_cast; omega⟩
    · exact ⟨c + 4, r + 4, by omega, by omega, by rw [q3]; push_cast; omega⟩
  · rintro ⟨x, y, hx, hy, rfl⟩
    by_cases h1 : x < 4
    · by_cases h2 : y < 4
      · exact ⟨0, y, x, by omega, h2, h1, by rw [q0]; omega⟩
      · exact ⟨2, y - 4, x, by omega, by omega, h1, by rw [q2]; omega⟩
    · by_cases h2 : y < 4
      · exact ⟨1, y, x - 4, by omega, h2, by omega, by rw [q1]; omega⟩
      · exact ⟨3, y - 4, x - 4, by omega, by omega, by omega, by rw [q3]; omega⟩

theorem fourFill_cover (t W : Int) (i : Int) :
    (∃ y : Nat, y < 4 ∧
      ((((t + (y : Int) * W ≤ i ∧ i < t + (y : Int) * W + ((4 : Nat) : Int)) ∨
        (t + (y : Int) * W + 4 ≤ i ∧ i < t + (y : Int) * W + 4 + ((4 : Nat) : Int))) ∨
        (t + ((y : Int) + 4) * W ≤ i ∧ i < t + ((y : Int) + 4) * W + ((4 : Nat) : Int))) ∨
        (t + ((y : Int) + 4) * W + 4 ≤ i ∧
          i < t + ((y : Int) + 4) * W + 4 + ((4 : Nat) : Int)))) ↔ InTile t W i := by
  constructor
  · rintro ⟨y, hy, h⟩
    have e : ((y : Int) + 4) * W = (y : Int) * W + 4 * W := by ring
    have e2 : (((y + 4 : Nat) : Int)) * W = (y : Int) * W + 4 * W := by push_cast; ring
    rcases h with ((h | h) | h) | h
    · exact ⟨(i - (t + (y : Int) * W)).toNat, y, by omega, by omega, by omega⟩
    · exact ⟨(i - (t + (y : Int) * W)).toNat, y, by omega, by omega, by omega⟩
    · exact ⟨(i - (t + ((y : Int) * W + 4 * W))).toNat, y + 4, by omega, by omega, by
        rw [e2]; omega⟩
    · exact ⟨(i - (t + ((y : Int) * W + 4 * W))).toNat, y + 4, by omega, by omega, by
        rw [e2]; omega⟩
  · rintro ⟨x, y, hx, hy, rfl⟩
    by_cases h2 : y < 4
    · refine ⟨y, h2, ?_⟩
      by_cases h1 : x < 4
      · exact Or.inl (Or.inl (Or.inl (by constructor <;> omega)))
      · exact Or.inl (Or.inl (Or.inr (by constructor <;> omega)))
    · refine ⟨y - 4, by omega, ?_⟩
      have e : (((y - 4 : Nat) : Int) + 4) * W = (y : Int) * W := by
        have e1 : ((y - 4 : Nat) : Int) = (y : Int) - 4 := by omega
        rw [e1]; ring
      rw [e]
      by_cases h1 : x < 4
      · exact Or.inl (Or.inr (by constructor <;> omega))
      · exact Or.inr (by constructor <;> omega)

theorem tr_FourColorFillDecode (t W : Int) :
    Tr t W 4 (InTile t W) (InTile t W) FourColorFillDecode := by
  have row : ∀ (c1 c2 c3 c4 y : Nat), y < 4 → Tr t W (0 + 0 + 0 + 0) _ _
      (fun d => (((d.memset (d.m_CurrentTile + (y : Int) * d.m_Width) c1 4).memset
        ((d.memset (d.m_CurrentTile + (y : Int) * d.m_Width) c1 4).m_CurrentTile +
          (y : Int) * (d.memset (d.m_CurrentTile + (y : Int) * d.m_Width) c1 4).m_Width + 4)
        c2 4).memset (d.m_CurrentTile + ((y : Int) + 4) * d.m_Width) c3 4).memset
          (d.m_CurrentTile + ((y : Int) + 4) * d.m_Width + 4) c4 4) :=
    fun c1 c2 c3 c4 y _ => tr_comp (tr_comp (tr_comp
      (tr_blit t W (fun d => d.m_CurrentTile + (y : Int) * d.m_Width) 4 (fun _ _ => c1)
        (t + (y : Int) * W) (fun e ht hW => by subst ht hW; rfl) (fun _ _ => rfl)
        (fun _ _ => rfl))
      (tr_blit t W (fun d => d.m_CurrentTile + (y : Int) * d.m_Width + 4) 4 (fun _ _ => c2)
        (t + (y : Int) * W + 4) (fun e ht hW => by subst ht hW; rfl) (fun _ _ => rfl)
        (fun _ _ => rfl)))
      (tr_blit t W (fun d => d.m_CurrentTile + ((y : Int) + 4) * d.m_Width) 4 (fun _ _ => c3)
        (t + ((y : Int) + 4) * W) (fun e ht hW => by subst ht hW; rfl) (fun _ _ => rfl)
        (fun _ _ => rfl)))
      (tr_blit t W (fun d => d.m_CurrentTile + ((y : Int) + 4) * d.m_Width + 4) 4
        (fun _ _ => c4)
        (t + ((y : Int) + 4) * W + 4) (fun e ht hW => by subst ht hW; rfl) (fun _ _ => rfl)
        (fun _ _ => rfl))
  have c := tr_param
    (fun d => (d.aligned 0, d.aligned 1, d.aligned 2, d.aligned 3)) _ (fun _ _ => rfl)
    (fun cs => tr_comp (tr_cursor 4 (fun d => d.skipAligned 4) (fun _ _ => rfl)
        (fun _ => ⟨rfl, rfl, rfl, rfl⟩))
      (tr_forN 4 (fun _ => 0 + 0 + 0 + 0) _ _ _ (row cs.1 cs.2.1 cs.2.2.1 cs.2.2.2)))
  exact tr_congr (tr_mono c (fun i p => Or.inr ((fourFill_cover t W i).mpr p))
    (fun i q => q.elim False.elim (fun q => (fourFill_cover t W i).mp q))) rfl (fun d => rfl)

/-- A store through a pointer in a loop body with local variables. -/
theorem poke_leaf {τ : Type} (t W : Int) (A : Decoder → Int) (D : Int) (v : Decoder → τ → Nat)
    (nx : Decoder → τ → τ)
    (hA : ∀ e, e.m_CurrentTile = t → e.m_Width = W → A e = D)
    (hAb : ∀ e b, A (e.withBuffer b) = A e)
    (hv : ∀ e b s, v (e.withBuffer b) s = v e s) (hn : ∀ e b s, nx (e.withBuffer b) s = nx e s) :
    TrS t W 0 (fun i => i = D) (fun i => i = D)
      (fun p : Decoder × τ => (p.1.poke (A p.1) (v p.1 p.2), nx p.1 p.2)) := by
  intro e b s ht hW
  have hD := hA e ht hW
  refine ⟨fun i => if i = D then v e s else b i, ?_, ht, hW, rfl, ?_⟩
  · show ((e.withBuffer b).poke (A (e.withBuffer b)) (v (e.withBuffer b) s),
      nx (e.withBuffer b) s) = _
    rw [hAb, hv, hn, hD]
    rfl
  · show Touch _ _ _ _ (e.poke (A e) (v e s)).m_CurrentBuffer.m_Buffer _
    rw [hD]
    exact touch_poke _ _ D (v e s)

/-- A piece of code with local variables that moves the cursors only. -/
theorem trS_cursor {τ : Type} {t W : Int} (k : Nat) (G : Decoder × τ → Decoder × τ)
    (h1 : ∀ e b s, G (e.withBuffer b, s) = ((G (e, s)).1.withBuffer b, (G (e, s)).2))
    (h2 : ∀ e s, (G (e, s)).1.m_CurrentTile = e.m_CurrentTile ∧
      (G (e, s)).1.m_Width = e.m_Width ∧
      (G (e, s)).1.m_AlignedStream = e.m_AlignedStream + k ∧
      (G (e, s)).1.m_CurrentBuffer = e.m_CurrentBuffer) :
    TrS t W k (fun _ => False) (fun _ => False) G := by
  intro e b s ht hW
  obtain ⟨a1, a2, a3, a4⟩ := h2 e s
  refine ⟨b, h1 e b s, a1.trans ht, a2.trans hW, a3, ?_⟩
  rw [a4]
  exact touch_refl _ _

/-- The sixteen stores of one quadrant of a split tile. -/
theorem trS_quadPokes {t W : Int} (a : Nat) (v : Decoder → Nat → Nat) (nx : Nat → Nat)
    (hv : ∀ e b s, v (e.withBuffer b) s = v e s) :
    TrS t W 0
      (fun i => ∃ y : Nat, y < 4 ∧ ∃ x : Nat, x < 4 ∧
        i = t + ((x : Int) + (y : Int) * W + (a : Int)))
      (fun i => ∃ y : Nat, y < 4 ∧ ∃ x : Nat, x < 4 ∧
        i = t + ((x : Int) + (y : Int) * W + (a : Int)))
      (forN 4 (fun y (p : Decoder × Nat) =>
        forN 4 (fun x (p : Decoder × Nat) =>
            (p.1.poke (p.1.m_CurrentTile + ((x : Int) + (y : Int) * p.1.m_Width + (a : Int)))
               (v p.1 p.2), nx p.2)) p)) := by
  have inner : ∀ y : Nat, y < 4 → TrS t W 0
      (fun i => ∃ x : Nat, x < 4 ∧ i = t + ((x : Int) + (y : Int) * W + (a : Int)))
      (fun i => ∃ x : Nat, x < 4 ∧ i = t + ((x : Int) + (y : Int) * W + (a : Int)))
      (fun p => forN 4 (fun x (p : Decoder × Nat) =>
            (p.1.poke (p.1.m_CurrentTile + ((x : Int) + (y : Int) * p.1.m_Width + (a : Int)))
               (v p.1 p.2), nx p.2)) p) := by
    intro y _
    have c := trS_forN 4 (fun _ => 0) _ _ _ (fun x _ =>
      poke_leaf t W
        (fun d => d.m_CurrentTile + ((x : Int) + (y : Int) * d.m_Width + (a : Int)))
        (t + ((x : Int) + (y : Int) * W + (a : Int))) v (fun _ s => nx s)
        (fun e ht hW => by subst ht hW; rfl) (fun _ _ => rfl) hv (fun _ _ _ => rfl))
    rw [sumTo_const] at c
    exact c
  have c := trS_forN 4 (fun _ => 0) _ _ _ inner
  rw [sumTo_const] at c
  exact c

theorem tr_OneBitSplitTileDecode (t W : Int) :
    Tr t W 16 (InSplit t W) (InSplit t W) OneBitSplitTileDecode := by
  have step : ∀ a : Nat, a ∈ g_SplitTileOffsets → Tr t W (2 + 0 + 2)
      (fun i => ∃ y : Nat, y < 4 ∧ ∃ x : Nat, x < 4 ∧
        i = t + ((x : Int) + (y : Int) * W + (a : Int)))
      (fun i => ∃ y : Nat, y < 4 ∧ ∃ x : Nat, x < 4 ∧
        i = t + ((x : Int) + (y : Int) * W + (a : Int)))
      (fun d => ((forN 4 (fun y (p : Decoder × Nat) =>
        forN 4 (fun x (p : Decoder × Nat) =>
            (p.1.poke (p.1.m_CurrentTile + ((x : Int) + (y : Int) * p.1.m_Width + (a : Int)))
               (p.1.aligned (p.2 % 2)), p.2 / 2)) p)
        (d.withAligned (ReadU16 d.mem d.m_AlignedStream).2,
          (ReadU16 d.mem d.m_AlignedStream).1)).1).skipAligned 2) :=
    by
      intro a _
      have q := @trS_quadPokes t W a (fun e s => e.aligned (s % 2)) (fun s => s / 2)
        (fun _ _ _ => rfl)
      beta_reduce at q
      have s1 := tr_of_trS 2 _ (fun d => d.withAligned (ReadU16 d.mem d.m_AlignedStream).2)
        (fun d => (ReadU16 d.mem d.m_AlignedStream).1) q
        (fun _ _ => rfl) (fun _ _ => rfl) (fun _ => ⟨rfl, rfl, rfl, rfl⟩)
      beta_reduce at s1
      have s2 := tr_comp s1 (tr_cursor 2 (fun d => d.skipAligned 2) (fun _ _ => rfl)
        (fun _ => ⟨rfl, rfl, rfl, rfl⟩))
      beta_reduce at s2
      exact tr_mono s2 (fun i p => Or.inl p) (fun i q => q.elim id False.elim)
  have c := tr_foldl (2 + 0 + 2) _ _ _ g_SplitTileOffsets step
  exact tr_congr c rfl (fun d => rfl)

theorem tr_TwoBitSplitTileDecode (t W : Int) :
    Tr t W 32 (InSplit t W) (InSplit t W) TwoBitSplitTileDecode := by
  have step : ∀ a : Nat, a ∈ g_SplitTileOffsets → Tr t W (4 + 0 + 4)
      (fun i => ∃ y : Nat, y < 4 ∧ ∃ x : Nat, x < 4 ∧
        i = t + ((x : Int) + (y : Int) * W + (a : Int)))
      (fun i => ∃ y : Nat, y < 4 ∧ ∃ x : Nat, x < 4 ∧
        i = t + ((x : Int) + (y : Int) * W + (a : Int)))
      (fun d => ((forN 4 (fun y (p : Decoder × Nat) =>
        forN 4 (fun x (p : Decoder × Nat) =>
            (p.1.poke (p.1.m_CurrentTile + ((x : Int) + (y : Int) * p.1.m_Width + (a : Int)))
               (p.1.aligned (p.2 % 4)), p.2 / 4)) p)
        (d.withAligned (ReadU32 d.mem d.m_AlignedStream 4).2,
          (ReadU32 d.mem d.m_AlignedStream 4).1)).1).skipAligned 4) :=
    by
      intro a _
      have q := @trS_quadPokes t W a (fun e s => e.aligned (s % 4)) (fun s => s / 4)
        (fun _ _ _ => rfl)
      beta_reduce at q
      have s1 := tr_of_trS 4 _ (fun d => d.withAligned (ReadU32 d.mem d.m_AlignedStream 4).2)
        (fun d => (ReadU32 d.mem d.m_AlignedStream 4).1) q
        (fun _ _ => rfl) (fun _ _ => rfl) (fun _ => ⟨rfl, rfl, rfl, rfl⟩)
      beta_reduce at s1
      have s2 := tr_comp s1 (tr_cursor 4 (fun d => d.skipAligned 4) (fun _ _ => rfl)
        (fun _ => ⟨rfl, rfl, rfl, rfl⟩))
      beta_reduce at s2
      exact tr_mono s2 (fun i p => Or.inl p) (fun i q => q.elim id False.elim)
  have c := tr_foldl (4 + 0 + 4) _ _ _ g_SplitTileOffsets step
  exact tr_congr c rfl (fun d => rfl)

theorem tr_ThreeBitSplitTileDecode (t W : Int) :
    Tr t W 24 (InSplit t W) (InSplit t W) ThreeBitSplitTileDecode := by
  have reload : ∀ y : Nat, TrS t W (if y % 2 = 0 then 3 else 0) (fun _ => False)
      (fun _ => False)
      (fun p : Decoder × Nat =>
        if y % 2 = 0 then
          (p.1.withAligned (ReadU32 p.1.mem p.1.m_AlignedStream 3).2,
           (ReadU32 p.1.mem p.1.m_AlignedStream 3).1)
        else p) := by
    intro y
    by_cases h : y % 2 = 0
    · simp only [if_pos h]
      exact trS_cursor 3 _ (fun _ _ _ => rfl) (fun _ _ => ⟨rfl, rfl, rfl, rfl⟩)
    · simp only [if_neg h]
      exact trS_cursor 0 _ (fun _ _ _ => rfl) (fun _ _ => ⟨rfl, rfl, rfl, rfl⟩)
  have row : ∀ (a y : Nat), y < 4 → TrS t W ((if y % 2 = 0 then 3 else 0) + 0)
      (fun i => ∃ x : Nat, x < 4 ∧ i = t + ((x : Int) + (y : Int) * W + (a : Int)))
      (fun i => ∃ x : Nat, x < 4 ∧ i = t + ((x : Int) + (y : Int) * W + (a : Int)))
      (fun p : Decoder × Nat =>
        forN 4 (fun x (p : Decoder × Nat) =>
            (p.1.poke (p.1.m_CurrentTile + ((x : Int) + (y : Int) * p.1.m_Width + (a : Int)))
               (p.1.unaligned (p.2 % 8)), p.2 / 8))
          (if y % 2 = 0 then
            (p.1.withAligned (ReadU32 p.1.mem p.1.m_AlignedStream 3).2,
             (ReadU32 p.1.mem p.1.m_AlignedStream 3).1)
          else p)) := by
    intro a y _
    have c := trS_forN 4 (fun _ => 0) _ _ _ (fun x _ =>
      poke_leaf t W
        (fun d => d.m_CurrentTile + ((x : Int) + (y : Int) * d.m_Width + (a : Int)))
        (t + ((x : Int) + (y : Int) * W + (a : Int))) (fun e s => e.unaligned (s % 8))
        (fun _ s => s / 8)
        (fun e ht hW => by subst ht hW; rfl) (fun _ _ => rfl) (fun _ _ _ => rfl)
        (fun _ _ _ => rfl))
    rw [sumTo_const] at c
    have c2 := trS_comp (reload y) c
    beta_reduce at c2
    exact trS_mono c2 (fun i p => Or.inr p) (fun i q => q.elim False.elim id)
  have step : ∀ a : Nat, a ∈ g_SplitTileOffsets → Tr t W (0 + 6 + 0)
      (fun i => ∃ y : Nat, y < 4 ∧ ∃ x : Nat, x < 4 ∧
        i = t + ((x : Int) + (y : Int) * W + (a : Int)))
      (fun i => ∃ y : Nat, y < 4 ∧ ∃ x : Nat, x < 4 ∧
        i = t + ((x : Int) + (y : Int) * W + (a : Int)))
      (fun d => ((forN 4 (fun y (p : Decoder × Nat) =>
        forN 4 (fun x (p : Decoder × Nat) =>
            (p.1.poke (p.1.m_CurrentTile + ((x : Int) + (y : Int) * p.1.m_Width + (a : Int)))
               (p.1.unaligned (p.2 % 8)), p.2 / 8))
          (if y % 2 = 0 then
            (p.1.withAligned (ReadU32 p.1.mem p.1.m_AlignedStream 3).2,
             (ReadU32 p.1.mem p.1.m_AlignedStream 3).1)
          else p))
        (d, 0)).1).skipUnaligned 8) :=
    by
      intro a _
      have q := trS_forN 4 (fun y => (if y % 2 = 0 then 3 else 0) + 0) _ _ _ (row a)
      beta_reduce at q
      have s1 := tr_of_trS 0 _ (fun d => d) (fun _ => 0) q
        (fun _ _ => rfl) (fun _ _ => rfl) (fun _ => ⟨rfl, rfl, rfl, rfl⟩)
      beta_reduce at s1
      have s2 := tr_comp s1 (tr_cursor 0 (fun d => d.skipUnaligned 8) (fun _ _ => rfl)
        (fun _ => ⟨rfl, rfl, rfl, rfl⟩))
      beta_reduce at s2
      exact tr_mono s2 (fun i p => Or.inl p) (fun i q => q.elim id False.elim)
  have c := tr_foldl (0 + 6 + 0) _ _ _ g_SplitTileOffsets step
  exact tr_congr c rfl (fun d => rfl)

theorem inTile_split (t : Int) (i : Int) : InSplit t 320 i ↔ InTile t 320 i := by
  have hl : ∀ a : Nat, a ∈ g_SplitTileOffsets ↔ (a = 0 ∨ a = 4 ∨ a = 1280 ∨ a = 1284) := by
    intro a
    simp [g_SplitTileOffsets]
  constructor
  · rintro ⟨a, ha, y, hy, x, hx, rfl⟩
    rcases (hl a).mp ha with rfl | rfl | rfl | rfl
    · exact ⟨x, y, by omega, by omega, by push_cast; omega⟩
    · exact ⟨x + 4, y, by omega, by omega, by push_cast; omega⟩
    · exact ⟨x, y + 4, by omega, by omega, by push_cast; omega⟩
    · exact ⟨x + 4, y + 4, by omega, by omega, by push_cast; omega⟩
  · rintro ⟨x, y, hx, hy, rfl⟩
    by_cases h1 : x < 4
    · by_cases h2 : y < 4
      · exact ⟨0, (hl 0).mpr (by omega), y, h2, x, h1, by push_cast; omega⟩
      · exact ⟨1280, (hl 1280).mpr (by omega), y - 4, by omega, x, h1, by push_cast; omega⟩
    · by_cases h2 : y < 4
      · exact ⟨4, (hl 4).mpr (by omega), y, h2, x - 4, by omega, by push_cast; omega⟩
      · exact ⟨1284, (hl 1284).mpr (by omega), y - 4, by omega, x - 4, by omega, by
          push_cast; omega⟩

/-! ## The dispatch of one opcode -/

theorem tileStep_general {k : Nat} {F : Decoder → Decoder}
    (h : ∀ t W, Tr t W k (InTile t W) (InTile t W) F) (t W : Int) : TileStep t W k F :=
  ⟨InTile t W, InTile t W, h t W, fun hW i => by subst hW; exact ⟨id, id⟩⟩

theorem tileStep_split {t W : Int} {k : Nat} {F : Decoder → Decoder}
    (h : Tr t W k (InSplit t W) (InSplit t W) F) : TileStep t W k F :=
  ⟨InSplit t W, InSplit t W, h, fun hW i => by
    subst hW; exact ⟨(inTile_split t i).mpr, (inTile_split t i).mp⟩⟩

theorem tileStep_cross {t W : Int} {k : Nat} {F : Decoder → Decoder}
    (h : Tr t W k
      (fun i => ∃ q r c : Nat, q < 4 ∧ r < 4 ∧ c < 4 ∧
        i = t + quadrantOffset q + ((c : Int) + 320 * (r : Int)))
      (fun i => ∃ q r c : Nat, q < 4 ∧ r < 4 ∧ c < 4 ∧
        i = t + quadrantOffset q + ((c : Int) + 320 * (r : Int))) F) : TileStep t W k F :=
  ⟨_, _, h, fun _ i => ⟨(inTile_cross t i).mpr, (inTile_cross t i).mp⟩⟩

theorem tileStep_table {t W : Int} {k : Nat} {F : Decoder → Decoder} (table : List Nat)
    (hc : ∀ x : Fin 8, ∀ y : Fin 8, ∃ j : Fin 64, table.getD j.val 0 = x.val + 320 * y.val)
    (hi : ∀ j : Fin 64, ∃ x : Fin 8, ∃ y : Fin 8, table.getD j.val 0 = x.val + 320 * y.val)
    (h : Tr t W k (fun i => ∃ j, j < 64 ∧ t + ((table.getD j 0 : Nat) : Int) = i)
      (fun i => ∃ j, j < 64 ∧ t + ((table.getD j 0 : Nat) : Int) = i) F) : TileStep t W k F :=
  ⟨_, _, h, fun _ i => ⟨(inTile_table table hc hi t i).mpr, (inTile_table table hc hi t i).mp⟩⟩

/-- A base primitive followed by an overlay. -/
theorem tileStep_overlay {t W : Int} {k1 k2 : Nat} {F U : Decoder → Decoder}
    (h : TileStep t W k1 F) (hU : Tr t W k2 (fun _ => False) (InTile t W) U) :
    TileStep t W (k1 + k2) (fun d => U (F d)) := by
  obtain ⟨P, Q, hF, hPQ⟩ := h
  refine ⟨_, _, tr_comp hF hU, fun hW i => ?_⟩
  obtain ⟨a1, a2⟩ := hPQ hW i
  subst hW
  exact ⟨fun p => Or.inl (a1 p), fun q => q.elim a2 id⟩

theorem tileStep_congr {t W : Int} {k k2 : Nat} {F G : Decoder → Decoder}
    (h : TileStep t W k F) (hk : k = k2) (hF : ∀ d, G d = F d) : TileStep t W k2 G := by
  obtain ⟨P, Q, hF2, hPQ⟩ := h
  exact ⟨P, Q, tr_congr hF2 hk hF, hPQ⟩

/-- Every opcode from 0 to 63 is a tile step that moves the aligned cursor by
`alignedAdvance`. -/
theorem tileStep_dispatch (op : Nat) (hop : op < 64) (t W : Int) :
    TileStep t W (alignedAdvance op) (dispatch op) := by
  interval_cases op
  · exact tileStep_congr (tileStep_general (fun t W => tr_RawTileDecode t W) t W) rfl (fun _ => rfl)
  · exact tileStep_congr (tileStep_general (fun t W => tr_ZeroMotionDecode t W) t W) rfl (fun _ => rfl)
  · exact tileStep_congr (tileStep_overlay (tileStep_general (fun t W => tr_ZeroMotionDecode t W) t W) (tr_Update4 t W)) rfl (fun _ => rfl)
  · exact tileStep_congr (tileStep_overlay (tileStep_general (fun t W => tr_ZeroMotionDecode t W) t W) (tr_Update8 t W)) rfl (fun _ => rfl)
  · exact tileStep_congr (tileStep_overlay (tileStep_general (fun t W => tr_ZeroMotionDecode t W) t W) (tr_Update16 t W)) rfl (fun _ => rfl)
  · exact tileStep_congr (tileStep_general (fun t W => tr_ShortMotion8Decode t W) t W) rfl (fun _ => rfl)
  · exact tileStep_congr (tileStep_overlay (tileStep_general (fun t W => tr_ShortMotion8Decode t W) t W) (tr_Update4 t W)) rfl (fun _ => rfl)
  · exact tileStep_congr (tileStep_overlay (tileStep_general (fun t W => tr_ShortMotion8Decode t W) t W) (tr_Update8 t W)) rfl (fun _ => rfl)
  · exact tileStep_congr (tileStep_overlay (tileStep_general (fun t W => tr_ShortMotion8Decode t W) t W) (tr_Update16 t W)) rfl (fun _ => rfl)
  · exact tileStep_congr (tileStep_general (fun t W => tr_Motion8Decode t W) t W) rfl (fun _ => rfl)
  · exact tileStep_congr (tileStep_overlay (tileStep_general (fun t W => tr_Motion8Decode t W) t W) (tr_Update4 t W)) rfl (fun _ => rfl)
  · exact tileStep_congr (tileStep_overlay (tileStep_general (fun t W => tr_Motion8Decode t W) t W) (tr_Update8 t W)) rfl (fun _ => rfl)
  · exact tileStep_congr (tileStep_overlay (tileStep_general (fun t W => tr_Motion8Decode t W) t W) (tr_Update16 t W)) rfl (fun _ => rfl)
  · exact tileStep_congr (tileStep_general (fun t W => tr_ShortMotion4Decode t W) t W) rfl (fun _ => rfl)
  · exact tileStep_congr (tileStep_overlay (tileStep_general (fun t W => tr_ShortMotion4Decode t W) t W) (tr_Update4 t W)) rfl (fun _ => rfl)
  · exact tileStep_congr (tileStep_overlay (tileStep_general (fun t W => tr_ShortMotion4Decode t W) t W) (tr_Update8 t W)) rfl (fun _ => rfl)
  · exact tileStep_congr (tileStep_overlay (tileStep_general (fun t W => tr_ShortMotion4Decode t W) t W) (tr_Update16 t W)) rfl (fun _ => rfl)
  · exact tileStep_congr (tileStep_general (fun t W => tr_Motion4Decode t W) t W) rfl (fun _ => rfl)
  · exact tileStep_congr (tileStep_overlay (tileStep_general (fun t W => tr_Motion4Decode t W) t W) (tr_Update4 t W)) rfl (fun _ => rfl)
  · exact tileStep_congr (tileStep_overlay (tileStep_general (fun t W => tr_Motion4Decode t W) t W) (tr_Update8 t W)) rfl (fun _ => rfl)
  · exact tileStep_congr (tileStep_overlay (tileStep_general (fun t W => tr_Motion4Decode t W) t W) (tr_Update16 t W)) rfl (fun _ => rfl)
  · exact tileStep_congr (tileStep_general (fun t W => tr_SingleColorFillDecode t W) t W) rfl (fun _ => rfl)
  · exact tileStep_congr (tileStep_overlay (tileStep_general (fun t W => tr_SingleColorFillDecode t W) t W) (tr_Update4 t W)) rfl (fun _ => rfl)
  · exact tileStep_congr (tileStep_overlay (tileStep_general (fun t W => tr_SingleColorFillDecode t W) t W) (tr_Update8 t W)) rfl (fun _ => rfl)
  · exact tileStep_congr (tileStep_overlay (tileStep_general (fun t W => tr_SingleColorFillDecode t W) t W) (tr_Update16 t W)) rfl (fun _ => rfl)
  · exact tileStep_congr (tileStep_general (fun t W => tr_FourColorFillDecode t W) t W) rfl (fun _ => rfl)
  · exact tileStep_congr (tileStep_overlay (tileStep_general (fun t W => tr_FourColorFillDecode t W) t W) (tr_Update4 t W)) rfl (fun _ => rfl)
  · exact tileStep_congr (tileStep_overlay (tileStep_general (fun t W => tr_FourColorFillDecode t W) t W) (tr_Update8 t W)) rfl (fun _ => rfl)
  · exact tileStep_congr (tileStep_overlay (tileStep_general (fun t W => tr_FourColorFillDecode t W) t W) (tr_Update16 t W)) rfl (fun _ => rfl)
  · exact tileStep_congr (tileStep_general (fun t W => tr_OneBitTileDecode t W) t W) rfl (fun _ => rfl)
  · exact tileStep_congr (tileStep_general (fun t W => tr_TwoBitTileDecode t W) t W) rfl (fun _ => rfl)
  · exact tileStep_congr (tileStep_general (fun t W => tr_ThreeBitTileDecode t W) t W) rfl (fun _ => rfl)
  · exact tileStep_congr (tileStep_general (fun t W => tr_FourBitTileDecode t W) t W) rfl (fun _ => rfl)
  · exact tileStep_congr (tileStep_split (tr_OneBitSplitTileDecode t W)) rfl (fun _ => rfl)
  · exact tileStep_congr (tileStep_split (tr_TwoBitSplitTileDecode t W)) rfl (fun _ => rfl)
  · exact tileStep_congr (tileStep_split (tr_ThreeBitSplitTileDecode t W)) rfl (fun _ => rfl)
  · exact tileStep_congr (tileStep_cross (tr_CrossDecode t W)) rfl (fun _ => rfl)
  · exact tileStep_congr (tileStep_general (fun t W => tr_PrimeDecode t W) t W) rfl (fun _ => rfl)
  · exact tileStep_congr (tileStep_general (fun t W => tr_OneBankTileDecode t W) t W) rfl (fun _ => rfl)
  · exact tileStep_congr (tileStep_general (fun t W => tr_TwoBanksTileDecode t W) t W) rfl (fun _ => rfl)
  · exact tileStep_congr (tileStep_general (fun t W => tr_BlockDecodeHorizontal t W) t W) rfl (fun _ => rfl)
  · exact tileStep_congr (tileStep_general (fun t W => tr_BlockDecodeVertical t W) t W) rfl (fun _ => rfl)
  · exact tileStep_congr (tileStep_table g_DiagonalOffsets_1 diagonal1_covers diagonal1_inside (tr_BlockDecode2 t W)) rfl (fun _ => rfl)
  · exact tileStep_congr (tileStep_table g_DiagonalOffsets_2 diagonal2_covers diagonal2_inside (tr_BlockDecode3 t W)) rfl (fun _ => rfl)
  · exact tileStep_congr (tileStep_general (fun t W => tr_BlockBank1DecodeHorizontal t W) t W) rfl (fun _ => rfl)
  · exact tileStep_congr (tileStep_general (fun t W => tr_BlockBank1DecodeVertical t W) t W) rfl (fun _ => rfl)
  · exact tileStep_congr (tileStep_table g_DiagonalOffsets_1 diagonal1_covers diagonal1_inside (tr_BlockBank1Decode2 t W)) rfl (fun _ => rfl)
  · exact tileStep_congr (tileStep_table g_DiagonalOffsets_2 diagonal2_covers diagonal2_inside (tr_BlockBank1Decode3 t W)) rfl (fun _ => rfl)
  · exact tileStep_congr (tileStep_general (fun t W => tr_ROMotion8Decode t W) t W) rfl (fun _ => rfl)
  · exact tileStep_congr (tileStep_overlay (tileStep_general (fun t W => tr_ROMotion8Decode t W) t W) (tr_Update4 t W)) rfl (fun _ => rfl)
  · exact tileStep_congr (tileStep_overlay (tileStep_general (fun t W => tr_ROMotion8Decode t W) t W) (tr_Update8 t W)) rfl (fun _ => rfl)
  · exact tileStep_congr (tileStep_overlay (tileStep_general (fun t W => tr_ROMotion8Decode t W) t W) (tr_Update16 t W)) rfl (fun _ => rfl)
  · exact tileStep_congr (tileStep_general (fun t W => tr_RCMotion8Decode t W) t W) rfl (fun _ => rfl)
  · exact tileStep_congr (tileStep_overlay (tileStep_general (fun t W => tr_RCMotion8Decode t W) t W) (tr_Update4 t W)) rfl (fun _ => rfl)
  · exact tileStep_congr (tileStep_overlay (tileStep_general (fun t W => tr_RCMotion8Decode t W) t W) (tr_Update8 t W)) rfl (fun _ => rfl)
  · exact tileStep_congr (tileStep_overlay (tileStep_general (fun t W => tr_RCMotion8Decode t W) t W) (tr_Update16 t W)) rfl (fun _ => rfl)
  · exact tileStep_congr (tileStep_general (fun t W => tr_ROMotion4Decode t W) t W) rfl (fun _ => rfl)
  · exact tileStep_congr (tileStep_overlay (tileStep_general (fun t W => tr_ROMotion4Decode t W) t W) (tr_Update4 t W)) rfl (fun _ => rfl)
  · exact tileStep_congr (tileStep_overlay (tileStep_general (fun t W => tr_ROMotion4Decode t W) t W) (tr_Update8 t W)) rfl (fun _ => rfl)
  · exact tileStep_congr (tileStep_overlay (tileStep_general (fun t W => tr_ROMotion4Decode t W) t W) (tr_Update16 t W)) rfl (fun _ => rfl)
  · exact tileStep_congr (tileStep_general (fun t W => tr_RCMotion4Decode t W) t W) rfl (fun _ => rfl)
  · exact tileStep_congr (tileStep_overlay (tileStep_general (fun t W => tr_RCMotion4Decode t W) t W) (tr_Update4 t W)) rfl (fun _ => rfl)
  · exact tileStep_congr (tileStep_overlay (tileStep_general (fun t W => tr_RCMotion4Decode t W) t W) (tr_Update8 t W)) rfl (fun _ => rfl)
  · exact tileStep_congr (tileStep_overlay (tileStep_general (fun t W => tr_RCMotion4Decode t W) t W) (tr_Update16 t W)) rfl (fun _ => rfl)

/-! ## The aligned cursor modulo 4 -/

theorem dispatch_aligned (op : Nat) (hop : op < 64) (d : Decoder) :
    (dispatch op d).m_AlignedStream = d.m_AlignedStream + alignedAdvance op := by
  obtain ⟨P, Q, h, -⟩ := tileStep_dispatch op hop d.m_CurrentTile d.m_Width
  obtain ⟨b2, -, -, -, h4, -⟩ := h d d.m_CurrentBuffer.m_Buffer rfl rfl
  exact h4

theorem alignedAdvance_mod : ∀ op : Fin 64, alignedAdvance op.val % 4 = 0 := by
  decide

theorem fetched_lt (s : FrameLoop) : (fetched s % 64).toNat < 64 := by
  have h1 := Int.emod_nonneg (fetched s) (by decide : (64 : Int) ≠ 0)
  have h2 := Int.emod_lt_of_pos (fetched s) (by decide : (0 : Int) < 64)
  omega

theorem tileStep_aligned_mod (s : FrameLoop) :
    (tileStep s).dec.m_AlignedStream % 4 = s.dec.m_AlignedStream % 4 := by
  rw [tileStep_dec]
  show (dispatch _ s.dec).m_AlignedStream % 4 = _
  rw [dispatch_aligned _ (fetched_lt s)]
  have h := alignedAdvance_mod ⟨_, fetched_lt s⟩
  have h2 : alignedAdvance (fetched s % 64).toNat % 4 = 0 := h
  omega

theorem iterate_aligned_mod (f : FrameLoop → FrameLoop)
    (hf : ∀ s, (f s).dec.m_AlignedStream % 4 = s.dec.m_AlignedStream % 4) (n : Nat)
    (s : FrameLoop) : (f^[n] s).dec.m_AlignedStream % 4 = s.dec.m_AlignedStream % 4 := by
  induction n with
  | zero => rfl
  | succ n ih => rw [Function.iterate_succ_apply', hf, ih]

theorem rowStep_aligned_mod (s : FrameLoop) :
    (rowStep s).dec.m_AlignedStream % 4 = s.dec.m_AlignedStream % 4 :=
  iterate_aligned_mod tileStep tileStep_aligned_mod _ s

theorem frameLoop_aligned_mod (d : Decoder) :
    (frameLoop d).dec.m_AlignedStream % 4 = (frameStart d).dec.m_AlignedStream % 4 :=
  iterate_aligned_mod rowStep rowStep_aligned_mod _ _

theorem TwoBanksTileDecodeLoads_fst (d : Decoder) :
    (TwoBanksTileDecodeLoads d).1 = TwoBanksTileDecode d := by
  unfold TwoBanksTileDecodeLoads TwoBanksTileDecode
  exact forN_rel (fun (s : Decoder × List Nat) (e : Decoder) => s.1 = e) _ _
    (fun y s e h => by subst h; rfl) _ _ rfl 8

theorem ThreeBitTileDecodeLoads_fst (d : Decoder) :
    (ThreeBitTileDecodeLoads d).1 = ThreeBitTileDecode d := by
  unfold ThreeBitTileDecodeLoads ThreeBitTileDecode
  have h := forN_rel (fun (s : Decoder × List Nat) (e : Decoder) => s.1 = e)
    (fun y (s : Decoder × List Nat) =>
      ((forN 8 (fun x (p : Decoder × Nat) =>
        (p.1.SetPixel x y (p.1.unaligned (p.2 % 8)), p.2 / 8))
      (s.1.withAligned (ReadU32 s.1.mem s.1.m_AlignedStream 3).2,
        (ReadU32 s.1.mem s.1.m_AlignedStream 3).1)).1, s.2 ++ [s.1.m_AlignedStream]))
    (fun y d =>
      (forN 8 (fun x (p : Decoder × Nat) =>
        (p.1.SetPixel x y (p.1.unaligned (p.2 % 8)), p.2 / 8))
      (d.withAligned (ReadU32 d.mem d.m_AlignedStream 3).2,
        (ReadU32 d.mem d.m_AlignedStream 3).1)).1)
    (fun y s e h => by subst h; rfl) (d, []) d rfl 8
  exact congrArg (fun e : Decoder => e.skipUnaligned 8) h

/-- C29 (counterexample): on `tileSample` the aligned cursor is 4-byte aligned (address 76) at
the start of the tile, and `TwoBanksTileDecode` loads 32-bit words at the addresses 76, 80, 81,
85, 86, ...: the second row loads at 81 and 85, which are not multiples of 4.
`ThreeBitTileDecode` loads at 76, 79, 82, ... -/
theorem C29_unaligned_loads_counterexample :
    tileSample.m_AlignedStream = 76 ∧ tileSample.m_AlignedStream % 4 = 0 ∧
    (TwoBanksTileDecodeLoads tileSample).2 =
      [76, 80, 81, 85, 86, 90, 91, 95, 96, 100, 101, 105, 106, 110, 111, 115] ∧
    (∃ a, a ∈ (TwoBanksTileDecodeLoads tileSample).2 ∧ a % 4 ≠ 0) ∧
    (ThreeBitTileDecodeLoads tileSample).2 = [76, 79, 82, 85, 88, 91, 94, 97] ∧
    (∃ a, a ∈ (ThreeBitTileDecodeLoads tileSample).2 ∧ a % 4 ≠ 0) := by
  refine ⟨by decide, by decide, by decide, ⟨81, by decide, by decide⟩, by decide,
    ⟨79, by decide, by decide⟩⟩

theorem pixelRow_aligned {τ : Type} (y : Nat) (v : Decoder → τ → Nat) (nx : Decoder → τ → τ)
    (hv : ∀ e b s, v (e.withBuffer b) s = v e s) (hn : ∀ e b s, nx (e.withBuffer b) s = nx e s)
    (e : Decoder) (s : τ) :
    (forN 8 (fun x (p : Decoder × τ) => (p.1.SetPixel x y (v p.1 p.2), nx p.1 p.2))
      (e, s)).1.m_AlignedStream = e.m_AlignedStream := by
  obtain ⟨b2, -, -, -, h, -⟩ := trS_pixels y _
    (fun x _ => pixel_leaf e.m_CurrentTile e.m_Width x y v nx hv hn) e
    e.m_CurrentBuffer.m_Buffer s rfl rfl
  exact h

theorem flatMap_range_succ (f : Nat → List Nat) (n : Nat) :
    (List.range (n + 1)).flatMap f = (List.range n).flatMap f ++ f n := by
  rw [List.range_succ, List.flatMap_append]
  simp

/-- The 32-bit loads of `TwoBanksTileDecode`: at `cursor + 5 * y` and `cursor + 5 * y + 4` for
the rows `y` = 0 to 7. -/
theorem TwoBanksTileDecodeLoads_snd (d : Decoder) :
    (TwoBanksTileDecodeLoads d).2 =
      (List.range 8).flatMap
        (fun y => [d.m_AlignedStream + 5 * y, d.m_AlignedStream + 5 * y + 4]) := by
  unfold TwoBanksTileDecodeLoads
  lift_lets
  intro bank0 bank1 d1
  refine (forN_induct
    (fun y (s : Decoder × List Nat) => s.1.m_AlignedStream = d.m_AlignedStream + 5 * y ∧
      s.2 = (List.range y).flatMap
        (fun y => [d.m_AlignedStream + 5 * y, d.m_AlignedStream + 5 * y + 4]))
    _ 8 _ ⟨rfl, rfl⟩ (fun y s _ h => ?_)).2
  obtain ⟨h1, h2⟩ := h
  have a := pixelRow_aligned y
    (fun (_ : Decoder) (s : Nat × Nat) =>
      ((if (s.1 &&& 16) / 16 = 0 then bank0 else bank1) + s.1 % 16) % 256)
    (fun _ s => ((s.1 / 32) ||| ((s.2 * 134217728) % 4294967296), s.2 / 32))
    (fun _ _ _ => rfl) (fun _ _ _ => rfl) (s.1.skipAligned 5)
    (u32 s.1.mem s.1.m_AlignedStream, u32 s.1.mem (s.1.m_AlignedStream + 4))
  have a2 : (s.1.skipAligned 5).m_AlignedStream = s.1.m_AlignedStream + 5 := rfl
  dsimp only
  refine ⟨?_, ?_⟩
  · have e : d.m_AlignedStream + 5 * (y + 1) = d.m_AlignedStream + 5 * y + 5 := by ring
    rw [e, a, a2, h1]
  · rw [flatMap_range_succ, h1, h2]

/-- The 32-bit loads of `ThreeBitTileDecode`: at `cursor + 3 * y` for the rows `y` = 0 to 7. -/
theorem ThreeBitTileDecodeLoads_snd (d : Decoder) :
    (ThreeBitTileDecodeLoads d).2 =
      (List.range 8).flatMap (fun y => [d.m_AlignedStream + 3 * y]) := by
  unfold ThreeBitTileDecodeLoads
  lift_lets
  intro s0
  show s0.2 = _
  refine (forN_induct
    (fun y (s : Decoder × List Nat) => s.1.m_AlignedStream = d.m_AlignedStream + 3 * y ∧
      s.2 = (List.range y).flatMap (fun y => [d.m_AlignedStream + 3 * y]))
    _ 8 _ ⟨rfl, rfl⟩ (fun y s _ h => ?_)).2
  obtain ⟨h1, h2⟩ := h
  have a := pixelRow_aligned y (fun (e : Decoder) (s : Nat) => e.unaligned (s % 8))
    (fun _ s => s / 8) (fun _ _ _ => rfl) (fun _ _ _ => rfl)
    (s.1.withAligned (ReadU32 s.1.mem s.1.m_AlignedStream 3).2)
    (ReadU32 s.1.mem s.1.m_AlignedStream 3).1
  have a2 : (s.1.withAligned (ReadU32 s.1.mem s.1.m_AlignedStream 3).2).m_AlignedStream =
      s.1.m_AlignedStream + 3 := rfl
  dsimp only
  refine ⟨?_, ?_⟩
  · have e : d.m_AlignedStream + 3 * (y + 1) = d.m_AlignedStream + 3 * y + 3 := by ring
    rw [e, a, a2, h1]
  · rw [flatMap_range_succ, h1, h2]

/-- C29 (amended): for every opcode 0..63 and every input the dispatched base primitive plus its
overlay moves the aligned cursor by `alignedAdvance op`, a multiple of 4 (Raw 64, TwoBit 20,
ThreeBit 24, Cross 20, TwoBanks 40, ShortMotion4 4, ZeroMotion 0, ZeroMotion with Update4 4,
with Update16 8), so the aligned cursor keeps its residue modulo 4 over every tile, every row of
tiles and the whole frame.  Inside a tile the 32-bit loads are not all at multiples of 4 from the
cursor: `TwoBanksTileDecode` loads at `cursor + 5 * y` and `cursor + 5 * y + 4` and
`ThreeBitTileDecode` at `cursor + 3 * y`, for `y` = 0 to 7. -/
theorem C29_aligned_cursor_residue_kept :
    (∀ op, op < 64 → ∀ d : Decoder,
      (dispatch op d).m_AlignedStream = d.m_AlignedStream + alignedAdvance op) ∧
    (∀ op, op < 64 → alignedAdvance op % 4 = 0) ∧
    (alignedAdvance 0 = 64 ∧ alignedAdvance 30 = 20 ∧ alignedAdvance 31 = 24 ∧
      alignedAdvance 36 = 20 ∧ alignedAdvance 39 = 40 ∧ alignedAdvance 13 = 4 ∧
      alignedAdvance 1 = 0 ∧ alignedAdvance 2 = 4 ∧ alignedAdvance 4 = 8) ∧
    (∀ d : Decoder, (Update4 d).m_AlignedStream = d.m_AlignedStream + 4 ∧
      (Update8 d).m_AlignedStream = d.m_AlignedStream + 8 ∧
      (Update16 d).m_AlignedStream = d.m_AlignedStream + 8) ∧
    (∀ s : FrameLoop, (tileStep s).dec.m_AlignedStream % 4 = s.dec.m_AlignedStream % 4) ∧
    (∀ s : FrameLoop, (rowStep s).dec.m_AlignedStream % 4 = s.dec.m_AlignedStream % 4) ∧
    (∀ d : Decoder,
      (frameLoop d).dec.m_AlignedStream % 4 = (frameStart d).dec.m_AlignedStream % 4) ∧
    (∀ d : Decoder, (TwoBanksTileDecodeLoads d).1 = TwoBanksTileDecode d ∧
      (TwoBanksTileDecodeLoads d).2 = (List.range 8).flatMap
        (fun y => [d.m_AlignedStream + 5 * y, d.m_AlignedStream + 5 * y + 4])) ∧
    (∀ d : Decoder, (ThreeBitTileDecodeLoads d).1 = ThreeBitTileDecode d ∧
      (ThreeBitTileDecodeLoads d).2 =
        (List.range 8).flatMap (fun y => [d.m_AlignedStream + 3 * y])) := by
  refine ⟨dispatch_aligned, fun op hop => alignedAdvance_mod ⟨op, hop⟩, by decide,
    fun d => ⟨?_, ?_, ?_⟩, tileStep_aligned_mod, rowStep_aligned_mod, frameLoop_aligned_mod,
    fun d => ⟨TwoBanksTileDecodeLoads_fst d, TwoBanksTileDecodeLoads_snd d⟩,
    fun d => ⟨ThreeBitTileDecodeLoads_fst d, ThreeBitTileDecodeLoads_snd d⟩⟩
  · obtain ⟨b2, -, -, -, h, -⟩ := tr_Update4 d.m_CurrentTile d.m_Width d
      d.m_CurrentBuffer.m_Buffer rfl rfl
    exact h
  · obtain ⟨b2, -, -, -, h, -⟩ := tr_Update8 d.m_CurrentTile d.m_Width d
      d.m_CurrentBuffer.m_Buffer rfl rfl
    exact h
  · obtain ⟨b2, -, -, -, h, -⟩ := tr_Update16 d.m_CurrentTile d.m_Width d
      d.m_CurrentBuffer.m_Buffer rfl rfl
    exact h

/-! ## Two runs of a frame -/

theorem took_rfl (d : Decoder) : Took 0 d d := Nat.le_refl _

theorem took_mono {a b : Nat} {d e : Decoder} (h : Took a d e) (hb : b ≤ a) : Took b d e := by
  unfold Took at *
  omega

theorem took_keeps {k : Nat} {d e f : Decoder} (h : Took k d e) (hk : Keeps e f) :
    Took k d f := by
  have := hk.unaligned
  unfold Took at *
  omega

theorem took_poke {k : Nat} {d e : Decoder} (a : Int) (v : Nat) (h : Took k d e) :
    Took k d (e.poke a v) := h

theorem took_memset {k : Nat} {d e : Decoder} (a : Int) (c n : Nat) (h : Took k d e) :
    Took k d (e.memset a c n) := h

theorem took_SetPixel {k : Nat} {d e : Decoder} (x y c : Nat) (h : Took k d e) :
    Took k d (e.SetPixel x y c) := h

theorem took_skipAligned {k : Nat} {d e : Decoder} (n : Nat) (h : Took k d e) :
    Took k d (e.skipAligned n) := h

theorem took_withAligned {k : Nat} {d e : Decoder} (n : Nat) (h : Took k d e) :
    Took k d (e.withAligned n) := h

theorem took_skipUnaligned {k : Nat} {d e : Decoder} (n : Nat) (h : Took k d e) :
    Took (k + n) d (e.skipUnaligned n) := by
  unfold Took at *
  show _ ≤ e.m_UnAlignedStream + n
  omega

theorem took_ReadS16 {k : Nat} {d e : Decoder} (h : Took k d e) :
    Took (k + 2) d (e.withUnAligned (ReadS16 e.mem e.m_UnAlignedStream).2) := by
  unfold Took at *
  show _ ≤ e.m_UnAlignedStream + 2
  omega

theorem took_ReadXYOffset {k : Nat} {d e : Decoder} (w : Int) (h : Took k d e) :
    Took (k + 2) d (e.withUnAligned (ReadXYOffset e.mem e.m_UnAlignedStream w).2) := by
  unfold Took at *
  show _ ≤ e.m_UnAlignedStream + 2
  omega

theorem took_BlockCopy8x8 {k : Nat} {d e : Decoder} (a b : Int) (h : Took k d e) :
    Took k d (BlockCopy8x8 e a b) :=
  took_keeps h (keeps_BlockCopy8x8 a b (keeps_rfl e))

theorem took_forN {k : Nat} {d : Decoder} (n : Nat) (f : Nat → Decoder → Decoder)
    (hf : ∀ i e, Took k d e → Took k d (f i e)) {e : Decoder} (h : Took k d e) :
    Took k d (forN n f e) := by
  induction n with
  | zero => exact h
  | succ n ih => exact hf n _ ih

theorem took_forN_fst {τ : Type} {k : Nat} {d : Decoder} (n : Nat)
    (f : Nat → Decoder × τ → Decoder × τ)
    (hf : ∀ i p, Took k d p.1 → Took k d (f i p).1) {p : Decoder × τ} (h : Took k d p.1) :
    Took k d (forN n f p).1 := by
  induction n with
  | zero => exact h
  | succ n ih => exact hf n _ ih

theorem took_ShortMotion8Decode {j : Nat} {d e : Decoder} (h : Took j d e) :
    Took (j + 1) d (ShortMotion8Decode e) := by
  unfold ShortMotion8Decode
  repeat (first
    | with_reducible exact h
    | with_reducible assumption
    | intro _ _ _
    | with_reducible apply took_forN
    | with_reducible apply took_forN_fst
    | with_reducible apply took_skipAligned
    | with_reducible apply took_withAligned
    | with_reducible apply took_SetPixel
    | with_reducible apply took_poke
    | with_reducible apply took_memset
    | with_reducible apply took_BlockCopy8x8
    | with_reducible apply took_skipUnaligned
    | with_reducible apply took_ReadS16
    | with_reducible apply took_ReadXYOffset)

theorem took_Motion8Decode {j : Nat} {d e : Decoder} (h : Took j d e) :
    Took (j + 2) d (Motion8Decode e) := by
  unfold Motion8Decode
  repeat (first
    | with_reducible exact h
    | with_reducible assumption
    | intro _ _ _
    | with_reducible apply took_forN
    | with_reducible apply took_forN_fst
    | with_reducible apply took_skipAligned
    | with_reducible apply took_withAligned
    | with_reducible apply took_SetPixel
    | with_reducible apply took_poke
    | with_reducible apply took_memset
    | with_reducible apply took_BlockCopy8x8
    | with_reducible apply took_skipUnaligned
    | with_reducible apply took_ReadS16
    | with_reducible apply took_ReadXYOffset)

theorem took_SingleColorFillDecode {j : Nat} {d e : Decoder} (h : Took j d e) :
    Took (j + 1) d (SingleColorFillDecode e) := by
  unfold SingleColorFillDecode
  repeat (first
    | with_reducible exact h
    | with_reducible assumption
    | intro _ _ _
    | with_reducible apply took_forN
    | with_reducible apply took_forN_fst
    | with_reducible apply took_skipAligned
    | with_reducible apply took_withAligned
    | with_reducible apply took_SetPixel
    | with_reducible apply took_poke
    | with_reducible apply took_memset
    | with_reducible apply took_BlockCopy8x8
    | with_reducible apply took_skipUnaligned
    | with_reducible apply took_ReadS16
    | with_reducible apply took_ReadXYOffset)

theorem took_OneBitTileDecode {j : Nat} {d e : Decoder} (h : Took j d e) :
    Took (j + 2) d (OneBitTileDecode e) := by
  unfold OneBitTileDecode
  repeat (first
    | with_reducible exact h
    | with_reducible assumption
    | intro _ _ _
    | with_reducible apply took_forN
    | with_reducible apply took_forN_fst
    | with_reducible apply took_skipAligned
    | with_reducible apply took_withAligned
    | with_reducible apply took_SetPixel
    | with_reducible apply took_poke
    | with_reducible apply took_memset
    | with_reducible apply took_BlockCopy8x8
    | with_reducible apply took_skipUnaligned
    | with_reducible apply took_ReadS16
    | with_reducible apply took_ReadXYOffset)

theorem took_ThreeBitTileDecode {j : Nat} {d e : Decoder} (h : Took j d e) :
    Took (j + 8) d (ThreeBitTileDecode e) := by
  unfold ThreeBitTileDecode
  repeat (first
    | with_reducible exact h
    | with_reducible assumption
    | intro _ _ _
    | with_reducible apply took_forN
    | with_reducible apply took_forN_fst
    | with_reducible apply took_skipAligned
    | with_reducible apply took_withAligned
    | with_reducible apply took_SetPixel
    | with_reducible apply took_poke
    | with_reducible apply took_memset
    | with_reducible apply took_BlockCopy8x8
    | with_reducible apply took_skipUnaligned
    | with_reducible apply took_ReadS16
    | with_reducible apply took_ReadXYOffset)

theorem took_FourBitTileDecode {j : Nat} {d e : Decoder} (h : Took j d e) :
    Took (j + 16) d (FourBitTileDecode e) := by
  unfold FourBitTileDecode
  repeat (first
    | with_reducible exact h
    | with_reducible assumption
    | intro _ _ _
    | with_reducible apply took_forN
    | with_reducible apply took_forN_fst
    | with_reducible apply took_skipAligned
    | with_reducible apply took_withAligned
    | with_reducible apply took_SetPixel
    | with_reducible apply took_poke
    | with_reducible apply took_memset
    | with_reducible apply took_BlockCopy8x8
    | with_reducible apply took_skipUnaligned
    | with_reducible apply took_ReadS16
    | with_reducible apply took_ReadXYOffset)

theorem took_PrimeDecode {j : Nat} {d e : Decoder} (h : Took j d e) :
    Took (j + 1) d (PrimeDecode e) := by
  unfold PrimeDecode
  repeat (first
    | with_reducible exact h
    | with_reducible assumption
    | intro _ _ _
    | with_reducible apply took_forN
    | with_reducible apply took_forN_fst
    | with_reducible apply took_skipAligned
    | with_reducible apply took_withAligned
    | with_reducible apply took_SetPixel
    | with_reducible apply took_poke
    | with_reducible apply took_memset
    | with_reducible apply took_BlockCopy8x8
    | with_reducible apply took_skipUnaligned
    | with_reducible apply took_ReadS16
    | with_reducible apply took_ReadXYOffset
    | exact took_mono (by assumption) (Nat.le_succ _)
    | split)

theorem took_OneBankTileDecode {j : Nat} {d e : Decoder} (h : Took j d e) :
    Took (j + 1) d (OneBankTileDecode e) := by
  unfold OneBankTileDecode
  repeat (first
    | with_reducible exact h
    | with_reducible assumption
    | intro _ _ _
    | with_reducible apply took_forN
    | with_reducible apply took_forN_fst
    | with_reducible apply took_skipAligned
    | with_reducible apply took_withAligned
    | with_reducible apply took_SetPixel
    | with_reducible apply took_poke
    | with_reducible apply took_memset
    | with_reducible apply took_BlockCopy8x8
    | with_reducible apply took_skipUnaligned
    | with_reducible apply took_ReadS16
    | with_reducible apply took_ReadXYOffset
    | split)

theorem took_TwoBanksTileDecode {j : Nat} {d e : Decoder} (h : Took j d e) :
    Took (j + 1) d (TwoBanksTileDecode e) := by
  unfold TwoBanksTileDecode
  repeat (first
    | with_reducible exact h
    | with_reducible assumption
    | intro _ _ _
    | with_reducible apply took_forN
    | with_reducible apply took_forN_fst
    | with_reducible apply took_skipAligned
    | with_reducible apply took_withAligned
    | with_reducible apply took_SetPixel
    | with_reducible apply took_poke
    | with_reducible apply took_memset
    | with_reducible apply took_BlockCopy8x8
    | with_reducible apply took_skipUnaligned
    | with_reducible apply took_ReadS16
    | with_reducible apply took_ReadXYOffset)

theorem took_ROMotion8Decode {j : Nat} {d e : Decoder} (h : Took j d e) :
    Took (j + 2) d (ROMotion8Decode e) := by
  unfold ROMotion8Decode
  repeat (first
    | with_reducible exact h
    | with_reducible assumption
    | intro _ _ _
    | with_reducible apply took_forN
    | with_reducible apply took_forN_fst
    | with_reducible apply took_skipAligned
    | with_reducible apply took_withAligned
    | with_reducible apply took_SetPixel
    | with_reducible apply took_poke
    | with_reducible apply took_memset
    | with_reducible apply took_BlockCopy8x8
    | with_reducible apply took_skipUnaligned
    | with_reducible apply took_ReadS16
    | with_reducible apply took_ReadXYOffset)

theorem took_RCMotion8Decode {j : Nat} {d e : Decoder} (h : Took j d e) :
    Took (j + 2) d (RCMotion8Decode e) := by
  unfold RCMotion8Decode
  repeat (first
    | with_reducible exact h
    | with_reducible assumption
    | intro _ _ _
    | with_reducible apply took_forN
    | with_reducible apply took_forN_fst
    | with_reducible apply took_skipAligned
    | with_reducible apply took_withAligned
    | with_reducible apply took_SetPixel
    | with_reducible apply took_poke
    | with_reducible apply took_memset
    | with_reducible apply took_BlockCopy8x8
    | with_reducible apply took_skipUnaligned
    | with_reducible apply took_ReadS16
    | with_reducible apply took_ReadXYOffset)

theorem took_foldl {α : Type} (c : Nat) {d : Decoder} (l : List α)
    (f : Decoder → α → Decoder)
    (hf : ∀ (i : Nat) (a : Decoder) (x : α), Took i d a → Took (i + c) d (f a x)) :
    ∀ {j : Nat} {e : Decoder}, Took j d e → Took (j + c * l.length) d (l.foldl f e) := by
  induction l with
  | nil => intro j e h; exact h
  | cons x l ih =>
    intro j e h
    have h2 := ih (hf j e x h)
    rw [List.foldl_cons]
    rw [List.length_cons, Nat.mul_succ]
    have e1 : j + (c * l.length + c) = j + c + c * l.length := by omega
    rw [e1]
    exact h2

theorem took_ThreeBitSplitTileDecode {j : Nat} {d e : Decoder} (h : Took j d e) :
    Took (j + 32) d (ThreeBitSplitTileDecode e) := by
  unfold ThreeBitSplitTileDecode
  refine took_mono (took_foldl 8 _ _ ?_ h) ?_
  · intro i a offset ha
    apply took_skipUnaligned
    apply took_forN_fst
    · intro y p hp
      apply took_forN_fst
      · intro x q hq
        exact hq
      · split
        · exact hp
        · exact hp
    · exact ha
  · simp [g_SplitTileOffsets]

theorem took_Update4 {j : Nat} {d e : Decoder} (h : Took j d e) :
    Took (j + 3) d (Update4 e) := by
  have := Update4_unaligned e
  unfold Took at *
  omega

theorem took_Update8 {j : Nat} {d e : Decoder} (h : Took j d e) :
    Took (j + 6) d (Update8 e) :=
  took_Update4 (took_Update4 h)

theorem took_Update16 {j : Nat} {d e : Decoder} (h : Took j d e) : Took j d (Update16 e) :=
  took_keeps h (keeps_Update16 (keeps_rfl e))

theorem took_bank1 {j : Nat} {d e : Decoder} (h : Took j d e)
    (store : Nat → Nat → Decoder → Nat → Decoder) (A : Nat → Int) (R : Decoder)
    (hstore : StoresAt e store A)
    (hR : R = (let bank := (e.unaligned 0 * 16) % 256
       let o := blockScanBank bank store e
       if o.2.2 ≠ 0 then o.1.skipUnaligned 1 else o.1)) :
    Took (j + 1) d R := by
  obtain ⟨-, a2, -⟩ := bankDecode_spec store A e R hstore hR
  unfold Took at *
  omega

/-- The dispatch of an opcode takes at least `unalignedLeast` bytes from the unaligned
stream. -/
theorem dispatch_unaligned (op : Nat) (hop : op < 64) (e : Decoder) :
    e.m_UnAlignedStream + unalignedLeast op ≤ (dispatch op e).m_UnAlignedStream := by
  have k := keeps_dispatch op (keeps_rfl e)
  have z : e.m_UnAlignedStream ≤ (dispatch op e).m_UnAlignedStream := k.unaligned
  have t0 := took_rfl e
  interval_cases op
  · exact z
  · exact z
  · exact took_Update4 (took_keeps t0 (keeps_ZeroMotionDecode (keeps_rfl e)))
  · exact took_Update8 (took_keeps t0 (keeps_ZeroMotionDecode (keeps_rfl e)))
  · exact z
  · exact took_ShortMotion8Decode t0
  · exact took_Update4 (took_ShortMotion8Decode t0)
  · exact took_Update8 (took_ShortMotion8Decode t0)
  · exact took_Update16 (took_ShortMotion8Decode t0)
  · exact took_Motion8Decode t0
  · exact took_Update4 (took_Motion8Decode t0)
  · exact took_Update8 (took_Motion8Decode t0)
  · exact took_Update16 (took_Motion8Decode t0)
  · exact z
  · exact took_Update4 (took_keeps t0 (keeps_ShortMotion4Decode (keeps_rfl e)))
  · exact took_Update8 (took_keeps t0 (keeps_ShortMotion4Decode (keeps_rfl e)))
  · exact z
  · exact z
  · exact took_Update4 (took_keeps t0 (keeps_Motion4Decode (keeps_rfl e)))
  · exact took_Update8 (took_keeps t0 (keeps_Motion4Decode (keeps_rfl e)))
  · exact z
  · exact took_SingleColorFillDecode t0
  · exact took_Update4 (took_SingleColorFillDecode t0)
  · exact took_Update8 (took_SingleColorFillDecode t0)
  · exact took_Update16 (took_SingleColorFillDecode t0)
  · exact z
  · exact took_Update4 (took_keeps t0 (keeps_FourColorFillDecode (keeps_rfl e)))
  · exact took_Update8 (took_keeps t0 (keeps_FourColorFillDecode (keeps_rfl e)))
  · exact z
  · exact took_OneBitTileDecode t0
  · exact z
  · exact took_ThreeBitTileDecode t0
  · exact took_FourBitTileDecode t0
  · exact z
  · exact z
  · exact took_ThreeBitSplitTileDecode t0
  · exact z
  · exact took_PrimeDecode t0
  · exact took_OneBankTileDecode t0
  · exact took_TwoBanksTileDecode t0
  · exact z
  · exact z
  · exact z
  · exact z
  · exact took_bank1 t0 storeHorizontal _ _ (storesAt_horizontal e)
      (BlockBank1DecodeHorizontal_eq e)
  · exact took_bank1 t0 storeVertical _ _ (storesAt_vertical e) (BlockBank1DecodeVertical_eq e)
  · exact took_bank1 t0 (storeTable g_DiagonalOffsets_1) _ _ (storesAt_table _ e)
      (BlockBank1Decode2_eq e)
  · exact took_bank1 t0 (storeTable g_DiagonalOffsets_2) _ _ (storesAt_table _ e)
      (BlockBank1Decode3_eq e)
  · exact took_ROMotion8Decode t0
  · exact took_Update4 (took_ROMotion8Decode t0)
  · exact took_Update8 (took_ROMotion8Decode t0)
  · exact took_Update16 (took_ROMotion8Decode t0)
  · exact took_RCMotion8Decode t0
  · exact took_Update4 (took_RCMotion8Decode t0)
  · exact took_Update8 (took_RCMotion8Decode t0)
  · exact took_Update16 (took_RCMotion8Decode t0)
  · exact z
  · exact took_Update4 (took_keeps t0 (keeps_ROMotion4Decode (keeps_rfl e)))
  · exact took_Update8 (took_keeps t0 (keeps_ROMotion4Decode (keeps_rfl e)))
  · exact z
  · exact z
  · exact took_Update4 (took_keeps t0 (keeps_RCMotion4Decode (keeps_rfl e)))
  · exact took_Update8 (took_keeps t0 (keeps_RCMotion4Decode (keeps_rfl e)))
  · exact z


theorem unalignedTotal_append (l : List Dispatched) (t : Dispatched) :
    unalignedTotal (l ++ [t]) = unalignedTotal l + unalignedLeast t.opcode := by
  simp [unalignedTotal]

theorem tileStep_unalignedTotal (u0 : Nat) (s : FrameLoop)
    (h : u0 + unalignedTotal s.trace ≤ s.dec.m_UnAlignedStream) :
    u0 + unalignedTotal (tileStep s).trace ≤ (tileStep s).dec.m_UnAlignedStream := by
  rw [tileStep_trace, unalignedTotal_append, tileStep_dec]
  show _ ≤ (dispatch _ s.dec).m_UnAlignedStream
  have := dispatch_unaligned _ (fetched_lt s) s.dec
  show u0 + (unalignedTotal s.trace + unalignedLeast (fetched s % 64).toNat) ≤ _
  omega

theorem iterate_unalignedTotal (u0 : Nat) (f : FrameLoop → FrameLoop)
    (hf : ∀ s, u0 + unalignedTotal s.trace ≤ s.dec.m_UnAlignedStream →
      u0 + unalignedTotal (f s).trace ≤ (f s).dec.m_UnAlignedStream) (n : Nat) (s : FrameLoop)
    (h : u0 + unalignedTotal s.trace ≤ s.dec.m_UnAlignedStream) :
    u0 + unalignedTotal (f^[n] s).trace ≤ (f^[n] s).dec.m_UnAlignedStream := by
  induction n with
  | zero => exact h
  | succ n ih =>
    rw [Function.iterate_succ_apply']
    exact hf _ ih

theorem rowStep_unalignedTotal (u0 : Nat) (s : FrameLoop)
    (h : u0 + unalignedTotal s.trace ≤ s.dec.m_UnAlignedStream) :
    u0 + unalignedTotal (rowStep s).trace ≤ (rowStep s).dec.m_UnAlignedStream :=
  iterate_unalignedTotal u0 tileStep (tileStep_unalignedTotal u0) _ s h

/-- The unaligned cursor at the end of the loops of `DecompressFrame`: at least its start plus
the least that the dispatched opcodes take. -/
theorem frameLoop_unalignedTotal (d : Decoder) :
    GetUnalignedData d.mem (GetData d.m_CurrentChunk) + unalignedTotal (frameLoop d).trace ≤
      (frameLoop d).dec.m_UnAlignedStream :=
  iterate_unalignedTotal _ rowStep (rowStep_unalignedTotal _) _ (frameStart d)
    (Nat.le_refl _)

/-- The loops of `DecompressFrame` dispatch one tile for each of the `(m_Width / 8)` by
`(m_Height / 8)` tiles of the frame, whatever happens to the cursors. -/
theorem frameLoop_tiles (d : Decoder) :
    (frameLoop d).trace.length =
      (Int.tdiv d.m_Height 8).toNat * (Int.tdiv d.m_Width 8).toNat := by
  have key := frame_induction (Int.tdiv d.m_Width 8).toNat
    (fun ty tx s => s.dec.m_Width = d.m_Width ∧
      s.trace.length = ty * (Int.tdiv d.m_Width 8).toNat + tx)
    (fun _ _ h => by rw [h.1])
    (fun ty tx s _ h => by
      have k := (tileStep_keeps s).width
      refine ⟨?_, ?_⟩
      · rw [k]
        exact h.1
      · rw [tileStep_trace, List.length_append, h.2]
        rfl)
    (fun ty s h => ⟨h.1, by
      show s.trace.length = _
      rw [h.2]
      ring⟩)
    (frameStart d) ⟨rfl, by simp [frameStart]⟩ (Int.tdiv d.m_Height 8).toNat
  have := key.2
  simpa using this

/-! ## The cursors at the end of a frame -/

theorem alignedTotal_append (l : List Dispatched) (t : Dispatched) :
    alignedTotal (l ++ [t]) = alignedTotal l + alignedAdvance t.opcode := by
  simp [alignedTotal]

theorem tileStep_alignedTotal (a0 : Nat) (s : FrameLoop)
    (h : s.dec.m_AlignedStream = a0 + alignedTotal s.trace) :
    (tileStep s).dec.m_AlignedStream = a0 + alignedTotal (tileStep s).trace := by
  rw [tileStep_trace, alignedTotal_append, tileStep_dec]
  show (dispatch _ s.dec).m_AlignedStream = _
  rw [dispatch_aligned _ (fetched_lt s), h, Nat.add_assoc]

theorem iterate_alignedTotal (a0 : Nat) (f : FrameLoop → FrameLoop)
    (hf : ∀ s, s.dec.m_AlignedStream = a0 + alignedTotal s.trace →
      (f s).dec.m_AlignedStream = a0 + alignedTotal (f s).trace) (n : Nat) (s : FrameLoop)
    (h : s.dec.m_AlignedStream = a0 + alignedTotal s.trace) :
    (f^[n] s).dec.m_AlignedStream = a0 + alignedTotal (f^[n] s).trace := by
  induction n with
  | zero => exact h
  | succ n ih =>
    rw [Function.iterate_succ_apply']
    exact hf _ ih

theorem rowStep_alignedTotal (a0 : Nat) (s : FrameLoop)
    (h : s.dec.m_AlignedStream = a0 + alignedTotal s.trace) :
    (rowStep s).dec.m_AlignedStream = a0 + alignedTotal (rowStep s).trace :=
  iterate_alignedTotal a0 tileStep (tileStep_alignedTotal a0) _ s h

/-- The aligned cursor at the end of the loops of `DecompressFrame`: its start plus the bytes
that the dispatched opcodes take. -/
theorem frameLoop_alignedTotal (d : Decoder) :
    (frameLoop d).dec.m_AlignedStream =
      GetAlignedData (GetData d.m_CurrentChunk) (toU32 d.m_Height) +
        alignedTotal (frameLoop d).trace :=
  iterate_alignedTotal _ rowStep (rowStep_alignedTotal _) _ (frameStart d) rfl

/-- C9 (amended): whatever the opcodes, `color_offset` and the data of a frame chunk are,
`DecompressFrame` dispatches every one of the `(m_Width / 8) * (m_Height / 8)` tiles of the
frame, and when it completes the aligned cursor is at offset exactly
`4 + (height / 8) * 30 + alignedTotal` of the payload, `alignedTotal` being the sum over the
dispatched tiles of the aligned bytes that their opcodes take, and the unaligned cursor is at
an offset of at least `color_offset + unalignedTotal`, `unalignedTotal` being the sum of the
least that their opcodes take from the unaligned stream.  Hence the aligned cursor lies within
the first `n` bytes of the payload exactly when `4 + (height / 8) * 30 + alignedTotal ≤ n`,
and the unaligned cursor lies outside them whenever `color_offset + unalignedTotal > n`.  The
decoded frame can depend on a byte outside the payload: `farFillFrame` declares a payload of
40 bytes, the addresses 12 to 51, and the colour of its tile is the byte at address 112. -/
theorem C9_cursors_follow_the_opcodes (d : Decoder) :
    (frameLoop d).trace.length =
      (Int.tdiv d.m_Height 8).toNat * (Int.tdiv d.m_Width 8).toNat ∧
    (DecompressFrame d).m_AlignedStream =
      GetData d.m_CurrentChunk + (4 + toU32 d.m_Height / 8 * 30 % 4294967296 +
        alignedTotal (frameLoop d).trace) ∧
    GetData d.m_CurrentChunk + (u32 d.mem (GetData d.m_CurrentChunk) +
        unalignedTotal (frameLoop d).trace) ≤ (DecompressFrame d).m_UnAlignedStream ∧
    (∀ n : Nat, (DecompressFrame d).m_AlignedStream ≤ GetData d.m_CurrentChunk + n ↔
      4 + toU32 d.m_Height / 8 * 30 % 4294967296 + alignedTotal (frameLoop d).trace ≤ n) ∧
    (∀ n : Nat, n < u32 d.mem (GetData d.m_CurrentChunk) + unalignedTotal (frameLoop d).trace →
      ¬ (DecompressFrame d).m_UnAlignedStream ≤ GetData d.m_CurrentChunk + n) ∧
    (GetChunkSize farFillFrame.mem farFillFrame.m_CurrentChunk = 40 ∧
      GetData farFillFrame.m_CurrentChunk = 12 ∧
      (∀ a, a ≠ 112 → farFillOtherByte a = farFillFrame.mem a) ∧
      (DecompressFrame farFillFrame).m_PreviousBuffer.m_Buffer 0 = 77 ∧
      (DecompressFrame (farFillFrame.withMem farFillOtherByte)).m_PreviousBuffer.m_Buffer 0 =
        78) := by
  have ha : (DecompressFrame d).m_AlignedStream =
      GetData d.m_CurrentChunk + (4 + toU32 d.m_Height / 8 * 30 % 4294967296 +
        alignedTotal (frameLoop d).trace) := by
    rw [DecompressFrame_aligned, frameLoop_alignedTotal]
    unfold GetAlignedData GetOpcodesArray
    omega
  have hu : GetData d.m_CurrentChunk + (u32 d.mem (GetData d.m_CurrentChunk) +
      unalignedTotal (frameLoop d).trace) ≤ (DecompressFrame d).m_UnAlignedStream := by
    rw [DecompressFrame_unaligned]
    have := frameLoop_unalignedTotal d
    unfold GetUnalignedData at this
    omega
  refine ⟨frameLoop_tiles d, ha, hu, fun n => ?_, fun n hn => ?_, ?_⟩
  · rw [ha]
    omega
  · omega
  · refine ⟨by decide, by decide, fun a h => ?_, by decide, by decide⟩
    unfold farFillOtherByte
    rw [if_neg h]

end ACF
